import Mathlib

/-!
MemProcFS: handle layer, VFS dispatch, external allocations, search plugin,
command line, configuration options, ordered-map search, the files of the
vmemd plugin, the data directory files, process information, SID conversions.

A shallow embedding of parts of `vmm/vmmdll_core.c`, `vmm/vmmdll.c`,
`vmm/m_proc_search.c`, `vmm/m_ldrmodules.c`, `vmm/oscompatibility.c` and
`m_vmemd/m_vmemd.c`, followed by theorems about the embedded code.

Conventions of the embedding:
* a pointer is its numeric value (`Nat`), `NULL` is `0`;
* `DWORD` fields are `Nat` with explicit reduction modulo `2^32` where the C
  arithmetic can wrap;
* global variables and the pointed-to objects are fields of an explicit state
  that every function takes and returns;
* locks (`AcquireSRWLock*`, `EnterCriticalSection`) delimit atomic sections
  and are not state: each embedded function runs as one atomic step, except
  where a function is split into steps to interleave two threads (Part 5);
* a loop of the C code that is not a recursion on a list takes fuel.
-/

namespace MemProcFS

/-! ## Part 1: `vmm/vmmdll_core.c`, the external handle allow-list -/

/-- The constant `VMM_HANDLE_MAX_COUNT` of `vmmdll_core.c`. -/
def VMM_HANDLE_MAX_COUNT : Nat := 32

/-- The fields of `struct tdVMM_HANDLE` that the handle layer reads or writes. -/
structure VMM_HANDLE_DATA where
  magic : Nat
  fAbort : Bool
  cThreadExternal : Nat
  cThreadInternal : Nat
deriving DecidableEq, Repr

/-- The memory holding the handle objects: pointer value to object. -/
abbrev HandleMem := Nat → VMM_HANDLE_DATA

/-- The globals `g_VMMDLL_CORE_HANDLE_COUNT` and `g_VMMDLL_CORE_HANDLES`
together with the handle objects the array entries point to. The array is
indexed by `Nat`; only indices below `VMM_HANDLE_MAX_COUNT` exist in C. -/
structure CoreState where
  g_VMMDLL_CORE_HANDLE_COUNT : Nat
  g_VMMDLL_CORE_HANDLES : Nat → Nat
  mem : HandleMem

/-- Store `v` at index (or address) `a`. -/
def store {α : Type} (f : Nat → α) (a : Nat) (v : α) : Nat → α :=
  fun x => if x = a then v else f x

/-- `InterlockedIncrement` on a 32-bit counter. -/
def InterlockedIncrement (v : Nat) : Nat := (v + 1) % 2 ^ 32

/-- `InterlockedDecrement` on a 32-bit counter: 0 wraps to `2^32 - 1`. -/
def InterlockedDecrement (v : Nat) : Nat :=
  if v % 2 ^ 32 = 0 then 2 ^ 32 - 1 else v % 2 ^ 32 - 1

/-- The loop skeleton shared by `VmmDllCore_HandleReserveExternal` and
`VmmDllCore_HandleRemove`:
`for(i = 0; i < g_VMMDLL_CORE_HANDLE_COUNT; i++) { if(g_VMMDLL_CORE_HANDLES[i] == H) { ...; break; } }`.
The result is the index at which the body runs, `none` when it never runs.
`fuel` bounds the remaining iterations; the callers pass the count. -/
def handleLoop (handles : Nat → Nat) (count H : Nat) : Nat → Nat → Option Nat
  | 0, _ => none
  | fuel + 1, i =>
    if i < count then
      if handles i = H then some i else handleLoop handles count H fuel (i + 1)
    else none

/-- `VmmDllCore_HandleReserveExternal` (vmmdll_core.c 47-62). `VMM_MAGIC` is
a constant of `vmm.h` and is taken as a parameter. -/
def VmmDllCore_HandleReserveExternal (VMM_MAGIC : Nat) (s : CoreState) (H : Nat) :
    Bool × CoreState :=
  if H = 0 ∨ H < 0x10000 then (false, s)
  else
    match handleLoop s.g_VMMDLL_CORE_HANDLES s.g_VMMDLL_CORE_HANDLE_COUNT H
        s.g_VMMDLL_CORE_HANDLE_COUNT 0 with
    | some _ =>
      let h := s.mem H
      let h1 := { h with cThreadExternal := InterlockedIncrement h.cThreadExternal }
      let s1 := { s with mem := store s.mem H h1 }
      (decide (h1.magic = VMM_MAGIC) && !h1.fAbort, s1)
    | none => (false, s)

/-- `VmmDllCore_HandleReturnExternal` (vmmdll_core.c 69-72). -/
def VmmDllCore_HandleReturnExternal (s : CoreState) (H : Nat) : CoreState :=
  let h := s.mem H
  let h1 := { h with cThreadExternal := InterlockedDecrement h.cThreadExternal }
  { s with mem := store s.mem H h1 }

/-- `VmmDllCore_HandleRemove` (vmmdll_core.c 79-96). -/
def VmmDllCore_HandleRemove (VMM_MAGIC : Nat) (s : CoreState) (H : Nat) : CoreState :=
  if H ≠ 0 ∧ (s.mem H).magic = VMM_MAGIC then
    match handleLoop s.g_VMMDLL_CORE_HANDLES s.g_VMMDLL_CORE_HANDLE_COUNT H
        s.g_VMMDLL_CORE_HANDLE_COUNT 0 with
    | some i =>
      let count := s.g_VMMDLL_CORE_HANDLE_COUNT - 1
      if i < count then
        { s with
          g_VMMDLL_CORE_HANDLE_COUNT := count
          g_VMMDLL_CORE_HANDLES :=
            store (store s.g_VMMDLL_CORE_HANDLES i (s.g_VMMDLL_CORE_HANDLES count)) count 0 }
      else
        { s with
          g_VMMDLL_CORE_HANDLE_COUNT := count
          g_VMMDLL_CORE_HANDLES := store s.g_VMMDLL_CORE_HANDLES i 0 }
    | none => s
  else s

/-- `VmmDllCore_HandleAdd` (vmmdll_core.c 104-112). -/
def VmmDllCore_HandleAdd (s : CoreState) (H : Nat) : Bool × CoreState :=
  if s.g_VMMDLL_CORE_HANDLE_COUNT < VMM_HANDLE_MAX_COUNT then
    (true,
      { s with
        g_VMMDLL_CORE_HANDLES := store s.g_VMMDLL_CORE_HANDLES s.g_VMMDLL_CORE_HANDLE_COUNT H
        g_VMMDLL_CORE_HANDLE_COUNT := s.g_VMMDLL_CORE_HANDLE_COUNT + 1 })
  else (false, s)

/-- The two wait loops of `VmmDllCore_CloseHandle`,
`while(H->cThreadExternal) { ...; SwitchToThread(); }` and the same for
`cThreadInternal`. `SwitchToThread` is what the other threads do to the handle
objects while this thread yields; they cannot touch the allow-list, which is
behind the exclusive lock held by the caller. `none` is a loop still spinning
when `fuel` yields are used up. -/
def closeWait (SwitchToThread : HandleMem → HandleMem) (counter : VMM_HANDLE_DATA → Nat)
    (H : Nat) : Nat → HandleMem → Option HandleMem
  | fuel, m =>
    if counter (m H) = 0 then some m
    else
      match fuel with
      | 0 => none
      | fuel1 + 1 => closeWait SwitchToThread counter H fuel1 (SwitchToThread m)

/-- `VmmDllCore_CloseHandle` (vmmdll_core.c 126-176). The sub-system calls
(`VmmWork_Interrupt`, `FcInterrupt`, `FcClose`, `VmmClose`, `LcClose`,
`VmmWork_Close`, the leak report, `VmmLog_Close`) act on parts of the handle
that are not fields of `VMM_HANDLE_DATA`. `LocalFree(H)` releases the storage;
the embedding keeps the last written contents at `H`. -/
def VmmDllCore_CloseHandle (VMM_MAGIC : Nat) (SwitchToThread : HandleMem → HandleMem)
    (fuel : Nat) (s : CoreState) (H : Nat) : Option CoreState :=
  if H ≠ 0 then
    let s1 := VmmDllCore_HandleRemove VMM_MAGIC s H
    let m2 := store s1.mem H { s1.mem H with fAbort := true }
    let m3 := store m2 H { m2 H with magic := 0 }
    match closeWait SwitchToThread (fun h => h.cThreadExternal) H fuel m3 with
    | none => none
    | some m4 =>
      match closeWait SwitchToThread (fun h => h.cThreadInternal) H fuel m4 with
      | none => none
      | some m5 => some { s1 with mem := m5 }
  else some s

/-- `VmmDllCore_Close` (vmmdll_core.c 183-188): `VmmDllCore_CloseHandle`
inside the exclusive lock. -/
def VmmDllCore_Close (VMM_MAGIC : Nat) (SwitchToThread : HandleMem → HandleMem)
    (fuel : Nat) (s : CoreState) (H : Nat) : Option CoreState :=
  VmmDllCore_CloseHandle VMM_MAGIC SwitchToThread fuel s H

/-- `H` is one of the first `g_VMMDLL_CORE_HANDLE_COUNT` entries of the array. -/
def Listed (s : CoreState) (H : Nat) : Prop :=
  ∃ i, i < s.g_VMMDLL_CORE_HANDLE_COUNT ∧ s.g_VMMDLL_CORE_HANDLES i = H

/-- `H` is exactly one of the first `g_VMMDLL_CORE_HANDLE_COUNT` entries. -/
def ListedOnce (s : CoreState) (H : Nat) : Prop :=
  ∃ i, i < s.g_VMMDLL_CORE_HANDLE_COUNT ∧ s.g_VMMDLL_CORE_HANDLES i = H ∧
    ∀ j, j < s.g_VMMDLL_CORE_HANDLE_COUNT → s.g_VMMDLL_CORE_HANDLES j = H → j = i

/-- One call into the handle layer, or a change other code makes to the
handle objects. -/
inductive CoreOp where
  | reserve (H : Nat)
  | giveBack (H : Nat)
  | add (H : Nat)
  | remove (H : Nat)
  | memWrite (f : HandleMem → HandleMem)

/-- The state after one `CoreOp`. -/
def CoreOp.apply (VMM_MAGIC : Nat) (s : CoreState) : CoreOp → CoreState
  | .reserve H => (VmmDllCore_HandleReserveExternal VMM_MAGIC s H).2
  | .giveBack H => VmmDllCore_HandleReturnExternal s H
  | .add H => (VmmDllCore_HandleAdd s H).2
  | .remove H => VmmDllCore_HandleRemove VMM_MAGIC s H
  | .memWrite f => { s with mem := f s.mem }

/-- The state after a sequence of `CoreOp`s, first to last. -/
def runOps (VMM_MAGIC : Nat) (s : CoreState) (ops : List CoreOp) : CoreState :=
  ops.foldl (CoreOp.apply VMM_MAGIC) s

/-- `CALL_IMPLEMENTATION_VMM` (vmmdll.c 125-134). `fn` is the wrapped
implementation; `Statistics_CallStart` and `Statistics_CallEnd` are functions
of `statistics.c` and are parameters. -/
def CALL_IMPLEMENTATION_VMM (VMM_MAGIC : Nat)
    (Statistics_CallStart : CoreState → Nat → Nat × CoreState)
    (Statistics_CallEnd : CoreState → Nat → Nat → Nat → CoreState)
    (H id : Nat) (fn : CoreState → Bool × CoreState) (s : CoreState) :
    Bool × CoreState :=
  let r := VmmDllCore_HandleReserveExternal VMM_MAGIC s H
  if !r.1 then (false, r.2)
  else
    let tm := Statistics_CallStart r.2 H
    let result := fn tm.2
    let s3 := Statistics_CallEnd result.2 H id tm.1
    let s4 := VmmDllCore_HandleReturnExternal s3 H
    (result.1, s4)

/-- `CALL_IMPLEMENTATION_VMM_RETURN` (vmmdll.c 136-145), for an entry point
of result type `R` that returns `RetValFail` when the reserve fails. -/
def CALL_IMPLEMENTATION_VMM_RETURN {R : Type} (VMM_MAGIC : Nat)
    (Statistics_CallStart : CoreState → Nat → Nat × CoreState)
    (Statistics_CallEnd : CoreState → Nat → Nat → Nat → CoreState)
    (H id : Nat) (RetValFail : R) (fn : CoreState → R × CoreState) (s : CoreState) :
    R × CoreState :=
  let r := VmmDllCore_HandleReserveExternal VMM_MAGIC s H
  if !r.1 then (RetValFail, r.2)
  else
    let tm := Statistics_CallStart r.2 H
    let retVal := fn tm.2
    let s3 := Statistics_CallEnd retVal.2 H id tm.1
    let s4 := VmmDllCore_HandleReturnExternal s3 H
    (retVal.1, s4)


/-- The state `VmmDllCore_HandleReserveExternal` leaves when it finds `H` in
the allow-list: only `H->cThreadExternal` differs. -/
def reserved (s : CoreState) (H : Nat) : CoreState :=
  let h := s.mem H
  let h1 : VMM_HANDLE_DATA :=
    { magic := h.magic, fAbort := h.fAbort,
      cThreadExternal := (h.cThreadExternal + 1) % 2 ^ 32,
      cThreadInternal := h.cThreadInternal }
  { s with mem := store s.mem H h1 }

/-- A concrete allow-list state: one handle at address 0x10000, valid magic,
no thread inside. -/
def sOne (VMM_MAGIC : Nat) : CoreState :=
  { g_VMMDLL_CORE_HANDLE_COUNT := 1
    g_VMMDLL_CORE_HANDLES := fun i => if i = 0 then 0x10000 else 0
    mem := fun _ => { magic := VMM_MAGIC, fAbort := false, cThreadExternal := 0,
                      cThreadInternal := 0 } }

/-- The allow-list as the C initialisers leave it: count 0, every entry NULL. -/
def sEmpty : CoreState :=
  { g_VMMDLL_CORE_HANDLE_COUNT := 0
    g_VMMDLL_CORE_HANDLES := fun _ => 0
    mem := fun _ => { magic := 0, fAbort := false, cThreadExternal := 0, cThreadInternal := 0 } }

/-! ## Part 2: `vmm/vmmdll.c`, the VFS entry points -/

/-- A C string without its terminator. The path separator is the backslash. -/
abbrev CStr := List Char

/-- The status codes of `vmmdll.h` the embedded code names
(`VMM_STATUS_*` of `vmm.h` are the same codes). -/
inductive NTSTATUS where
  | VMMDLL_STATUS_SUCCESS
  | VMMDLL_STATUS_UNSUCCESSFUL
  | VMMDLL_STATUS_END_OF_FILE
  | VMMDLL_STATUS_FILE_INVALID
  | other (code : Nat)
deriving DecidableEq, Repr

/-- `VMM_STATUS_FILE_INVALID` of `vmm.h`. -/
abbrev VMM_STATUS_FILE_INVALID : NTSTATUS := NTSTATUS.VMMDLL_STATUS_FILE_INVALID

/-- `_strnicmp(a, b, n) == 0`: the first `n` characters of the two strings
(fewer where a string ends) are equal up to ASCII case. -/
def strnicmpEq (a b : CStr) (n : Nat) : Bool :=
  (a.take n).map Char.toLower == (b.take n).map Char.toLower

/-- `_stricmp(a, b) == 0`. -/
def stricmpEq (a b : CStr) : Bool :=
  a.map Char.toLower == b.map Char.toLower

/-- A call that a VFS entry point makes into the plugin manager or into the
process-directory listing; the entry points return the calls they made. -/
inductive VfsCall (PROC : Type) where
  | PluginManager_List (pProcess : Option PROC) (uszPath : CStr)
  | PluginManager_Read (pProcess : Option PROC) (uszPath : CStr) (cb cbOffset : Nat)
  | VfsList_Impl_ProcessRoot (fNamePID : Bool)
deriving DecidableEq, Repr

/-- The functions of other files that the VFS entry points call:
`Util_VfsHelper_GetIdDir` (util.c; on success the PID and the sub-path),
`VmmProcessGet` (the process table lookup) and the status that
`PluginManager_Read` returns. -/
structure VfsEnv (PROC : Type) where
  Util_VfsHelper_GetIdDir : CStr → Bool → Option (Nat × CStr)
  VmmProcessGet : Nat → Option PROC
  PluginManager_Read : Option PROC → CStr → Nat → Nat → NTSTATUS

/-- `if(uszPath[0] == '\\') { uszPath++; }`. -/
def skipLeadingSeparator (uszPath : CStr) : CStr :=
  match uszPath with
  | '\\' :: rest => rest
  | p => p

/-- `VMMDLL_VfsList_Impl` (vmmdll.c 423-447). `fHandleValid` is the result of
`VMMDLL_VfsList_IsHandleValid(pFileList)`. The result is the returned BOOL and
the calls made. -/
def VMMDLL_VfsList_Impl {PROC : Type} (env : VfsEnv PROC) (fHandleValid : Bool)
    (uszPath0 : CStr) : Bool × List (VfsCall PROC) :=
  if !fHandleValid then (false, [])
  else
    let uszPath := skipLeadingSeparator uszPath0
    match env.Util_VfsHelper_GetIdDir uszPath false with
    | some (dwPID, wszSubPath) =>
      match env.VmmProcessGet dwPID with
      | none => (false, [])
      | some pObProcess => (true, [VfsCall.PluginManager_List (some pObProcess) wszSubPath])
    | none =>
      if strnicmpEq uszPath "name".toList 4 then
        if uszPath.length > 5 then (false, [])
        else (true, [VfsCall.VfsList_Impl_ProcessRoot true])
      else if strnicmpEq uszPath "pid".toList 3 then
        if uszPath.length > 4 then (false, [])
        else (true, [VfsCall.VfsList_Impl_ProcessRoot false])
      else (true, [VfsCall.PluginManager_List none uszPath])

/-- `VMMDLL_VfsRead_Impl` (vmmdll.c 546-560). The result is the returned
status and the calls made. -/
def VMMDLL_VfsRead_Impl {PROC : Type} (env : VfsEnv PROC) (uszPath0 : CStr)
    (cb cbOffset : Nat) : NTSTATUS × List (VfsCall PROC) :=
  let uszPath := skipLeadingSeparator uszPath0
  match env.Util_VfsHelper_GetIdDir uszPath false with
  | some (dwPID, uszSubPath) =>
    match env.VmmProcessGet dwPID with
    | none => (VMM_STATUS_FILE_INVALID, [])
    | some pObProcess =>
      (env.PluginManager_Read (some pObProcess) uszSubPath cb cbOffset,
        [VfsCall.PluginManager_Read (some pObProcess) uszSubPath cb cbOffset])
  | none =>
    (env.PluginManager_Read none uszPath cb cbOffset,
      [VfsCall.PluginManager_Read none uszPath cb cbOffset])

/-- The first segment of a path: the text before the first separator, after
one optional leading separator. -/
def firstSegment (uszPath : CStr) : CStr :=
  (skipLeadingSeparator uszPath).takeWhile (fun c => c != '\\')

/-- The decimal digits that end a string, as a number; `none` when the string
does not end in a digit. -/
def trailingDecimal (seg : CStr) : Option Nat :=
  let digits := (seg.reverse.takeWhile Char.isDigit).reverse
  if digits = [] then none
  else some (digits.foldl (fun n c => 10 * n + (c.toNat - '0'.toNat)) 0)

/-- Modelled from the spec: `Util_VfsHelper_GetIdDir` of util.c, which is not
among the sources. "Dispatch splits an incoming path at the first slash; if
the first segment is `pid` or `name` it resolves to a process (by numeric id
or by short name) and sub-dispatches into the process plugins": the first
segment must be `pid` or `name`, the second segment must end in the decimal
PID (`4` under `pid`, `System-4` under `name`), what follows the second
segment is the sub-path. Used only to instantiate `VfsEnv` at concrete inputs. -/
def GetIdDir_model (uszPath : CStr) (_fHex : Bool) : Option (Nat × CStr) :=
  let seg1 := uszPath.takeWhile (fun c => c != '\\')
  let rest1 := (uszPath.dropWhile (fun c => c != '\\')).drop 1
  if stricmpEq seg1 "pid".toList || stricmpEq seg1 "name".toList then
    match trailingDecimal (rest1.takeWhile (fun c => c != '\\')) with
    | some dwPID => some (dwPID, (rest1.dropWhile (fun c => c != '\\')).drop 1)
    | none => none
  else none

/-- A concrete environment: the modelled `Util_VfsHelper_GetIdDir`, a process
table holding only PID 4, and a plugin manager whose reads succeed. -/
def envModel : VfsEnv Unit :=
  { Util_VfsHelper_GetIdDir := GetIdDir_model
    VmmProcessGet := fun dwPID => if dwPID = 4 then some () else none
    PluginManager_Read := fun _ _ _ _ => NTSTATUS.VMMDLL_STATUS_SUCCESS }

/-! ## Part 3: `vmm/vmmdll_core.c`, the external allocation registry -/

/-- Modelled from the spec: the `OB_MAP` container of ob/ob_map.c, which is
not among the sources. "map, set, strmap: reference-counted intrusive
containers", "keyed by pointer value": a finite map from a 64-bit key to an
object pointer, at most one entry per key, kept as the list of its entries. -/
abbrev ObMap := List (Nat × Nat)

/-- Modelled from the spec: `ObMap_GetByKey`, the value stored under the key,
`NULL` (0) when the key is absent. -/
def ObMap_GetByKey (m : ObMap) (qwKey : Nat) : Nat :=
  match m.find? (fun e => e.1 == qwKey) with
  | some e => e.2
  | none => 0

/-- Modelled from the spec: `ObMap_ExistsKey`. -/
def ObMap_ExistsKey (m : ObMap) (qwKey : Nat) : Bool :=
  m.any (fun e => e.1 == qwKey)

/-- Modelled from the spec: `ObMap_Exists`, whether the object is a value of
the map. -/
def ObMap_Exists (m : ObMap) (pvObject : Nat) : Bool :=
  m.any (fun e => e.2 == pvObject)

/-- Modelled from the spec: `ObMap_RemoveByKey`, which takes the entry of the
key out of the map and returns its value, `NULL` (0) when the key is absent. -/
def ObMap_RemoveByKey (m : ObMap) (qwKey : Nat) : Nat × ObMap :=
  (ObMap_GetByKey m qwKey, m.filter (fun e => !(e.1 == qwKey)))

/-- Modelled from the spec: `ObMap_Push`, which adds an entry unless the key
is taken. -/
def ObMap_Push (m : ObMap) (qwKey pvObject : Nat) : Bool × ObMap :=
  if ObMap_ExistsKey m qwKey then (false, m) else (true, m ++ [(qwKey, pvObject)])

/-- The fields of the object header `OB` (ob/ob.h) that the registry code
reads, and the reference count. -/
structure OB where
  _magic1 : Nat
  _magic2 : Nat
  _count : Nat
  _tag : Nat
  H : Nat
  cbData : Nat
deriving DecidableEq, Repr

/-- The global `g_VMMDLL_ALLOCMAP_EXT` (`none` is the `NULL` it holds before
the first initialisation) and the live objects by address of their header
(`none`: no live object there). -/
structure AllocState where
  g_VMMDLL_ALLOCMAP_EXT : Option ObMap
  ob : Nat → Option OB

/-- Modelled from the spec: `Ob_DECREF` of ob/ob_core.c, "decref(obj):
atomic; at zero, invoke cleanup then free". The result is the object, or
`NULL` (0) when it was freed. The objects of the registry have no clean-up
callback. -/
def Ob_DECREF (s : AllocState) (pOb : Nat) : Nat × AllocState :=
  if pOb = 0 then (0, s)
  else
    match s.ob pOb with
    | none => (0, s)
    | some o =>
      if o._count ≤ 1 then (0, { s with ob := store s.ob pOb none })
      else (pOb, { s with ob := store s.ob pOb (some { o with _count := o._count - 1 }) })

/-- `VmmDllCore_MemSizeExternal` (vmmdll_core.c 695-705). `sizeofOB` is
`sizeof(OB)` and `OB_HEADER_MAGIC` a constant of ob/ob.h. Reading the header
where no live object is has no defined result in C and gives 0 here. -/
def VmmDllCore_MemSizeExternal (sizeofOB OB_HEADER_MAGIC : Nat) (s : AllocState)
    (pvMem : Nat) : Nat :=
  match s.g_VMMDLL_ALLOCMAP_EXT with
  | none => 0
  | some m =>
    if ObMap_ExistsKey m pvMem then
      let pObMem := pvMem - sizeofOB
      match s.ob pObMem with
      | some o =>
        if o._magic2 = OB_HEADER_MAGIC ∧ o._magic1 = OB_HEADER_MAGIC then o.cbData else 0
      | none => 0
    else 0

/-- `VmmDllCore_MemFreeExternal` (vmmdll_core.c 711-717). -/
def VmmDllCore_MemFreeExternal (s : AllocState) (pvMem : Nat) : AllocState :=
  match s.g_VMMDLL_ALLOCMAP_EXT with
  | none => s
  | some m =>
    let r := ObMap_RemoveByKey m pvMem
    if r.1 ≠ 0 then (Ob_DECREF { s with g_VMMDLL_ALLOCMAP_EXT := some r.2 } r.1).2
    else { s with g_VMMDLL_ALLOCMAP_EXT := some r.2 }

/-- Modelled from the spec: `Ob_AllocEx` of ob/ob_core.c, "alloc(handle, tag,
size, cleanup_cb): obj with refcount 1". `pNew` is the address the allocator
hands out, 0 when it fails; `uBytes` counts the header. -/
def Ob_AllocEx (sizeofOB OB_HEADER_MAGIC : Nat) (s : AllocState) (pNew H tag uBytes : Nat) :
    Nat × AllocState :=
  if pNew = 0 then (0, s)
  else
    (pNew, { s with ob := store s.ob pNew (some
      { _magic1 := OB_HEADER_MAGIC, _magic2 := OB_HEADER_MAGIC, _count := 1, _tag := tag,
        H := H, cbData := uBytes - sizeofOB }) })

/-- `VmmDllCore_MemAllocExternal` (vmmdll_core.c 729-738). The result is the
returned pointer (`pObData->pb`, that is the header address plus `sizeof(OB)`),
0 for `NULL`. `ObMap_Push` takes a reference of its own on success. -/
def VmmDllCore_MemAllocExternal (sizeofOB OB_HEADER_MAGIC : Nat) (s : AllocState)
    (pNew H tag cb cbHdr : Nat) : Nat × AllocState :=
  if cb > 0x40000000 ∨ cb < cbHdr then (0, s)
  else
    let a := Ob_AllocEx sizeofOB OB_HEADER_MAGIC s pNew H tag (cb + sizeofOB)
    if a.1 = 0 then (0, a.2)
    else
      let pObData := a.1
      let s1 := a.2
      let s2 : AllocState :=
        match s1.g_VMMDLL_ALLOCMAP_EXT with
        | none => s1
        | some m =>
          let r := ObMap_Push m (pObData + sizeofOB) pObData
          if r.1 then
            { g_VMMDLL_ALLOCMAP_EXT := some r.2
              ob := fun x => if x = pObData
                then (s1.ob x).map (fun o => { o with _count := o._count + 1 })
                else s1.ob x }
          else s1
      let d := Ob_DECREF s2 pObData
      (if d.1 ≠ 0 then d.1 + sizeofOB else 0, d.2)

/-- An empty registry after the first initialisation. -/
def allocEmpty : AllocState :=
  { g_VMMDLL_ALLOCMAP_EXT := some [], ob := fun _ => none }

/-! ## Part 4: `vmm/m_proc_search.c`, the memory search plugin

The reference counts of the context objects (`Ob_INCREF` / `Ob_DECREF` of
ob/ob_core.c, which also decide when the clean-up callbacks
`MSearch_ContextCleanup_CB` and `MSearch_ContextCleanup1_CB` run) are memory
management and are not part of the state; an object keeps its contents at its
address. -/

/-- The entry `search[0]` of `VMM_MEMORY_SEARCH_CONTEXT` (vmm.h). -/
structure VMM_MEMORY_SEARCH_CONTEXT_SEARCHENTRY where
  cbAlign : Nat
  cb : Nat
  pb : List Nat
  pbSkipMask : List Nat
deriving DecidableEq, Repr

/-- The fields of `VMM_MEMORY_SEARCH_CONTEXT` (vmm.h) the plugin uses. -/
structure VMM_MEMORY_SEARCH_CONTEXT where
  cSearch : Nat
  search0 : VMM_MEMORY_SEARCH_CONTEXT_SEARCHENTRY
  vaMin : Nat
  vaMax : Nat
  vaCurrent : Nat
  cbReadTotal : Nat
  cResult : Nat
  fAbortRequested : Bool
deriving DecidableEq, Repr

/-- `MOB_SEARCH_CONTEXT` (m_proc_search.c 24-31) without its object header.
`pObDataResult` is `none` for `NULL`, else the result vector. -/
structure MOB_SEARCH_CONTEXT where
  dwPID : Nat
  fActive : Bool
  fCompleted : Bool
  sctx : VMM_MEMORY_SEARCH_CONTEXT
  pObDataResult : Option (List Nat)
deriving DecidableEq, Repr

/-- A context as `Ob_Alloc(..., LMEM_ZEROINIT, ...)` returns it. -/
def MOB_SEARCH_CONTEXT.zero : MOB_SEARCH_CONTEXT :=
  { dwPID := 0, fActive := false, fCompleted := false,
    sctx :=
      { cSearch := 0,
        search0 := { cbAlign := 0, cb := 0, pb := List.replicate 32 0,
                     pbSkipMask := List.replicate 32 0 },
        vaMin := 0, vaMax := 0, vaCurrent := 0, cbReadTotal := 0, cResult := 0,
        fAbortRequested := false },
    pObDataResult := none }

/-- The fields of `VMMDLL_PLUGIN_CONTEXT` the plugin reads: `dwPID`,
`uszPath`, and of `pProcess` the fields `dwPID` and `fUserOnly`. -/
structure PLUGIN_CONTEXT where
  dwPID : Nat
  uszPath : CStr
  pProcess_dwPID : Nat
  pProcess_fUserOnly : Bool
deriving DecidableEq, Repr

/-- The plugin's state: the map `ctxP->ctxM` (PID to context object), the
context objects by address, and the work items queued with
`VmmWork(MSearch_PerformSeach_ThreadProc, ctx, NULL)`, oldest first. -/
structure SearchState where
  ctxM : ObMap
  obj : Nat → MOB_SEARCH_CONTEXT
  work : List Nat

/-- The `Util_VfsWriteFile_*` parsers of util.c, which are not among the
sources. Each takes the current value of its target, the written bytes `pb`,
`cb` and the offset (the numeric ones also the allowed minimum and maximum)
and gives the status, the new `*pcbWrite` and the new value of the target. -/
structure UtilEnv where
  Util_VfsWriteFile_BOOL : Bool → List Nat → Nat → Nat → NTSTATUS × Nat × Bool
  Util_VfsWriteFile_DWORD : Nat → List Nat → Nat → Nat → Nat → Nat → NTSTATUS × Nat × Nat
  Util_VfsWriteFile_QWORD : Nat → List Nat → Nat → Nat → Nat → Nat → NTSTATUS × Nat × Nat
  Util_VfsWriteFile_HEXASCII : List Nat → Nat → List Nat → Nat → Nat →
    NTSTATUS × Nat × List Nat

/-- `MSearch_ContextUpdate` (m_proc_search.c 33-41); `ctxS` is 0 for `NULL`. -/
def MSearch_ContextUpdate (st : SearchState) (ctxP : PLUGIN_CONTEXT) (ctxS : Nat) :
    SearchState :=
  if ctxS = 0 ∨ !ObMap_Exists st.ctxM ctxS then
    let m1 := (ObMap_RemoveByKey st.ctxM ctxP.dwPID).2
    let m2 := if ctxS ≠ 0 then (ObMap_Push m1 ctxP.dwPID ctxS).2 else m1
    { st with ctxM := m2 }
  else st

/-- `MSearch_ContextGet` (m_proc_search.c 56-73). `pNew` is the address
`Ob_Alloc` returns if it is called, 0 when the allocation fails. The result is
the context pointer, 0 for `NULL`. -/
def MSearch_ContextGet (f32 : Bool) (st : SearchState) (ctxP : PLUGIN_CONTEXT) (pNew : Nat) :
    Nat × SearchState :=
  let pObCtx := ObMap_GetByKey st.ctxM ctxP.dwPID
  if pObCtx = 0 ∧ pNew ≠ 0 then
    let o := MOB_SEARCH_CONTEXT.zero
    let vaMax :=
      if ctxP.pProcess_fUserOnly then (if f32 then 0x7fffffff else 0x7fffffffffff)
      else (if f32 then 0xffffffff else 0xffffffffffffffff)
    let o1 : MOB_SEARCH_CONTEXT :=
      { o with
        dwPID := ctxP.pProcess_dwPID
        sctx := { o.sctx with
          cSearch := 1
          vaMax := vaMax
          search0 := { o.sctx.search0 with cbAlign := 1 } } }
    (pNew, { st with obj := store st.obj pNew o1 })
  else (pObCtx, st)

/-- What `MSearch_Write` carries from branch to branch: `nt`, `*pcbWrite` and
the plugin state. -/
structure WriteAcc where
  nt : NTSTATUS
  pcbWrite : Nat
  st : SearchState

/-- The context is neither active nor completed: `!pObCtx->fActive &&
!pObCtx->fCompleted`. -/
def idle (st : SearchState) (pObCtx : Nat) : Bool :=
  !(st.obj pObCtx).fActive && !(st.obj pObCtx).fCompleted

/-- The `reset.txt` branch of `MSearch_Write` (m_proc_search.c 111-119). -/
def MSearch_Write_reset (env : UtilEnv) (ctxP : PLUGIN_CONTEXT) (pb : List Nat)
    (cb cbOffset : Nat) (a : WriteAcc) : WriteAcc :=
  if stricmpEq ctxP.uszPath "reset.txt".toList then
    let r := env.Util_VfsWriteFile_BOOL false pb cb cbOffset
    { nt := r.1, pcbWrite := r.2.1,
      st := if r.2.2 then MSearch_ContextUpdate a.st ctxP 0 else a.st }
  else a

/-- The `align.txt` branch of `MSearch_Write` (m_proc_search.c 121-134).
`dw` is a DWORD: `dw - 1` is `2^32 - 1` when `dw` is 0. -/
def MSearch_Write_align (env : UtilEnv) (ctxP : PLUGIN_CONTEXT) (pObCtx : Nat)
    (pb : List Nat) (cb cbOffset : Nat) (a : WriteAcc) : WriteAcc :=
  if stricmpEq ctxP.uszPath "align.txt".toList then
    let cbAlign := (a.st.obj pObCtx).sctx.search0.cbAlign
    let r := env.Util_VfsWriteFile_DWORD cbAlign pb cb ((cbOffset + 5) % 2 ^ 64) 1 2048
    let dw := r.2.2 % 2 ^ 32
    if dw ≠ cbAlign ∧ dw &&& (if dw = 0 then 2 ^ 32 - 1 else dw - 1) = 0 then
      let dw1 := if dw = 0 then 1 else dw
      if idle a.st pObCtx then
        let o := a.st.obj pObCtx
        let o1 : MOB_SEARCH_CONTEXT :=
          { o with sctx := { o.sctx with search0 := { o.sctx.search0 with cbAlign := dw1 } } }
        { nt := r.1, pcbWrite := r.2.1,
          st := MSearch_ContextUpdate { a.st with obj := store a.st.obj pObCtx o1 } ctxP pObCtx }
      else { nt := r.1, pcbWrite := r.2.1, st := a.st }
    else { nt := r.1, pcbWrite := r.2.1, st := a.st }
  else a

/-- The `addr-max.txt` branch of `MSearch_Write` (m_proc_search.c 135-148).
`qw` is a QWORD: `qw - 1` is `2^64 - 1` when `qw` is 0. -/
def MSearch_Write_addr_max (env : UtilEnv) (f32 : Bool) (ctxP : PLUGIN_CONTEXT) (pObCtx : Nat)
    (pb : List Nat) (cb cbOffset : Nat) (a : WriteAcc) : WriteAcc :=
  if stricmpEq ctxP.uszPath "addr-max.txt".toList then
    let vaMax := (a.st.obj pObCtx).sctx.vaMax
    let r := env.Util_VfsWriteFile_QWORD vaMax pb cb
      ((cbOffset + (if f32 then 8 else 0)) % 2 ^ 64) 1 0
    let qw0 := r.2.2 % 2 ^ 64
    let qw := (if qw0 = 0 then 2 ^ 64 - 1 else qw0 - 1) ||| 0xfff
    if qw ≠ vaMax then
      if idle a.st pObCtx then
        let o := a.st.obj pObCtx
        let o1 : MOB_SEARCH_CONTEXT := { o with sctx := { o.sctx with vaMax := qw } }
        { nt := r.1, pcbWrite := r.2.1,
          st := MSearch_ContextUpdate { a.st with obj := store a.st.obj pObCtx o1 } ctxP pObCtx }
      else { nt := r.1, pcbWrite := r.2.1, st := a.st }
    else { nt := r.1, pcbWrite := r.2.1, st := a.st }
  else a

/-- The `addr-min.txt` branch of `MSearch_Write` (m_proc_search.c 149-162);
`~0xfff` is the 64-bit mask 0xfffffffffffff000. -/
def MSearch_Write_addr_min (env : UtilEnv) (f32 : Bool) (ctxP : PLUGIN_CONTEXT) (pObCtx : Nat)
    (pb : List Nat) (cb cbOffset : Nat) (a : WriteAcc) : WriteAcc :=
  if stricmpEq ctxP.uszPath "addr-min.txt".toList then
    let vaMin := (a.st.obj pObCtx).sctx.vaMin
    let r := env.Util_VfsWriteFile_QWORD vaMin pb cb
      ((cbOffset + (if f32 then 8 else 0)) % 2 ^ 64) 0 0
    let qw := (r.2.2 % 2 ^ 64) &&& 0xfffffffffffff000
    if qw ≠ vaMin then
      if idle a.st pObCtx then
        let o := a.st.obj pObCtx
        let o1 : MOB_SEARCH_CONTEXT := { o with sctx := { o.sctx with vaMin := qw } }
        { nt := r.1, pcbWrite := r.2.1,
          st := MSearch_ContextUpdate { a.st with obj := store a.st.obj pObCtx o1 } ctxP pObCtx }
      else { nt := r.1, pcbWrite := r.2.1, st := a.st }
    else { nt := r.1, pcbWrite := r.2.1, st := a.st }
  else a

/-- The `search-skip-bitmask.txt` branch of `MSearch_Write`
(m_proc_search.c 163-176). -/
def MSearch_Write_skip_bitmask (env : UtilEnv) (ctxP : PLUGIN_CONTEXT) (pObCtx : Nat)
    (pb : List Nat) (cb cbOffset : Nat) (a : WriteAcc) : WriteAcc :=
  if stricmpEq ctxP.uszPath "search-skip-bitmask.txt".toList then
    let pbSearchBuffer := (a.st.obj pObCtx).sctx.search0.pbSkipMask
    let r := env.Util_VfsWriteFile_HEXASCII pbSearchBuffer 32 pb cb cbOffset
    let pcbWrite := r.2.1 % 2 ^ 32
    if pcbWrite ≠ 0 then
      if idle a.st pObCtx then
        let o := a.st.obj pObCtx
        let o1 : MOB_SEARCH_CONTEXT :=
          { o with sctx := { o.sctx with search0 := { o.sctx.search0 with
              cb := max o.sctx.search0.cb (((pcbWrite + 1) % 2 ^ 32) / 2)
              pbSkipMask := r.2.2 } } }
        { nt := r.1, pcbWrite := pcbWrite,
          st := MSearch_ContextUpdate { a.st with obj := store a.st.obj pObCtx o1 } ctxP pObCtx }
      else { nt := r.1, pcbWrite := pcbWrite, st := a.st }
    else { nt := r.1, pcbWrite := pcbWrite, st := a.st }
  else a

/-- The `search.txt` branch of `MSearch_Write` (m_proc_search.c 177-196): the
pattern is committed, the context registered and marked active, and the
search queued as a work item. -/
def MSearch_Write_search (env : UtilEnv) (ctxP : PLUGIN_CONTEXT) (pObCtx : Nat)
    (pb : List Nat) (cb cbOffset : Nat) (a : WriteAcc) : WriteAcc :=
  if stricmpEq ctxP.uszPath "search.txt".toList then
    let pbSearchBuffer := (a.st.obj pObCtx).sctx.search0.pb
    let r := env.Util_VfsWriteFile_HEXASCII pbSearchBuffer 32 pb cb cbOffset
    let pcbWrite := r.2.1 % 2 ^ 32
    if pcbWrite ≠ 0 then
      if idle a.st pObCtx then
        let o := a.st.obj pObCtx
        let o1 : MOB_SEARCH_CONTEXT :=
          { o with sctx := { o.sctx with search0 := { o.sctx.search0 with
              cb := ((pcbWrite + 1) % 2 ^ 32) / 2
              pb := r.2.2 } } }
        let st1 := MSearch_ContextUpdate { a.st with obj := store a.st.obj pObCtx o1 } ctxP pObCtx
        let o2 := st1.obj pObCtx
        let o3 : MOB_SEARCH_CONTEXT :=
          { o2 with fActive := true, sctx := { o2.sctx with fAbortRequested := false } }
        { nt := r.1, pcbWrite := pcbWrite,
          st := { st1 with obj := store st1.obj pObCtx o3, work := st1.work ++ [pObCtx] } }
      else { nt := r.1, pcbWrite := pcbWrite, st := a.st }
    else { nt := r.1, pcbWrite := pcbWrite, st := a.st }
  else a

/-- `MSearch_Write` (m_proc_search.c 101-200). `f32` is `ctxVmm->f32`. The
result is the returned status, `*pcbWrite` and the plugin state. -/
def MSearch_Write (env : UtilEnv) (f32 : Bool) (st : SearchState) (ctxP : PLUGIN_CONTEXT)
    (pb : List Nat) (cb cbOffset : Nat) (pNew : Nat) : WriteAcc :=
  let g := MSearch_ContextGet f32 st ctxP pNew
  let pObCtx := g.1
  if pObCtx = 0 then
    { nt := NTSTATUS.VMMDLL_STATUS_FILE_INVALID, pcbWrite := cb, st := g.2 }
  else
    let a0 : WriteAcc := { nt := NTSTATUS.VMMDLL_STATUS_SUCCESS, pcbWrite := cb, st := g.2 }
    let a1 := MSearch_Write_reset env ctxP pb cb cbOffset a0
    if idle a1.st pObCtx then
      let a2 := MSearch_Write_align env ctxP pObCtx pb cb cbOffset a1
      let a3 := MSearch_Write_addr_max env f32 ctxP pObCtx pb cb cbOffset a2
      let a4 := MSearch_Write_addr_min env f32 ctxP pObCtx pb cb cbOffset a3
      let a5 := MSearch_Write_skip_bitmask env ctxP pObCtx pb cb cbOffset a4
      MSearch_Write_search env ctxP pObCtx pb cb cbOffset a5
    else a1

/-- One `MSearch_Write` call: the plugin context, the written bytes, the
offset, and the address `Ob_Alloc` would hand out. -/
structure WriteCall where
  ctxP : PLUGIN_CONTEXT
  pb : List Nat
  cb : Nat
  cbOffset : Nat
  pNew : Nat

/-- The plugin state after a sequence of `MSearch_Write` calls. -/
def runWrites (env : UtilEnv) (f32 : Bool) (st : SearchState) (calls : List WriteCall) :
    SearchState :=
  calls.foldl (fun s c => (MSearch_Write env f32 s c.ctxP c.pb c.cb c.cbOffset c.pNew).st) st

/-- The plugin state after `M_Search_Initialize`: an empty map, no work. -/
def searchInit : SearchState :=
  { ctxM := [], obj := fun _ => MOB_SEARCH_CONTEXT.zero, work := [] }

/-- The alignment `sctx.search[0].cbAlign` is a power of two. -/
def IsPow2 (n : Nat) : Prop := ∃ k, n = 2 ^ k

/-- Every context registered in the map has a power-of-two alignment. -/
def AlignInv (st : SearchState) : Prop :=
  ∀ e ∈ st.ctxM, IsPow2 (st.obj e.2).sctx.search0.cbAlign

/-- Stand-in parsers for concrete runs (the parsers of util.c are not among
the sources): the written bytes, read as a base-256 number, are the parsed
value; a BOOL is set by a first byte other than `'0'`; the hexascii buffer
receives the written bytes. All report `cb` bytes written. -/
def utilBytes : UtilEnv :=
  { Util_VfsWriteFile_BOOL := fun _ pb cb _ =>
      (NTSTATUS.VMMDLL_STATUS_SUCCESS, cb, pb.headD 0x30 != 0x30)
    Util_VfsWriteFile_DWORD := fun _ pb cb _ _ _ =>
      (NTSTATUS.VMMDLL_STATUS_SUCCESS, cb, pb.foldl (fun n b => 256 * n + b) 0)
    Util_VfsWriteFile_QWORD := fun _ pb cb _ _ _ =>
      (NTSTATUS.VMMDLL_STATUS_SUCCESS, cb, pb.foldl (fun n b => 256 * n + b) 0)
    Util_VfsWriteFile_HEXASCII := fun buf _ pb cb _ =>
      (NTSTATUS.VMMDLL_STATUS_SUCCESS, cb, pb ++ buf.drop pb.length) }

/-- The plugin context of a write to file `name` of the search directory of
PID 4. -/
def ctxP4 (name : String) : PLUGIN_CONTEXT :=
  { dwPID := 4, uszPath := name.toList, pProcess_dwPID := 4, pProcess_fUserOnly := true }

/-- A concrete plugin state: PID 4 has a registered context at 0x30000 whose
search is running. -/
def searchRunning : SearchState :=
  { ctxM := [(4, 0x30000)]
    obj := fun _ =>
      { MOB_SEARCH_CONTEXT.zero with
        dwPID := 4, fActive := true,
        sctx := { MOB_SEARCH_CONTEXT.zero.sctx with
          cSearch := 1, vaMax := 0x7fffffffffff,
          search0 := { cbAlign := 1, cb := 2, pb := 0x4d :: 0x5a :: List.replicate 30 0,
                       pbSkipMask := List.replicate 32 0 } } }
    work := [0x30000] }

/-- The invariant together with a power-of-two alignment of the context
object at `p`, the one a call works on (it may not be registered yet). -/
def GoodAt (st : SearchState) (p : Nat) : Prop :=
  AlignInv st ∧ IsPow2 (st.obj p).sctx.search0.cbAlign

/-! ## Part 5: `vmm/m_proc_search.c`, the worker, reading, and the steps of a
write to `search.txt` -/

/-- `MSearch_PerformSeach_ThreadProc` (m_proc_search.c 78-89), the work item
queued by a write to `search.txt`, on the context object at `ctxS`.
`VmmProcessGet` and `VmmSearch` (vmm.c) are not among the sources:
`VmmSearch` is given the search context and the result pointer and gives back
what it leaves in both. -/
def MSearch_PerformSeach_ThreadProc {PROC : Type} (VmmProcessGet : Nat → Option PROC)
    (VmmSearch : PROC → VMM_MEMORY_SEARCH_CONTEXT → Option (List Nat) →
      VMM_MEMORY_SEARCH_CONTEXT × Option (List Nat))
    (st : SearchState) (ctxS : Nat) : SearchState :=
  let o := st.obj ctxS
  let o1 : MOB_SEARCH_CONTEXT :=
    match VmmProcessGet o.dwPID with
    | some pObProcess =>
      let r := VmmSearch pObProcess o.sctx o.pObDataResult
      { o with sctx := r.1, pObDataResult := r.2 }
    | none => o
  let o2 : MOB_SEARCH_CONTEXT := { o1 with fCompleted := true }
  let o3 : MOB_SEARCH_CONTEXT := { o2 with fActive := false }
  { st with obj := store st.obj ctxS o3 }

/-- What a read leaves behind: the returned status, `*pcbRead`, and the bytes
put into `pb` (none when nothing was copied). -/
structure ReadRes where
  nt : NTSTATUS
  pcbRead : Nat
  pb : List Nat
deriving DecidableEq, Repr

/-- The `Util_VfsReadFile_*` helpers and `Util_VfsLineFixed_Read` of util.c,
which are not among the sources. Each takes what is to be shown, then `cb` and
the offset. `Util_VfsLineFixed_Read` is given `ctxVmm->f32` in place of the
line callback `MSearch_ReadLine_CB` (which formats an entry as `%08x` or
`%016llx` by it), the line length, the entries, their count and their size. -/
structure UtilReadEnv where
  Util_VfsReadFile_FromStrA : CStr → Nat → Nat → ReadRes
  Util_VfsReadFile_FromDWORD : Nat → Nat → Nat → Bool → ReadRes
  Util_VfsReadFile_FromQWORD : Nat → Nat → Nat → Bool → ReadRes
  Util_VfsReadFile_FromBOOL : Bool → Nat → Nat → ReadRes
  Util_VfsReadFile_FromHEXASCII : List Nat → Nat → Nat → Nat → ReadRes
  Util_VfsReadFile_FromPBYTE : CStr → Nat → Nat → Nat → ReadRes
  Util_VfsLineFixed_Read : Bool → Nat → List Nat → Nat → Nat → Nat → Nat → ReadRes

/-- `szSEARCH_README` (m_proc_search.c 10-22). -/
def szSEARCH_README : String :=
  "Information about the search module                                          \n" ++
  "===================================                                          \n" ++
  "Write a hexascii sequence into search.txt and save to trigger a binary search\n" ++
  "in virtual address space for the data searched. The results once completed is\n" ++
  "shown in result.txt                                                          \n" ++
  "---                                                                          \n" ++
  "Before a search is initiated (by writing to search.txt) it is possible to add\n" ++
  "additional constraints to writeable files:                                   \n" ++
  "align.txt, addr-min.txt, addr-max.txt, search-skip-bitmask.txt.              \n" ++
  "---                                                                          \n" ++
  "An ongoing search may be cancelled by writing \x271\x27 to reset.txt.              \n" ++
  "Additional info is shown in status.txt.                                      \n"

/-- The conversion `%i` of `snprintf` on a DWORD argument: the low 32 bits
read as a signed integer, in decimal. -/
def fmt_i (v : Nat) : CStr :=
  let w := v % 2 ^ 32
  if w < 2 ^ 31 then (Nat.toDigits 10 w) else '-' :: Nat.toDigits 10 (2 ^ 32 - w)

/-- The conversion `%llx` of `snprintf`: the low 64 bits in lower-case
hexadecimal. -/
def fmt_llx (v : Nat) : CStr :=
  Nat.toDigits 16 (v % 2 ^ 64)

/-- The text `snprintf` leaves in `szBuffer[256]` in `MSearch_ReadStatus`
(m_proc_search.c 212-231): at most 255 characters of the formatted lines. -/
def MSearch_StatusText (szStatus : CStr) (ctxS : MOB_SEARCH_CONTEXT) : CStr :=
  ("Status:          ".toList ++ szStatus ++
   "\nSearch size:     ".toList ++ fmt_i ctxS.sctx.search0.cb ++
   "\nSearch align:    ".toList ++ fmt_i ctxS.sctx.search0.cbAlign ++
   "\nMin address:     0x".toList ++ fmt_llx ctxS.sctx.vaMin ++
   "\nMax address:     0x".toList ++ fmt_llx ctxS.sctx.vaMax ++
   "\nCurrent address: 0x".toList ++ fmt_llx ctxS.sctx.vaCurrent ++
   "\nBytes read:      0x".toList ++ fmt_llx ctxS.sctx.cbReadTotal ++
   "\nSearch hits:     ".toList ++ fmt_i ctxS.sctx.cResult ++ "\n".toList).take 255

/-- The status word of `MSearch_ReadStatus` (m_proc_search.c 205-211). -/
def MSearch_szStatus (ctxS : MOB_SEARCH_CONTEXT) : String :=
  if ctxS.fActive then "RUNNING"
  else if ctxS.fCompleted then "COMPLETED"
  else "NOT_STARTED"

/-- `MSearch_ReadStatus` (m_proc_search.c 202-238). `fpb` tells whether `pb`
is non-NULL. -/
def MSearch_ReadStatus (renv : UtilReadEnv) (ctxS : MOB_SEARCH_CONTEXT) (fpb : Bool)
    (cb cbOffset : Nat) : ReadRes :=
  let szBuffer := MSearch_StatusText (MSearch_szStatus ctxS).toList ctxS
  if fpb then
    renv.Util_VfsReadFile_FromPBYTE szBuffer szBuffer.length cb cbOffset
  else
    { nt := NTSTATUS.VMMDLL_STATUS_SUCCESS, pcbRead := szBuffer.length % 2 ^ 32, pb := [] }

/-- `MSearch_Read` (m_proc_search.c 255-293). `fpb` tells whether `pb` is
non-NULL, `pcbRead0` is `*pcbRead` on entry, and `pNew` is the address
`Ob_Alloc` returns if `MSearch_ContextGet` calls it. The context that
`MSearch_ContextGet` allocates is not registered in the map by a read. -/
def MSearch_Read (renv : UtilReadEnv) (f32 : Bool) (st : SearchState) (ctxP : PLUGIN_CONTEXT)
    (fpb : Bool) (cb pcbRead0 cbOffset pNew : Nat) : ReadRes × SearchState :=
  let g := MSearch_ContextGet f32 st ctxP pNew
  let pObCtx := g.1
  if pObCtx = 0 then
    ({ nt := NTSTATUS.VMMDLL_STATUS_FILE_INVALID, pcbRead := pcbRead0, pb := [] }, g.2)
  else
    let o := g.2.obj pObCtx
    let r : ReadRes :=
      if stricmpEq ctxP.uszPath "readme.txt".toList then
        renv.Util_VfsReadFile_FromStrA szSEARCH_README.toList cb cbOffset
      else if stricmpEq ctxP.uszPath "addr-max.txt".toList then
        (if f32 then renv.Util_VfsReadFile_FromDWORD (o.sctx.vaMax % 2 ^ 32) cb cbOffset false
         else renv.Util_VfsReadFile_FromQWORD (o.sctx.vaMax % 2 ^ 64) cb cbOffset false)
      else if stricmpEq ctxP.uszPath "addr-min.txt".toList then
        (if f32 then renv.Util_VfsReadFile_FromDWORD (o.sctx.vaMin % 2 ^ 32) cb cbOffset false
         else renv.Util_VfsReadFile_FromQWORD (o.sctx.vaMin % 2 ^ 64) cb cbOffset false)
      else if stricmpEq ctxP.uszPath "align.txt".toList then
        renv.Util_VfsReadFile_FromDWORD o.sctx.search0.cbAlign cb ((cbOffset + 5) % 2 ^ 64) false
      else if stricmpEq ctxP.uszPath "reset.txt".toList then
        renv.Util_VfsReadFile_FromBOOL false cb cbOffset
      else if stricmpEq ctxP.uszPath "result.txt".toList then
        match o.pObDataResult with
        | some pqw =>
          renv.Util_VfsLineFixed_Read f32 (if f32 then 9 else 17) pqw pqw.length 8 cb cbOffset
        | none => { nt := NTSTATUS.VMMDLL_STATUS_END_OF_FILE, pcbRead := pcbRead0, pb := [] }
      else if stricmpEq ctxP.uszPath "search.txt".toList then
        renv.Util_VfsReadFile_FromHEXASCII o.sctx.search0.pb o.sctx.search0.cb cb cbOffset
      else if stricmpEq ctxP.uszPath "search-skip-bitmask.txt".toList then
        renv.Util_VfsReadFile_FromHEXASCII o.sctx.search0.pbSkipMask o.sctx.search0.cb cb cbOffset
      else if stricmpEq ctxP.uszPath "status.txt".toList then
        MSearch_ReadStatus renv o fpb cb cbOffset
      else { nt := NTSTATUS.VMMDLL_STATUS_FILE_INVALID, pcbRead := pcbRead0, pb := [] }
    (r, g.2)

/-- Stand-in for concrete runs (the read helpers of util.c are not among the
sources): a file read at `cbOffset` gives at most `cb` of its bytes from
there, and `VMMDLL_STATUS_END_OF_FILE` when that is nothing. Numbers are shown
in hexadecimal, a result vector as one line per entry. -/
def utilFile (file : List Nat) (cb cbOffset : Nat) : ReadRes :=
  let out := (file.drop cbOffset).take cb
  { nt := if out.length = 0 then NTSTATUS.VMMDLL_STATUS_END_OF_FILE
          else NTSTATUS.VMMDLL_STATUS_SUCCESS,
    pcbRead := out.length, pb := out }

/-- The stand-in read helpers, over `utilFile`. -/
def utilRead : UtilReadEnv :=
  { Util_VfsReadFile_FromStrA := fun sz cb off => utilFile (sz.map Char.toNat) cb off
    Util_VfsReadFile_FromDWORD := fun v cb off _ =>
      utilFile ((Nat.toDigits 16 (v % 2 ^ 32)).map Char.toNat) cb off
    Util_VfsReadFile_FromQWORD := fun v cb off _ =>
      utilFile ((Nat.toDigits 16 (v % 2 ^ 64)).map Char.toNat) cb off
    Util_VfsReadFile_FromBOOL := fun f cb off => utilFile [if f then 0x31 else 0x30] cb off
    Util_VfsReadFile_FromHEXASCII := fun p n cb off =>
      utilFile (((p.take n).map (fun b => Nat.toDigits 16 (b % 256))).flatten.map Char.toNat) cb off
    Util_VfsReadFile_FromPBYTE := fun sz n cb off => utilFile ((sz.take n).map Char.toNat) cb off
    Util_VfsLineFixed_Read := fun _ _ pqw c _ cb off =>
      utilFile (((pqw.take c).map (fun q => fmt_llx q ++ ['\n'])).flatten.map
        Char.toNat) cb off }

/-- What a thread inside `MSearch_Write` holds when it stands before
`EnterCriticalSection` of the `search.txt` branch (m_proc_search.c 181): its
context pointer, `nt`, `*pcbWrite` and `pbSearchBuffer`. `fEnter` is false
when the call returns without entering that critical section. -/
structure WriteLocal where
  pObCtx : Nat
  nt : NTSTATUS
  pcbWrite : Nat
  pbSearchBuffer : List Nat
  fEnter : Bool
deriving DecidableEq, Repr

/-- The first step of `MSearch_Write`: the context lookup
`MSearch_ContextGet`, and the code up to the critical section of the
`search.txt` branch (m_proc_search.c 101-180); the test
`!pObCtx->fActive && !pObCtx->fCompleted` of line 120 and the parse of the
written data are made here, outside the lock. -/
def MSearch_Write_lookup (env : UtilEnv) (f32 : Bool) (st : SearchState) (ctxP : PLUGIN_CONTEXT)
    (pb : List Nat) (cb cbOffset : Nat) (pNew : Nat) : WriteLocal × SearchState :=
  let g := MSearch_ContextGet f32 st ctxP pNew
  let pObCtx := g.1
  if pObCtx = 0 then
    ({ pObCtx := 0, nt := NTSTATUS.VMMDLL_STATUS_FILE_INVALID, pcbWrite := cb,
       pbSearchBuffer := [], fEnter := false }, g.2)
  else
    let a0 : WriteAcc := { nt := NTSTATUS.VMMDLL_STATUS_SUCCESS, pcbWrite := cb, st := g.2 }
    let a1 := MSearch_Write_reset env ctxP pb cb cbOffset a0
    if idle a1.st pObCtx then
      let a2 := MSearch_Write_align env ctxP pObCtx pb cb cbOffset a1
      let a3 := MSearch_Write_addr_max env f32 ctxP pObCtx pb cb cbOffset a2
      let a4 := MSearch_Write_addr_min env f32 ctxP pObCtx pb cb cbOffset a3
      let a5 := MSearch_Write_skip_bitmask env ctxP pObCtx pb cb cbOffset a4
      if stricmpEq ctxP.uszPath "search.txt".toList then
        let pbSearchBuffer := (a5.st.obj pObCtx).sctx.search0.pb
        let r := env.Util_VfsWriteFile_HEXASCII pbSearchBuffer 32 pb cb cbOffset
        let pcbWrite := r.2.1 % 2 ^ 32
        ({ pObCtx := pObCtx, nt := r.1, pcbWrite := pcbWrite, pbSearchBuffer := r.2.2,
           fEnter := decide (pcbWrite ≠ 0) }, a5.st)
      else
        ({ pObCtx := pObCtx, nt := a5.nt, pcbWrite := a5.pcbWrite, pbSearchBuffer := [],
           fEnter := false }, a5.st)
    else
      ({ pObCtx := pObCtx, nt := a1.nt, pcbWrite := a1.pcbWrite, pbSearchBuffer := [],
         fEnter := false }, a1.st)

/-- The second step of `MSearch_Write`: the critical section of the
`search.txt` branch (m_proc_search.c 181-193), run under `LockPlugin` on the
plugin state as it is then, and the return. -/
def MSearch_Write_critical (ctxP : PLUGIN_CONTEXT) (l : WriteLocal) (st : SearchState) :
    WriteAcc :=
  if l.fEnter then
    if idle st l.pObCtx then
      let o := st.obj l.pObCtx
      let o1 : MOB_SEARCH_CONTEXT :=
        { o with sctx := { o.sctx with search0 := { o.sctx.search0 with
            cb := ((l.pcbWrite + 1) % 2 ^ 32) / 2
            pb := l.pbSearchBuffer } } }
      let st1 := MSearch_ContextUpdate { st with obj := store st.obj l.pObCtx o1 } ctxP l.pObCtx
      let o2 := st1.obj l.pObCtx
      let o3 : MOB_SEARCH_CONTEXT :=
        { o2 with fActive := true, sctx := { o2.sctx with fAbortRequested := false } }
      { nt := l.nt, pcbWrite := l.pcbWrite,
        st := { st1 with obj := store st1.obj l.pObCtx o3, work := st1.work ++ [l.pObCtx] } }
    else { nt := l.nt, pcbWrite := l.pcbWrite, st := st }
  else { nt := l.nt, pcbWrite := l.pcbWrite, st := st }

/-- Where a thread running `MSearch_Write` stands: not yet called, between
its two steps, or returned with a status. -/
inductive WriteThread where
  | start
  | locked (l : WriteLocal)
  | returned (nt : NTSTATUS)
deriving DecidableEq, Repr

/-- Two threads `A` and `B` in `MSearch_Write` on one plugin state. -/
structure TwoWrites where
  st : SearchState
  a : WriteThread
  b : WriteThread

/-- One step of a thread that runs the call `c`: the lookup, then the
critical section; a returned thread stays as it is. -/
def WriteThread.step (env : UtilEnv) (f32 : Bool) (c : WriteCall) (t : WriteThread)
    (st : SearchState) : WriteThread × SearchState :=
  match t with
  | WriteThread.start =>
    let r := MSearch_Write_lookup env f32 st c.ctxP c.pb c.cb c.cbOffset c.pNew
    (WriteThread.locked r.1, r.2)
  | WriteThread.locked l =>
    let r := MSearch_Write_critical c.ctxP l st
    (WriteThread.returned r.nt, r.st)
  | WriteThread.returned nt => (WriteThread.returned nt, st)

/-- The two calls `cA` and `cB` run under a schedule: `true` lets thread `A`
take its next step, `false` thread `B`. -/
def runSchedule (env : UtilEnv) (f32 : Bool) (cA cB : WriteCall) (s : TwoWrites) :
    List Bool → TwoWrites
  | [] => s
  | true :: rest =>
    let r := WriteThread.step env f32 cA s.a s.st
    runSchedule env f32 cA cB { s with st := r.2, a := r.1 } rest
  | false :: rest =>
    let r := WriteThread.step env f32 cB s.b s.st
    runSchedule env f32 cA cB { s with st := r.2, b := r.1 } rest

/-- The interleavings of two calls of two steps each. -/
def interleavings : List (List Bool) :=
  [[true, true, false, false], [true, false, true, false], [true, false, false, true],
   [false, true, true, false], [false, true, false, true], [false, false, true, true]]

/-- Two writes to `search.txt` of PID 4, by threads `A` and `B`; a context
allocated by `A` would be at 0x30000, one allocated by `B` at 0x40000. -/
def searchCallA : WriteCall :=
  { ctxP := ctxP4 "search.txt", pb := [0x4d, 0x5a], cb := 2, cbOffset := 0, pNew := 0x30000 }

/-- The write of thread `B`, see `searchCallA`. -/
def searchCallB : WriteCall :=
  { ctxP := ctxP4 "search.txt", pb := [0x50, 0x45], cb := 2, cbOffset := 0, pNew := 0x40000 }

/-- Both threads before their calls, on the plugin state `st`. -/
def twoWritesInit (st : SearchState) : TwoWrites :=
  { st := st, a := WriteThread.start, b := WriteThread.start }

/-- A plugin state in which PID 4 has a registered context at 0x30000 that is
neither active nor completed, with alignment 8. -/
def searchIdle : SearchState :=
  { ctxM := [(4, 0x30000)]
    obj := fun _ =>
      { MOB_SEARCH_CONTEXT.zero with
        dwPID := 4,
        sctx := { MOB_SEARCH_CONTEXT.zero.sctx with
          cSearch := 1, vaMax := 0x7fffffffffff,
          search0 := { cbAlign := 8, cb := 0, pb := List.replicate 32 0,
                       pbSkipMask := List.replicate 32 0 } } }
    work := [] }

/-! ## Part 6: `vmm/vmmdll_core.c`, the command line (`VmmDllCore_InitializeConfig`) -/

/-- The fields of `H->cfg` (`VMM_CONFIG`, vmm.h) that
`VmmDllCore_InitializeConfig` writes. A string buffer is the text before its
terminator; `szPageFile` has ten entries. -/
structure VMM_CONFIG where
  fVerboseDll : Bool
  fUserInteract : Bool
  fVerbose : Bool
  fVerboseExtra : Bool
  fVerboseExtraTlp : Bool
  fDisableSymbolServerOnStartup : Bool
  fDisableSymbols : Bool
  fDisableInfoDB : Bool
  fDisablePython : Bool
  fDisableBackgroundRefresh : Bool
  fWaitInitialize : Bool
  fFileInfoHeader : Bool
  paCR3 : Nat
  tpForensicMode : Nat
  szMemMap : CStr
  szMemMapStr : CStr
  szPythonPath : CStr
  szLogFile : CStr
  szLogLevel : CStr
  szPageFile : Nat → CStr

/-- The fields of `H->dev` (`LC_CONFIG`, leechcore.h) that
`VmmDllCore_InitializeConfig` writes. -/
structure LC_CONFIG where
  dwVersion : Nat
  dwPrintfVerbosity : Nat
  szDevice : CStr
  szRemote : CStr
  paMax : Nat

/-- The part of a `VMM_HANDLE` that holds the configuration. -/
structure VMM_HANDLE_CFG where
  cfg : VMM_CONFIG
  dev : LC_CONFIG

/-- A cleared handle: every field zero, every string empty. -/
def VMM_HANDLE_CFG.cleared : VMM_HANDLE_CFG :=
  { cfg :=
      { fVerboseDll := false, fUserInteract := false, fVerbose := false, fVerboseExtra := false,
        fVerboseExtraTlp := false, fDisableSymbolServerOnStartup := false,
        fDisableSymbols := false, fDisableInfoDB := false, fDisablePython := false,
        fDisableBackgroundRefresh := false, fWaitInitialize := false, fFileInfoHeader := false,
        paCR3 := 0, tpForensicMode := 0, szMemMap := [], szMemMapStr := [], szPythonPath := [],
        szLogFile := [], szLogLevel := [], szPageFile := fun _ => [] },
    dev := { dwVersion := 0, dwPrintfVerbosity := 0, szDevice := [], szRemote := [], paMax := 0 } }

/-- What `VmmDllCore_InitializeConfig` uses and the sources do not define:
`Util_GetNumericA` (util.c), `strcpy_s` (given the size of the destination and
the source, it gives the text left in the destination), and the constants
`MAX_PATH`, `_countof(H->cfg.szMemMapStr)`, `FC_DATABASE_TYPE_MAX` (fc.h) and
`LC_CONFIG_*` (leechcore.h). -/
structure CfgEnv where
  Util_GetNumericA : CStr → Nat
  strcpy_s : Nat → CStr → CStr
  MAX_PATH : Nat
  countof_szMemMapStr : Nat
  FC_DATABASE_TYPE_MAX : Nat
  LC_CONFIG_VERSION : Nat
  LC_CONFIG_PRINTF_ENABLED : Nat
  LC_CONFIG_PRINTF_V : Nat
  LC_CONFIG_PRINTF_VV : Nat
  LC_CONFIG_PRINTF_VVV : Nat

/-- The options of `VmmDllCore_InitializeConfig` that take a value
(vmmdll_core.c 377-430), on the option `a` and its value `v`. The result is
`(false, H)` for `return FALSE`, with the handle as it is then, and
`(true, H)` when the loop goes on. -/
def InitializeConfig_value (env : CfgEnv) (a v : CStr) (H : VMM_HANDLE_CFG) :
    Bool × VMM_HANDLE_CFG :=
  if stricmpEq a "-cr3".toList then
    (true, { H with cfg := { H.cfg with paCR3 := env.Util_GetNumericA v % 2 ^ 64 } })
  else if stricmpEq a "-forensic".toList then
    let H1 : VMM_HANDLE_CFG :=
      { H with cfg := { H.cfg with tpForensicMode := env.Util_GetNumericA v % 2 ^ 32 } }
    if H1.cfg.tpForensicMode > env.FC_DATABASE_TYPE_MAX then (false, H1) else (true, H1)
  else if stricmpEq a "-max".toList then
    (true, { H with dev := { H.dev with paMax := env.Util_GetNumericA v % 2 ^ 64 } })
  else if stricmpEq a "-device".toList ∨ a = "-z".toList then
    (true, { H with dev := { H.dev with szDevice := env.strcpy_s env.MAX_PATH v } })
  else if stricmpEq a "-remote".toList then
    (true, { H with dev := { H.dev with szRemote := env.strcpy_s env.MAX_PATH v } })
  else if stricmpEq a "-memmap".toList then
    (true, { H with cfg := { H.cfg with szMemMap := env.strcpy_s env.MAX_PATH v } })
  else if stricmpEq a "-memmap-str".toList then
    (true, { H with cfg := { H.cfg with
      szMemMapStr := env.strcpy_s env.countof_szMemMapStr v } })
  else if stricmpEq a "-pythonpath".toList then
    (true, { H with cfg := { H.cfg with szPythonPath := env.strcpy_s env.MAX_PATH v } })
  else if stricmpEq a "-mount".toList then
    (true, H)
  else if stricmpEq a "-logfile".toList then
    (true, { H with cfg := { H.cfg with szLogFile := env.strcpy_s env.MAX_PATH v } })
  else if stricmpEq a "-loglevel".toList then
    (true, { H with cfg := { H.cfg with szLogLevel := env.strcpy_s env.MAX_PATH v } })
  else if strnicmpEq a "-pagefile".toList 9 then
    let c := (a.getD 9 (Char.ofNat 0)).toNat
    let iPageFile := if 48 ≤ c then c - 48 else 2 ^ 32 - (48 - c)
    if iPageFile < 10 then
      (true, { H with cfg := { H.cfg with
        szPageFile := store H.cfg.szPageFile iPageFile (env.strcpy_s env.MAX_PATH v) } })
    else (true, H)
  else (false, H)

/-- The options of `VmmDllCore_InitializeConfig` that take no value
(vmmdll_core.c 327-375): `none` when `a` is none of them. -/
def InitializeConfig_flag (a : CStr) (H : VMM_HANDLE_CFG) : Option VMM_HANDLE_CFG :=
  if stricmpEq a "".toList then some H
  else if stricmpEq a "-printf".toList then
    some { H with cfg := { H.cfg with fVerboseDll := true } }
  else if stricmpEq a "-userinteract".toList then
    some { H with cfg := { H.cfg with fUserInteract := true } }
  else if stricmpEq a "-v".toList then
    some { H with cfg := { H.cfg with fVerbose := true } }
  else if stricmpEq a "-vv".toList then
    some { H with cfg := { H.cfg with fVerboseExtra := true } }
  else if stricmpEq a "-vvv".toList then
    some { H with cfg := { H.cfg with fVerboseExtraTlp := true } }
  else if stricmpEq a "-disable-symbolserver".toList then
    some { H with cfg := { H.cfg with fDisableSymbolServerOnStartup := true } }
  else if stricmpEq a "-disable-symbols".toList then
    some { H with cfg := { H.cfg with
      fDisableSymbolServerOnStartup := true, fDisableSymbols := true } }
  else if stricmpEq a "-disable-infodb".toList then
    some { H with cfg := { H.cfg with fDisableInfoDB := true } }
  else if stricmpEq a "-disable-python".toList then
    some { H with cfg := { H.cfg with fDisablePython := true } }
  else if stricmpEq a "-norefresh".toList then
    some { H with cfg := { H.cfg with fDisableBackgroundRefresh := true } }
  else if stricmpEq a "-waitinitialize".toList then
    some { H with cfg := { H.cfg with fWaitInitialize := true } }
  else none

/-- The loop `while(i < argc)` of `VmmDllCore_InitializeConfig`
(vmmdll_core.c 326-431) on the arguments from `argv[i]` on. The result is
`(false, H)` for `return FALSE`, with the handle as far as it was set, and
`(true, H)` when the arguments are used up. An argument that is not an option
without a value is an option with a value if another argument follows it
(`i + 1 < argc`), else `return FALSE`. -/
def InitializeConfig_loop (env : CfgEnv) : List CStr → VMM_HANDLE_CFG → Bool × VMM_HANDLE_CFG
  | [], H => (true, H)
  | [a], H =>
    match InitializeConfig_flag a H with
    | some H1 => InitializeConfig_loop env [] H1
    | none => (false, H)
  | a :: v :: rest2, H =>
    match InitializeConfig_flag a H with
    | some H1 => InitializeConfig_loop env (v :: rest2) H1
    | none =>
      if (InitializeConfig_value env a v H).1 then
        InitializeConfig_loop env rest2 (InitializeConfig_value env a v H).2
      else (false, (InitializeConfig_value env a v H).2)

/-- What follows the loop in `VmmDllCore_InitializeConfig`
(vmmdll_core.c 432-446). -/
def InitializeConfig_finish (env : CfgEnv) (H : VMM_HANDLE_CFG) : Bool × VMM_HANDLE_CFG :=
  if H.dev.paMax ≠ 0 ∧ H.dev.paMax < 0x00100000 then (false, H)
  else
    let paMax :=
      if H.dev.paMax = 0 ∧ (H.cfg.szMemMap ≠ [] ∨ H.cfg.szMemMapStr ≠ []) then 2 ^ 64 - 1
      else H.dev.paMax
    let fVerbose := H.cfg.fVerbose && H.cfg.fVerboseDll
    let fVerboseExtra := H.cfg.fVerboseExtra && H.cfg.fVerboseDll
    let fVerboseExtraTlp := H.cfg.fVerboseExtraTlp && H.cfg.fVerboseDll
    let v0 := H.dev.dwPrintfVerbosity
    let v1 := v0 ||| (if H.cfg.fVerboseDll then env.LC_CONFIG_PRINTF_ENABLED else 0)
    let v2 := v1 ||| (if fVerbose then env.LC_CONFIG_PRINTF_V else 0)
    let v3 := v2 ||| (if fVerboseExtra then env.LC_CONFIG_PRINTF_VV else 0)
    let v4 := v3 ||| (if fVerboseExtraTlp then env.LC_CONFIG_PRINTF_VVV else 0)
    let H1 : VMM_HANDLE_CFG :=
      { cfg := { H.cfg with
          fFileInfoHeader := true, fVerbose := fVerbose, fVerboseExtra := fVerboseExtra,
          fVerboseExtraTlp := fVerboseExtraTlp },
        dev := { H.dev with
          paMax := paMax, dwVersion := env.LC_CONFIG_VERSION, dwPrintfVerbosity := v4 } }
    (decide (H1.dev.szDevice ≠ []), H1)

/-- `VmmDllCore_InitializeConfig` for three or more arguments, or fewer than
two, or two that are not a click-to-open: the loop, then the finish. -/
def InitializeConfig_main (env : CfgEnv) (H : VMM_HANDLE_CFG) (argv : List CStr) :
    Bool × VMM_HANDLE_CFG :=
  let r := InitializeConfig_loop env argv H
  if r.1 then InitializeConfig_finish env r.2 else (false, r.2)

/-- `VmmDllCore_InitializeConfig` (vmmdll_core.c 314-447); `argc` is the
length of `argv`. With exactly two arguments of which the second is not
empty and does not start with `-`, the function calls itself on
`argv[0]`, `-device`, `argv[1]`; that call has three arguments and so goes
into the loop. -/
def VmmDllCore_InitializeConfig (env : CfgEnv) (H : VMM_HANDLE_CFG) (argv : List CStr) :
    Bool × VMM_HANDLE_CFG :=
  match argv with
  | [a0, a1] =>
    if a1 ≠ [] ∧ a1.head? ≠ some '-' then
      InitializeConfig_main env H [a0, "-device".toList, a1]
    else InitializeConfig_main env H argv
  | _ => InitializeConfig_main env H argv

/-- Stand-in for `Util_GetNumericA` in concrete runs (util.c is not among the
sources): the decimal value of a string of digits, the hexadecimal value after
`0x`, 0 for anything else. -/
def numericA (s : CStr) : Nat :=
  match s with
  | '0' :: 'x' :: h =>
    if h.all (fun c => c.isDigit || ('a' ≤ c && c ≤ 'f')) then
      h.foldl (fun n c => 16 * n + (if c.isDigit then c.toNat - 48 else c.toNat - 87)) 0
    else 0
  | _ => if s.all Char.isDigit then s.foldl (fun n c => 10 * n + (c.toNat - 48)) 0 else 0

/-- Stand-ins for concrete runs: `numericA`, a `strcpy_s` that copies a source
that fits and leaves the destination empty otherwise, and the values of the
constants in the Windows headers, fc.h and leechcore.h. -/
def cfgEnvStd : CfgEnv :=
  { Util_GetNumericA := numericA
    strcpy_s := fun n s => if s.length < n then s else []
    MAX_PATH := 260
    countof_szMemMapStr := 2048
    FC_DATABASE_TYPE_MAX := 4
    LC_CONFIG_VERSION := 0xc0fd0002
    LC_CONFIG_PRINTF_ENABLED := 1
    LC_CONFIG_PRINTF_V := 2
    LC_CONFIG_PRINTF_VV := 4
    LC_CONFIG_PRINTF_VVV := 8 }

/-- A condition on an argument list: somewhere in it stands
`-device` (in any case) or `-z`, followed by a value that is not empty. -/
def argsSupplyDevice : List CStr → Bool
  | a :: v :: rest =>
    ((stricmpEq a "-device".toList || a == "-z".toList) && v != []) ||
      argsSupplyDevice (v :: rest)
  | _ => false

/-! ## Part 7: `vmm/vmmdll.c`, the configuration options
(`VMMDLL_ConfigGet_Impl`, `VMMDLL_ConfigSet_Impl`) -/

/-- The case labels of the two `switch(fOption & 0xffffffff00000000)`
statements (vmmdll.c 219-291 and 330-381), by the names of the constants
`VMMDLL_OPT_*`. -/
inductive VMMDLL_OPT where
  | CORE_SYSTEM
  | CORE_MEMORYMODEL
  | CONFIG_VMM_VERSION_MAJOR
  | CONFIG_VMM_VERSION_MINOR
  | CONFIG_VMM_VERSION_REVISION
  | CONFIG_IS_REFRESH_ENABLED
  | CONFIG_IS_PAGING_ENABLED
  | CONFIG_TICK_PERIOD
  | CONFIG_READCACHE_TICKS
  | CONFIG_TLBCACHE_TICKS
  | CONFIG_PROCCACHE_TICKS_PARTIAL
  | CONFIG_PROCCACHE_TICKS_TOTAL
  | CONFIG_STATISTICS_FUNCTIONCALL
  | WIN_VERSION_MAJOR
  | WIN_VERSION_MINOR
  | WIN_VERSION_BUILD
  | WIN_SYSTEM_UNIQUE_ID
  | FORENSIC_MODE
  | CORE_PRINTF_ENABLE
  | CORE_VERBOSE
  | CORE_VERBOSE_EXTRA
  | CORE_VERBOSE_EXTRA_TLP
  | CORE_MAX_NATIVE_ADDRESS
deriving DecidableEq, Repr

/-- The fields of `H->vmm.ThreadProcCache` that the two functions use. -/
structure VMM_THREADPROC_CACHE where
  fEnabled : Bool
  cMs_TickPeriod : Nat
  cTick_MEM : Nat
  cTick_TLB : Nat
  cTick_Fast : Nat
  cTick_Medium : Nat
deriving DecidableEq, Repr

/-- The fields of a `VMM_HANDLE` that `VMMDLL_ConfigGet_Impl` and
`VMMDLL_ConfigSet_Impl` use. `fc_db_tp` is `none` when `H->fc` is `NULL`. -/
structure VMM_HANDLE_OPT where
  magic : Nat
  vmm_flags : Nat
  vmm_tpSystem : Nat
  vmm_tpMemoryModel : Nat
  vmm_ThreadProcCache : VMM_THREADPROC_CACHE
  vmm_kernel_dwVersionMajor : Nat
  vmm_kernel_dwVersionMinor : Nat
  vmm_kernel_dwVersionBuild : Nat
  vmm_dwSystemUniqueId : Nat
  fc_db_tp : Option Nat
  cfg_fVerboseDll : Bool
  cfg_fVerbose : Bool
  cfg_fVerboseExtra : Bool
  cfg_fVerboseExtraTlp : Bool
  dev_paMax : Nat
deriving DecidableEq, Repr

/-- What the two functions use and the sources do not define. `caseOf` gives
the case label whose constant `VMMDLL_OPT_*` (vmmdll.h) equals the value
switched on, if there is one; `VMM_FLAG_NOPAGING` is the constant of vmm.h,
`VMM_MAGIC` too; the `VERSION_*` are those of version.h; the
`VMMDLL_OPT_REFRESH_FREQ_*` are those of vmmdll.h. The functions called take
the handle and give it back as they leave it. -/
structure OptEnv where
  caseOf : Nat → Option VMMDLL_OPT
  VMM_FLAG_NOPAGING : Nat
  VMM_MAGIC : Nat
  VERSION_MAJOR : Nat
  VERSION_MINOR : Nat
  VERSION_REVISION : Nat
  VMMDLL_OPT_REFRESH_FREQ_MEM : Nat
  VMMDLL_OPT_REFRESH_FREQ_MEM_PARTIAL : Nat
  VMMDLL_OPT_REFRESH_FREQ_TLB : Nat
  VMMDLL_OPT_REFRESH_FREQ_TLB_PARTIAL : Nat
  VMMDLL_OPT_REFRESH_FREQ_FAST : Nat
  VMMDLL_OPT_REFRESH_FREQ_MEDIUM : Nat
  VMMDLL_OPT_REFRESH_FREQ_SLOW : Nat
  LcGetOption : VMM_HANDLE_OPT → Nat → Option Nat
  LcSetOption : VMM_HANDLE_OPT → Nat → Nat → Bool × VMM_HANDLE_OPT
  Statistics_CallGetEnabled : VMM_HANDLE_OPT → Bool
  Statistics_CallSetEnabled : VMM_HANDLE_OPT → Bool → VMM_HANDLE_OPT
  FcInitialize : VMM_HANDLE_OPT → Nat → Bool → Bool × VMM_HANDLE_OPT
  VmmLog_LevelRefresh : VMM_HANDLE_OPT → VMM_HANDLE_OPT
  PluginManager_Notify_VERBOSITYCHANGE : VMM_HANDLE_OPT → VMM_HANDLE_OPT
  VmmProcRefresh_MEM : VMM_HANDLE_OPT → VMM_HANDLE_OPT
  VmmProcRefresh_TLB : VMM_HANDLE_OPT → VMM_HANDLE_OPT
  VmmProcRefresh_Fast : VMM_HANDLE_OPT → VMM_HANDLE_OPT
  VmmProcRefresh_Medium : VMM_HANDLE_OPT → VMM_HANDLE_OPT
  VmmProcRefresh_Slow : VMM_HANDLE_OPT → VMM_HANDLE_OPT

/-- `VMMDLL_ConfigGet_Impl` (vmmdll.c 216-292). `fpqwValue` tells whether
`pqwValue` is non-NULL; the result is `none` for FALSE and the value stored in
`*pqwValue` for TRUE. -/
def VMMDLL_ConfigGet_Impl (env : OptEnv) (H : VMM_HANDLE_OPT) (fOption : Nat)
    (fpqwValue : Bool) : Option Nat :=
  if fOption = 0 ∨ fpqwValue = false then none
  else
    match env.caseOf (fOption &&& 0xffffffff00000000) with
    | some VMMDLL_OPT.CORE_SYSTEM => some H.vmm_tpSystem
    | some VMMDLL_OPT.CORE_MEMORYMODEL => some H.vmm_tpMemoryModel
    | some VMMDLL_OPT.CONFIG_VMM_VERSION_MAJOR => some env.VERSION_MAJOR
    | some VMMDLL_OPT.CONFIG_VMM_VERSION_MINOR => some env.VERSION_MINOR
    | some VMMDLL_OPT.CONFIG_VMM_VERSION_REVISION => some env.VERSION_REVISION
    | some VMMDLL_OPT.CONFIG_IS_REFRESH_ENABLED =>
      some (if H.vmm_ThreadProcCache.fEnabled then 1 else 0)
    | some VMMDLL_OPT.CONFIG_IS_PAGING_ENABLED =>
      some (if H.vmm_flags &&& env.VMM_FLAG_NOPAGING ≠ 0 then 0 else 1)
    | some VMMDLL_OPT.CONFIG_TICK_PERIOD => some H.vmm_ThreadProcCache.cMs_TickPeriod
    | some VMMDLL_OPT.CONFIG_READCACHE_TICKS => some H.vmm_ThreadProcCache.cTick_MEM
    | some VMMDLL_OPT.CONFIG_TLBCACHE_TICKS => some H.vmm_ThreadProcCache.cTick_TLB
    | some VMMDLL_OPT.CONFIG_PROCCACHE_TICKS_PARTIAL => some H.vmm_ThreadProcCache.cTick_Fast
    | some VMMDLL_OPT.CONFIG_PROCCACHE_TICKS_TOTAL => some H.vmm_ThreadProcCache.cTick_Medium
    | some VMMDLL_OPT.CONFIG_STATISTICS_FUNCTIONCALL =>
      some (if env.Statistics_CallGetEnabled H then 1 else 0)
    | some VMMDLL_OPT.WIN_VERSION_MAJOR => some H.vmm_kernel_dwVersionMajor
    | some VMMDLL_OPT.WIN_VERSION_MINOR => some H.vmm_kernel_dwVersionMinor
    | some VMMDLL_OPT.WIN_VERSION_BUILD => some H.vmm_kernel_dwVersionBuild
    | some VMMDLL_OPT.WIN_SYSTEM_UNIQUE_ID => some H.vmm_dwSystemUniqueId
    | some VMMDLL_OPT.FORENSIC_MODE =>
      some (match H.fc_db_tp with
            | some tp => tp % 256
            | none => 0)
    | some VMMDLL_OPT.CORE_PRINTF_ENABLE => some (if H.cfg_fVerboseDll then 1 else 0)
    | some VMMDLL_OPT.CORE_VERBOSE => some (if H.cfg_fVerbose then 1 else 0)
    | some VMMDLL_OPT.CORE_VERBOSE_EXTRA => some (if H.cfg_fVerboseExtra then 1 else 0)
    | some VMMDLL_OPT.CORE_VERBOSE_EXTRA_TLP => some (if H.cfg_fVerboseExtraTlp then 1 else 0)
    | some VMMDLL_OPT.CORE_MAX_NATIVE_ADDRESS => some H.dev_paMax
    | none => env.LcGetOption H fOption

/-- `VMMDLL_REFRESH_CHECK(fOption, mask)` (vmmdll.c 213) as a condition. -/
def VMMDLL_REFRESH_CHECK (fOption mask : Nat) : Bool :=
  (fOption &&& mask &&& 0x0000ffff00000000) != 0

/-- The refresh branch of `VMMDLL_ConfigSet_Impl` (vmmdll.c 302-329). -/
def VMMDLL_ConfigSet_Impl_refresh (env : OptEnv) (H : VMM_HANDLE_OPT) (fOption : Nat) :
    VMM_HANDLE_OPT :=
  let H1 := if VMMDLL_REFRESH_CHECK fOption env.VMMDLL_OPT_REFRESH_FREQ_MEM then
      env.VmmProcRefresh_MEM (env.VmmProcRefresh_MEM (env.VmmProcRefresh_MEM H)) else H
  let H2 := if VMMDLL_REFRESH_CHECK fOption env.VMMDLL_OPT_REFRESH_FREQ_MEM_PARTIAL then
      env.VmmProcRefresh_MEM H1 else H1
  let H3 := if VMMDLL_REFRESH_CHECK fOption env.VMMDLL_OPT_REFRESH_FREQ_TLB then
      env.VmmProcRefresh_TLB (env.VmmProcRefresh_TLB (env.VmmProcRefresh_TLB H2)) else H2
  let H4 := if VMMDLL_REFRESH_CHECK fOption env.VMMDLL_OPT_REFRESH_FREQ_TLB_PARTIAL then
      env.VmmProcRefresh_TLB H3 else H3
  let H5 := if VMMDLL_REFRESH_CHECK fOption env.VMMDLL_OPT_REFRESH_FREQ_FAST then
      env.VmmProcRefresh_Fast H4 else H4
  let H6 := if VMMDLL_REFRESH_CHECK fOption env.VMMDLL_OPT_REFRESH_FREQ_MEDIUM then
      env.VmmProcRefresh_Medium H5 else H5
  if VMMDLL_REFRESH_CHECK fOption env.VMMDLL_OPT_REFRESH_FREQ_SLOW then
    env.VmmProcRefresh_Slow H6 else H6

/-- The four verbosity cases of `VMMDLL_ConfigSet_Impl` after the flag is
set: `VmmLog_LevelRefresh`, then the notification of the plugins. -/
def VMMDLL_ConfigSet_Impl_verbosity (env : OptEnv) (H : VMM_HANDLE_OPT) : VMM_HANDLE_OPT :=
  env.PluginManager_Notify_VERBOSITYCHANGE (env.VmmLog_LevelRefresh H)

/-- `VMMDLL_ConfigSet_Impl` (vmmdll.c 297-382). `H` is `none` for a NULL
handle. The result is the returned BOOL and the handle as it is left;
`~VMM_FLAG_NOPAGING` is the complement in the width of `H->vmm.flags`,
64 bits. -/
def VMMDLL_ConfigSet_Impl (env : OptEnv) (H : Option VMM_HANDLE_OPT) (fOption qwValue : Nat) :
    Bool × Option VMM_HANDLE_OPT :=
  match H with
  | none => (false, none)
  | some H =>
    if H.magic ≠ env.VMM_MAGIC then (false, some H)
    else if fOption &&& 0xffff000000000000 = 0x2001000000000000 then
      (true, some (VMMDLL_ConfigSet_Impl_refresh env H fOption))
    else
      match env.caseOf (fOption &&& 0xffffffff00000000) with
      | some VMMDLL_OPT.CORE_PRINTF_ENABLE =>
        let H1 := (env.LcSetOption H fOption qwValue).2
        (true, some (VMMDLL_ConfigSet_Impl_verbosity env
          { H1 with cfg_fVerboseDll := decide (qwValue ≠ 0) }))
      | some VMMDLL_OPT.CORE_VERBOSE =>
        let H1 := (env.LcSetOption H fOption qwValue).2
        (true, some (VMMDLL_ConfigSet_Impl_verbosity env
          { H1 with cfg_fVerbose := decide (qwValue ≠ 0) }))
      | some VMMDLL_OPT.CORE_VERBOSE_EXTRA =>
        let H1 := (env.LcSetOption H fOption qwValue).2
        (true, some (VMMDLL_ConfigSet_Impl_verbosity env
          { H1 with cfg_fVerboseExtra := decide (qwValue ≠ 0) }))
      | some VMMDLL_OPT.CORE_VERBOSE_EXTRA_TLP =>
        let H1 := (env.LcSetOption H fOption qwValue).2
        (true, some (VMMDLL_ConfigSet_Impl_verbosity env
          { H1 with cfg_fVerboseExtraTlp := decide (qwValue ≠ 0) }))
      | some VMMDLL_OPT.CONFIG_IS_PAGING_ENABLED =>
        (true, some { H with
          vmm_flags := (H.vmm_flags &&& (2 ^ 64 - 1 - env.VMM_FLAG_NOPAGING)) |||
            (if qwValue ≠ 0 then 0 else 1) })
      | some VMMDLL_OPT.CONFIG_TICK_PERIOD =>
        (true, some { H with vmm_ThreadProcCache :=
          { H.vmm_ThreadProcCache with cMs_TickPeriod := qwValue % 2 ^ 32 } })
      | some VMMDLL_OPT.CONFIG_READCACHE_TICKS =>
        (true, some { H with vmm_ThreadProcCache :=
          { H.vmm_ThreadProcCache with cTick_MEM := qwValue % 2 ^ 32 } })
      | some VMMDLL_OPT.CONFIG_TLBCACHE_TICKS =>
        (true, some { H with vmm_ThreadProcCache :=
          { H.vmm_ThreadProcCache with cTick_TLB := qwValue % 2 ^ 32 } })
      | some VMMDLL_OPT.CONFIG_PROCCACHE_TICKS_PARTIAL =>
        (true, some { H with vmm_ThreadProcCache :=
          { H.vmm_ThreadProcCache with cTick_Fast := qwValue % 2 ^ 32 } })
      | some VMMDLL_OPT.CONFIG_PROCCACHE_TICKS_TOTAL =>
        (true, some { H with vmm_ThreadProcCache :=
          { H.vmm_ThreadProcCache with cTick_Medium := qwValue % 2 ^ 32 } })
      | some VMMDLL_OPT.CONFIG_STATISTICS_FUNCTIONCALL =>
        (true, some (env.Statistics_CallSetEnabled H (decide (qwValue ≠ 0))))
      | some VMMDLL_OPT.FORENSIC_MODE =>
        let r := env.FcInitialize H (qwValue % 2 ^ 32) false
        (r.1, some r.2)
      | _ =>
        let r := env.LcSetOption H fOption qwValue
        (r.1, some r.2)

/-- Stand-ins for concrete runs (vmmdll.h and vmm.h are not among the
sources): `VMMDLL_OPT_CONFIG_IS_PAGING_ENABLED` is taken as
0x4000000200000000 and `VMM_FLAG_NOPAGING` as 0x10, the bit 0 being another
flag, `VMM_FLAG_NOCACHE`. Only the paging option is given a case label, the
other constants are arbitrary, and the functions called leave the handle as it
is. -/
def optEnvStd : OptEnv :=
  { caseOf := fun x =>
      if x = 0x4000000200000000 then some VMMDLL_OPT.CONFIG_IS_PAGING_ENABLED else none
    VMM_FLAG_NOPAGING := 0x10
    VMM_MAGIC := 0xc0ffee663df9301e
    VERSION_MAJOR := 5
    VERSION_MINOR := 0
    VERSION_REVISION := 0
    VMMDLL_OPT_REFRESH_FREQ_MEM := 0x2001000200000000
    VMMDLL_OPT_REFRESH_FREQ_MEM_PARTIAL := 0x2001000400000000
    VMMDLL_OPT_REFRESH_FREQ_TLB := 0x2001000800000000
    VMMDLL_OPT_REFRESH_FREQ_TLB_PARTIAL := 0x2001001000000000
    VMMDLL_OPT_REFRESH_FREQ_FAST := 0x2001040000000000
    VMMDLL_OPT_REFRESH_FREQ_MEDIUM := 0x2001000100000000
    VMMDLL_OPT_REFRESH_FREQ_SLOW := 0x2001001000000000
    LcGetOption := fun _ _ => none
    LcSetOption := fun H _ _ => (false, H)
    Statistics_CallGetEnabled := fun _ => false
    Statistics_CallSetEnabled := fun H _ => H
    FcInitialize := fun H _ _ => (false, H)
    VmmLog_LevelRefresh := fun H => H
    PluginManager_Notify_VERBOSITYCHANGE := fun H => H
    VmmProcRefresh_MEM := fun H => H
    VmmProcRefresh_TLB := fun H => H
    VmmProcRefresh_Fast := fun H => H
    VmmProcRefresh_Medium := fun H => H
    VmmProcRefresh_Slow := fun H => H }

/-- A handle for concrete runs: valid magic, no flag set. -/
def optHandleStd : VMM_HANDLE_OPT :=
  { magic := 0xc0ffee663df9301e, vmm_flags := 0, vmm_tpSystem := 2, vmm_tpMemoryModel := 3,
    vmm_ThreadProcCache :=
      { fEnabled := true, cMs_TickPeriod := 100, cTick_MEM := 3, cTick_TLB := 20,
        cTick_Fast := 50, cTick_Medium := 150 },
    vmm_kernel_dwVersionMajor := 10, vmm_kernel_dwVersionMinor := 0,
    vmm_kernel_dwVersionBuild := 19045, vmm_dwSystemUniqueId := 0, fc_db_tp := none,
    cfg_fVerboseDll := false, cfg_fVerbose := false, cfg_fVerboseExtra := false,
    cfg_fVerboseExtraTlp := false, dev_paMax := 0 }

/-! ## Part 8: `m_vmemd/m_vmemd.c`, the search in an ordered map
(`VMemD_Util_qfind`) -/

/-- The DWORD difference `a - b`, which wraps around below zero. -/
def sub32 (a b : Nat) : Nat :=
  if b ≤ a then a - b else 2 ^ 32 - (b - a)

/-- The loop `for(i = 1; ((cMap - 1) >> i); i++);` of `VMemD_Util_qfind`
(m_vmemd.c 66) on `x = cMap - 1`, from `i` on; `none` when the fuel runs
out. -/
def qfind_bits (x : Nat) : Nat → Nat → Option Nat
  | 0, _ => none
  | fuel + 1, i => if x >>> i ≠ 0 then qfind_bits x fuel (i + 1) else some i

/-- The loop `while(cbStep >= cbEntry)` of `VMemD_Util_qfind`
(m_vmemd.c 70-82). `pfnCmp` is given the offset of the entry in the map, in
place of the pointer `pbMap + cbSearch`. The result is `Sum.inl off` when the
loop returns the entry at `off`, `Sum.inr cbSearch` when the loop ends, and
`none` when the fuel runs out. -/
def qfind_loop (pfnCmp : Nat → Int) (cbEntry cbMap : Nat) : Nat → Nat → Nat → Option (Nat ⊕ Nat)
  | 0, _, _ => none
  | fuel + 1, cbSearch, cbStep =>
    if cbEntry ≤ cbStep then
      if pfnCmp cbSearch < 0 then
        qfind_loop pfnCmp cbEntry cbMap fuel (sub32 cbSearch cbStep) (cbStep / 2)
      else if 0 < pfnCmp cbSearch then
        if (cbSearch + cbStep) % 2 ^ 32 < cbMap then
          qfind_loop pfnCmp cbEntry cbMap fuel ((cbSearch + cbStep) % 2 ^ 32) (cbStep / 2)
        else qfind_loop pfnCmp cbEntry cbMap fuel cbSearch (cbStep / 2)
      else some (Sum.inl cbSearch)
    else some (Sum.inr cbSearch)

/-- The end of `VMemD_Util_qfind` (m_vmemd.c 83-91): the entry at `cbSearch`
and the one before it are tried; `none` is `NULL`. -/
def qfind_tail (pfnCmp : Nat → Int) (cbEntry cbMap cbSearch : Nat) : Option Nat :=
  if cbSearch < cbMap then
    if pfnCmp cbSearch = 0 then some cbSearch
    else if cbEntry ≤ cbSearch ∧ pfnCmp (cbSearch - cbEntry) = 0 then some (cbSearch - cbEntry)
    else none
  else none

/-- What `VMemD_Util_qfind` returns after its second loop: the entry the loop
returned, or what the end of the function finds at the offset the loop ended
with; `none` when the loop ran out of fuel. -/
def qfind_finish (pfnCmp : Nat → Int) (cbEntry cbMap : Nat) :
    Option (Nat ⊕ Nat) → Option (Option Nat)
  | none => none
  | some (Sum.inl off) => some (some off)
  | some (Sum.inr cbSearch) => some (qfind_tail pfnCmp cbEntry cbMap cbSearch)

/-- `VMemD_Util_qfind` (m_vmemd.c 61-93) on a map of `cMap` entries of
`cbEntry` bytes; `pfnCmp off` is `pfnCmp(pvFind, pbMap + off)`. The result is
`some (some off)` when the entry at `pbMap + off` is returned, `some none` for
`NULL`, and `none` when a loop of the model runs out of fuel (32 rounds for
the first loop, 33 for the second, which halves a DWORD in each round). -/
def VMemD_Util_qfind (pfnCmp : Nat → Int) (cMap cbEntry : Nat) : Option (Option Nat) :=
  if cMap = 0 ∨ cbEntry = 0 then some none
  else
    match qfind_bits (cMap - 1) 32 1 with
    | none => none
    | some i =>
      let cbMap := (cMap * cbEntry) % 2 ^ 32
      let cbSearch := (cbEntry * min (2 ^ (i - 1)) (cMap - 1)) % 2 ^ 32
      let cbStep := max cbEntry (cbSearch / 2)
      qfind_finish pfnCmp cbEntry cbMap (qfind_loop pfnCmp cbEntry cbMap 33 cbSearch cbStep)

/-- `VMemD_ReadVad_CmpFind` (m_vmemd.c 108-113) on the field `vaStart` of the
entry. -/
def VMemD_ReadVad_CmpFind (vaFind vaStart : Nat) : Int :=
  if vaStart > vaFind then -1
  else if vaStart < vaFind then 1
  else 0

/-- `VMemD_ReadPte_CmpFind` (m_vmemd.c 98-103) on the field `vaBase` of the
entry. -/
def VMemD_ReadPte_CmpFind (vaFind vaBase : Nat) : Int :=
  if vaBase > vaFind then -1
  else if vaBase < vaFind then 1
  else 0

/-- The comparator as `VMemD_Util_qfind` calls it on a VAD map whose entries,
of `cbEntry` bytes each, have the start addresses `vaStart`: the entry at
offset `off` is the one with index `off / cbEntry`. -/
def vadCmp (vaStart : List Nat) (cbEntry vaFind : Nat) (off : Nat) : Int :=
  VMemD_ReadVad_CmpFind vaFind (vaStart.getD (off / cbEntry) 0)

/-! ## Part 9: the allow-list as a compact array -/

/-- The allow-list is compact: the count is at most `VMM_HANDLE_MAX_COUNT`,
the entries below the count are non-NULL and pairwise distinct, and the
entries from the count up to the end of the array are NULL. -/
def Compact (s : CoreState) : Prop :=
  s.g_VMMDLL_CORE_HANDLE_COUNT ≤ VMM_HANDLE_MAX_COUNT ∧
  (∀ i, i < s.g_VMMDLL_CORE_HANDLE_COUNT → s.g_VMMDLL_CORE_HANDLES i ≠ 0) ∧
  (∀ i j, i < s.g_VMMDLL_CORE_HANDLE_COUNT → j < s.g_VMMDLL_CORE_HANDLE_COUNT →
    s.g_VMMDLL_CORE_HANDLES i = s.g_VMMDLL_CORE_HANDLES j → i = j) ∧
  (∀ i, s.g_VMMDLL_CORE_HANDLE_COUNT ≤ i → i < VMM_HANDLE_MAX_COUNT →
    s.g_VMMDLL_CORE_HANDLES i = 0)

/-- A concrete allow-list state: the three handles 0x10000, 0x20000 and
0x30000, all with valid magic. -/
def sThree (VMM_MAGIC : Nat) : CoreState :=
  { g_VMMDLL_CORE_HANDLE_COUNT := 3
    g_VMMDLL_CORE_HANDLES := fun i =>
      if i = 0 then 0x10000 else if i = 1 then 0x20000 else if i = 2 then 0x30000 else 0
    mem := fun _ => { magic := VMM_MAGIC, fAbort := false, cThreadExternal := 0,
                      cThreadInternal := 0 } }

/-! ## Part 10: `VMemD_Util_qfind` with the calls of the comparator -/

/-- The second loop of `VMemD_Util_qfind` as `qfind_loop`, together with the
offsets of the entries passed to `pfnCmp`, in the order of the calls. -/
def qfind_loopT (pfnCmp : Nat → Int) (cbEntry cbMap : Nat) :
    Nat → Nat → Nat → Option ((Nat ⊕ Nat) × List Nat)
  | 0, _, _ => none
  | fuel + 1, cbSearch, cbStep =>
    if cbEntry ≤ cbStep then
      if pfnCmp cbSearch < 0 then
        (qfind_loopT pfnCmp cbEntry cbMap fuel (sub32 cbSearch cbStep) (cbStep / 2)).map
          fun r => (r.1, cbSearch :: r.2)
      else if 0 < pfnCmp cbSearch then
        if (cbSearch + cbStep) % 2 ^ 32 < cbMap then
          (qfind_loopT pfnCmp cbEntry cbMap fuel ((cbSearch + cbStep) % 2 ^ 32)
            (cbStep / 2)).map fun r => (r.1, cbSearch :: r.2)
        else
          (qfind_loopT pfnCmp cbEntry cbMap fuel cbSearch (cbStep / 2)).map
            fun r => (r.1, cbSearch :: r.2)
      else some (Sum.inl cbSearch, [cbSearch])
    else some (Sum.inr cbSearch, [])

/-- The end of `VMemD_Util_qfind` as `qfind_tail`, together with the offsets
of the entries passed to `pfnCmp`. The second call is behind
`(cbSearch >= cbEntry) &&`. -/
def qfind_tailT (pfnCmp : Nat → Int) (cbEntry cbMap cbSearch : Nat) : Option Nat × List Nat :=
  if cbSearch < cbMap then
    if pfnCmp cbSearch = 0 then (some cbSearch, [cbSearch])
    else if cbEntry ≤ cbSearch then
      if pfnCmp (cbSearch - cbEntry) = 0 then
        (some (cbSearch - cbEntry), [cbSearch, cbSearch - cbEntry])
      else (none, [cbSearch, cbSearch - cbEntry])
    else (none, [cbSearch])
  else (none, [])

/-- The result of the function from the outcome of the second loop, with the
calls of the loop followed by the calls of the end of the function. -/
def qfind_finishT (pfnCmp : Nat → Int) (cbEntry cbMap : Nat) :
    Option ((Nat ⊕ Nat) × List Nat) → Option (Option Nat × List Nat)
  | none => none
  | some (Sum.inl off, calls) => some (some off, calls)
  | some (Sum.inr cbSearch, calls) =>
    some ((qfind_tailT pfnCmp cbEntry cbMap cbSearch).1,
      calls ++ (qfind_tailT pfnCmp cbEntry cbMap cbSearch).2)

/-- `VMemD_Util_qfind` (m_vmemd.c 61-93) as in Part 8, together with the
offsets of the entries passed to `pfnCmp`, in the order of the calls. -/
def VMemD_Util_qfindT (pfnCmp : Nat → Int) (cMap cbEntry : Nat) :
    Option (Option Nat × List Nat) :=
  if cMap = 0 ∨ cbEntry = 0 then some (none, [])
  else
    match qfind_bits (cMap - 1) 32 1 with
    | none => none
    | some i =>
      let cbMap := (cMap * cbEntry) % 2 ^ 32
      let cbSearch := (cbEntry * min (2 ^ (i - 1)) (cMap - 1)) % 2 ^ 32
      let cbStep := max cbEntry (cbSearch / 2)
      qfind_finishT pfnCmp cbEntry cbMap (qfind_loopT pfnCmp cbEntry cbMap 33 cbSearch cbStep)

/-! ## Part 11: `m_vmemd/m_vmemd.c`, reading and writing a VAD file -/

/-- The fields of `VMMDLL_MAP_VADENTRY` that `m_vmemd.c` reads: the first
address of the VAD, its last address (inclusive) and the description, a wide
string (the code units before the terminator). -/
structure VMMDLL_MAP_VADENTRY where
  vaStart : Nat
  vaEnd : Nat
  wszText : List Nat
deriving DecidableEq, Repr

/-- Subtraction of two `QWORD`s. -/
def sub64 (a b : Nat) : Nat := if b ≤ a then a - b else 2 ^ 64 - (b - a)

/-- The call into the memory API that `VMemD_ReadWriteVad` makes. -/
inductive VadMemCall where
  | VMMDLL_MemReadEx (dwPID va cb : Nat)
  | VMMDLL_MemWrite (dwPID va cb : Nat)
deriving DecidableEq, Repr

/-- What `VMemD_ReadWriteVad` calls. `VMMDLL_Map_GetVad` gives for a process
the size in bytes of its VAD map and the entries of the map, `none` when it
returns FALSE; `LocalAlloc` tells whether the allocation of that many bytes
succeeds; `VMMDLL_MemReadEx` is the return value of the read of `cb` bytes at
`va`; `sizeof_VMMDLL_MAP_VADENTRY` is the size of an entry of the map. -/
structure VadEnv where
  VMMDLL_Map_GetVad : Nat → Option (Nat × List VMMDLL_MAP_VADENTRY)
  LocalAlloc : Nat → Bool
  VMMDLL_MemReadEx : Nat → Nat → Nat → Bool
  sizeof_VMMDLL_MAP_VADENTRY : Nat

/-- The return value of `VMemD_ReadWriteVad`, the value it leaves in
`*pcbReadWrite` and the call it made into the memory API. -/
structure VadRes where
  nt : NTSTATUS
  pcbReadWrite : Nat
  call : Option VadMemCall
deriving DecidableEq, Repr

/-- `VMemD_ReadWriteVad` (m_vmemd.c 156-189). `vaBase`, `cbOffset` and the
addresses of the entries are `QWORD`s, `cb` is a `DWORD`. The outer `none` is
the search out of fuel. -/
def VMemD_ReadWriteVad (env : VadEnv) (dwPID vaBase : Nat) (fRead : Bool) (cb cbOffset : Nat) :
    Option VadRes :=
  match env.VMMDLL_Map_GetVad dwPID with
  | none => some ⟨NTSTATUS.VMMDLL_STATUS_FILE_INVALID, 0, none⟩
  | some (cbVadMap, pMap) =>
    if env.LocalAlloc cbVadMap then
      match VMemD_Util_qfind
          (vadCmp (pMap.map fun e => e.vaStart) env.sizeof_VMMDLL_MAP_VADENTRY vaBase)
          pMap.length env.sizeof_VMMDLL_MAP_VADENTRY with
      | none => none
      | some none => some ⟨NTSTATUS.VMMDLL_STATUS_FILE_INVALID, 0, none⟩
      | some (some off) =>
        let pe := pMap.getD (off / env.sizeof_VMMDLL_MAP_VADENTRY) ⟨0, 0, []⟩
        let va := (vaBase + cbOffset) % 2 ^ 64
        if pe.vaEnd ≤ va then some ⟨NTSTATUS.VMMDLL_STATUS_END_OF_FILE, 0, none⟩
        else
          let cbMax := sub64 (min ((pe.vaEnd + 1) % 2 ^ 64) ((vaBase + cb + cbOffset) % 2 ^ 64)) va
          let cbIo := (min cb cbMax) % 2 ^ 32
          if fRead then
            let result := env.VMMDLL_MemReadEx dwPID va cbIo
            some ⟨if result ∧ cbIo ≠ 0 then NTSTATUS.VMMDLL_STATUS_SUCCESS
                  else NTSTATUS.VMMDLL_STATUS_END_OF_FILE,
                  cbIo, some (VadMemCall.VMMDLL_MemReadEx dwPID va cbIo)⟩
          else
            some ⟨NTSTATUS.VMMDLL_STATUS_SUCCESS, cb,
                  some (VadMemCall.VMMDLL_MemWrite dwPID va cbIo)⟩
    else some ⟨NTSTATUS.VMMDLL_STATUS_FILE_INVALID, 0, none⟩

/-- A process with one VAD, `[0x10000, 0x10fff]`, listed as a file of 0x1000
bytes; every allocation and every read of memory succeeds. -/
def vadEnvOne : VadEnv :=
  { VMMDLL_Map_GetVad := fun _ => some (64, [⟨0x10000, 0x10fff, []⟩])
    LocalAlloc := fun _ => true
    VMMDLL_MemReadEx := fun _ _ _ => true
    sizeof_VMMDLL_MAP_VADENTRY := 48 }

/-! ## Part 12: `vmm/m_ldrmodules.c`, the data directory files -/

/-- `IMAGE_DATA_DIRECTORY` of the PE headers. -/
structure IMAGE_DATA_DIRECTORY where
  VirtualAddress : Nat
  Size : Nat
deriving DecidableEq, Repr

/-- A call of `VmmWriteAsFile` or `VmmReadAsFile` from a data directory
helper: the index `i` of the loop at which it is made, and the arguments
`vaBase + Directory[i].VirtualAddress`, `Directory[i].Size`, `cb`, `cbOffset`. -/
inductive LdrCall where
  | VmmWriteAsFile (i va cbFile cb cbOffset : Nat)
  | VmmReadAsFile (i va cbFile cb cbOffset : Nat)
deriving DecidableEq, Repr

/-- What the data directory helpers use from other files.
`PE_DirectoryGetAll` (pe.c) gives the data directories of the module at
`vaBase` in a process, `none` when it returns FALSE; `PE_DATA_DIRECTORIES` is
the table of directory names of pe.h and `IMAGE_NUMBEROF_DIRECTORY_ENTRIES`
the constant of the PE headers; `VmmWriteAsFile` gives the value left in
`*pcbWrite`, `VmmReadAsFile` its return value. -/
structure LdrEnv where
  PE_DirectoryGetAll : Nat → Nat → Option (Nat → IMAGE_DATA_DIRECTORY)
  PE_DATA_DIRECTORIES : Nat → CStr
  IMAGE_NUMBEROF_DIRECTORY_ENTRIES : Nat
  VmmWriteAsFile : Nat → Nat → Nat → Nat → Nat → Nat
  VmmReadAsFile : Nat → Nat → Nat → Nat → Nat → NTSTATUS

/-- One round of the loop of `LdrModules_Write_DirectoriesD`; the state is
`*pcbWrite` and the calls made so far. -/
def LdrModules_Write_DirectoriesD_round (env : LdrEnv) (pProcess vaBase : Nat)
    (Directory : Nat → IMAGE_DATA_DIRECTORY) (uszDirectory : CStr) (cb cbOffset : Nat)
    (acc : Nat × List LdrCall) (i : Nat) : Nat × List LdrCall :=
  if strnicmpEq (env.PE_DATA_DIRECTORIES i) uszDirectory 0 then
    let va := (vaBase + (Directory i).VirtualAddress) % 2 ^ 64
    (env.VmmWriteAsFile pProcess va (Directory i).Size cb cbOffset,
      acc.2 ++ [LdrCall.VmmWriteAsFile i va (Directory i).Size cb cbOffset])
  else acc

/-- `LdrModules_Write_DirectoriesD` (m_ldrmodules.c 218-230): the value left
in `*pcbWrite` and the calls of `VmmWriteAsFile`, first to last. -/
def LdrModules_Write_DirectoriesD (env : LdrEnv) (pProcess vaBase : Nat)
    (uszDirectory : CStr) (cb cbOffset : Nat) : Nat × List LdrCall :=
  match env.PE_DirectoryGetAll pProcess vaBase with
  | some Directory =>
    (List.range env.IMAGE_NUMBEROF_DIRECTORY_ENTRIES).foldl
      (LdrModules_Write_DirectoriesD_round env pProcess vaBase Directory uszDirectory cb cbOffset)
      (0, [])
  | none => (0, [])

/-- `LdrModules_Read_DirectoriesD` (m_ldrmodules.c 279-291): the return value
and the call of `VmmReadAsFile`, if one is made. -/
def LdrModules_Read_DirectoriesD (env : LdrEnv) (pProcess vaBase : Nat)
    (uszDirectory : CStr) (cb cbOffset : Nat) : NTSTATUS × List LdrCall :=
  match env.PE_DirectoryGetAll pProcess vaBase with
  | some Directory =>
    match (List.range 16).find? fun i => stricmpEq uszDirectory (env.PE_DATA_DIRECTORIES i) with
    | some i =>
      let va := (vaBase + (Directory i).VirtualAddress) % 2 ^ 64
      (env.VmmReadAsFile pProcess va (Directory i).Size cb cbOffset,
        [LdrCall.VmmReadAsFile i va (Directory i).Size cb cbOffset])
    | none => (NTSTATUS.VMMDLL_STATUS_FILE_INVALID, [])
  | none => (NTSTATUS.VMMDLL_STATUS_FILE_INVALID, [])

/-- A module at 0x400000 with the sixteen data directories of a PE image,
named as in the listing of the plugin, the directory `i` at the offset
`0x1000 * (i + 1)` with 0x100 bytes. -/
def ldrEnvStd : LdrEnv :=
  { PE_DirectoryGetAll := fun _ _ => some fun i => ⟨0x1000 * (i + 1), 0x100⟩
    PE_DATA_DIRECTORIES := fun i =>
      (["EXPORT", "IMPORT", "RESOURCE", "EXCEPTION", "SECURITY", "BASERELOC", "DEBUG",
        "ARCHITECTURE", "GLOBALPTR", "TLS", "LOAD_CONFIG", "BOUND_IMPORT", "IAT",
        "DELAY_IMPORT", "COM_DESCRIPTOR", "RESERVED"].getD i "").toList
    IMAGE_NUMBEROF_DIRECTORY_ENTRIES := 16
    VmmWriteAsFile := fun _ _ _ cb _ => cb
    VmmReadAsFile := fun _ _ _ _ _ => NTSTATUS.VMMDLL_STATUS_SUCCESS }

/-! ## Part 13: `vmm/vmmdll_core.c`, the order of the sub-system calls -/

/-- The functions of other files that `VmmDllCore_Initialize` and
`VmmDllCore_CloseHandle` call on a handle, and the calls into the handle
layer. -/
inductive SubCall where
  | VmmDllCore_InitializeConfig
  | VmmDllCore_PrintHelp
  | VmmDllCore_HandleAdd
  | LcCreateEx
  | VmmLog_LevelRefresh
  | LcCommand_MEMMAP_SET
  | VmmWork_Initialize
  | VmmProcInitialize
  | VmmDllCore_InitializeMemMapAuto
  | FcInitialize
  | VmmDllCore_HandleRemove
  | VmmWork_Interrupt
  | FcInterrupt
  | VmmLog
  | FcClose
  | VmmClose
  | LcClose
  | VmmWork_Close
  | VmmDllCore_MemLeakFindExternal
  | Statistics_CallSetEnabled
  | VmmLog_Close
  | LocalFree
deriving DecidableEq, Repr

/-- The calls of one wait loop of `VmmDllCore_CloseHandle` that runs into
`cTimeout` waits of more than 30 seconds: each one logs and interrupts
again. -/
def closeWaitCalls : Nat → List SubCall
  | 0 => []
  | cTimeout + 1 =>
    [SubCall.VmmLog, SubCall.VmmWork_Interrupt, SubCall.FcInterrupt] ++ closeWaitCalls cTimeout

/-- The calls of `VmmDllCore_CloseHandle` (vmmdll_core.c 126-176) on the
handle `H`, first to last. `cTimeoutExternal` and `cTimeoutInternal` are the
numbers of waits of more than 30 seconds in the two wait loops. -/
def VmmDllCore_CloseHandle_calls (H cTimeoutExternal cTimeoutInternal : Nat) : List SubCall :=
  if H ≠ 0 then
    [SubCall.VmmDllCore_HandleRemove, SubCall.VmmWork_Interrupt, SubCall.FcInterrupt] ++
    closeWaitCalls cTimeoutExternal ++
    closeWaitCalls cTimeoutInternal ++
    [SubCall.FcClose, SubCall.VmmClose, SubCall.LcClose, SubCall.VmmWork_Close,
     SubCall.VmmDllCore_MemLeakFindExternal, SubCall.Statistics_CallSetEnabled,
     SubCall.VmmLog_Close, SubCall.LocalFree]
  else []

/-- What decides the path of `VmmDllCore_Initialize`: the handle `LocalAlloc`
returns (0 for `NULL`), the return values of the functions it calls, and the
configuration set from the command line (`fMemMapFile` for a `-memmap` other
than `auto`, `fMemMapAuto` for `-memmap auto`, `fMemMapStr` for `-memmap-str`,
`tpForensicMode` for `-forensic`). `fUserInputRequest` is the `_WIN32`
condition under which a failed `LcCreateEx` hands over to
`VmmDllCore_InitializeRequestUserInput`. -/
structure InitEnv where
  ObMap_New : Bool
  LocalAlloc : Nat
  VmmDllCore_InitializeConfig : Bool
  VmmDllCore_HandleAdd : Bool
  LcCreateEx : Bool
  fUserInputRequest : Bool
  fMemMapFile : Bool
  fMemMapFileLoaded : Bool
  fMemMapStr : Bool
  LcCommand_MEMMAP_SET : Bool
  VmmWork_Initialize : Bool
  VmmProcInitialize : Bool
  fMemMapAuto : Bool
  VmmDllCore_InitializeMemMapAuto : Bool
  tpForensicMode : Nat
  FcInitialize : Bool
  cTimeoutExternal : Nat
  cTimeoutInternal : Nat

/-- How `VmmDllCore_Initialize` returns. -/
inductive InitOutcome where
  | handle (H : Nat)
  | null
  | requestUserInput
deriving DecidableEq, Repr

/-- The label `fail:` of `VmmDllCore_Initialize`: `VmmDllCore_CloseHandle(H)`
after the calls made so far, and `NULL`. -/
def VmmDllCore_Initialize_fail (env : InitEnv) (H : Nat) (calls : List SubCall) :
    InitOutcome × List SubCall :=
  (InitOutcome.null,
    calls ++ VmmDllCore_CloseHandle_calls H env.cTimeoutExternal env.cTimeoutInternal)

/-- Steps 5 to 8 of `VmmDllCore_Initialize` (vmmdll_core.c 617-643). -/
def VmmDllCore_Initialize_late (env : InitEnv) (H : Nat) (calls : List SubCall) :
    InitOutcome × List SubCall :=
  let c5 := calls ++ [SubCall.VmmWork_Initialize]
  if !env.VmmWork_Initialize then VmmDllCore_Initialize_fail env H c5
  else
    let c6 := c5 ++ [SubCall.VmmProcInitialize]
    if !env.VmmProcInitialize then VmmDllCore_Initialize_fail env H c6
    else
      let c7 := if env.fMemMapAuto then c6 ++ [SubCall.VmmDllCore_InitializeMemMapAuto] else c6
      if env.fMemMapAuto && !env.VmmDllCore_InitializeMemMapAuto then
        VmmDllCore_Initialize_fail env H c7
      else if env.tpForensicMode ≠ 0 then
        let c8 := c7 ++ [SubCall.FcInitialize]
        if !env.FcInitialize then VmmDllCore_Initialize_fail env H c8
        else (InitOutcome.handle H, c8)
      else (InitOutcome.handle H, c7)

/-- `VmmDllCore_Initialize` (vmmdll_core.c 537-652): how it returns and the
calls it makes, first to last. The memory map of step 4 is loaded from a file
with the C library and set with `LcCommand`; only the `LcCommand` of
`-memmap-str` is a call of its own here. -/
def VmmDllCore_Initialize (env : InitEnv) : InitOutcome × List SubCall :=
  if !env.ObMap_New then VmmDllCore_Initialize_fail env 0 []
  else if env.LocalAlloc = 0 then VmmDllCore_Initialize_fail env 0 []
  else
    let H := env.LocalAlloc
    let c1 := [SubCall.VmmDllCore_InitializeConfig]
    if !env.VmmDllCore_InitializeConfig then
      VmmDllCore_Initialize_fail env H (c1 ++ [SubCall.VmmDllCore_PrintHelp])
    else
      let c9 := c1 ++ [SubCall.VmmDllCore_HandleAdd]
      if !env.VmmDllCore_HandleAdd then VmmDllCore_Initialize_fail env H c9
      else
        let c2 := c9 ++ [SubCall.LcCreateEx]
        if !env.LcCreateEx then
          if env.fUserInputRequest then (InitOutcome.requestUserInput, c2)
          else VmmDllCore_Initialize_fail env H c2
        else
          let c3 := c2 ++ [SubCall.VmmLog_LevelRefresh]
          if env.fMemMapFile && !env.fMemMapFileLoaded then VmmDllCore_Initialize_fail env H c3
          else
            let c4 := if env.fMemMapStr then c3 ++ [SubCall.LcCommand_MEMMAP_SET] else c3
            if env.fMemMapStr && !env.LcCommand_MEMMAP_SET then
              VmmDllCore_Initialize_fail env H c4
            else VmmDllCore_Initialize_late env H c4

/-- The sub-systems of a handle that the lifecycle names. -/
inductive SubSystem where
  | LeechCore
  | WorkPool
  | Vmm
  | Forensic
deriving DecidableEq, Repr

/-- The sub-system a call brings up, if it brings one up. -/
def SubCall.bringsUp : SubCall → Option SubSystem
  | .LcCreateEx => some SubSystem.LeechCore
  | .VmmWork_Initialize => some SubSystem.WorkPool
  | .VmmProcInitialize => some SubSystem.Vmm
  | .FcInitialize => some SubSystem.Forensic
  | _ => none

/-- The sub-system a call tears down, if it tears one down. -/
def SubCall.tearsDown : SubCall → Option SubSystem
  | .FcClose => some SubSystem.Forensic
  | .VmmClose => some SubSystem.Vmm
  | .LcClose => some SubSystem.LeechCore
  | .VmmWork_Close => some SubSystem.WorkPool
  | _ => none

/-- An initialisation in forensic mode in which every step succeeds; the
handle is at 0x10000. -/
def initEnvForensic : InitEnv :=
  { ObMap_New := true, LocalAlloc := 0x10000, VmmDllCore_InitializeConfig := true,
    VmmDllCore_HandleAdd := true, LcCreateEx := true, fUserInputRequest := false,
    fMemMapFile := false, fMemMapFileLoaded := false, fMemMapStr := false,
    LcCommand_MEMMAP_SET := false, VmmWork_Initialize := true, VmmProcInitialize := true,
    fMemMapAuto := false, VmmDllCore_InitializeMemMapAuto := false, tpForensicMode := 1,
    FcInitialize := true, cTimeoutExternal := 0, cTimeoutInternal := 0 }

/-! ## Part 14: the command line, what the specification says of it -/

/-- The argument list `VmmDllCore_InitializeConfig` works on: for the
click-to-open form (two arguments, the second not empty and not starting with
`-`) the list `argv[0]`, `-device`, `argv[1]` of its recursive call, else
`argv`. -/
def clickToOpen (argv : List CStr) : List CStr :=
  match argv with
  | [a0, a1] =>
    if a1 ≠ [] ∧ a1.head? ≠ some '-' then [a0, "-device".toList, a1] else argv
  | _ => argv

/-- The options that take no value, as the specification lists them; the
empty string stands with them. -/
def flagOptions : List String :=
  ["", "-printf", "-userinteract", "-v", "-vv", "-vvv", "-disable-symbolserver",
   "-disable-symbols", "-disable-infodb", "-disable-python", "-norefresh", "-waitinitialize"]

/-- The options that take a value and are compared in full without regard to
case, as the specification lists them. -/
def valueOptions : List String :=
  ["-cr3", "-forensic", "-max", "-device", "-remote", "-memmap", "-memmap-str",
   "-pythonpath", "-mount", "-logfile", "-loglevel"]

/-- From the specification: the argument is the empty string or a recognised
option without a value. -/
def isFlagOption (a : CStr) : Bool :=
  flagOptions.any fun o => stricmpEq a o.toList

/-- From the specification: the argument is a recognised option with a value:
one of `valueOptions`, `-z` (case-sensitive), or an argument that starts with
`-pagefile`. -/
def isValueOption (a : CStr) : Bool :=
  (valueOptions.any fun o => stricmpEq a o.toList) || a == "-z".toList ||
    strnicmpEq a "-pagefile".toList 9

/-- From the specification: walking the arguments from `argv[0]`, an option
without a value is followed by the next option, an option with a value by the
option after its value; the list is rejected when an argument in option
position is neither the empty string nor a recognised option, or when an
option with a value is the last argument. -/
def rejectedArgs : List CStr → Bool
  | [] => false
  | [a] => !isFlagOption a
  | a :: v :: rest =>
    if isFlagOption a then rejectedArgs (v :: rest)
    else if isValueOption a then rejectedArgs rest
    else true

/-- From the specification: `-printf` stands in option position. -/
def printfGiven : List CStr → Bool
  | [] => false
  | [a] => stricmpEq a "-printf".toList
  | a :: v :: rest =>
    stricmpEq a "-printf".toList ||
      (if isFlagOption a then printfGiven (v :: rest) else printfGiven rest)

/-! ## Part 15: `vmm/vmmdll.c`, `VMMDLL_ProcessGetInformation_Impl` -/

/-- The fields of the member `win` of `VMMDLL_PROCESS_INFORMATION` (vmmdll.h)
that `VMMDLL_ProcessGetInformation_Impl` writes. -/
structure VMMDLL_PROCESS_INFORMATION_WIN where
  vaEPROCESS : Nat
  vaPEB : Nat
  fWow64 : Bool
  vaPEB32 : Nat
  dwSessionId : Nat
  qwLUID : Nat
  szSID : CStr
  IntegrityLevel : Nat
deriving DecidableEq, Repr

/-- The fields of `VMMDLL_PROCESS_INFORMATION` (vmmdll.h) that
`VMMDLL_ProcessGetInformation_Impl` reads or writes. -/
structure VMMDLL_PROCESS_INFORMATION where
  magic : Nat
  wVersion : Nat
  wSize : Nat
  tpMemoryModel : Nat
  tpSystem : Nat
  fUserOnly : Bool
  dwPID : Nat
  dwPPID : Nat
  dwState : Nat
  szName : CStr
  szNameLong : CStr
  paDTB : Nat
  paDTB_UserOpt : Nat
  win : VMMDLL_PROCESS_INFORMATION_WIN
deriving DecidableEq, Repr

/-- The fields of `VMM_PROCESS` (vmm.h) that
`VMMDLL_ProcessGetInformation_Impl` reads; `szSID` is `none` for a `NULL`
`win.TOKEN.szSID`. -/
structure VMM_PROCESS_INFO where
  fUserOnly : Bool
  dwPPID : Nat
  dwState : Nat
  paDTB : Nat
  paDTB_UserOpt : Nat
  szName : CStr
  uszNameLong : CStr
  fWow64 : Bool
  vaPEB32 : Nat
  vaEPROCESS : Nat
  vaPEB : Nat
  qwLUID : Nat
  dwSessionId : Nat
  szSID : Option CStr
  IntegrityLevel : Nat

/-- What `VMMDLL_ProcessGetInformation_Impl` takes from the handle and from
the headers: `H->vmm.tpMemoryModel`, `H->vmm.tpSystem`, `VmmProcessGetEx`
(the process of a PID, `none` for `NULL`), the constants of vmmdll.h and
vmm.h, the sizes of the structure, of the constant
`VMMDLL_PROCESS_INFORMATION_MAGIC` and of two string fields, and
`ZeroMemory`: the structure after its first `cb` bytes are cleared. -/
structure ProcInfoEnv where
  tpMemoryModel : Nat
  tpSystem : Nat
  VmmProcessGetEx : Nat → Option VMM_PROCESS_INFO
  VMMDLL_PROCESS_INFORMATION_MAGIC : Nat
  VMMDLL_PROCESS_INFORMATION_VERSION : Nat
  VMM_SYSTEM_WINDOWS_X64 : Nat
  VMM_SYSTEM_WINDOWS_X86 : Nat
  sizeof_VMMDLL_PROCESS_INFORMATION : Nat
  sizeof_VMMDLL_PROCESS_INFORMATION_MAGIC : Nat
  sizeof_szNameLong : Nat
  sizeof_szSID : Nat
  ZeroMemory : VMMDLL_PROCESS_INFORMATION → Nat → VMMDLL_PROCESS_INFORMATION

/-- `strncpy_s(dst, size, src, _TRUNCATE)`: the text left in `dst`. -/
def strncpy_s_TRUNCATE (size : Nat) (src : CStr) : CStr := src.take (size - 1)

/-- The operating system specific part of `VMMDLL_ProcessGetInformation_Impl`
(vmmdll.c 1891-1905). -/
def ProcessGetInformation_win (env : ProcInfoEnv) (p : VMM_PROCESS_INFO)
    (win : VMMDLL_PROCESS_INFORMATION_WIN) : VMMDLL_PROCESS_INFORMATION_WIN :=
  if env.tpSystem = env.VMM_SYSTEM_WINDOWS_X64 ∨ env.tpSystem = env.VMM_SYSTEM_WINDOWS_X86 then
    let w1 :=
      if env.tpSystem = env.VMM_SYSTEM_WINDOWS_X64 then
        { win with fWow64 := p.fWow64, vaPEB32 := p.vaPEB32 }
      else win
    let w2 := { w1 with
      vaEPROCESS := p.vaEPROCESS, vaPEB := p.vaPEB, qwLUID := p.qwLUID,
      dwSessionId := p.dwSessionId }
    let w3 :=
      match p.szSID with
      | some szSID => { w2 with szSID := strncpy_s_TRUNCATE env.sizeof_szSID szSID }
      | none => w2
    { w3 with IntegrityLevel := p.IntegrityLevel }
  else win

/-- `VMMDLL_ProcessGetInformation_Impl` (vmmdll.c 1863-1908). `pInfo` and
`pcbProcessInfo` are `none` for `NULL`, else what they point to; the result
is the return value and what they point to afterwards. -/
def VMMDLL_ProcessGetInformation_Impl (env : ProcInfoEnv) (dwPID : Nat)
    (pInfo : Option VMMDLL_PROCESS_INFORMATION) (pcbProcessInfo : Option Nat) :
    Bool × Option VMMDLL_PROCESS_INFORMATION × Option Nat :=
  match pcbProcessInfo with
  | none => (false, pInfo, none)
  | some cb =>
    match pInfo with
    | none => (true, none, some env.sizeof_VMMDLL_PROCESS_INFORMATION)
    | some info =>
      if cb < env.sizeof_VMMDLL_PROCESS_INFORMATION then (false, pInfo, pcbProcessInfo)
      else if info.magic ≠ env.VMMDLL_PROCESS_INFORMATION_MAGIC then
        (false, pInfo, pcbProcessInfo)
      else if info.wVersion ≠ env.VMMDLL_PROCESS_INFORMATION_VERSION then
        (false, pInfo, pcbProcessInfo)
      else
        match env.VmmProcessGetEx dwPID with
        | none => (false, pInfo, pcbProcessInfo)
        | some p =>
          let z := env.ZeroMemory info env.sizeof_VMMDLL_PROCESS_INFORMATION_MAGIC
          let g : VMMDLL_PROCESS_INFORMATION :=
            { z with
              magic := env.VMMDLL_PROCESS_INFORMATION_MAGIC
              wVersion := env.VMMDLL_PROCESS_INFORMATION_VERSION
              wSize := env.sizeof_VMMDLL_PROCESS_INFORMATION
              tpMemoryModel := env.tpMemoryModel
              tpSystem := env.tpSystem
              fUserOnly := p.fUserOnly
              dwPID := dwPID
              dwPPID := p.dwPPID
              dwState := p.dwState
              paDTB := p.paDTB
              paDTB_UserOpt := p.paDTB_UserOpt
              szName := p.szName
              szNameLong := strncpy_s_TRUNCATE env.sizeof_szNameLong p.uszNameLong }
          (true, some { g with win := ProcessGetInformation_win env p g.win }, pcbProcessInfo)

/-- A process for concrete runs. -/
def procInfoOne : VMM_PROCESS_INFO :=
  { fUserOnly := true, dwPPID := 4, dwState := 0, paDTB := 0x1aa000, paDTB_UserOpt := 0,
    szName := "init".toList, uszNameLong := "init".toList, fWow64 := false, vaPEB32 := 0,
    vaEPROCESS := 0, vaPEB := 0, qwLUID := 0, dwSessionId := 0, szSID := none,
    IntegrityLevel := 0 }

/-- Stand-ins for concrete runs on a system that is not Windows: the
constants with the values of vmmdll.h and vmm.h, the magic constant a 64-bit
integer of 8 bytes, and a `ZeroMemory` that clears the field `magic`, the
first 8 bytes of the structure, when `cb` is 8 or more and all fields when
`cb` is the size of the structure. -/
def procInfoEnvStd : ProcInfoEnv :=
  { tpMemoryModel := 3
    tpSystem := 1
    VmmProcessGetEx := fun dwPID => if dwPID = 1 then some procInfoOne else none
    VMMDLL_PROCESS_INFORMATION_MAGIC := 0xc0ffee663df9301e
    VMMDLL_PROCESS_INFORMATION_VERSION := 7
    VMM_SYSTEM_WINDOWS_X64 := 2
    VMM_SYSTEM_WINDOWS_X86 := 4
    sizeof_VMMDLL_PROCESS_INFORMATION := 440
    sizeof_VMMDLL_PROCESS_INFORMATION_MAGIC := 8
    sizeof_szNameLong := 64
    sizeof_szSID := 260
    ZeroMemory := fun info cb =>
      if 440 ≤ cb then
        { magic := 0, wVersion := 0, wSize := 0, tpMemoryModel := 0, tpSystem := 0,
          fUserOnly := false, dwPID := 0, dwPPID := 0, dwState := 0, szName := [],
          szNameLong := [], paDTB := 0, paDTB_UserOpt := 0,
          win := { vaEPROCESS := 0, vaPEB := 0, fWow64 := false, vaPEB32 := 0,
                   dwSessionId := 0, qwLUID := 0, szSID := [], IntegrityLevel := 0 } }
      else if 8 ≤ cb then { info with magic := 0 }
      else info }

/-- A caller buffer with valid `magic` and `wVersion` and the given text in
`win.szSID`, every other field zero. -/
def procInfoBuffer (szSID : CStr) : VMMDLL_PROCESS_INFORMATION :=
  { magic := 0xc0ffee663df9301e, wVersion := 7, wSize := 0, tpMemoryModel := 0, tpSystem := 0,
    fUserOnly := false, dwPID := 0, dwPPID := 0, dwState := 0, szName := [],
    szNameLong := [], paDTB := 0, paDTB_UserOpt := 0,
    win := { vaEPROCESS := 0, vaPEB := 0, fWow64 := false, vaPEB32 := 0,
             dwSessionId := 0, qwLUID := 0, szSID := szSID, IntegrityLevel := 0 } }

/-! ## Part 16: `m_vmemd/m_vmemd.c`, the file names -/

/-- `UTIL_ASCIIFILENAME_ALLOW` (m_vmemd.c 13-17). -/
def UTIL_ASCIIFILENAME_ALLOW : String :=
  "0000000000000000000000000000000011011111111111101111111111010100" ++
  "1111111111111111111111111111011111111111111111111111111111110111" ++
  "0000000000000000000000000000000000000000000000000000000000000000" ++
  "0000000000000000000000000000000000000000000000000000000000000000"

/-- `strstr(haystack, needle) != NULL`. -/
def strstr (haystack needle : CStr) : Bool :=
  haystack.tails.any fun t => needle.isPrefixOf t

/-- The value of a hexadecimal digit, `none` for another character. -/
def hexDigit (c : Char) : Option Nat :=
  if '0' ≤ c ∧ c ≤ '9' then some (c.toNat - 48)
  else if 'a' ≤ c ∧ c ≤ 'f' then some (c.toNat - 87)
  else if 'A' ≤ c ∧ c ≤ 'F' then some (c.toNat - 55)
  else none

/-- `strtoull(usz, NULL, 16)` on a string that starts with `0`: the prefix
`0x` is skipped when a hexadecimal digit follows it, the digits up to the
first other character are read, and a value too large for a `QWORD` gives
`ULLONG_MAX`. -/
def strtoull16 (usz : CStr) : Nat :=
  let s :=
    match usz with
    | '0' :: x :: d :: rest =>
      if (x = 'x' ∨ x = 'X') ∧ (hexDigit d).isSome then d :: rest else usz
    | _ => usz
  let v := (s.takeWhile fun c => (hexDigit c).isSome).foldl
    (fun n c => 16 * n + (hexDigit c).getD 0) 0
  if v < 2 ^ 64 then v else 2 ^ 64 - 1

/-- `VMemD_GetBaseAndTypeFromFileName` (m_vmemd.c 25-31): `none` for FALSE,
else `*pva` and `*pfVad`. -/
def VMemD_GetBaseAndTypeFromFileName (usz : CStr) : Option (Nat × Bool) :=
  if usz.length < 15 ∨ usz.getD 0 (Char.ofNat 0) ≠ '0' ∨ usz.getD 1 (Char.ofNat 0) ≠ 'x' then none
  else some (strtoull16 usz, strstr usz ".vvmem".toList)

/-- The first loop of `VMemD_Util_FileNameU` (m_vmemd.c 37-48) on the wide
string at `wsz` and the index `i`: the string `wsz` points to when the loop
ends. A code unit past the end of the list is the terminator. -/
def VMemD_Util_FileNameU_scan : Nat → List Nat → Nat → Option (List Nat)
  | 0, _, _ => none
  | fuel + 1, wsz, i =>
    if wsz.getD i 0 ≠ 0 then
      if wsz.getD i 0 = 92 then VMemD_Util_FileNameU_scan fuel (wsz.drop (i + 1)) 0
      else if i = 62 then VMemD_Util_FileNameU_scan fuel (wsz.drop 1) i
      else VMemD_Util_FileNameU_scan fuel wsz (i + 1)
    else some wsz

/-- The character the second loop of `VMemD_Util_FileNameU` stores for the
code unit `ch` (m_vmemd.c 51), as a byte. -/
def VMemD_Util_FileNameU_char (ch : Nat) : Nat :=
  if ch < 128 ∧ UTIL_ASCIIFILENAME_ALLOW.toList.getD ch '0' = '0' then 95 else ch % 256

/-- `VMemD_Util_FileNameU` (m_vmemd.c 33-55): the string left in `uszOut`,
up to its first zero byte. The first loop takes two rounds per code unit at
most. -/
def VMemD_Util_FileNameU (wsz : List Nat) : Option CStr :=
  match VMemD_Util_FileNameU_scan (2 * wsz.length + 1) wsz 0 with
  | none => none
  | some w =>
    some ((((w.takeWhile fun ch => ch ≠ 0).map VMemD_Util_FileNameU_char).takeWhile
      fun b => b ≠ 0).map Char.ofNat)

/-- The memory models of vmmdll.h. -/
inductive VMMDLL_MEMORYMODEL_TP where
  | VMMDLL_MEMORYMODEL_NA
  | VMMDLL_MEMORYMODEL_X86
  | VMMDLL_MEMORYMODEL_X86PAE
  | VMMDLL_MEMORYMODEL_X64
deriving DecidableEq, Repr

/-- The conversions `%016llx` and `%08lx` of `swprintf_s`: `v` in lower-case
hexadecimal, filled with zeros to `width` characters. -/
def fmt_0x (width v : Nat) : CStr :=
  List.replicate (width - (Nat.toDigits 16 v).length) '0' ++ Nat.toDigits 16 v

/-- The file name `VMemD_List` writes into `wszBufferFileName` for an entry
at `va` with the description `uszInfo` and the extension `ext` (`.vvmem` or
`.vmem`), as the narrow string the file system hands back; under a memory
model that is none of the three the buffer keeps the name `buf` it held. -/
def VMemD_List_name (tp : VMMDLL_MEMORYMODEL_TP) (va : Nat) (uszInfo ext buf : CStr) : CStr :=
  match tp with
  | .VMMDLL_MEMORYMODEL_X64 =>
    "0x".toList ++ fmt_0x 16 (va % 2 ^ 64) ++ (if uszInfo ≠ [] then "-".toList else []) ++
      uszInfo ++ ext
  | .VMMDLL_MEMORYMODEL_X86 | .VMMDLL_MEMORYMODEL_X86PAE =>
    "0x".toList ++ fmt_0x 8 (va % 2 ^ 32) ++ (if uszInfo ≠ [] then "-".toList else []) ++
      uszInfo ++ ext
  | .VMMDLL_MEMORYMODEL_NA => buf

/-- The fields of `VMMDLL_MAP_PTEENTRY` that `m_vmemd.c` reads. -/
structure VMMDLL_MAP_PTEENTRY where
  vaBase : Nat
  cPages : Nat
  wszText : List Nat
deriving DecidableEq, Repr

/-- A call of `VMMDLL_VfsList_AddFileW`: the name and the size of the file. -/
structure VMemDFile where
  name : CStr
  cb : Nat
deriving DecidableEq, Repr

/-- The first loop of `VMemD_List` (m_vmemd.c 262-285), over the VAD map:
the files it adds. -/
def VMemD_List_vad (tp : VMMDLL_MEMORYMODEL_TP) :
    List VMMDLL_MAP_VADENTRY → CStr → Option (List VMemDFile × CStr)
  | [], buf => some ([], buf)
  | pVad :: rest, buf =>
    match VMemD_Util_FileNameU pVad.wszText with
    | none => none
    | some uszInfo =>
      let name := VMemD_List_name tp pVad.vaStart uszInfo ".vvmem".toList buf
      match VMemD_List_vad tp rest name with
      | none => none
      | some r => some (⟨name, sub64 ((pVad.vaEnd + 1) % 2 ^ 64) pVad.vaStart⟩ :: r.1, r.2)

/-- The second loop of `VMemD_List` (m_vmemd.c 287-312), over the PTE map:
the files it adds. `cur` is the VAD map from `iVad` on, `none` without a VAD
map; an entry whose base address lies in a VAD is passed over. -/
def VMemD_List_pte (tp : VMMDLL_MEMORYMODEL_TP) :
    List VMMDLL_MAP_PTEENTRY → Option (List VMMDLL_MAP_VADENTRY) → CStr →
      Option (List VMemDFile)
  | [], _, _ => some []
  | pPte :: rest, cur, buf =>
    let cur1 := cur.map fun l => l.dropWhile fun v => v.vaEnd < pPte.vaBase
    let fInVad :=
      match cur1 with
      | some (v :: _) => decide (v.vaStart ≤ pPte.vaBase ∧ v.vaEnd ≥ pPte.vaBase)
      | _ => false
    if fInVad then VMemD_List_pte tp rest cur1 buf
    else
      match VMemD_Util_FileNameU pPte.wszText with
      | none => none
      | some uszInfo =>
        let name := VMemD_List_name tp pPte.vaBase uszInfo ".vmem".toList buf
        match VMemD_List_pte tp rest cur1 name with
        | none => none
        | some r => some (⟨name, (pPte.cPages * 2 ^ 12) % 2 ^ 64⟩ :: r)

/-- `VMemD_List` (m_vmemd.c 239-317) under the memory model `tp`: the return
value and the files added, the files of the VAD map and then the files of the
PTE map. `pPteMap` is `none` when the PTE map cannot be retrieved, `pVadMap`
when the VAD map cannot. -/
def VMemD_List (tp : VMMDLL_MEMORYMODEL_TP) (pPteMap : Option (List VMMDLL_MAP_PTEENTRY))
    (pVadMap : Option (List VMMDLL_MAP_VADENTRY)) : Option (Bool × List VMemDFile) :=
  match pPteMap with
  | none => some (false, [])
  | some ptes =>
    match VMemD_List_vad tp (pVadMap.getD []) [] with
    | none => none
    | some (vadFiles, buf) =>
      match VMemD_List_pte tp ptes pVadMap buf with
      | none => none
      | some pteFiles => some (true, vadFiles ++ pteFiles)

/-- The code units of a text. -/
def wide (s : String) : List Nat := s.toList.map Char.toNat

/-! ## Part 17: `vmm/oscompatibility.c`, the SID conversions -/

/-- `_byteswap_uint64`: the eight bytes of a `QWORD` in reverse order. -/
def _byteswap_uint64 (v : Nat) : Nat :=
  (v % 256) * 256 ^ 7 + (v / 256 % 256) * 256 ^ 6 + (v / 256 ^ 2 % 256) * 256 ^ 5 +
  (v / 256 ^ 3 % 256) * 256 ^ 4 + (v / 256 ^ 4 % 256) * 256 ^ 3 +
  (v / 256 ^ 5 % 256) * 256 ^ 2 + (v / 256 ^ 6 % 256) * 256 + v / 256 ^ 7 % 256

/-- `*(PDWORD)pb`: the little-endian `DWORD` at the start of the bytes `pb`;
a byte past the end of the list reads as 0. -/
def readDWORD (pb : List Nat) : Nat :=
  pb.getD 0 0 + pb.getD 1 0 * 256 + pb.getD 2 0 * 256 ^ 2 + pb.getD 3 0 * 256 ^ 3

/-- `*(PQWORD)pb`: the little-endian `QWORD` at the start of the bytes `pb`. -/
def readQWORD (pb : List Nat) : Nat :=
  readDWORD pb + readDWORD (pb.drop 4) * 256 ^ 4

/-- The four bytes `*(PDWORD)pb = v` stores. -/
def writeDWORD (v : Nat) : List Nat :=
  [v % 256, v / 256 % 256, v / 256 ^ 2 % 256, v / 256 ^ 3 % 256]

/-- The eight bytes `*(PQWORD)pb = v` stores. -/
def writeQWORD (v : Nat) : List Nat :=
  writeDWORD v ++ writeDWORD (v / 256 ^ 4)

/-- The conversion `%llu` of `snprintf`. -/
def fmt_llu (v : Nat) : CStr := Nat.toDigits 10 (v % 2 ^ 64)

/-- The conversion `%u` of `snprintf`. -/
def fmt_u (v : Nat) : CStr := Nat.toDigits 10 (v % 2 ^ 32)

/-- `o + snprintf(sz + o, size, ...)` for the formatted text `s`: the text in
the buffer afterwards (at most `size - 1` characters of `s` are stored after
the first `o` characters) and the new offset, a `DWORD`. -/
def snprintf_at (buf : CStr) (o size : Nat) (s : CStr) : CStr × Nat :=
  (buf.take o ++ s.take (size - 1), (o + s.length) % 2 ^ 32)

/-- The loop `while(c)` of `ConvertSidToStringSidA` (oscompatibility.c
350-354) with `c` sub-authorities to go, the bytes from `pbSID` on, the text
in `szSID` and the offset `o`. -/
def ConvertSidToStringSidA_loop (cbSID : Nat) : Nat → List Nat → CStr × Nat → CStr × Nat
  | 0, _, st => st
  | c + 1, pbSID, st =>
    ConvertSidToStringSidA_loop cbSID c (pbSID.drop 4)
      (snprintf_at st.1 st.2 (sub32 cbSID st.2) ('-' :: fmt_u (readDWORD pbSID)))

/-- `ConvertSidToStringSidA` (oscompatibility.c 333-357): `none` for FALSE,
else the string left in `*pszSid`. `pSID` is `none` for `NULL`, else the bytes
from `pSID` on. `SID_MAX_SUB_AUTHORITIES` is a constant of the Windows
headers; `LocalAlloc` tells whether the allocation of that many bytes
succeeds. -/
def ConvertSidToStringSidA (SID_MAX_SUB_AUTHORITIES : Nat) (LocalAlloc : Nat → Bool)
    (pSID : Option (List Nat)) : Option CStr :=
  match pSID with
  | none => none
  | some pbSID =>
    if pbSID.getD 0 0 ≠ 1 then none
    else
      let c := pbSID.getD 1 0
      if c = 0 ∨ c > SID_MAX_SUB_AUTHORITIES then none
      else
        let qwAuthority := _byteswap_uint64 (readQWORD pbSID) &&& 0x0000ffffffffffff
        let cbSID := (64 + c * 12) % 2 ^ 32
        if !LocalAlloc cbSID then none
        else
          some (ConvertSidToStringSidA_loop cbSID c (pbSID.drop 8)
            (snprintf_at [] 0 cbSID ("S-1-".toList ++ fmt_llu qwAuthority))).1

/-- `isspace` in the C locale. -/
def isspace (c : Char) : Bool :=
  c = ' ' ∨ c = '\t' ∨ c = '\n' ∨ c = Char.ofNat 11 ∨ c = Char.ofNat 12 ∨ c = '\r'

/-- The digits at the start of a string, as a number. -/
def decimalPrefix (s : CStr) : Nat :=
  (s.takeWhile Char.isDigit).foldl (fun n c => 10 * n + (c.toNat - 48)) 0

/-- `strtoull(sz, NULL, 10)`: white space is skipped, then an optional sign
and the digits are read; a value too large gives `ULLONG_MAX`, and a minus
sign negates the value as a `QWORD`. -/
def strtoull10 (sz : CStr) : Nat :=
  let s := sz.dropWhile isspace
  let neg := s.head? = some '-'
  let d := if s.head? = some '-' ∨ s.head? = some '+' then s.drop 1 else s
  let v := decimalPrefix d
  if 2 ^ 64 ≤ v then 2 ^ 64 - 1
  else if neg then (2 ^ 64 - v) % 2 ^ 64
  else v

/-- The first loop of `ConvertStringSidToSidA` (oscompatibility.c 302-307)
on the characters from `szSID[i]` on, `prev` being `szSID[i - 1]` and `c` the
count so far, a `BYTE`: `none` for `return FALSE`, else the count of `-`. -/
def ConvertStringSidToSidA_count : Char → CStr → Nat → Option Nat
  | _, [], c => some c
  | prev, x :: xs, c =>
    if x = '-' then
      if prev = '-' then none else ConvertStringSidToSidA_count x xs ((c + 1) % 256)
    else ConvertStringSidToSidA_count x xs c

/-- The loops `while(TRUE)` of `ConvertStringSidToSidA` (oscompatibility.c
315-323) from `szSID` on: the bytes stored from `pbSID` on. A character past
the end of the list is the terminator. `strtoul` gives an `unsigned long` of
64 bits, of which the store keeps the low 32. -/
def ConvertStringSidToSidA_loop : CStr → List Nat
  | [] => []
  | [_] => []
  | _ :: x :: xs =>
    if x = '-' then
      writeDWORD (strtoull10 xs % 2 ^ 32) ++ ConvertStringSidToSidA_loop xs
    else ConvertStringSidToSidA_loop (x :: xs)

/-- `ConvertStringSidToSidA` (oscompatibility.c 293-324): `none` for FALSE,
else the bytes stored in the buffer left in `*ppSID`, of which the loops fill
four for every `-` they find. `szSID` is `none` for `NULL`; `ppSID` is taken
to be valid. -/
def ConvertStringSidToSidA (SID_MAX_SUB_AUTHORITIES : Nat) (LocalAlloc : Nat → Bool)
    (szSID : Option CStr) : Option (List Nat) :=
  match szSID with
  | none => none
  | some sz =>
    if sz.take 4 ≠ "S-1-".toList then none
    else
      let s := sz.drop 4
      match ConvertStringSidToSidA_count (sz.getD 3 (Char.ofNat 0)) s 0 with
      | none => none
      | some c =>
        if c = 0 ∨ c > SID_MAX_SUB_AUTHORITIES ∨ s.getLast? = some '-' then none
        else if !LocalAlloc (8 + c * 4) then none
        else
          some ([1, c] ++ (writeQWORD (_byteswap_uint64 (strtoull10 s))).drop 2 ++
            ConvertStringSidToSidA_loop s)

/-- The SID of the local system account, `S-1-5-18`. -/
def sidLocalSystem : List Nat := [1, 1, 0, 0, 0, 0, 0, 5, 18, 0, 0, 0]

/-- A SID with five sub-authorities, `S-1-5-21-1004342556-1177247107-682003330-512`. -/
def sidDomainAdmins : List Nat :=
  [1, 5, 0, 0, 0, 0, 0, 5, 21, 0, 0, 0, 0x1c, 0x0d, 0xdd, 0x3b, 0x83, 0x5d, 0x2b, 0x46,
   0x82, 0x8b, 0xa6, 0x28, 0, 2, 0, 0]

/-- The text of `c` sub-authorities stored from `pbSID` on: for each one a
`-` and the decimal text of the `DWORD`. -/
def sidSubAuthorityText : Nat → List Nat → CStr
  | 0, _ => []
  | c + 1, pbSID => '-' :: (fmt_u (readDWORD pbSID) ++ sidSubAuthorityText c (pbSID.drop 4))

/-! ## Part 18: the runs of the handle layer -/

/-- A handle object as `LocalAlloc(LMEM_ZEROINIT, sizeof(struct tdVMM_HANDLE))`
returns it, after `H->magic = VMM_MAGIC` (vmmdll_core.c 554-555). -/
def handleFresh (VMM_MAGIC : Nat) : VMM_HANDLE_DATA :=
  { magic := VMM_MAGIC, fAbort := false, cThreadExternal := 0, cThreadInternal := 0 }

/-- The part of `VmmDllCore_Initialize` (vmmdll_core.c 537-652) that acts on
the allow-list and on the handle object, all of it inside the exclusive lock.
`H` is what `LocalAlloc(LMEM_ZEROINIT, ...)` returns (0 for `NULL`, also when
the function goes to `fail:` before the allocation); the object is cleared
and `H->magic = VMM_MAGIC` is stored. `fConfig` is the return value of
`VmmDllCore_InitializeConfig`, `fLater` tells whether every step after
`VmmDllCore_HandleAdd` succeeds. A failure goes to `fail:`, which calls
`VmmDllCore_CloseHandle(H)`. The `_WIN32` branch that asks the user for input
(`VmmDllCore_InitializeRequestUserInput`, lines 486-525) leaves the lock with
`H` listed; it then either returns with `H` still listed or calls
`VmmDllCore_CloseHandle(H)` inside the lock: these are the run of this
function with `fLater`, followed or not by `VmmDllCore_Close(H)`. -/
def VmmDllCore_Initialize_handles (VMM_MAGIC : Nat) (SwitchToThread : HandleMem → HandleMem)
    (fuel : Nat) (s : CoreState) (H : Nat) (fConfig fLater : Bool) : Option CoreState :=
  if H = 0 then some s
  else
    let s1 : CoreState := { s with mem := store s.mem H (handleFresh VMM_MAGIC) }
    if !fConfig then VmmDllCore_CloseHandle VMM_MAGIC SwitchToThread fuel s1 H
    else
      let r := VmmDllCore_HandleAdd s1 H
      if !r.1 then VmmDllCore_CloseHandle VMM_MAGIC SwitchToThread fuel r.2 H
      else if fLater then some r.2
      else VmmDllCore_CloseHandle VMM_MAGIC SwitchToThread fuel r.2 H

/-- A step of a run of the handle layer: a call of `VmmDllCore_Initialize`
whose allocation returns `H`, a call of `VmmDllCore_Close`, of
`VmmDllCore_HandleReserveExternal` or of `VmmDllCore_HandleReturnExternal`,
a worker thread that enters or leaves the handle `H` and leaves `c` in
`H->cThreadInternal`, or other code of the process that writes `d` to the
address `H` while no handle is kept there (storage that `LocalFree(H)` has
released, or that was never a handle). -/
inductive LifeOp where
  | init (H : Nat) (fConfig fLater : Bool)
  | close (H : Nat)
  | reserve (H : Nat)
  | giveBack (H : Nat)
  | internal (H c : Nat)
  | reuse (H : Nat) (d : VMM_HANDLE_DATA)

/-- The state after one step, `none` when there is no such step: a `Close`
that does not return within the fuel, or an allocation that returns the
address of a listed handle, or a write of other code over a listed handle
(a listed handle is allocated, it is freed at the end of
`VmmDllCore_CloseHandle` only). -/
def LifeOp.apply (VMM_MAGIC : Nat) (SwitchToThread : HandleMem → HandleMem) (fuel : Nat)
    (s : CoreState) : LifeOp → Option CoreState
  | .init H fConfig fLater =>
    match handleLoop s.g_VMMDLL_CORE_HANDLES s.g_VMMDLL_CORE_HANDLE_COUNT H
        s.g_VMMDLL_CORE_HANDLE_COUNT 0 with
    | some _ => none
    | none => VmmDllCore_Initialize_handles VMM_MAGIC SwitchToThread fuel s H fConfig fLater
  | .close H => VmmDllCore_Close VMM_MAGIC SwitchToThread fuel s H
  | .reserve H => some (VmmDllCore_HandleReserveExternal VMM_MAGIC s H).2
  | .giveBack H => some (VmmDllCore_HandleReturnExternal s H)
  | .internal H c =>
    some { s with mem := store s.mem H { s.mem H with cThreadInternal := c } }
  | .reuse H d =>
    match handleLoop s.g_VMMDLL_CORE_HANDLES s.g_VMMDLL_CORE_HANDLE_COUNT H
        s.g_VMMDLL_CORE_HANDLE_COUNT 0 with
    | some _ => none
    | none => some { s with mem := store s.mem H d }

/-- The state after a run, first step to last, `none` when there is no such
run. -/
def runLife (VMM_MAGIC : Nat) (SwitchToThread : HandleMem → HandleMem) (fuel : Nat) :
    CoreState → List LifeOp → Option CoreState
  | s, [] => some s
  | s, op :: rest =>
    match op.apply VMM_MAGIC SwitchToThread fuel s with
    | none => none
    | some s1 => runLife VMM_MAGIC SwitchToThread fuel s1 rest

/-- The allow-list is compact and every listed handle has the magic
`VMM_MAGIC` and a clear abort flag. -/
def HandlesValid (VMM_MAGIC : Nat) (s : CoreState) : Prop :=
  Compact s ∧
  ∀ X, Listed s X → (s.mem X).magic = VMM_MAGIC ∧ (s.mem X).fAbort = false

/-- The state after a handle at 0x10000 has been initialised, reserved,
returned and closed, with no other thread running. -/
def sRunClosed (VMM_MAGIC : Nat) : CoreState :=
  (runLife VMM_MAGIC id 0 sEmpty
    [LifeOp.init 0x10000 true true, LifeOp.reserve 0x10000, LifeOp.giveBack 0x10000,
     LifeOp.close 0x10000]).getD sEmpty

/-! ## Part 19: the runs of the search plugin -/

/-- A step of a run of the search plugin: a call of `MSearch_Write`, a call
of `MSearch_Read`, or a worker thread that takes the work item queued for the
context object at `ctxS` and runs `MSearch_PerformSeach_ThreadProc` on it,
with the `VmmProcessGet` and `VmmSearch` (vmm.c, not among the sources) of
that moment. -/
inductive SearchOp (PROC : Type) where
  | write (c : WriteCall)
  | read (ctxP : PLUGIN_CONTEXT) (fpb : Bool) (cb pcbRead0 cbOffset pNew : Nat)
  | worker (ctxS : Nat) (VmmProcessGet : Nat → Option PROC)
      (VmmSearch : PROC → VMM_MEMORY_SEARCH_CONTEXT → Option (List Nat) →
        VMM_MEMORY_SEARCH_CONTEXT × Option (List Nat))

/-- The plugin state after one step. A worker step takes its work item off
the queue; with no work item queued for `ctxS` there is no worker to run and
the state stays as it is. -/
def SearchOp.apply {PROC : Type} (env : UtilEnv) (renv : UtilReadEnv) (f32 : Bool)
    (st : SearchState) : SearchOp PROC → SearchState
  | .write c => (MSearch_Write env f32 st c.ctxP c.pb c.cb c.cbOffset c.pNew).st
  | .read ctxP fpb cb pcbRead0 cbOffset pNew =>
    (MSearch_Read renv f32 st ctxP fpb cb pcbRead0 cbOffset pNew).2
  | .worker ctxS VmmProcessGet VmmSearch =>
    if ctxS ∈ st.work then
      { MSearch_PerformSeach_ThreadProc VmmProcessGet VmmSearch st ctxS with
        work := st.work.erase ctxS }
    else st

/-- The context objects of `st1` have the completion flag and the result
pointer they have in `st`. -/
def SameResult (st st1 : SearchState) : Prop :=
  ∀ p, (st1.obj p).fCompleted = (st.obj p).fCompleted ∧
    (st1.obj p).pObDataResult = (st.obj p).pObDataResult

theorem handleLoop_some {handles : Nat → Nat} {count H : Nat} :
    ∀ (fuel i k : Nat), handleLoop handles count H fuel i = some k →
      i ≤ k ∧ k < count ∧ handles k = H ∧ ∀ j, i ≤ j → j < k → handles j ≠ H := by
  intro fuel
  induction fuel with
  | zero => intro i k h; simp [handleLoop] at h
  | succ n ih =>
    intro i k h
    simp only [handleLoop] at h
    split at h
    · rename_i hlt
      split at h
      · rename_i heq
        cases h
        exact ⟨le_refl _, hlt, heq, fun j h1 h2 => absurd h2 (by omega)⟩
      · rename_i hne
        obtain ⟨h1, h2, h3, h4⟩ := ih _ _ h
        refine ⟨by omega, h2, h3, ?_⟩
        intro j hj1 hj2
        by_cases hji : j = i
        · subst hji; exact hne
        · exact h4 j (by omega) hj2
    · cases h

theorem handleLoop_none {handles : Nat → Nat} {count H : Nat} :
    ∀ (fuel i : Nat), count ≤ i + fuel → handleLoop handles count H fuel i = none →
      ∀ j, i ≤ j → j < count → handles j ≠ H := by
  intro fuel
  induction fuel with
  | zero => intro i hc _ j h1 h2; omega
  | succ n ih =>
    intro i hc h j hj1 hj2
    simp only [handleLoop] at h
    split at h
    · split at h
      · cases h
      · rename_i hne
        by_cases hji : j = i
        · subst hji; exact hne
        · exact ih (i + 1) (by omega) h j (by omega) hj2
    · omega

theorem handleLoop_isSome_iff (s : CoreState) (H : Nat) :
    (∃ k, handleLoop s.g_VMMDLL_CORE_HANDLES s.g_VMMDLL_CORE_HANDLE_COUNT H
        s.g_VMMDLL_CORE_HANDLE_COUNT 0 = some k) ↔ Listed s H := by
  constructor
  · rintro ⟨k, hk⟩
    obtain ⟨_, h2, h3, _⟩ := handleLoop_some _ _ _ hk
    exact ⟨k, h2, h3⟩
  · rintro ⟨i, hi, hH⟩
    cases hl : handleLoop s.g_VMMDLL_CORE_HANDLES s.g_VMMDLL_CORE_HANDLE_COUNT H
        s.g_VMMDLL_CORE_HANDLE_COUNT 0 with
    | some k => exact ⟨k, rfl⟩
    | none => exact absurd hH (handleLoop_none _ _ (by omega) hl i (Nat.zero_le _) hi)

theorem handleLoop_eq_none_iff (s : CoreState) (H : Nat) :
    handleLoop s.g_VMMDLL_CORE_HANDLES s.g_VMMDLL_CORE_HANDLE_COUNT H
        s.g_VMMDLL_CORE_HANDLE_COUNT 0 = none ↔ ¬ Listed s H := by
  rw [← handleLoop_isSome_iff]
  cases handleLoop s.g_VMMDLL_CORE_HANDLES s.g_VMMDLL_CORE_HANDLE_COUNT H
        s.g_VMMDLL_CORE_HANDLE_COUNT 0 <;> simp

/-! ### `VmmDllCore_HandleReserveExternal` -/

theorem reserve_of_not_listed (VMM_MAGIC : Nat) (s : CoreState) (H : Nat) (h : ¬ Listed s H) :
    VmmDllCore_HandleReserveExternal VMM_MAGIC s H = (false, s) := by
  unfold VmmDllCore_HandleReserveExternal
  split
  · rfl
  · rw [(handleLoop_eq_none_iff s H).2 h]

theorem reserve_of_listed (VMM_MAGIC : Nat) (s : CoreState) (H : Nat)
    (h1 : 0x10000 ≤ H) (h : Listed s H) :
    VmmDllCore_HandleReserveExternal VMM_MAGIC s H =
      (decide ((s.mem H).magic = VMM_MAGIC) && !(s.mem H).fAbort, reserved s H) := by
  obtain ⟨k, hk⟩ := (handleLoop_isSome_iff s H).2 h
  unfold VmmDllCore_HandleReserveExternal
  rw [if_neg (by omega), hk]
  simp only [reserved, InterlockedIncrement]

theorem reserve_state_of_true (VMM_MAGIC : Nat) (s : CoreState) (H : Nat)
    (h : (VmmDllCore_HandleReserveExternal VMM_MAGIC s H).1 = true) :
    (VmmDllCore_HandleReserveExternal VMM_MAGIC s H).2 = reserved s H := by
  by_cases hl : Listed s H
  · by_cases h1 : 0x10000 ≤ H
    · rw [reserve_of_listed VMM_MAGIC s H h1 hl]
    · have hr : VmmDllCore_HandleReserveExternal VMM_MAGIC s H = (false, s) := by
        unfold VmmDllCore_HandleReserveExternal; rw [if_pos (Or.inr (by omega))]
      rw [hr] at h; simp at h
  · rw [reserve_of_not_listed VMM_MAGIC s H hl] at h; simp at h

/-- C1: `VmmDllCore_HandleReserveExternal(H)` returns TRUE exactly when `H` is
non-null, at least 0x10000, one of the first `g_VMMDLL_CORE_HANDLE_COUNT`
entries of the allow-list, `H->magic == VMM_MAGIC` and `H->fAbort` is clear;
and then the only change of state is that `H->cThreadExternal` is incremented
once (a 32-bit increment, which is `+ 1` below the top of the range). -/
theorem C1_HandleReserveExternal_true_iff (VMM_MAGIC : Nat) (s : CoreState) (H : Nat) :
    ((VmmDllCore_HandleReserveExternal VMM_MAGIC s H).1 = true ↔
      (H ≠ 0 ∧ 0x10000 ≤ H ∧ Listed s H ∧ (s.mem H).magic = VMM_MAGIC ∧
        (s.mem H).fAbort = false)) ∧
    ((VmmDllCore_HandleReserveExternal VMM_MAGIC s H).1 = true →
      (VmmDllCore_HandleReserveExternal VMM_MAGIC s H).2 = reserved s H ∧
      ((VmmDllCore_HandleReserveExternal VMM_MAGIC s H).2.mem H).cThreadExternal =
        InterlockedIncrement (s.mem H).cThreadExternal ∧
      ((s.mem H).cThreadExternal + 1 < 2 ^ 32 →
        ((VmmDllCore_HandleReserveExternal VMM_MAGIC s H).2.mem H).cThreadExternal =
          (s.mem H).cThreadExternal + 1)) := by
  by_cases hz : H = 0 ∨ H < 0x10000
  · have hr : VmmDllCore_HandleReserveExternal VMM_MAGIC s H = (false, s) := by
      unfold VmmDllCore_HandleReserveExternal; rw [if_pos hz]
    rw [hr]
    refine ⟨⟨fun h => by simp at h, fun h => ?_⟩, fun h => by simp at h⟩
    rcases hz with hz | hz
    · exact absurd hz h.1
    · have := h.2.1; omega
  · have h0 : H ≠ 0 := fun h => hz (Or.inl h)
    have h1 : 0x10000 ≤ H := by omega
    by_cases hl : Listed s H
    · rw [reserve_of_listed VMM_MAGIC s H h1 hl]
      refine ⟨⟨fun h => ?_, fun h => ?_⟩, fun _ => ⟨rfl, ?_, fun hlt => ?_⟩⟩
      · simp only [Bool.and_eq_true, decide_eq_true_eq, Bool.not_eq_true'] at h
        exact ⟨h0, h1, hl, h.1, h.2⟩
      · simp [h.2.2.2.1, h.2.2.2.2]
      · simp [reserved, store, InterlockedIncrement]
      · have hlt2 : (s.mem H).cThreadExternal + 1 < 4294967296 := hlt
        simp [reserved, store, Nat.mod_eq_of_lt hlt2]
    · rw [reserve_of_not_listed VMM_MAGIC s H hl]
      exact ⟨⟨fun h => by simp at h, fun h => absurd h.2.2.1 hl⟩, fun h => by simp at h⟩

/-- C1 at a concrete state: the reserve succeeds and the counter goes 0 to 1. -/
theorem C1_HandleReserveExternal_witness :
    (VmmDllCore_HandleReserveExternal 0xC0FFEE (sOne 0xC0FFEE) 0x10000).1 = true ∧
    ((VmmDllCore_HandleReserveExternal 0xC0FFEE (sOne 0xC0FFEE) 0x10000).2.mem
      0x10000).cThreadExternal = 1 := by
  have h := (C1_HandleReserveExternal_true_iff 0xC0FFEE (sOne 0xC0FFEE) 0x10000)
  have ht : (VmmDllCore_HandleReserveExternal 0xC0FFEE (sOne 0xC0FFEE) 0x10000).1 = true :=
    h.1.2 ⟨by decide, by decide, ⟨0, by decide, rfl⟩, rfl, rfl⟩
  exact ⟨ht, (h.2 ht).2.2 (by decide)⟩

/-- In a state where `H` is listed but cannot be reserved (wrong magic or
abort flag set) the call returns FALSE and still increments the counter. -/
theorem reserve_false_of_listed (VMM_MAGIC : Nat) (s : CoreState) (H : Nat)
    (h1 : 0x10000 ≤ H) (h : Listed s H)
    (hbad : (s.mem H).magic ≠ VMM_MAGIC ∨ (s.mem H).fAbort = true) :
    (VmmDllCore_HandleReserveExternal VMM_MAGIC s H).1 = false ∧
    ((VmmDllCore_HandleReserveExternal VMM_MAGIC s H).2.mem H).cThreadExternal =
      InterlockedIncrement (s.mem H).cThreadExternal := by
  rw [reserve_of_listed VMM_MAGIC s H h1 h]
  refine ⟨?_, by simp [reserved, store, InterlockedIncrement]⟩
  rcases hbad with hb | hb
  · simp [hb]
  · simp [hb]

/-! ### `VmmDllCore_HandleRemove`, `VmmDllCore_HandleAdd`, `VmmDllCore_Close` -/

theorem Listed_congr {s1 s2 : CoreState} (H : Nat)
    (hc : s1.g_VMMDLL_CORE_HANDLE_COUNT = s2.g_VMMDLL_CORE_HANDLE_COUNT)
    (hh : s1.g_VMMDLL_CORE_HANDLES = s2.g_VMMDLL_CORE_HANDLES) :
    Listed s1 H ↔ Listed s2 H := by
  unfold Listed; rw [hc, hh]

theorem reserve_list_eq (VMM_MAGIC : Nat) (s : CoreState) (H : Nat) :
    (VmmDllCore_HandleReserveExternal VMM_MAGIC s H).2.g_VMMDLL_CORE_HANDLE_COUNT =
      s.g_VMMDLL_CORE_HANDLE_COUNT ∧
    (VmmDllCore_HandleReserveExternal VMM_MAGIC s H).2.g_VMMDLL_CORE_HANDLES =
      s.g_VMMDLL_CORE_HANDLES := by
  unfold VmmDllCore_HandleReserveExternal
  split
  · exact ⟨rfl, rfl⟩
  · split <;> exact ⟨rfl, rfl⟩

/-- Every entry listed after `VmmDllCore_HandleRemove` was listed before. -/
theorem remove_listed_subset (VMM_MAGIC : Nat) (s : CoreState) (H X : Nat)
    (h : Listed (VmmDllCore_HandleRemove VMM_MAGIC s H) X) : Listed s X := by
  unfold VmmDllCore_HandleRemove at h
  split at h
  · split at h
    · rename_i i hi
      obtain ⟨_, hik, _, _⟩ := handleLoop_some _ _ _ hi
      simp only at h
      split at h
      · rename_i hlt
        obtain ⟨j, hj, hX⟩ := h
        simp only [store] at hj hX
        rw [if_neg (by omega)] at hX
        by_cases hji : j = i
        · rw [if_pos hji] at hX
          exact ⟨s.g_VMMDLL_CORE_HANDLE_COUNT - 1, by omega, hX⟩
        · rw [if_neg hji] at hX
          exact ⟨j, by omega, hX⟩
      · rename_i hge
        obtain ⟨j, hj, hX⟩ := h
        simp only [store] at hj hX
        rw [if_neg (by omega)] at hX
        exact ⟨j, by omega, hX⟩
    · exact h
  · exact h

/-- `VmmDllCore_HandleRemove(H)` of a handle listed exactly once, with valid
magic, leaves `H` unlisted. -/
theorem remove_not_listed (VMM_MAGIC : Nat) (s : CoreState) (H : Nat)
    (hH : H ≠ 0) (hM : (s.mem H).magic = VMM_MAGIC) (hL : ListedOnce s H) :
    ¬ Listed (VmmDllCore_HandleRemove VMM_MAGIC s H) H := by
  obtain ⟨i, hi, hiH, huniq⟩ := hL
  obtain ⟨k, hk⟩ := (handleLoop_isSome_iff s H).2 ⟨i, hi, hiH⟩
  obtain ⟨_, hkc, hkH, _⟩ := handleLoop_some _ _ _ hk
  have hki : k = i := huniq k hkc hkH
  unfold VmmDllCore_HandleRemove
  rw [if_pos ⟨hH, hM⟩, hk]
  simp only
  split
  · rename_i hlt
    rintro ⟨j, hj, hX⟩
    simp only [store] at hj hX
    rw [if_neg (by omega)] at hX
    by_cases hjk : j = k
    · rw [if_pos hjk] at hX
      have := huniq (s.g_VMMDLL_CORE_HANDLE_COUNT - 1) (by omega) hX
      omega
    · rw [if_neg hjk] at hX
      have := huniq j (by omega) hX
      omega
  · rename_i hge
    rintro ⟨j, hj, hX⟩
    simp only [store] at hj hX
    rw [if_neg (by omega)] at hX
    have := huniq j (by omega) hX
    omega

theorem closeHandle_list_eq (VMM_MAGIC : Nat) (SwitchToThread : HandleMem → HandleMem)
    (fuel : Nat) (s s1 : CoreState) (H : Nat) (hH : H ≠ 0)
    (hC : VmmDllCore_CloseHandle VMM_MAGIC SwitchToThread fuel s H = some s1) :
    s1.g_VMMDLL_CORE_HANDLE_COUNT =
      (VmmDllCore_HandleRemove VMM_MAGIC s H).g_VMMDLL_CORE_HANDLE_COUNT ∧
    s1.g_VMMDLL_CORE_HANDLES =
      (VmmDllCore_HandleRemove VMM_MAGIC s H).g_VMMDLL_CORE_HANDLES := by
  unfold VmmDllCore_CloseHandle at hC
  rw [if_pos hH] at hC
  simp only at hC
  split at hC
  · cases hC
  · split at hC
    · cases hC
    · cases hC; exact ⟨rfl, rfl⟩

/-- `VmmDllCore_Close` returns when no thread is inside the handle. -/
theorem VmmDllCore_Close_returns (VMM_MAGIC : Nat) (SwitchToThread : HandleMem → HandleMem)
    (fuel : Nat) (s : CoreState) (H : Nat)
    (hE : (s.mem H).cThreadExternal = 0) (hI : (s.mem H).cThreadInternal = 0) :
    ∃ s1, VmmDllCore_Close VMM_MAGIC SwitchToThread fuel s H = some s1 := by
  have hmem : (VmmDllCore_HandleRemove VMM_MAGIC s H).mem = s.mem := by
    unfold VmmDllCore_HandleRemove
    split
    · split
      · simp only; split <;> rfl
      · rfl
    · rfl
  unfold VmmDllCore_Close VmmDllCore_CloseHandle
  by_cases hH : H ≠ 0
  · rw [if_pos hH]
    simp only [hmem]
    have w1 : ∀ m : HandleMem, (m H).cThreadExternal = 0 →
        closeWait SwitchToThread (fun h => h.cThreadExternal) H fuel m = some m := by
      intro m hm; cases fuel <;> simp [closeWait, hm]
    have w2 : ∀ m : HandleMem, (m H).cThreadInternal = 0 →
        closeWait SwitchToThread (fun h => h.cThreadInternal) H fuel m = some m := by
      intro m hm; cases fuel <;> simp [closeWait, hm]
    rw [w1 _ (by simp [store, hE])]
    simp only
    rw [w2 _ (by simp [store, hI])]
    exact ⟨_, rfl⟩
  · rw [if_neg hH]; exact ⟨_, rfl⟩

theorem apply_preserves_not_listed (VMM_MAGIC : Nat) (s : CoreState) (H : Nat) (op : CoreOp)
    (hop : op ≠ CoreOp.add H) (h : ¬ Listed s H) : ¬ Listed (op.apply VMM_MAGIC s) H := by
  cases op with
  | reserve X =>
    obtain ⟨h1, h2⟩ := reserve_list_eq VMM_MAGIC s X
    exact fun hl => h ((Listed_congr H h1 h2).1 hl)
  | giveBack X => exact h
  | add X =>
    have hX : X ≠ H := fun e => hop (by rw [e])
    simp only [CoreOp.apply, VmmDllCore_HandleAdd]
    split
    · rintro ⟨j, hj, hv⟩
      simp only [store] at hj hv
      by_cases hjc : j = s.g_VMMDLL_CORE_HANDLE_COUNT
      · rw [if_pos hjc] at hv; exact hX hv
      · rw [if_neg hjc] at hv; exact h ⟨j, by omega, hv⟩
    · exact h
  | remove X => exact fun hl => h (remove_listed_subset VMM_MAGIC s X H hl)
  | memWrite f => exact h

theorem runOps_preserves_not_listed (VMM_MAGIC : Nat) (H : Nat) (ops : List CoreOp) :
    ∀ s : CoreState, (∀ op ∈ ops, op ≠ CoreOp.add H) → ¬ Listed s H →
      ¬ Listed (runOps VMM_MAGIC s ops) H := by
  induction ops with
  | nil => intro s _ h; exact h
  | cons op rest ih =>
    intro s hops h
    simp only [runOps, List.foldl_cons]
    exact ih _ (fun o ho => hops o (List.mem_cons_of_mem _ ho))
      (apply_preserves_not_listed VMM_MAGIC s H op (hops op (List.mem_cons_self _ _)) h)

/-- C3, amended: if `H` is listed exactly once and has magic `VMM_MAGIC`,
then after `VmmDllCore_Close(H)` has returned `H` is not in the allow-list,
and `VmmDllCore_HandleReserveExternal(H)` returns FALSE (changing nothing)
after every later sequence of handle-layer calls and writes to the handle
objects that does not add the pointer `H` to the allow-list again (as a later
`VmmDllCore_Initialize` does when its allocation returns the address `H`). -/
theorem C3_Close_then_reserve_fails (VMM_MAGIC : Nat) (SwitchToThread : HandleMem → HandleMem)
    (fuel : Nat) (s s1 : CoreState) (H : Nat)
    (hH : H ≠ 0) (hL : ListedOnce s H) (hM : (s.mem H).magic = VMM_MAGIC)
    (hC : VmmDllCore_Close VMM_MAGIC SwitchToThread fuel s H = some s1) :
    ¬ Listed s1 H ∧
    ∀ ops : List CoreOp, (∀ op ∈ ops, op ≠ CoreOp.add H) →
      VmmDllCore_HandleReserveExternal VMM_MAGIC (runOps VMM_MAGIC s1 ops) H =
        (false, runOps VMM_MAGIC s1 ops) := by
  obtain ⟨h1, h2⟩ := closeHandle_list_eq VMM_MAGIC SwitchToThread fuel s s1 H hH hC
  have hn : ¬ Listed s1 H := fun hl =>
    remove_not_listed VMM_MAGIC s H hH hM hL ((Listed_congr H h1 h2).1 hl)
  exact ⟨hn, fun ops hops => reserve_of_not_listed VMM_MAGIC _ H
    (runOps_preserves_not_listed VMM_MAGIC H ops s1 hops hn)⟩

/-- C3 at a concrete state: the one listed handle is closed (no thread is
inside, so the wait loops exit at once); it is then unlisted and a reserve
after a later reserve / return pair fails. -/
theorem C3_Close_then_reserve_fails_witness :
    ¬ Listed ((VmmDllCore_Close 0xC0FFEE id 0 (sOne 0xC0FFEE) 0x10000).getD (sOne 0xC0FFEE))
        0x10000 ∧
    (VmmDllCore_HandleReserveExternal 0xC0FFEE
      (runOps 0xC0FFEE
        ((VmmDllCore_Close 0xC0FFEE id 0 (sOne 0xC0FFEE) 0x10000).getD (sOne 0xC0FFEE))
        [CoreOp.reserve 0x10000, CoreOp.giveBack 0x10000]) 0x10000).1 = false := by
  have h := C3_Close_then_reserve_fails 0xC0FFEE id 0 (sOne 0xC0FFEE)
    ((VmmDllCore_Close 0xC0FFEE id 0 (sOne 0xC0FFEE) 0x10000).getD (sOne 0xC0FFEE)) 0x10000
    (by decide) ⟨0, by decide, rfl, fun j hj _ => by simp [sOne] at hj; exact hj⟩ rfl rfl
  refine ⟨h.1, ?_⟩
  rw [h.2 [CoreOp.reserve 0x10000, CoreOp.giveBack 0x10000]
    (by intro op hop; simp at hop; rcases hop with rfl | rfl <;> simp)]

theorem apply_preserves_count_le (VMM_MAGIC : Nat) (s : CoreState) (op : CoreOp)
    (h : s.g_VMMDLL_CORE_HANDLE_COUNT ≤ VMM_HANDLE_MAX_COUNT) :
    (op.apply VMM_MAGIC s).g_VMMDLL_CORE_HANDLE_COUNT ≤ VMM_HANDLE_MAX_COUNT := by
  cases op with
  | reserve X => rw [CoreOp.apply, (reserve_list_eq VMM_MAGIC s X).1]; exact h
  | giveBack X => exact h
  | add X =>
    simp only [CoreOp.apply, VmmDllCore_HandleAdd]
    split
    · show _ + 1 ≤ _; omega
    · exact h
  | remove X =>
    simp only [CoreOp.apply, VmmDllCore_HandleRemove]
    split
    · split
      · split <;> (show _ - 1 ≤ _; omega)
      · exact h
    · exact h
  | memWrite f => exact h

theorem runOps_preserves_count_le (VMM_MAGIC : Nat) (ops : List CoreOp) :
    ∀ s : CoreState, s.g_VMMDLL_CORE_HANDLE_COUNT ≤ VMM_HANDLE_MAX_COUNT →
      (runOps VMM_MAGIC s ops).g_VMMDLL_CORE_HANDLE_COUNT ≤ VMM_HANDLE_MAX_COUNT := by
  induction ops with
  | nil => intro s h; exact h
  | cons op rest ih =>
    intro s h
    simp only [runOps, List.foldl_cons]
    exact ih _ (apply_preserves_count_le VMM_MAGIC s op h)

/-- C4: `VmmDllCore_HandleAdd` returns TRUE exactly when fewer than
`VMM_HANDLE_MAX_COUNT` (32) handles are listed, and then stores `H` at index
`g_VMMDLL_CORE_HANDLE_COUNT` and increments the count; with 32 listed it
returns FALSE and leaves the state unchanged; and from a state with at most 32
listed handles every sequence of handle-layer calls (HandleAdd, HandleRemove,
reserve, return) leaves at most 32 listed. -/
theorem C4_HandleAdd_at_most_32 (VMM_MAGIC : Nat) (s : CoreState) (H : Nat)
    (hc : s.g_VMMDLL_CORE_HANDLE_COUNT ≤ VMM_HANDLE_MAX_COUNT) :
    ((VmmDllCore_HandleAdd s H).1 = true ↔ s.g_VMMDLL_CORE_HANDLE_COUNT < 32) ∧
    (s.g_VMMDLL_CORE_HANDLE_COUNT < 32 →
      (VmmDllCore_HandleAdd s H).2.g_VMMDLL_CORE_HANDLE_COUNT =
        s.g_VMMDLL_CORE_HANDLE_COUNT + 1 ∧
      (VmmDllCore_HandleAdd s H).2.g_VMMDLL_CORE_HANDLES =
        store s.g_VMMDLL_CORE_HANDLES s.g_VMMDLL_CORE_HANDLE_COUNT H ∧
      (VmmDllCore_HandleAdd s H).2.mem = s.mem ∧
      Listed (VmmDllCore_HandleAdd s H).2 H) ∧
    (s.g_VMMDLL_CORE_HANDLE_COUNT = 32 → VmmDllCore_HandleAdd s H = (false, s)) ∧
    (∀ ops : List CoreOp,
      (runOps VMM_MAGIC s ops).g_VMMDLL_CORE_HANDLE_COUNT ≤ 32) := by
  refine ⟨?_, ?_, ?_, fun ops => runOps_preserves_count_le VMM_MAGIC ops s hc⟩
  · unfold VmmDllCore_HandleAdd VMM_HANDLE_MAX_COUNT
    split <;> simp [*]
  · intro hlt
    have hlt2 : s.g_VMMDLL_CORE_HANDLE_COUNT < VMM_HANDLE_MAX_COUNT := hlt
    unfold VmmDllCore_HandleAdd
    rw [if_pos hlt2]
    exact ⟨rfl, rfl, rfl, s.g_VMMDLL_CORE_HANDLE_COUNT, Nat.lt_succ_self _, by simp [store]⟩
  · intro h32
    unfold VmmDllCore_HandleAdd VMM_HANDLE_MAX_COUNT
    rw [if_neg (by omega)]

/-- C4 at the initial (empty) allow-list: the add succeeds, and after 33 adds
32 handles are listed. -/
theorem C4_HandleAdd_at_most_32_witness :
    (VmmDllCore_HandleAdd sEmpty 0x10000).1 = true ∧
    (runOps 0xC0FFEE sEmpty
      ((List.range 33).map (fun i => CoreOp.add (0x10000 + i)))).g_VMMDLL_CORE_HANDLE_COUNT
        ≤ 32 := by
  have h := C4_HandleAdd_at_most_32 0xC0FFEE sEmpty 0x10000 (by decide)
  exact ⟨h.1.2 (by decide), h.2.2.2 _⟩

theorem incr_decr_cancel (c : Nat) (h : c < 2 ^ 32) :
    InterlockedDecrement (InterlockedIncrement c) = c := by
  simp only [InterlockedIncrement, InterlockedDecrement]
  norm_num at h ⊢
  split <;> omega

/-- C5: in an entry point built with `CALL_IMPLEMENTATION_VMM_RETURN` or
`CALL_IMPLEMENTATION_VMM`, when the reserve succeeds the implementation runs
in a state where `H->cThreadExternal` has been incremented once, the single
exit path applies `VmmDllCore_HandleReturnExternal` once to the state the
implementation (and the statistics call) left, and, the implementation and the
statistics calls not touching the counter, its value after the call equals its
value before. -/
theorem C5_CALL_IMPLEMENTATION_conserves {R : Type} (VMM_MAGIC : Nat)
    (Statistics_CallStart : CoreState → Nat → Nat × CoreState)
    (Statistics_CallEnd : CoreState → Nat → Nat → Nat → CoreState)
    (H id : Nat) (RetValFail : R) (fn : CoreState → R × CoreState)
    (fnB : CoreState → Bool × CoreState) (s : CoreState)
    (hres : (VmmDllCore_HandleReserveExternal VMM_MAGIC s H).1 = true)
    (hrange : (s.mem H).cThreadExternal < 2 ^ 32)
    (hstart : ∀ s0, ((Statistics_CallStart s0 H).2.mem H).cThreadExternal =
      (s0.mem H).cThreadExternal)
    (hend : ∀ s0 tm, ((Statistics_CallEnd s0 H id tm).mem H).cThreadExternal =
      (s0.mem H).cThreadExternal)
    (hfn : ∀ s0, ((fn s0).2.mem H).cThreadExternal = (s0.mem H).cThreadExternal)
    (hfnB : ∀ s0, ((fnB s0).2.mem H).cThreadExternal = (s0.mem H).cThreadExternal) :
    (((Statistics_CallStart (reserved s H) H).2.mem H).cThreadExternal =
      InterlockedIncrement (s.mem H).cThreadExternal) ∧
    (CALL_IMPLEMENTATION_VMM_RETURN VMM_MAGIC Statistics_CallStart Statistics_CallEnd
        H id RetValFail fn s =
      ((fn (Statistics_CallStart (reserved s H) H).2).1,
        VmmDllCore_HandleReturnExternal
          (Statistics_CallEnd (fn (Statistics_CallStart (reserved s H) H).2).2 H id
            (Statistics_CallStart (reserved s H) H).1) H)) ∧
    (((CALL_IMPLEMENTATION_VMM_RETURN VMM_MAGIC Statistics_CallStart Statistics_CallEnd
        H id RetValFail fn s).2.mem H).cThreadExternal = (s.mem H).cThreadExternal) ∧
    (CALL_IMPLEMENTATION_VMM VMM_MAGIC Statistics_CallStart Statistics_CallEnd H id fnB s =
      ((fnB (Statistics_CallStart (reserved s H) H).2).1,
        VmmDllCore_HandleReturnExternal
          (Statistics_CallEnd (fnB (Statistics_CallStart (reserved s H) H).2).2 H id
            (Statistics_CallStart (reserved s H) H).1) H)) ∧
    (((CALL_IMPLEMENTATION_VMM VMM_MAGIC Statistics_CallStart Statistics_CallEnd
        H id fnB s).2.mem H).cThreadExternal = (s.mem H).cThreadExternal) := by
  have hr2 := reserve_state_of_true VMM_MAGIC s H hres
  have hinc : ((reserved s H).mem H).cThreadExternal =
      InterlockedIncrement (s.mem H).cThreadExternal := by
    simp [reserved, store, InterlockedIncrement]
  have e1 : CALL_IMPLEMENTATION_VMM_RETURN VMM_MAGIC Statistics_CallStart Statistics_CallEnd
        H id RetValFail fn s =
      ((fn (Statistics_CallStart (reserved s H) H).2).1,
        VmmDllCore_HandleReturnExternal
          (Statistics_CallEnd (fn (Statistics_CallStart (reserved s H) H).2).2 H id
            (Statistics_CallStart (reserved s H) H).1) H) := by
    simp only [CALL_IMPLEMENTATION_VMM_RETURN, hres, hr2, Bool.not_true]
    rfl
  have e2 : CALL_IMPLEMENTATION_VMM VMM_MAGIC Statistics_CallStart Statistics_CallEnd
        H id fnB s =
      ((fnB (Statistics_CallStart (reserved s H) H).2).1,
        VmmDllCore_HandleReturnExternal
          (Statistics_CallEnd (fnB (Statistics_CallStart (reserved s H) H).2).2 H id
            (Statistics_CallStart (reserved s H) H).1) H) := by
    simp only [CALL_IMPLEMENTATION_VMM, hres, hr2, Bool.not_true]
    rfl
  have hret : ∀ s0 : CoreState, ((VmmDllCore_HandleReturnExternal s0 H).mem H).cThreadExternal =
      InterlockedDecrement (s0.mem H).cThreadExternal := by
    intro s0; simp [VmmDllCore_HandleReturnExternal, store]
  refine ⟨by rw [hstart, hinc], e1, ?_, e2, ?_⟩
  · rw [e1]; simp only
    rw [hret, hend, hfn, hstart, hinc, incr_decr_cancel _ hrange]
  · rw [e2]; simp only
    rw [hret, hend, hfnB, hstart, hinc, incr_decr_cancel _ hrange]

/-- C5 at a concrete entry point: statistics calls and implementation that
leave the state alone; the counter is 0 before and after the call. -/
theorem C5_CALL_IMPLEMENTATION_conserves_witness :
    ((CALL_IMPLEMENTATION_VMM_RETURN 0xC0FFEE (fun s _ => (0, s)) (fun s _ _ _ => s)
        0x10000 7 (0 : Nat) (fun s => (5, s)) (sOne 0xC0FFEE)).2.mem 0x10000).cThreadExternal
      = ((sOne 0xC0FFEE).mem 0x10000).cThreadExternal ∧
    ((CALL_IMPLEMENTATION_VMM 0xC0FFEE (fun s _ => (0, s)) (fun s _ _ _ => s)
        0x10000 7 (fun s => (true, s)) (sOne 0xC0FFEE)).2.mem 0x10000).cThreadExternal
      = ((sOne 0xC0FFEE).mem 0x10000).cThreadExternal := by
  have h := C5_CALL_IMPLEMENTATION_conserves 0xC0FFEE (fun s _ => (0, s)) (fun s _ _ _ => s)
    0x10000 7 (0 : Nat) (fun s => (5, s)) (fun s => (true, s)) (sOne 0xC0FFEE)
    (by decide) (by decide) (fun _ => rfl) (fun _ _ => rfl) (fun _ => rfl) (fun _ => rfl)
  exact ⟨h.2.2.1, h.2.2.2.2⟩
/-! ### VFS entry points -/

/-- C6: `VMMDLL_VfsRead_Impl` returns `VMM_STATUS_FILE_INVALID` and makes no
call into the plugin manager whenever `Util_VfsHelper_GetIdDir` recognises the
path as a process directory (and yields its PID) and `VmmProcessGet` finds no
process with that PID. -/
theorem C6_VfsRead_FileInvalid_of_no_process {PROC : Type} (env : VfsEnv PROC)
    (uszPath uszSubPath : CStr) (dwPID cb cbOffset : Nat)
    (hdir : env.Util_VfsHelper_GetIdDir (skipLeadingSeparator uszPath) false =
      some (dwPID, uszSubPath))
    (hnone : env.VmmProcessGet dwPID = none) :
    VMMDLL_VfsRead_Impl env uszPath cb cbOffset = (VMM_STATUS_FILE_INVALID, []) := by
  simp only [VMMDLL_VfsRead_Impl, hdir, hnone]

/-- C6 at a concrete path: PID 1234 is not in the process table of `envModel`. -/
theorem C6_VfsRead_FileInvalid_of_no_process_witness :
    VMMDLL_VfsRead_Impl envModel "\\pid\\1234\\search\\status.txt".toList 64 0 =
      (VMM_STATUS_FILE_INVALID, []) :=
  C6_VfsRead_FileInvalid_of_no_process envModel "\\pid\\1234\\search\\status.txt".toList
    "search\\status.txt".toList 1234 64 0 (by decide) (by decide)

/-- When the process exists the read is passed to the plugin manager with the
process and the sub-path. -/
theorem VfsRead_dispatch_of_process {PROC : Type} (env : VfsEnv PROC)
    (uszPath uszSubPath : CStr) (dwPID cb cbOffset : Nat) (p : PROC)
    (hdir : env.Util_VfsHelper_GetIdDir (skipLeadingSeparator uszPath) false =
      some (dwPID, uszSubPath))
    (hsome : env.VmmProcessGet dwPID = some p) :
    VMMDLL_VfsRead_Impl env uszPath cb cbOffset =
      (env.PluginManager_Read (some p) uszSubPath cb cbOffset,
        [VfsCall.PluginManager_Read (some p) uszSubPath cb cbOffset]) := by
  simp only [VMMDLL_VfsRead_Impl, hdir, hsome]

/-- What `VMMDLL_VfsList_Impl` does route to the root plugin tree: with a
valid file list, a path that `Util_VfsHelper_GetIdDir` rejects and whose text
after the optional leading separator does not begin (up to case) with `name`
or `pid`. -/
theorem VfsList_root_of_no_prefix {PROC : Type} (env : VfsEnv PROC) (uszPath : CStr)
    (hdir : env.Util_VfsHelper_GetIdDir (skipLeadingSeparator uszPath) false = none)
    (hname : strnicmpEq (skipLeadingSeparator uszPath) "name".toList 4 = false)
    (hpid : strnicmpEq (skipLeadingSeparator uszPath) "pid".toList 3 = false) :
    VMMDLL_VfsList_Impl env true uszPath =
      (true, [VfsCall.PluginManager_List none (skipLeadingSeparator uszPath)]) := by
  unfold VMMDLL_VfsList_Impl
  simp only [hdir, hname, hpid]
  simp

/-- A path that begins with `pid` (up to case), is longer than 4 characters
and is no process directory is refused by `VMMDLL_VfsList_Impl` without any
call, whatever its first segment is. -/
theorem VfsList_false_of_pid_prefix {PROC : Type} (env : VfsEnv PROC) (uszPath : CStr)
    (hdir : env.Util_VfsHelper_GetIdDir (skipLeadingSeparator uszPath) false = none)
    (hname : strnicmpEq (skipLeadingSeparator uszPath) "name".toList 4 = false)
    (hpid : strnicmpEq (skipLeadingSeparator uszPath) "pid".toList 3 = true)
    (hlen : (skipLeadingSeparator uszPath).length > 4) :
    VMMDLL_VfsList_Impl env true uszPath = (false, []) := by
  unfold VMMDLL_VfsList_Impl
  simp only [hdir, hname, hpid]
  simp [hlen]

/-- C7 (the code at the failing inputs): the first segment of `pidgin` is
`pidgin`, neither `pid` nor `name`, and the path is no process directory; yet
`VMMDLL_VfsList_Impl` returns FALSE without calling `PluginManager_List`, and
for `names` it lists the process root as for `name`. `VMMDLL_VfsRead_Impl`
passes the same paths to the root plugin tree. -/
theorem C7_VfsList_prefix_not_segment :
    firstSegment "pidgin".toList = "pidgin".toList ∧
    GetIdDir_model "pidgin".toList false = none ∧
    VMMDLL_VfsList_Impl envModel true "pidgin".toList = (false, []) ∧
    firstSegment "names".toList = "names".toList ∧
    VMMDLL_VfsList_Impl envModel true "names".toList =
      (true, [VfsCall.VfsList_Impl_ProcessRoot true]) ∧
    VMMDLL_VfsRead_Impl envModel "pidgin".toList 16 0 =
      (NTSTATUS.VMMDLL_STATUS_SUCCESS,
        [VfsCall.PluginManager_Read none "pidgin".toList 16 0]) ∧
    VMMDLL_VfsList_Impl envModel true "\\sys\\net".toList =
      (true, [VfsCall.PluginManager_List none "sys\\net".toList]) := by
  decide
/-! ### The external allocation registry -/

theorem ObMap_ExistsKey_filter (m : ObMap) (k : Nat) :
    ObMap_ExistsKey (m.filter (fun e => !(e.1 == k))) k = false := by
  simp [ObMap_ExistsKey, List.any_eq_false]

theorem ObMap_filter_of_not_exists (m : ObMap) (k : Nat) (h : ObMap_ExistsKey m k = false) :
    m.filter (fun e => !(e.1 == k)) = m := by
  rw [List.filter_eq_self]
  intro e he
  simp only [ObMap_ExistsKey, List.any_eq_false] at h
  simpa using h e he

theorem ObMap_GetByKey_of_not_exists (m : ObMap) (k : Nat) (h : ObMap_ExistsKey m k = false) :
    ObMap_GetByKey m k = 0 := by
  simp only [ObMap_ExistsKey, List.any_eq_false] at h
  have : m.find? (fun e => e.1 == k) = none := by
    rw [List.find?_eq_none]; intro e he; exact h e he
  simp [ObMap_GetByKey, this]

theorem Ob_DECREF_map (s : AllocState) (p : Nat) :
    (Ob_DECREF s p).2.g_VMMDLL_ALLOCMAP_EXT = s.g_VMMDLL_ALLOCMAP_EXT := by
  unfold Ob_DECREF
  split
  · rfl
  · split
    · rfl
    · split <;> rfl

/-- A pointer that is not a key of the registry: `VmmDllCore_MemFreeExternal`
changes nothing. -/
theorem MemFreeExternal_of_not_key (s : AllocState) (pvMem : Nat)
    (h : ∀ m, s.g_VMMDLL_ALLOCMAP_EXT = some m → ObMap_ExistsKey m pvMem = false) :
    VmmDllCore_MemFreeExternal s pvMem = s := by
  unfold VmmDllCore_MemFreeExternal
  cases hm : s.g_VMMDLL_ALLOCMAP_EXT with
  | none => rfl
  | some m =>
    have hk := h m hm
    simp only [ObMap_RemoveByKey, ObMap_GetByKey_of_not_exists m pvMem hk,
      ObMap_filter_of_not_exists m pvMem hk, ne_eq, not_true_eq_false, if_false]
    cases s
    simp only at hm
    rw [hm]

/-- After `VmmDllCore_MemFreeExternal(pvMem)` the pointer is not a key. -/
theorem MemFreeExternal_not_key (s : AllocState) (pvMem : Nat) :
    ∀ m, (VmmDllCore_MemFreeExternal s pvMem).g_VMMDLL_ALLOCMAP_EXT = some m →
      ObMap_ExistsKey m pvMem = false := by
  intro m hm
  unfold VmmDllCore_MemFreeExternal at hm
  cases hs : s.g_VMMDLL_ALLOCMAP_EXT with
  | none => rw [hs] at hm; simp only at hm; rw [hs] at hm; cases hm
  | some m0 =>
    rw [hs] at hm
    simp only at hm
    split at hm
    · rw [Ob_DECREF_map] at hm
      simp only [ObMap_RemoveByKey, Option.some.injEq] at hm
      rw [← hm]; exact ObMap_ExistsKey_filter m0 pvMem
    · simp only [ObMap_RemoveByKey, Option.some.injEq] at hm
      rw [← hm]; exact ObMap_ExistsKey_filter m0 pvMem

/-- C8: `VmmDllCore_MemFreeExternal` called with a pointer that is not a key
of the external-allocation registry (never handed out, or already freed)
releases nothing and leaves registry and objects unchanged; freeing a pointer
twice gives the same state as freeing it once; and after the first free
`VmmDllCore_MemSizeExternal` of the pointer is 0. -/
theorem C8_MemFreeExternal_refuses_double_free (sizeofOB OB_HEADER_MAGIC : Nat)
    (s : AllocState) (pvMem : Nat) :
    ((∀ m, s.g_VMMDLL_ALLOCMAP_EXT = some m → ObMap_ExistsKey m pvMem = false) →
      VmmDllCore_MemFreeExternal s pvMem = s) ∧
    VmmDllCore_MemFreeExternal (VmmDllCore_MemFreeExternal s pvMem) pvMem =
      VmmDllCore_MemFreeExternal s pvMem ∧
    VmmDllCore_MemSizeExternal sizeofOB OB_HEADER_MAGIC
      (VmmDllCore_MemFreeExternal s pvMem) pvMem = 0 := by
  refine ⟨MemFreeExternal_of_not_key s pvMem,
    MemFreeExternal_of_not_key _ pvMem (MemFreeExternal_not_key s pvMem), ?_⟩
  unfold VmmDllCore_MemSizeExternal
  cases hm : (VmmDllCore_MemFreeExternal s pvMem).g_VMMDLL_ALLOCMAP_EXT with
  | none => rfl
  | some m => simp [MemFreeExternal_not_key s pvMem m hm]

/-- The registry on a concrete run: an allocation of 100 bytes is handed out
at 0x20040 (header at 0x20000, `sizeof(OB)` taken as 0x40), its size is
reported, the first free releases the object and empties the registry, the
second free changes nothing. -/
theorem MemAllocExternal_free_twice :
    (VmmDllCore_MemAllocExternal 0x40 0x0c0efefe allocEmpty 0x20000 0x10000 7 100 8).1
      = 0x20040 ∧
    VmmDllCore_MemSizeExternal 0x40 0x0c0efefe
      (VmmDllCore_MemAllocExternal 0x40 0x0c0efefe allocEmpty 0x20000 0x10000 7 100 8).2
      0x20040 = 100 ∧
    ((VmmDllCore_MemAllocExternal 0x40 0x0c0efefe allocEmpty 0x20000 0x10000 7 100 8).2.ob
      0x20000).isSome = true ∧
    ((VmmDllCore_MemFreeExternal
      (VmmDllCore_MemAllocExternal 0x40 0x0c0efefe allocEmpty 0x20000 0x10000 7 100 8).2
      0x20040).ob 0x20000) = none ∧
    (VmmDllCore_MemFreeExternal
      (VmmDllCore_MemAllocExternal 0x40 0x0c0efefe allocEmpty 0x20000 0x10000 7 100 8).2
      0x20040).g_VMMDLL_ALLOCMAP_EXT = some [] := by
  decide
/-! ### The search plugin -/

theorem stricmpEq_trans_left {a b : CStr} (c : CStr) (h : stricmpEq a b = true) :
    stricmpEq a c = stricmpEq b c := by
  simp only [stricmpEq, beq_iff_eq] at h
  simp only [stricmpEq, h]

theorem ContextGet_of_registered (f32 : Bool) (st : SearchState) (ctxP : PLUGIN_CONTEXT)
    (pNew : Nat) (hreg : ObMap_GetByKey st.ctxM ctxP.dwPID ≠ 0) :
    MSearch_ContextGet f32 st ctxP pNew = (ObMap_GetByKey st.ctxM ctxP.dwPID, st) := by
  unfold MSearch_ContextGet
  simp only
  rw [if_neg (fun h => hreg h.1)]

theorem ContextUpdate_obj (st : SearchState) (ctxP : PLUGIN_CONTEXT) (ctxS : Nat) :
    (MSearch_ContextUpdate st ctxP ctxS).obj = st.obj ∧
    (MSearch_ContextUpdate st ctxP ctxS).work = st.work := by
  unfold MSearch_ContextUpdate
  split <;> exact ⟨rfl, rfl⟩

/-- A write to a file other than `reset.txt`, for a PID whose registered
context is active or completed, returns success with `*pcbWrite = cb` and
leaves the whole plugin state as it was. -/
theorem MSearch_Write_busy_not_reset (env : UtilEnv) (f32 : Bool) (st : SearchState)
    (ctxP : PLUGIN_CONTEXT) (pb : List Nat) (cb cbOffset pNew : Nat)
    (hreg : ObMap_GetByKey st.ctxM ctxP.dwPID ≠ 0)
    (hbusy : idle st (ObMap_GetByKey st.ctxM ctxP.dwPID) = false)
    (hpath : stricmpEq ctxP.uszPath "reset.txt".toList = false) :
    MSearch_Write env f32 st ctxP pb cb cbOffset pNew =
      { nt := NTSTATUS.VMMDLL_STATUS_SUCCESS, pcbWrite := cb, st := st } := by
  unfold MSearch_Write
  simp only [ContextGet_of_registered f32 st ctxP pNew hreg, if_neg hreg,
    MSearch_Write_reset, hpath, hbusy, Bool.false_eq_true, if_false]

/-- A write to any file, for a PID whose registered context is active or
completed, leaves that context object and the work queue as they were. -/
theorem MSearch_Write_busy_obj (env : UtilEnv) (f32 : Bool) (st : SearchState)
    (ctxP : PLUGIN_CONTEXT) (pb : List Nat) (cb cbOffset pNew : Nat)
    (hreg : ObMap_GetByKey st.ctxM ctxP.dwPID ≠ 0)
    (hbusy : idle st (ObMap_GetByKey st.ctxM ctxP.dwPID) = false) :
    (MSearch_Write env f32 st ctxP pb cb cbOffset pNew).st.obj = st.obj ∧
    (MSearch_Write env f32 st ctxP pb cb cbOffset pNew).st.work = st.work := by
  cases hpath : stricmpEq ctxP.uszPath "reset.txt".toList with
  | false =>
    rw [MSearch_Write_busy_not_reset env f32 st ctxP pb cb cbOffset pNew hreg hbusy hpath]
    exact ⟨rfl, rfl⟩
  | true =>
    unfold MSearch_Write
    simp only [ContextGet_of_registered f32 st ctxP pNew hreg, if_neg hreg,
      MSearch_Write_reset, hpath, if_true]
    have hi : idle (if (env.Util_VfsWriteFile_BOOL false pb cb cbOffset).2.2 = true
        then MSearch_ContextUpdate st ctxP 0 else st)
        (ObMap_GetByKey st.ctxM ctxP.dwPID) = false := by
      split
      · simpa only [idle, (ContextUpdate_obj st ctxP 0).1] using hbusy
      · exact hbusy
    simp only [hi, Bool.false_eq_true, if_false]
    split
    · exact ContextUpdate_obj st ctxP 0
    · exact ⟨rfl, rfl⟩

/-- C9: when the search context registered for the PID is active (RUNNING)
or completed, `MSearch_Write` to `search.txt`, `align.txt`, `addr-min.txt`,
`addr-max.txt` or `search-skip-bitmask.txt` (names compared without case)
returns `VMMDLL_STATUS_SUCCESS` with `*pcbWrite = cb` and leaves the whole
plugin state unchanged: no field of any context changes and no work item is
queued. For every file name, `reset.txt` included, the context object itself
and the work queue stay as they were, so the search parameters change only
while the context is neither active nor completed. -/
theorem C9_MSearch_Write_ignored_once_started (env : UtilEnv) (f32 : Bool) (st : SearchState)
    (ctxP : PLUGIN_CONTEXT) (pb : List Nat) (cb cbOffset pNew : Nat)
    (hreg : ObMap_GetByKey st.ctxM ctxP.dwPID ≠ 0)
    (hbusy : (st.obj (ObMap_GetByKey st.ctxM ctxP.dwPID)).fActive = true ∨
      (st.obj (ObMap_GetByKey st.ctxM ctxP.dwPID)).fCompleted = true) :
    ((stricmpEq ctxP.uszPath "search.txt".toList = true ∨
      stricmpEq ctxP.uszPath "align.txt".toList = true ∨
      stricmpEq ctxP.uszPath "addr-min.txt".toList = true ∨
      stricmpEq ctxP.uszPath "addr-max.txt".toList = true ∨
      stricmpEq ctxP.uszPath "search-skip-bitmask.txt".toList = true) →
      MSearch_Write env f32 st ctxP pb cb cbOffset pNew =
        { nt := NTSTATUS.VMMDLL_STATUS_SUCCESS, pcbWrite := cb, st := st }) ∧
    (MSearch_Write env f32 st ctxP pb cb cbOffset pNew).st.obj
        (ObMap_GetByKey st.ctxM ctxP.dwPID) =
      st.obj (ObMap_GetByKey st.ctxM ctxP.dwPID) ∧
    (MSearch_Write env f32 st ctxP pb cb cbOffset pNew).st.work = st.work := by
  have hb : idle st (ObMap_GetByKey st.ctxM ctxP.dwPID) = false := by
    rcases hbusy with h | h <;> simp [idle, h]
  have h2 := MSearch_Write_busy_obj env f32 st ctxP pb cb cbOffset pNew hreg hb
  refine ⟨fun hfile => ?_, by rw [h2.1], h2.2⟩
  apply MSearch_Write_busy_not_reset env f32 st ctxP pb cb cbOffset pNew hreg hb
  rcases hfile with h | h | h | h | h <;>
    (rw [stricmpEq_trans_left _ h]; decide)

/-- C9 at a concrete state: PID 4 has a running search; a write of two bytes
to `search.txt` succeeds with `*pcbWrite = 2`, queues nothing and leaves the
context as it was. -/
theorem C9_MSearch_Write_ignored_once_started_witness :
    (MSearch_Write utilBytes false searchRunning (ctxP4 "search.txt") [0x39, 0x30] 2 0 0x40000).nt
      = NTSTATUS.VMMDLL_STATUS_SUCCESS ∧
    (MSearch_Write utilBytes false searchRunning (ctxP4 "search.txt") [0x39, 0x30] 2 0
      0x40000).pcbWrite = 2 ∧
    (MSearch_Write utilBytes false searchRunning (ctxP4 "search.txt") [0x39, 0x30] 2 0
      0x40000).st.work = [0x30000] := by
  have h := C9_MSearch_Write_ignored_once_started utilBytes false searchRunning
    (ctxP4 "search.txt") [0x39, 0x30] 2 0 0x40000 (by decide) (Or.inl (by decide))
  rw [h.1 (Or.inl (by decide))]
  exact ⟨rfl, rfl, rfl⟩

/-! ### The alignment invariant -/

theorem isPow2_of_land_pred : ∀ n : Nat, 0 < n → n &&& (n - 1) = 0 → IsPow2 n := by
  intro n
  induction n using Nat.strong_induction_on with
  | _ n ih =>
    intro hpos hland
    by_cases h1 : n = 1
    · exact ⟨0, by rw [h1]; rfl⟩
    · have hdiv : n / 2 &&& (n - 1) / 2 = 0 := by
        rw [← Nat.and_div_two, hland]
      rcases Nat.even_or_odd n with he | ho
      · obtain ⟨m, hm⟩ := he
        have hm2 : n / 2 = m := by omega
        have hm3 : (n - 1) / 2 = m - 1 := by omega
        rw [hm2, hm3] at hdiv
        obtain ⟨k, hk⟩ := ih m (by omega) (by omega) hdiv
        exact ⟨k + 1, by rw [pow_succ, ← hk]; omega⟩
      · obtain ⟨m, hm⟩ := ho
        have hm2 : n / 2 = m := by omega
        have hm3 : (n - 1) / 2 = m := by omega
        rw [hm2, hm3, Nat.and_self] at hdiv
        omega

/-- The test of `MSearch_Write`, `0 == (dw & (dw - 1))` on a DWORD, accepts 0
and the powers of two only. -/
theorem isPow2_of_dword_test (dw : Nat) (h0 : dw ≠ 0)
    (h : dw &&& (if dw = 0 then 2 ^ 32 - 1 else dw - 1) = 0) : IsPow2 dw := by
  rw [if_neg h0] at h
  exact isPow2_of_land_pred dw (by omega) h

theorem land_pred_of_isPow2 (n : Nat) (h : IsPow2 n) : n &&& (n - 1) = 0 := by
  obtain ⟨k, rfl⟩ := h
  apply Nat.eq_of_testBit_eq
  intro i
  rw [Nat.testBit_and, Nat.testBit_two_pow, Nat.testBit_two_pow_sub_one, Nat.zero_testBit]
  by_cases hik : k = i
  · subst hik; simp
  · simp [hik]

theorem ContextUpdate_mem (st : SearchState) (ctxP : PLUGIN_CONTEXT) (ctxS : Nat)
    (e : Nat × Nat) (h : e ∈ (MSearch_ContextUpdate st ctxP ctxS).ctxM) :
    e ∈ st.ctxM ∨ (e.2 = ctxS ∧ ctxS ≠ 0) := by
  unfold MSearch_ContextUpdate at h
  split at h
  · simp only [ObMap_RemoveByKey] at h
    split at h
    · rename_i hne
      unfold ObMap_Push at h
      split at h
      · exact Or.inl (List.mem_filter.1 h).1
      · simp only [List.mem_append, List.mem_singleton] at h
        rcases h with h | h
        · exact Or.inl (List.mem_filter.1 h).1
        · exact Or.inr ⟨by rw [h], hne⟩
    · exact Or.inl (List.mem_filter.1 h).1
  · exact Or.inl h

theorem goodAt_ContextUpdate (st : SearchState) (ctxP : PLUGIN_CONTEXT) (ctxS p : Nat)
    (h : GoodAt st p) (hs : ctxS = 0 ∨ ctxS = p) :
    GoodAt (MSearch_ContextUpdate st ctxP ctxS) p := by
  have ho := (ContextUpdate_obj st ctxP ctxS).1
  refine ⟨fun e he => ?_, by rw [ho]; exact h.2⟩
  rw [ho]
  rcases ContextUpdate_mem st ctxP ctxS e he with h1 | ⟨h1, h2⟩
  · exact h.1 e h1
  · rcases hs with hs | hs
    · exact absurd hs h2
    · rw [h1, hs]; exact h.2

theorem goodAt_store (st : SearchState) (p : Nat) (o : MOB_SEARCH_CONTEXT) (w : List Nat)
    (h : AlignInv st) (ho : IsPow2 o.sctx.search0.cbAlign) :
    GoodAt { ctxM := st.ctxM, obj := store st.obj p o, work := w } p := by
  refine ⟨fun e he => ?_, by simp [store, ho]⟩
  by_cases hep : e.2 = p
  · simp [store, hep, ho]
  · simp only [store, if_neg hep]; exact h e he

theorem ObMap_GetByKey_mem (m : ObMap) (k : Nat) (h : ObMap_GetByKey m k ≠ 0) :
    ∃ e ∈ m, e.2 = ObMap_GetByKey m k := by
  unfold ObMap_GetByKey at h ⊢
  cases hf : m.find? (fun e => e.1 == k) with
  | none => rw [hf] at h; exact absurd rfl h
  | some e => exact ⟨e, List.mem_of_find?_eq_some hf, rfl⟩

theorem ContextGet_good (f32 : Bool) (st : SearchState) (ctxP : PLUGIN_CONTEXT) (pNew : Nat)
    (h : AlignInv st) :
    AlignInv (MSearch_ContextGet f32 st ctxP pNew).2 ∧
    ((MSearch_ContextGet f32 st ctxP pNew).1 ≠ 0 →
      GoodAt (MSearch_ContextGet f32 st ctxP pNew).2 (MSearch_ContextGet f32 st ctxP pNew).1) := by
  unfold MSearch_ContextGet
  simp only
  split
  · have hg := goodAt_store st pNew
      { MOB_SEARCH_CONTEXT.zero with
        dwPID := ctxP.pProcess_dwPID
        sctx := { MOB_SEARCH_CONTEXT.zero.sctx with
          cSearch := 1
          vaMax := if ctxP.pProcess_fUserOnly then (if f32 then 0x7fffffff else 0x7fffffffffff)
            else (if f32 then 0xffffffff else 0xffffffffffffffff)
          search0 := { MOB_SEARCH_CONTEXT.zero.sctx.search0 with cbAlign := 1 } } }
      st.work h ⟨0, rfl⟩
    exact ⟨hg.1, fun _ => hg⟩
  · refine ⟨h, fun hne => ⟨h, ?_⟩⟩
    obtain ⟨e, he, he2⟩ := ObMap_GetByKey_mem st.ctxM ctxP.dwPID hne
    simp only
    rw [← he2]; exact h e he

theorem goodAt_reset (env : UtilEnv) (ctxP : PLUGIN_CONTEXT) (pb : List Nat)
    (cb cbOffset p : Nat) (a : WriteAcc) (h : GoodAt a.st p) :
    GoodAt (MSearch_Write_reset env ctxP pb cb cbOffset a).st p := by
  unfold MSearch_Write_reset
  split
  · simp only
    split
    · exact goodAt_ContextUpdate a.st ctxP 0 p h (Or.inl rfl)
    · exact h
  · exact h

theorem goodAt_ite (c : Prop) [Decidable c] (x y : WriteAcc) (p : Nat)
    (hx : c → GoodAt x.st p) (hy : ¬ c → GoodAt y.st p) :
    GoodAt (if c then x else y).st p := by
  by_cases hc : c
  · rw [if_pos hc]; exact hx hc
  · rw [if_neg hc]; exact hy hc

theorem goodAt_align (env : UtilEnv) (ctxP : PLUGIN_CONTEXT) (pb : List Nat)
    (cb cbOffset p : Nat) (a : WriteAcc) (h : GoodAt a.st p) :
    GoodAt (MSearch_Write_align env ctxP p pb cb cbOffset a).st p := by
  unfold MSearch_Write_align
  refine goodAt_ite _ _ _ p (fun _ => ?_) (fun _ => h)
  simp only
  refine goodAt_ite _ _ _ p (fun htest => ?_) (fun _ => h)
  refine goodAt_ite _ _ _ p (fun _ => ?_) (fun _ => h)
  apply goodAt_ContextUpdate _ ctxP p p _ (Or.inr rfl)
  apply goodAt_store a.st p _ a.st.work h.1
  simp only
  split
  · exact ⟨0, rfl⟩
  · rename_i hne
    exact isPow2_of_dword_test _ hne htest.2

theorem goodAt_addr_max (env : UtilEnv) (f32 : Bool) (ctxP : PLUGIN_CONTEXT) (pb : List Nat)
    (cb cbOffset p : Nat) (a : WriteAcc) (h : GoodAt a.st p) :
    GoodAt (MSearch_Write_addr_max env f32 ctxP p pb cb cbOffset a).st p := by
  unfold MSearch_Write_addr_max
  refine goodAt_ite _ _ _ p (fun _ => ?_) (fun _ => h)
  simp only
  refine goodAt_ite _ _ _ p (fun _ => ?_) (fun _ => h)
  refine goodAt_ite _ _ _ p (fun _ => ?_) (fun _ => h)
  apply goodAt_ContextUpdate _ ctxP p p _ (Or.inr rfl)
  exact goodAt_store a.st p _ a.st.work h.1 h.2

theorem goodAt_addr_min (env : UtilEnv) (f32 : Bool) (ctxP : PLUGIN_CONTEXT) (pb : List Nat)
    (cb cbOffset p : Nat) (a : WriteAcc) (h : GoodAt a.st p) :
    GoodAt (MSearch_Write_addr_min env f32 ctxP p pb cb cbOffset a).st p := by
  unfold MSearch_Write_addr_min
  refine goodAt_ite _ _ _ p (fun _ => ?_) (fun _ => h)
  simp only
  refine goodAt_ite _ _ _ p (fun _ => ?_) (fun _ => h)
  refine goodAt_ite _ _ _ p (fun _ => ?_) (fun _ => h)
  apply goodAt_ContextUpdate _ ctxP p p _ (Or.inr rfl)
  exact goodAt_store a.st p _ a.st.work h.1 h.2

theorem goodAt_skip_bitmask (env : UtilEnv) (ctxP : PLUGIN_CONTEXT) (pb : List Nat)
    (cb cbOffset p : Nat) (a : WriteAcc) (h : GoodAt a.st p) :
    GoodAt (MSearch_Write_skip_bitmask env ctxP p pb cb cbOffset a).st p := by
  unfold MSearch_Write_skip_bitmask
  split
  · simp only
    split
    · split
      · apply goodAt_ContextUpdate _ ctxP p p _ (Or.inr rfl)
        exact goodAt_store a.st p _ a.st.work h.1 h.2
      · exact h
    · exact h
  · exact h

theorem goodAt_search (env : UtilEnv) (ctxP : PLUGIN_CONTEXT) (pb : List Nat)
    (cb cbOffset p : Nat) (a : WriteAcc) (h : GoodAt a.st p) :
    GoodAt (MSearch_Write_search env ctxP p pb cb cbOffset a).st p := by
  unfold MSearch_Write_search
  split
  · simp only
    split
    · split
      · have h1 : GoodAt (MSearch_ContextUpdate
            { ctxM := a.st.ctxM,
              obj := store a.st.obj p
                { (a.st.obj p) with sctx := { (a.st.obj p).sctx with search0 :=
                    { (a.st.obj p).sctx.search0 with
                      cb := (((env.Util_VfsWriteFile_HEXASCII (a.st.obj p).sctx.search0.pb 32
                        pb cb cbOffset).2.1 % 2 ^ 32 + 1) % 2 ^ 32) / 2
                      pb := (env.Util_VfsWriteFile_HEXASCII (a.st.obj p).sctx.search0.pb 32
                        pb cb cbOffset).2.2 } } },
              work := a.st.work } ctxP p) p := by
          apply goodAt_ContextUpdate _ ctxP p p _ (Or.inr rfl)
          exact goodAt_store a.st p _ a.st.work h.1 h.2
        exact goodAt_store _ p _ _ h1.1 h1.2
      · exact h
    · exact h
  · exact h

/-- One `MSearch_Write` call keeps the alignment invariant. -/
theorem MSearch_Write_AlignInv (env : UtilEnv) (f32 : Bool) (st : SearchState)
    (ctxP : PLUGIN_CONTEXT) (pb : List Nat) (cb cbOffset pNew : Nat) (h : AlignInv st) :
    AlignInv (MSearch_Write env f32 st ctxP pb cb cbOffset pNew).st := by
  obtain ⟨hg1, hg2⟩ := ContextGet_good f32 st ctxP pNew h
  unfold MSearch_Write
  simp only
  split
  · exact hg1
  · rename_i hne
    have h1 := goodAt_reset env ctxP pb cb cbOffset _
      { nt := NTSTATUS.VMMDLL_STATUS_SUCCESS, pcbWrite := cb,
        st := (MSearch_ContextGet f32 st ctxP pNew).2 } (hg2 hne)
    split
    · exact (goodAt_search env ctxP pb cb cbOffset _ _
        (goodAt_skip_bitmask env ctxP pb cb cbOffset _ _
          (goodAt_addr_min env f32 ctxP pb cb cbOffset _ _
            (goodAt_addr_max env f32 ctxP pb cb cbOffset _ _
              (goodAt_align env ctxP pb cb cbOffset _ _ h1))))).1
    · exact h1.1

theorem runWrites_AlignInv (env : UtilEnv) (f32 : Bool) (calls : List WriteCall) :
    ∀ st : SearchState, AlignInv st → AlignInv (runWrites env f32 st calls) := by
  induction calls with
  | nil => intro st h; exact h
  | cons c rest ih =>
    intro st h
    simp only [runWrites, List.foldl_cons]
    exact ih _ (MSearch_Write_AlignInv env f32 st c.ctxP c.pb c.cb c.cbOffset c.pNew h)

/-- The alignment a write to `align.txt` leaves in the context it works on,
when that context is neither active nor completed. -/
theorem MSearch_Write_align_result (env : UtilEnv) (f32 : Bool) (st : SearchState)
    (ctxP : PLUGIN_CONTEXT) (pb : List Nat) (cb cbOffset pNew : Nat)
    (hp : (MSearch_ContextGet f32 st ctxP pNew).1 ≠ 0)
    (hidle : idle (MSearch_ContextGet f32 st ctxP pNew).2
      (MSearch_ContextGet f32 st ctxP pNew).1 = true)
    (hpath : stricmpEq ctxP.uszPath "align.txt".toList = true) :
    ((MSearch_Write env f32 st ctxP pb cb cbOffset pNew).st.obj
        (MSearch_ContextGet f32 st ctxP pNew).1).sctx.search0.cbAlign =
      ((MSearch_Write_align env ctxP (MSearch_ContextGet f32 st ctxP pNew).1 pb cb cbOffset
        { nt := NTSTATUS.VMMDLL_STATUS_SUCCESS, pcbWrite := cb,
          st := (MSearch_ContextGet f32 st ctxP pNew).2 }).st.obj
        (MSearch_ContextGet f32 st ctxP pNew).1).sctx.search0.cbAlign := by
  have e1 : stricmpEq ctxP.uszPath "reset.txt".toList = false := by
    rw [stricmpEq_trans_left _ hpath]; decide
  have e2 : stricmpEq ctxP.uszPath "addr-max.txt".toList = false := by
    rw [stricmpEq_trans_left _ hpath]; decide
  have e3 : stricmpEq ctxP.uszPath "addr-min.txt".toList = false := by
    rw [stricmpEq_trans_left _ hpath]; decide
  have e4 : stricmpEq ctxP.uszPath "search-skip-bitmask.txt".toList = false := by
    rw [stricmpEq_trans_left _ hpath]; decide
  have e5 : stricmpEq ctxP.uszPath "search.txt".toList = false := by
    rw [stricmpEq_trans_left _ hpath]; decide
  unfold MSearch_Write
  simp only [if_neg hp, MSearch_Write_reset, e1, Bool.false_eq_true, if_false, hidle, if_true,
    MSearch_Write_addr_max, e2, MSearch_Write_addr_min, e3, MSearch_Write_skip_bitmask, e4,
    MSearch_Write_search, e5]

theorem align_branch_value (env : UtilEnv) (ctxP : PLUGIN_CONTEXT) (p : Nat) (pb : List Nat)
    (cb cbOffset : Nat) (a : WriteAcc) (dw : Nat)
    (hidle : idle a.st p = true)
    (hpath : stricmpEq ctxP.uszPath "align.txt".toList = true)
    (hdw : (env.Util_VfsWriteFile_DWORD (a.st.obj p).sctx.search0.cbAlign pb cb
      ((cbOffset + 5) % 2 ^ 64) 1 2048).2.2 % 2 ^ 32 = dw) :
    ((MSearch_Write_align env ctxP p pb cb cbOffset a).st.obj p).sctx.search0.cbAlign =
      if dw ≠ (a.st.obj p).sctx.search0.cbAlign ∧
          dw &&& (if dw = 0 then 2 ^ 32 - 1 else dw - 1) = 0
      then (if dw = 0 then 1 else dw)
      else (a.st.obj p).sctx.search0.cbAlign := by
  unfold MSearch_Write_align
  simp only [hpath, if_true, hidle, hdw]
  by_cases htest : dw ≠ (a.st.obj p).sctx.search0.cbAlign ∧
      dw &&& (if dw = 0 then 2 ^ 32 - 1 else dw - 1) = 0
  · rw [if_pos htest, if_pos htest, (ContextUpdate_obj _ ctxP p).1]
    simp [store]
  · rw [if_neg htest, if_neg htest]

/-- C10: from a state in which every registered search context has a
power-of-two alignment (the initial state, with no context, is one), every
sequence of `MSearch_Write` calls, whatever the parsers return, leads to such
a state; a fresh context starts with alignment 1. A write to `align.txt` on a
context that is neither active nor completed, with parsed DWORD value `dw`,
leaves a power of two: 1 when `dw` is 0, the old alignment when `dw` is
neither 0 nor a power of two, and `dw` when it is a power of two. -/
theorem C10_cbAlign_power_of_two (env : UtilEnv) (f32 : Bool) (st : SearchState)
    (hinv : AlignInv st) :
    (∀ calls : List WriteCall, AlignInv (runWrites env f32 st calls)) ∧
    (∀ (ctxP : PLUGIN_CONTEXT) (pb : List Nat) (cb cbOffset pNew : Nat),
      (MSearch_ContextGet f32 st ctxP pNew).1 ≠ 0 →
      idle (MSearch_ContextGet f32 st ctxP pNew).2 (MSearch_ContextGet f32 st ctxP pNew).1
        = true →
      stricmpEq ctxP.uszPath "align.txt".toList = true →
      ∀ old dw new : Nat,
        old = ((MSearch_ContextGet f32 st ctxP pNew).2.obj
          (MSearch_ContextGet f32 st ctxP pNew).1).sctx.search0.cbAlign →
        dw = (env.Util_VfsWriteFile_DWORD old pb cb ((cbOffset + 5) % 2 ^ 64) 1 2048).2.2
          % 2 ^ 32 →
        new = ((MSearch_Write env f32 st ctxP pb cb cbOffset pNew).st.obj
          (MSearch_ContextGet f32 st ctxP pNew).1).sctx.search0.cbAlign →
        IsPow2 old ∧ IsPow2 new ∧ (dw = 0 → new = 1) ∧
        (dw ≠ 0 → ¬ IsPow2 dw → new = old) ∧ (IsPow2 dw → new = dw)) := by
  refine ⟨fun calls => runWrites_AlignInv env f32 calls st hinv, ?_⟩
  intro ctxP pb cb cbOffset pNew hp hidle hpath old dw new hold hdw hnew
  have hgood := (ContextGet_good f32 st ctxP pNew hinv).2 hp
  have hpold : IsPow2 old := by rw [hold]; exact hgood.2
  have hval := align_branch_value env ctxP (MSearch_ContextGet f32 st ctxP pNew).1 pb cb
    cbOffset { nt := NTSTATUS.VMMDLL_STATUS_SUCCESS, pcbWrite := cb,
               st := (MSearch_ContextGet f32 st ctxP pNew).2 } dw hidle hpath
    (by rw [hdw, hold])
  rw [← MSearch_Write_align_result env f32 st ctxP pb cb cbOffset pNew hp hidle hpath] at hval
  simp only at hval
  rw [← hold, ← hnew] at hval
  have hold0 : old ≠ 0 := by
    obtain ⟨k, hk⟩ := hpold
    rw [hk]; exact Nat.pos_iff_ne_zero.1 (Nat.pow_pos (by norm_num))
  have hnewpow : IsPow2 new := by
    rw [hval]
    by_cases htest : dw ≠ old ∧ dw &&& (if dw = 0 then 2 ^ 32 - 1 else dw - 1) = 0
    · rw [if_pos htest]
      by_cases hz : dw = 0
      · rw [if_pos hz]; exact ⟨0, rfl⟩
      · rw [if_neg hz]; exact isPow2_of_dword_test dw hz htest.2
    · rw [if_neg htest]; exact hpold
  refine ⟨hpold, hnewpow, ?_, ?_, ?_⟩
  · intro h0
    rw [hval, if_pos ⟨by rw [h0]; exact fun h => hold0 h.symm, by rw [h0]; simp⟩, if_pos h0]
  · intro h0 hnp
    rw [hval, if_neg (fun htest => hnp (isPow2_of_dword_test dw h0 htest.2))]
  · intro hp2
    have h0 : dw ≠ 0 := by
      obtain ⟨k, hk⟩ := hp2
      rw [hk]; exact Nat.pos_iff_ne_zero.1 (Nat.pow_pos (by norm_num))
    by_cases hdo : dw = old
    · rw [hval, if_neg (fun htest => htest.1 hdo), hdo]
    · rw [hval, if_pos ⟨hdo, by rw [if_neg h0]; exact land_pred_of_isPow2 dw hp2⟩, if_neg h0]

/-- C10 at the initial state: after writes of 3 (refused), 8 (stored) and 0
(stored as 1) to `align.txt` by a fresh context of PID 4, the invariant holds
and the alignments left are 1, 8 and 1. -/
theorem C10_cbAlign_power_of_two_witness :
    AlignInv (runWrites utilBytes false searchInit
      [{ ctxP := ctxP4 "align.txt", pb := [3], cb := 1, cbOffset := 0, pNew := 0x30000 },
       { ctxP := ctxP4 "align.txt", pb := [8], cb := 1, cbOffset := 0, pNew := 0x30000 }]) ∧
    ((MSearch_Write utilBytes false searchInit (ctxP4 "align.txt") [3] 1 0 0x30000).st.obj
      0x30000).sctx.search0.cbAlign = 1 ∧
    ((MSearch_Write utilBytes false searchInit (ctxP4 "align.txt") [8] 1 0 0x30000).st.obj
      0x30000).sctx.search0.cbAlign = 8 ∧
    ((MSearch_Write utilBytes false searchInit (ctxP4 "ALIGN.TXT") [0] 1 0 0x30000).st.obj
      0x30000).sctx.search0.cbAlign = 1 := by
  have h := C10_cbAlign_power_of_two utilBytes false searchInit
    (fun e he => absurd he (List.not_mem_nil e))
  refine ⟨h.1 _, by decide, by decide, ?_⟩
  exact (h.2 (ctxP4 "ALIGN.TXT") [0] 1 0 0x30000 (by decide) (by decide) (by decide)
    1 0 _ (by decide) (by decide) rfl).2.2.1 rfl
/-! ### The address range of a search (addr-max.txt, addr-min.txt) -/

/-- Setting the low 12 bits: the last address of the page of `x`. -/
theorem lor_fff (x : Nat) : x ||| 0xfff = x / 4096 * 4096 + 4095 := by
  have h : (4095 : Nat) < 2 ^ 12 := by norm_num
  have e : x / 4096 * 4096 + 4095 = 2 ^ 12 * (x / 2 ^ 12) + 4095 := by
    rw [Nat.mul_comm]; rfl
  rw [e]
  apply Nat.eq_of_testBit_eq
  intro i
  rw [Nat.testBit_mul_pow_two_add _ h, Nat.testBit_or]
  have e2 : (4095 : Nat) = 2 ^ 12 - 1 := by norm_num
  rw [e2, Nat.testBit_two_pow_sub_one]
  by_cases hi : i < 12
  · simp [hi]
  · have e3 : 12 + (i - 12) = i := by omega
    simp only [hi, decide_False, Bool.or_false, if_false, ← Nat.shiftRight_eq_div_pow,
      Nat.testBit_shiftRight, e3]

/-- Clearing the low 12 bits of a QWORD: the first address of the page of `x`. -/
theorem land_page (x : Nat) (hx : x < 2 ^ 64) :
    x &&& 0xfffffffffffff000 = x / 4096 * 4096 := by
  have h : (0 : Nat) < 2 ^ 12 := by norm_num
  have e : x / 4096 * 4096 = 2 ^ 12 * (x / 2 ^ 12) + 0 := by
    rw [Nat.mul_comm]; rfl
  have hm : (0xfffffffffffff000 : Nat) = 2 ^ 64 - (4095 + 1) := by norm_num
  have h4 : (4095 : Nat) < 2 ^ 64 := by norm_num
  have e2 : (4095 : Nat) = 2 ^ 12 - 1 := by norm_num
  rw [e, hm]
  apply Nat.eq_of_testBit_eq
  intro i
  rw [Nat.testBit_mul_pow_two_add _ h, Nat.testBit_and, Nat.testBit_two_pow_sub_succ h4,
    e2, Nat.testBit_two_pow_sub_one]
  by_cases hi : i < 12
  · simp [hi]
  · have e3 : 12 + (i - 12) = i := by omega
    simp only [hi, decide_False, Bool.not_false, Bool.and_true, if_false,
      ← Nat.shiftRight_eq_div_pow, Nat.testBit_shiftRight, e3]
    by_cases h64 : i < 64
    · simp [h64]
    · have : x.testBit i = false :=
        Nat.testBit_lt_two_pow
          (lt_of_lt_of_le hx (Nat.pow_le_pow_right (by norm_num) (by omega)))
      simp [this]

/-- A write to `addr-max.txt` on a context that is neither active nor
completed runs the `addr-max.txt` branch only. -/
theorem MSearch_Write_addr_max_result (env : UtilEnv) (f32 : Bool) (st : SearchState)
    (ctxP : PLUGIN_CONTEXT) (pb : List Nat) (cb cbOffset pNew : Nat)
    (hp : (MSearch_ContextGet f32 st ctxP pNew).1 ≠ 0)
    (hidle : idle (MSearch_ContextGet f32 st ctxP pNew).2
      (MSearch_ContextGet f32 st ctxP pNew).1 = true)
    (hpath : stricmpEq ctxP.uszPath "addr-max.txt".toList = true) :
    MSearch_Write env f32 st ctxP pb cb cbOffset pNew =
      MSearch_Write_addr_max env f32 ctxP (MSearch_ContextGet f32 st ctxP pNew).1 pb cb cbOffset
        { nt := NTSTATUS.VMMDLL_STATUS_SUCCESS, pcbWrite := cb,
          st := (MSearch_ContextGet f32 st ctxP pNew).2 } := by
  have e1 : stricmpEq ctxP.uszPath "reset.txt".toList = false := by
    rw [stricmpEq_trans_left _ hpath]; decide
  have e2 : stricmpEq ctxP.uszPath "align.txt".toList = false := by
    rw [stricmpEq_trans_left _ hpath]; decide
  have e3 : stricmpEq ctxP.uszPath "addr-min.txt".toList = false := by
    rw [stricmpEq_trans_left _ hpath]; decide
  have e4 : stricmpEq ctxP.uszPath "search-skip-bitmask.txt".toList = false := by
    rw [stricmpEq_trans_left _ hpath]; decide
  have e5 : stricmpEq ctxP.uszPath "search.txt".toList = false := by
    rw [stricmpEq_trans_left _ hpath]; decide
  unfold MSearch_Write
  simp only [if_neg hp, MSearch_Write_reset, e1, Bool.false_eq_true, if_false, hidle, if_true,
    MSearch_Write_align, e2, MSearch_Write_addr_min, e3, MSearch_Write_skip_bitmask, e4,
    MSearch_Write_search, e5]

/-- A write to `addr-min.txt` on a context that is neither active nor
completed runs the `addr-min.txt` branch only. -/
theorem MSearch_Write_addr_min_result (env : UtilEnv) (f32 : Bool) (st : SearchState)
    (ctxP : PLUGIN_CONTEXT) (pb : List Nat) (cb cbOffset pNew : Nat)
    (hp : (MSearch_ContextGet f32 st ctxP pNew).1 ≠ 0)
    (hidle : idle (MSearch_ContextGet f32 st ctxP pNew).2
      (MSearch_ContextGet f32 st ctxP pNew).1 = true)
    (hpath : stricmpEq ctxP.uszPath "addr-min.txt".toList = true) :
    MSearch_Write env f32 st ctxP pb cb cbOffset pNew =
      MSearch_Write_addr_min env f32 ctxP (MSearch_ContextGet f32 st ctxP pNew).1 pb cb cbOffset
        { nt := NTSTATUS.VMMDLL_STATUS_SUCCESS, pcbWrite := cb,
          st := (MSearch_ContextGet f32 st ctxP pNew).2 } := by
  have e1 : stricmpEq ctxP.uszPath "reset.txt".toList = false := by
    rw [stricmpEq_trans_left _ hpath]; decide
  have e2 : stricmpEq ctxP.uszPath "align.txt".toList = false := by
    rw [stricmpEq_trans_left _ hpath]; decide
  have e3 : stricmpEq ctxP.uszPath "addr-max.txt".toList = false := by
    rw [stricmpEq_trans_left _ hpath]; decide
  have e4 : stricmpEq ctxP.uszPath "search-skip-bitmask.txt".toList = false := by
    rw [stricmpEq_trans_left _ hpath]; decide
  have e5 : stricmpEq ctxP.uszPath "search.txt".toList = false := by
    rw [stricmpEq_trans_left _ hpath]; decide
  unfold MSearch_Write
  simp only [if_neg hp, MSearch_Write_reset, e1, Bool.false_eq_true, if_false, hidle, if_true,
    MSearch_Write_align, e2, MSearch_Write_addr_max, e3, MSearch_Write_skip_bitmask, e4,
    MSearch_Write_search, e5]

/-- The `vaMax` the `addr-max.txt` branch leaves in an idle context, for the
parsed QWORD `v`. -/
theorem addr_max_branch_value (env : UtilEnv) (f32 : Bool) (ctxP : PLUGIN_CONTEXT) (p : Nat)
    (pb : List Nat) (cb cbOffset : Nat) (a : WriteAcc) (v : Nat)
    (hidle : idle a.st p = true)
    (hpath : stricmpEq ctxP.uszPath "addr-max.txt".toList = true)
    (hv : (env.Util_VfsWriteFile_QWORD (a.st.obj p).sctx.vaMax pb cb
      ((cbOffset + (if f32 then 8 else 0)) % 2 ^ 64) 1 0).2.2 % 2 ^ 64 = v) :
    ((MSearch_Write_addr_max env f32 ctxP p pb cb cbOffset a).st.obj p).sctx.vaMax =
      (if v = 0 then 2 ^ 64 - 1 else v - 1) ||| 0xfff := by
  unfold MSearch_Write_addr_max
  simp only [hpath, if_true, hidle, hv]
  by_cases htest : (if v = 0 then 2 ^ 64 - 1 else v - 1) ||| 0xfff ≠ (a.st.obj p).sctx.vaMax
  · rw [if_pos htest, (ContextUpdate_obj _ ctxP p).1]
    simp [store]
  · rw [if_neg htest]
    exact (not_not.1 htest).symm

/-- The `vaMin` the `addr-min.txt` branch leaves in an idle context, for the
parsed QWORD `v`. -/
theorem addr_min_branch_value (env : UtilEnv) (f32 : Bool) (ctxP : PLUGIN_CONTEXT) (p : Nat)
    (pb : List Nat) (cb cbOffset : Nat) (a : WriteAcc) (v : Nat)
    (hidle : idle a.st p = true)
    (hpath : stricmpEq ctxP.uszPath "addr-min.txt".toList = true)
    (hv : (env.Util_VfsWriteFile_QWORD (a.st.obj p).sctx.vaMin pb cb
      ((cbOffset + (if f32 then 8 else 0)) % 2 ^ 64) 0 0).2.2 % 2 ^ 64 = v) :
    ((MSearch_Write_addr_min env f32 ctxP p pb cb cbOffset a).st.obj p).sctx.vaMin =
      v &&& 0xfffffffffffff000 := by
  unfold MSearch_Write_addr_min
  simp only [hpath, if_true, hidle, hv]
  by_cases htest : v &&& 0xfffffffffffff000 ≠ (a.st.obj p).sctx.vaMin
  · rw [if_pos htest, (ContextUpdate_obj _ ctxP p).1]
    simp [store]
  · rw [if_neg htest]
    exact (not_not.1 htest).symm

/-- C11, counterexample: on a fresh context of PID 4 (neither active nor
completed) a write to `addr-max.txt` that parses to the page-aligned value
0x1000 leaves `sctx.vaMax` = 0xfff, which is below 0x1000 and so is not the
smallest address at or above 0x1000 whose low 12 bits are ones (0x1fff). -/
theorem C11_addr_max_page_aligned_counterexample :
    idle (MSearch_ContextGet false searchInit (ctxP4 "addr-max.txt") 0x30000).2 0x30000 = true ∧
    (utilBytes.Util_VfsWriteFile_QWORD 0x7fffffffffff [0x10, 0x00] 2 0 1 0).2.2 = 0x1000 ∧
    ((MSearch_Write utilBytes false searchInit (ctxP4 "addr-max.txt") [0x10, 0x00] 2 0
      0x30000).st.obj 0x30000).sctx.vaMax = 0xfff ∧
    ¬ (0x1000 ≤ ((MSearch_Write utilBytes false searchInit (ctxP4 "addr-max.txt") [0x10, 0x00]
      2 0 0x30000).st.obj 0x30000).sctx.vaMax) := by
  refine ⟨by decide, by decide, by decide, by decide⟩

/-- C11, amended: when the search context is neither active nor completed, a
write to `addr-max.txt` that parses to a QWORD `v ≥ 1` leaves `sctx.vaMax`
equal to `(v - 1) | 0xfff`: the smallest address that is at least `v - 1` and
whose low 12 bits are all ones. It is at least `v` exactly when `v` is not a
multiple of 4096; for a page-aligned `v` it is `v - 1`. -/
theorem C11_addr_max_rounds_up_from_pred (env : UtilEnv) (f32 : Bool) (st : SearchState)
    (ctxP : PLUGIN_CONTEXT) (pb : List Nat) (cb cbOffset pNew v : Nat)
    (hp : (MSearch_ContextGet f32 st ctxP pNew).1 ≠ 0)
    (hidle : idle (MSearch_ContextGet f32 st ctxP pNew).2
      (MSearch_ContextGet f32 st ctxP pNew).1 = true)
    (hpath : stricmpEq ctxP.uszPath "addr-max.txt".toList = true)
    (hv : (env.Util_VfsWriteFile_QWORD
      ((MSearch_ContextGet f32 st ctxP pNew).2.obj
        (MSearch_ContextGet f32 st ctxP pNew).1).sctx.vaMax pb cb
      ((cbOffset + (if f32 then 8 else 0)) % 2 ^ 64) 1 0).2.2 = v)
    (h1 : 1 ≤ v) (h64 : v < 2 ^ 64) :
    ∃ new : Nat,
      ((MSearch_Write env f32 st ctxP pb cb cbOffset pNew).st.obj
        (MSearch_ContextGet f32 st ctxP pNew).1).sctx.vaMax = new ∧
      new = (v - 1) / 4096 * 4096 + 4095 ∧
      v - 1 ≤ new ∧ new % 4096 = 4095 ∧
      (∀ a : Nat, v - 1 ≤ a → a % 4096 = 4095 → new ≤ a) ∧
      (v % 4096 ≠ 0 → v ≤ new) ∧ (v % 4096 = 0 → new = v - 1) := by
  have hval := addr_max_branch_value env f32 ctxP (MSearch_ContextGet f32 st ctxP pNew).1 pb cb
    cbOffset { nt := NTSTATUS.VMMDLL_STATUS_SUCCESS, pcbWrite := cb,
               st := (MSearch_ContextGet f32 st ctxP pNew).2 } v hidle hpath
    (by rw [hv]; exact Nat.mod_eq_of_lt h64)
  rw [← MSearch_Write_addr_max_result env f32 st ctxP pb cb cbOffset pNew hp hidle hpath,
    if_neg (by omega), lor_fff] at hval
  refine ⟨_, hval, rfl, ?_, ?_, ?_, ?_, ?_⟩
  · omega
  · omega
  · intro a h2 h3; omega
  · intro h2; omega
  · intro h2; omega

/-- C11 (amended) on a fresh context of PID 4: the written value 0x1234 gives
`vaMax` = 0x1fff. -/
theorem C11_addr_max_rounds_up_from_pred_witness :
    ((MSearch_Write utilBytes false searchInit (ctxP4 "addr-max.txt") [0x12, 0x34] 2 0
      0x30000).st.obj 0x30000).sctx.vaMax = 0x1fff := by
  obtain ⟨new, h1, h2, -⟩ := C11_addr_max_rounds_up_from_pred utilBytes false searchInit
    (ctxP4 "addr-max.txt") [0x12, 0x34] 2 0 0x30000 0x1234 (by decide) (by decide) (by decide)
    (by decide) (by decide) (by decide)
  exact h1.trans h2

/-- C12: when the search context is neither active nor completed, a write to
`addr-min.txt` that parses to a QWORD `v` leaves `sctx.vaMin` equal to `v`
with its low 12 bits cleared, `v - v % 4096`: the largest multiple of 4096
that is at most `v`, for every 64-bit `v`. -/
theorem C12_addr_min_rounds_down_to_page (env : UtilEnv) (f32 : Bool) (st : SearchState)
    (ctxP : PLUGIN_CONTEXT) (pb : List Nat) (cb cbOffset pNew v : Nat)
    (hp : (MSearch_ContextGet f32 st ctxP pNew).1 ≠ 0)
    (hidle : idle (MSearch_ContextGet f32 st ctxP pNew).2
      (MSearch_ContextGet f32 st ctxP pNew).1 = true)
    (hpath : stricmpEq ctxP.uszPath "addr-min.txt".toList = true)
    (hv : (env.Util_VfsWriteFile_QWORD
      ((MSearch_ContextGet f32 st ctxP pNew).2.obj
        (MSearch_ContextGet f32 st ctxP pNew).1).sctx.vaMin pb cb
      ((cbOffset + (if f32 then 8 else 0)) % 2 ^ 64) 0 0).2.2 = v)
    (h64 : v < 2 ^ 64) :
    ∃ new : Nat,
      ((MSearch_Write env f32 st ctxP pb cb cbOffset pNew).st.obj
        (MSearch_ContextGet f32 st ctxP pNew).1).sctx.vaMin = new ∧
      new = v &&& 0xfffffffffffff000 ∧ new = v - v % 4096 ∧
      new ≤ v ∧ new % 4096 = 0 ∧
      (∀ a : Nat, a ≤ v → a % 4096 = 0 → a ≤ new) := by
  have hval := addr_min_branch_value env f32 ctxP (MSearch_ContextGet f32 st ctxP pNew).1 pb cb
    cbOffset { nt := NTSTATUS.VMMDLL_STATUS_SUCCESS, pcbWrite := cb,
               st := (MSearch_ContextGet f32 st ctxP pNew).2 } v hidle hpath
    (by rw [hv]; exact Nat.mod_eq_of_lt h64)
  rw [← MSearch_Write_addr_min_result env f32 st ctxP pb cb cbOffset pNew hp hidle hpath] at hval
  have hl := land_page v h64
  refine ⟨_, hval, rfl, ?_, ?_, ?_, ?_⟩
  · rw [hl]; omega
  · rw [hl]; omega
  · rw [hl]; omega
  · intro a h2 h3; rw [hl]; omega

/-- C12 on a fresh context of PID 4: the written value 0x12345 gives
`vaMin` = 0x12000. -/
theorem C12_addr_min_rounds_down_to_page_witness :
    ((MSearch_Write utilBytes false searchInit (ctxP4 "addr-min.txt") [0x01, 0x23, 0x45] 3 0
      0x30000).st.obj 0x30000).sctx.vaMin = 0x12000 := by
  obtain ⟨new, h1, -, h2, -⟩ := C12_addr_min_rounds_down_to_page utilBytes false searchInit
    (ctxP4 "addr-min.txt") [0x01, 0x23, 0x45] 3 0 0x30000 0x12345 (by decide) (by decide)
    (by decide) (by decide) (by decide)
  exact h1.trans h2

/-! ### Reading the search files, the worker, and concurrent writes -/

/-- `MSearch_ContextGet` leaves the map as it is. -/
theorem ContextGet_ctxM (f32 : Bool) (st : SearchState) (ctxP : PLUGIN_CONTEXT) (pNew : Nat) :
    (MSearch_ContextGet f32 st ctxP pNew).2.ctxM = st.ctxM := by
  unfold MSearch_ContextGet
  simp only
  split <;> rfl

/-- `MSearch_ContextGet` gives `NULL` only when the PID has no registered
context (and the allocation failed); the state is then unchanged. -/
theorem ContextGet_null (f32 : Bool) (st : SearchState) (ctxP : PLUGIN_CONTEXT) (pNew : Nat)
    (h : (MSearch_ContextGet f32 st ctxP pNew).1 = 0) :
    ObMap_GetByKey st.ctxM ctxP.dwPID = 0 := by
  unfold MSearch_ContextGet at h
  simp only at h
  by_cases hc : ObMap_GetByKey st.ctxM ctxP.dwPID = 0 ∧ pNew ≠ 0
  · exact hc.1
  · rw [if_neg hc] at h; exact h

/-- For a PID with no registered context and a successful allocation,
`MSearch_ContextGet` gives the fresh context at `pNew`: not active, not
completed, no result, alignment 1, every other search parameter zero but the
default `vaMax`. -/
theorem ContextGet_fresh (f32 : Bool) (st : SearchState) (ctxP : PLUGIN_CONTEXT) (pNew : Nat)
    (hk : ObMap_GetByKey st.ctxM ctxP.dwPID = 0) (hn : pNew ≠ 0) :
    (MSearch_ContextGet f32 st ctxP pNew).1 = pNew ∧
    (MSearch_ContextGet f32 st ctxP pNew).2.obj pNew =
      { MOB_SEARCH_CONTEXT.zero with
        dwPID := ctxP.pProcess_dwPID
        sctx := { MOB_SEARCH_CONTEXT.zero.sctx with
          cSearch := 1
          vaMax := if ctxP.pProcess_fUserOnly then (if f32 then 0x7fffffff else 0x7fffffffffff)
                   else (if f32 then 0xffffffff else 0xffffffffffffffff)
          search0 := { MOB_SEARCH_CONTEXT.zero.sctx.search0 with cbAlign := 1 } } } := by
  unfold MSearch_ContextGet
  simp only
  rw [if_pos ⟨hk, hn⟩]
  exact ⟨rfl, by simp [store]⟩

/-- The two steps of `MSearch_Write`, run one after the other with nothing in
between, are `MSearch_Write`. -/
theorem MSearch_Write_steps (env : UtilEnv) (f32 : Bool) (st : SearchState)
    (ctxP : PLUGIN_CONTEXT) (pb : List Nat) (cb cbOffset pNew : Nat) :
    MSearch_Write_critical ctxP (MSearch_Write_lookup env f32 st ctxP pb cb cbOffset pNew).1
      (MSearch_Write_lookup env f32 st ctxP pb cb cbOffset pNew).2 =
    MSearch_Write env f32 st ctxP pb cb cbOffset pNew := by
  unfold MSearch_Write MSearch_Write_lookup
  simp only
  by_cases hp : (MSearch_ContextGet f32 st ctxP pNew).1 = 0
  · rw [if_pos hp, if_pos hp]
    simp [MSearch_Write_critical]
  · rw [if_neg hp, if_neg hp]
    by_cases hi : idle (MSearch_Write_reset env ctxP pb cb cbOffset
        { nt := NTSTATUS.VMMDLL_STATUS_SUCCESS, pcbWrite := cb,
          st := (MSearch_ContextGet f32 st ctxP pNew).2 }).st
        (MSearch_ContextGet f32 st ctxP pNew).1 = true
    · rw [if_pos hi, if_pos hi]
      by_cases hs : stricmpEq ctxP.uszPath "search.txt".toList = true
      · rw [if_pos hs]
        unfold MSearch_Write_search MSearch_Write_critical
        simp only [hs, if_true, decide_eq_true_eq]
      · rw [if_neg hs]
        have hs2 : stricmpEq ctxP.uszPath "search.txt".toList = false := Bool.eq_false_iff.2 hs
        unfold MSearch_Write_search MSearch_Write_critical
        simp only [hs2, Bool.false_eq_true, if_false]
    · rw [if_neg hi, if_neg hi]
      simp [MSearch_Write_critical]

/-- After a write to `reset.txt` whose data parses as true, the map has no
entry for the PID. -/
theorem MSearch_Write_reset_map (env : UtilEnv) (f32 : Bool) (st : SearchState)
    (ctxP : PLUGIN_CONTEXT) (pb : List Nat) (cb cbOffset pNew : Nat)
    (hpath : stricmpEq ctxP.uszPath "reset.txt".toList = true)
    (hreset : (env.Util_VfsWriteFile_BOOL false pb cb cbOffset).2.2 = true) :
    ObMap_GetByKey (MSearch_Write env f32 st ctxP pb cb cbOffset pNew).st.ctxM ctxP.dwPID
      = 0 := by
  have e2 : stricmpEq ctxP.uszPath "align.txt".toList = false := by
    rw [stricmpEq_trans_left _ hpath]; decide
  have e3 : stricmpEq ctxP.uszPath "addr-max.txt".toList = false := by
    rw [stricmpEq_trans_left _ hpath]; decide
  have e4 : stricmpEq ctxP.uszPath "addr-min.txt".toList = false := by
    rw [stricmpEq_trans_left _ hpath]; decide
  have e5 : stricmpEq ctxP.uszPath "search-skip-bitmask.txt".toList = false := by
    rw [stricmpEq_trans_left _ hpath]; decide
  have e6 : stricmpEq ctxP.uszPath "search.txt".toList = false := by
    rw [stricmpEq_trans_left _ hpath]; decide
  by_cases hp : (MSearch_ContextGet f32 st ctxP pNew).1 = 0
  · have hk := ContextGet_null f32 st ctxP pNew hp
    unfold MSearch_Write
    simp only [if_pos hp, ContextGet_ctxM]
    exact hk
  · unfold MSearch_Write
    simp only [if_neg hp, MSearch_Write_reset, hpath, if_true, hreset, MSearch_Write_align, e2,
      MSearch_Write_addr_max, e3, MSearch_Write_addr_min, e4, MSearch_Write_skip_bitmask, e5,
      MSearch_Write_search, e6, Bool.false_eq_true, if_false, ite_self]
    unfold MSearch_ContextUpdate
    simp only [true_or, if_true, ne_eq, not_true_eq_false, if_false, ObMap_RemoveByKey,
      ContextGet_ctxM]
    exact ObMap_GetByKey_of_not_exists _ _ (ObMap_ExistsKey_filter _ _)

/-- What `MSearch_Read` of `status.txt` gives for a PID with no registered
context: the status text of a fresh context, through
`Util_VfsReadFile_FromPBYTE`. -/
theorem MSearch_Read_status_fresh (renv : UtilReadEnv) (f32 : Bool) (st : SearchState)
    (ctxP : PLUGIN_CONTEXT) (cb pcbRead0 cbOffset pNew : Nat)
    (hpath : stricmpEq ctxP.uszPath "status.txt".toList = true)
    (hk : ObMap_GetByKey st.ctxM ctxP.dwPID = 0) (hn : pNew ≠ 0) :
    (MSearch_Read renv f32 st ctxP true cb pcbRead0 cbOffset pNew).1 =
      renv.Util_VfsReadFile_FromPBYTE
        (MSearch_StatusText "NOT_STARTED".toList
          ((MSearch_ContextGet f32 st ctxP pNew).2.obj pNew))
        (MSearch_StatusText "NOT_STARTED".toList
          ((MSearch_ContextGet f32 st ctxP pNew).2.obj pNew)).length cb cbOffset := by
  have e1 : stricmpEq ctxP.uszPath "readme.txt".toList = false := by
    rw [stricmpEq_trans_left _ hpath]; decide
  have e2 : stricmpEq ctxP.uszPath "addr-max.txt".toList = false := by
    rw [stricmpEq_trans_left _ hpath]; decide
  have e3 : stricmpEq ctxP.uszPath "addr-min.txt".toList = false := by
    rw [stricmpEq_trans_left _ hpath]; decide
  have e4 : stricmpEq ctxP.uszPath "align.txt".toList = false := by
    rw [stricmpEq_trans_left _ hpath]; decide
  have e5 : stricmpEq ctxP.uszPath "reset.txt".toList = false := by
    rw [stricmpEq_trans_left _ hpath]; decide
  have e6 : stricmpEq ctxP.uszPath "result.txt".toList = false := by
    rw [stricmpEq_trans_left _ hpath]; decide
  have e7 : stricmpEq ctxP.uszPath "search.txt".toList = false := by
    rw [stricmpEq_trans_left _ hpath]; decide
  have e8 : stricmpEq ctxP.uszPath "search-skip-bitmask.txt".toList = false := by
    rw [stricmpEq_trans_left _ hpath]; decide
  have hf := ContextGet_fresh f32 st ctxP pNew hk hn
  have hs : MSearch_szStatus ((MSearch_ContextGet f32 st ctxP pNew).2.obj pNew)
      = "NOT_STARTED" := by
    rw [hf.2]; rfl
  unfold MSearch_Read
  simp only [hf.1, if_neg hn, e1, e2, e3, e4, e5, e6, e7, e8, hpath, Bool.false_eq_true,
    if_false, if_true, MSearch_ReadStatus, hs]

/-- C14: after `MSearch_Write` to `reset.txt` with data that parses as true,
the map holds no context for the PID, whatever the plugin state was before
(no context, or one not started, running or completed). The next
`MSearch_Read` of `status.txt` for that PID (its allocation succeeding)
therefore works on a fresh context, which is neither active nor completed and
has alignment 1, minimum address 0 and search size 0, and shows the status
text of that context with the status word NOT_STARTED. -/
theorem C14_reset_drops_context (env : UtilEnv) (renv : UtilReadEnv) (f32 : Bool)
    (st : SearchState) (ctxP : PLUGIN_CONTEXT) (pb : List Nat) (cb cbOffset pNew : Nat)
    (hpath : stricmpEq ctxP.uszPath "reset.txt".toList = true)
    (hreset : (env.Util_VfsWriteFile_BOOL false pb cb cbOffset).2.2 = true) :
    ObMap_GetByKey (MSearch_Write env f32 st ctxP pb cb cbOffset pNew).st.ctxM ctxP.dwPID = 0 ∧
    ∀ (ctxR : PLUGIN_CONTEXT) (cbR pcbRead0 cbOffsetR pNewR : Nat),
      ctxR.dwPID = ctxP.dwPID → stricmpEq ctxR.uszPath "status.txt".toList = true →
      pNewR ≠ 0 →
      ∃ ctx : MOB_SEARCH_CONTEXT,
        (MSearch_ContextGet f32 (MSearch_Write env f32 st ctxP pb cb cbOffset pNew).st ctxR
          pNewR).1 = pNewR ∧
        (MSearch_ContextGet f32 (MSearch_Write env f32 st ctxP pb cb cbOffset pNew).st ctxR
          pNewR).2.obj pNewR = ctx ∧
        ctx.fActive = false ∧ ctx.fCompleted = false ∧
        MSearch_szStatus ctx = "NOT_STARTED" ∧
        ctx.sctx.search0.cbAlign = 1 ∧ ctx.sctx.vaMin = 0 ∧ ctx.sctx.search0.cb = 0 ∧
        ctx.sctx.vaCurrent = 0 ∧ ctx.sctx.cbReadTotal = 0 ∧ ctx.sctx.cResult = 0 ∧
        ctx.pObDataResult = none ∧
        (MSearch_Read renv f32 (MSearch_Write env f32 st ctxP pb cb cbOffset pNew).st ctxR true
          cbR pcbRead0 cbOffsetR pNewR).1 =
          renv.Util_VfsReadFile_FromPBYTE (MSearch_StatusText "NOT_STARTED".toList ctx)
            (MSearch_StatusText "NOT_STARTED".toList ctx).length cbR cbOffsetR := by
  have hmap := MSearch_Write_reset_map env f32 st ctxP pb cb cbOffset pNew hpath hreset
  refine ⟨hmap, ?_⟩
  intro ctxR cbR pcbRead0 cbOffsetR pNewR hpid hpathR hn
  have hk : ObMap_GetByKey (MSearch_Write env f32 st ctxP pb cb cbOffset pNew).st.ctxM
      ctxR.dwPID = 0 := by rw [hpid]; exact hmap
  have hf := ContextGet_fresh f32 _ ctxR pNewR hk hn
  refine ⟨_, hf.1, rfl, ?_, ?_, ?_, ?_, ?_, ?_, ?_, ?_, ?_, ?_,
    MSearch_Read_status_fresh renv f32 _ ctxR cbR pcbRead0 cbOffsetR pNewR hpathR hk hn⟩
  all_goals (rw [hf.2]; try rfl)

/-- C14 at a concrete state: PID 4 has a running search; after the byte `1`
is written to `reset.txt` the map is empty, and `status.txt` then reads as
the text of a context that was never started. -/
theorem C14_reset_drops_context_witness :
    (MSearch_Write utilBytes false searchRunning (ctxP4 "reset.txt") [0x31] 1 0 0).st.ctxM = [] ∧
    (MSearch_Read utilRead false
      (MSearch_Write utilBytes false searchRunning (ctxP4 "reset.txt") [0x31] 1 0 0).st
      (ctxP4 "status.txt") true 0x1000 0 0 0x40000).1.pb =
      ("Status:          NOT_STARTED\nSearch size:     0\nSearch align:    1\n" ++
       "Min address:     0x0\nMax address:     0x7fffffffffff\n" ++
       "Current address: 0x0\nBytes read:      0x0\nSearch hits:     0\n").toList.map
        Char.toNat := by
  obtain ⟨-, h⟩ := C14_reset_drops_context utilBytes utilRead false searchRunning
    (ctxP4 "reset.txt") [0x31] 1 0 0 (by decide) (by decide)
  obtain ⟨ctx, -, hctx, -, -, -, -, -, -, -, -, -, -, hread⟩ :=
    h (ctxP4 "status.txt") 0x1000 0 0 0x40000 rfl (by decide) (by decide)
  refine ⟨by decide, ?_⟩
  rw [hread, ← hctx]
  set_option maxRecDepth 20000 in decide

/-- A schedule that lets each thread take its two steps in one piece gives
what two `MSearch_Write` calls in a row give. -/
theorem runSchedule_sequential (env : UtilEnv) (f32 : Bool) (cA cB : WriteCall)
    (st : SearchState) :
    (runSchedule env f32 cA cB (twoWritesInit st) [true, true, false, false]).st =
      runWrites env f32 st [cA, cB] := by
  simp only [runSchedule, twoWritesInit, WriteThread.step, runWrites, List.foldl,
    MSearch_Write_steps]

/-- C15: two concurrent writes to `search.txt` for PID 4, which has no
registered context yet, under the interleaving lookup of `A`, lookup of `B`,
critical section of `A`, critical section of `B`. Each lookup finds no context
and allocates its own (0x30000 and 0x40000), and each critical section tests
the flags of its own context. After the critical section of `A` the
registered context is the one of `A` and its worker is queued; the critical
section of `B` then replaces the registered context by the one of `B` and
queues a second worker. Both calls return success and two workers are queued.
When the two calls run one after the other, one worker is queued. -/
theorem C15_concurrent_search_writes_both_queue :
    (runSchedule utilBytes false searchCallA searchCallB (twoWritesInit searchInit)
      [true, false, true]).st.ctxM = [(4, 0x30000)] ∧
    (runSchedule utilBytes false searchCallA searchCallB (twoWritesInit searchInit)
      [true, false, true]).st.work = [0x30000] ∧
    (runSchedule utilBytes false searchCallA searchCallB (twoWritesInit searchInit)
      [true, false, true, false]).a = WriteThread.returned NTSTATUS.VMMDLL_STATUS_SUCCESS ∧
    (runSchedule utilBytes false searchCallA searchCallB (twoWritesInit searchInit)
      [true, false, true, false]).b = WriteThread.returned NTSTATUS.VMMDLL_STATUS_SUCCESS ∧
    (runSchedule utilBytes false searchCallA searchCallB (twoWritesInit searchInit)
      [true, false, true, false]).st.work = [0x30000, 0x40000] ∧
    (runSchedule utilBytes false searchCallA searchCallB (twoWritesInit searchInit)
      [true, false, true, false]).st.ctxM = [(4, 0x40000)] ∧
    [true, false, true, false] ∈ interleavings ∧
    (runSchedule utilBytes false searchCallA searchCallB (twoWritesInit searchInit)
      [true, true, false, false]).st.work = [0x30000] ∧
    (runSchedule utilBytes false searchCallA searchCallB (twoWritesInit searchInit)
      [true, true, false, false]).st.ctxM = [(4, 0x30000)] := by
  refine ⟨by decide, by decide, by decide, by decide, by decide, by decide, by decide,
    by decide, by decide⟩

/-- When the PID has a registered context that is neither active nor
completed, both lookups find that one context, and under every interleaving
one worker is queued and the registered context stays the same object. -/
theorem runSchedule_registered_one_worker :
    ∀ sched ∈ interleavings,
      (runSchedule utilBytes false searchCallA searchCallB (twoWritesInit searchIdle)
        sched).st.work.length = 1 ∧
      (runSchedule utilBytes false searchCallA searchCallB (twoWritesInit searchIdle)
        sched).st.ctxM = [(4, 0x30000)] := by
  decide

/-! ### The command line -/

/-- A property of both branches is a property of the conditional. -/
theorem ite_prop {α : Type} (P : α → Prop) (c : Prop) [Decidable c] (x y : α)
    (hx : c → P x) (hy : ¬ c → P y) : P (if c then x else y) := by
  by_cases h : c
  · rw [if_pos h]; exact hx h
  · rw [if_neg h]; exact hy h

/-- The option `-forensic` stores the low 32 bits of the number and goes on
exactly when these are at most `FC_DATABASE_TYPE_MAX`. -/
theorem InitializeConfig_value_forensic (env : CfgEnv) (v : CStr) (H : VMM_HANDLE_CFG) :
    InitializeConfig_value env "-forensic".toList v H =
      (decide (env.Util_GetNumericA v % 2 ^ 32 ≤ env.FC_DATABASE_TYPE_MAX),
       { H with cfg := { H.cfg with tpForensicMode := env.Util_GetNumericA v % 2 ^ 32 } }) := by
  have e1 : stricmpEq "-forensic".toList "-cr3".toList = false := by decide
  have e2 : stricmpEq "-forensic".toList "-forensic".toList = true := by decide
  unfold InitializeConfig_value
  simp only [e1, e2, Bool.false_eq_true, if_false, if_true]
  by_cases h : env.Util_GetNumericA v % 2 ^ 32 ≤ env.FC_DATABASE_TYPE_MAX
  · rw [if_neg (by omega), decide_eq_true h]
  · rw [if_pos (by omega), decide_eq_false h]

/-- The option `-max` stores the number. -/
theorem InitializeConfig_value_max (env : CfgEnv) (v : CStr) (H : VMM_HANDLE_CFG) :
    InitializeConfig_value env "-max".toList v H =
      (true, { H with dev := { H.dev with paMax := env.Util_GetNumericA v % 2 ^ 64 } }) := by
  rfl

/-- The option `-device` copies its value into `szDevice`. -/
theorem InitializeConfig_value_device (env : CfgEnv) (v : CStr) (H : VMM_HANDLE_CFG) :
    InitializeConfig_value env "-device".toList v H =
      (true, { H with dev := { H.dev with szDevice := env.strcpy_s env.MAX_PATH v } }) := by
  rfl

/-- The loop on the arguments `""`, `-device`, `d`, `o`, `s`, where `o` is an
option with a value. -/
theorem InitializeConfig_loop_device_then (env : CfgEnv) (H : VMM_HANDLE_CFG) (d o s : CStr)
    (ho : InitializeConfig_flag o
      { H with dev := { H.dev with szDevice := env.strcpy_s env.MAX_PATH d } } = none) :
    InitializeConfig_loop env ["".toList, "-device".toList, d, o, s] H =
      (if (InitializeConfig_value env o s
            { H with dev := { H.dev with szDevice := env.strcpy_s env.MAX_PATH d } }).1
       then (true, (InitializeConfig_value env o s
            { H with dev := { H.dev with szDevice := env.strcpy_s env.MAX_PATH d } }).2)
       else (false, (InitializeConfig_value env o s
            { H with dev := { H.dev with szDevice := env.strcpy_s env.MAX_PATH d } }).2)) := by
  have h1 : InitializeConfig_flag "".toList H = some H := rfl
  have h2 : InitializeConfig_flag "-device".toList H = none := rfl
  rw [InitializeConfig_loop, h1]
  simp only
  rw [InitializeConfig_loop, h2]
  simp only [InitializeConfig_value_device, if_true]
  rw [InitializeConfig_loop, ho]
  simp only [InitializeConfig_loop]

/-- `InitializeConfig_finish` on a handle whose `paMax` is 0 or at least
0x100000: it returns whether a device is set, and leaves `paMax` as it is
when no memory map is given. -/
theorem InitializeConfig_finish_ok (env : CfgEnv) (H : VMM_HANDLE_CFG)
    (h : H.dev.paMax = 0 ∨ 0x00100000 ≤ H.dev.paMax) :
    (InitializeConfig_finish env H).1 = decide (H.dev.szDevice ≠ []) ∧
    (InitializeConfig_finish env H).2.cfg.tpForensicMode = H.cfg.tpForensicMode ∧
    (InitializeConfig_finish env H).2.dev.szDevice = H.dev.szDevice ∧
    (H.cfg.szMemMap = [] → H.cfg.szMemMapStr = [] →
      (InitializeConfig_finish env H).2.dev.paMax = H.dev.paMax) := by
  unfold InitializeConfig_finish
  rw [if_neg (by omega)]
  refine ⟨rfl, rfl, rfl, ?_⟩
  intro h1 h2
  simp only [h1, h2, ne_eq, not_true_eq_false, or_self, and_false, if_false]

/-- `InitializeConfig_finish` on a handle whose `paMax` is between 1 and
0xfffff: `return FALSE`. -/
theorem InitializeConfig_finish_small (env : CfgEnv) (H : VMM_HANDLE_CFG)
    (h0 : H.dev.paMax ≠ 0) (h1 : H.dev.paMax < 0x00100000) :
    InitializeConfig_finish env H = (false, H) := by
  unfold InitializeConfig_finish
  rw [if_pos ⟨h0, h1⟩]

/-- C18: `-forensic v` is tested after the number is cut to a DWORD. For every
`Util_GetNumericA`, device `d` and text `s`, the call with the arguments
`""`, `-device`, `d`, `-forensic`, `s` on a cleared handle returns TRUE
exactly when the low 32 bits of the number are at most `FC_DATABASE_TYPE_MAX`
(and the device is not empty), and stores these low 32 bits. So for the
number 4294967297 = 2^32 + 1, which is not among the allowed values 0..4,
the call returns TRUE with `cfg.tpForensicMode` = 1. -/
theorem C18_forensic_checked_after_truncation :
    (∀ (env : CfgEnv) (d s : CStr),
      (VmmDllCore_InitializeConfig env VMM_HANDLE_CFG.cleared
        ["".toList, "-device".toList, d, "-forensic".toList, s]).1 =
        (decide (env.Util_GetNumericA s % 2 ^ 32 ≤ env.FC_DATABASE_TYPE_MAX) &&
         decide (env.strcpy_s env.MAX_PATH d ≠ [])) ∧
      (VmmDllCore_InitializeConfig env VMM_HANDLE_CFG.cleared
        ["".toList, "-device".toList, d, "-forensic".toList, s]).2.cfg.tpForensicMode =
        env.Util_GetNumericA s % 2 ^ 32) ∧
    numericA "4294967297".toList = 4294967297 ∧
    (VmmDllCore_InitializeConfig cfgEnvStd VMM_HANDLE_CFG.cleared
      ["".toList, "-device".toList, "dump.raw".toList, "-forensic".toList,
       "4294967297".toList]).1 = true ∧
    (VmmDllCore_InitializeConfig cfgEnvStd VMM_HANDLE_CFG.cleared
      ["".toList, "-device".toList, "dump.raw".toList, "-forensic".toList,
       "4294967297".toList]).2.cfg.tpForensicMode = 1 ∧
    (VmmDllCore_InitializeConfig cfgEnvStd VMM_HANDLE_CFG.cleared
      ["".toList, "-device".toList, "dump.raw".toList, "-forensic".toList,
       "5".toList]).1 = false := by
  refine ⟨?_, by decide, by decide, by decide, by decide⟩
  intro env d s
  have hl := InitializeConfig_loop_device_then env VMM_HANDLE_CFG.cleared d "-forensic".toList s rfl
  simp only [VmmDllCore_InitializeConfig, InitializeConfig_main, hl,
    InitializeConfig_value_forensic]
  by_cases h : env.Util_GetNumericA s % 2 ^ 32 ≤ env.FC_DATABASE_TYPE_MAX
  · simp only [decide_eq_true h, if_true, Bool.true_and]
    have hf := InitializeConfig_finish_ok env
      { cfg := { VMM_HANDLE_CFG.cleared.cfg with
          tpForensicMode := env.Util_GetNumericA s % 2 ^ 32 },
        dev := { VMM_HANDLE_CFG.cleared.dev with szDevice := env.strcpy_s env.MAX_PATH d } }
      (Or.inl rfl)
    exact ⟨hf.1, hf.2.1⟩
  · simp only [decide_eq_false h, Bool.false_eq_true, if_false, Bool.false_and]
    exact ⟨trivial, trivial⟩

/-- C19, counterexample: with a device given, `-max 0x1000`, a value inside
the documented range 0x0 .. 0xffffffffffffffff, makes
`VmmDllCore_InitializeConfig` return FALSE; `-max 0x100000` is accepted. -/
theorem C19_max_below_1MB_counterexample :
    numericA "0x1000".toList = 0x1000 ∧
    (VmmDllCore_InitializeConfig cfgEnvStd VMM_HANDLE_CFG.cleared
      ["".toList, "-device".toList, "dump.raw".toList, "-max".toList, "0x1000".toList]).1
      = false ∧
    (VmmDllCore_InitializeConfig cfgEnvStd VMM_HANDLE_CFG.cleared
      ["".toList, "-device".toList, "dump.raw".toList, "-max".toList, "0x100000".toList]).1
      = true := by
  refine ⟨by decide, by decide, by decide⟩

/-- C19, amended: given a device that fits and `-max v` (and no memory-map
option), on a cleared handle, `VmmDllCore_InitializeConfig` returns TRUE with
`dev.paMax = v` for `v = 0` and for every `v` from 0x100000 to
0xffffffffffffffff, and returns FALSE for every `v` from 1 to 0xfffff. -/
theorem C19_max_accepts_zero_or_1MB (env : CfgEnv) (d s : CStr) (v : Nat)
    (hv : env.Util_GetNumericA s = v) (h64 : v < 2 ^ 64)
    (hd : env.strcpy_s env.MAX_PATH d ≠ []) :
    ((v = 0 ∨ 0x00100000 ≤ v) →
      (VmmDllCore_InitializeConfig env VMM_HANDLE_CFG.cleared
        ["".toList, "-device".toList, d, "-max".toList, s]).1 = true ∧
      (VmmDllCore_InitializeConfig env VMM_HANDLE_CFG.cleared
        ["".toList, "-device".toList, d, "-max".toList, s]).2.dev.paMax = v) ∧
    ((0 < v ∧ v < 0x00100000) →
      (VmmDllCore_InitializeConfig env VMM_HANDLE_CFG.cleared
        ["".toList, "-device".toList, d, "-max".toList, s]).1 = false) := by
  have hl := InitializeConfig_loop_device_then env VMM_HANDLE_CFG.cleared d "-max".toList s rfl
  have hm : env.Util_GetNumericA s % 2 ^ 64 = v := by rw [hv]; exact Nat.mod_eq_of_lt h64
  simp only [VmmDllCore_InitializeConfig, InitializeConfig_main, hl,
    InitializeConfig_value_max, if_true, hm]
  refine ⟨fun h => ?_, fun h => ?_⟩
  · have hf := InitializeConfig_finish_ok env
      { cfg := VMM_HANDLE_CFG.cleared.cfg,
        dev := { VMM_HANDLE_CFG.cleared.dev with
          szDevice := env.strcpy_s env.MAX_PATH d, paMax := v } } h
    exact ⟨hf.1.trans (decide_eq_true hd), hf.2.2.2 rfl rfl⟩
  · rw [InitializeConfig_finish_small env _ (by show v ≠ 0; omega) (by show v < _; omega)]

/-- C19 (amended) with the device `dump.raw`: `-max 0x200000` is accepted and
stored. -/
theorem C19_max_accepts_zero_or_1MB_witness :
    (VmmDllCore_InitializeConfig cfgEnvStd VMM_HANDLE_CFG.cleared
      ["".toList, "-device".toList, "dump.raw".toList, "-max".toList, "0x200000".toList]).1
      = true ∧
    (VmmDllCore_InitializeConfig cfgEnvStd VMM_HANDLE_CFG.cleared
      ["".toList, "-device".toList, "dump.raw".toList, "-max".toList,
       "0x200000".toList]).2.dev.paMax = 0x200000 :=
  (C19_max_accepts_zero_or_1MB cfgEnvStd "dump.raw".toList "0x200000".toList 0x200000
    (by decide) (by decide) (by decide)).1 (Or.inr (by decide))

/-- An option without a value leaves `H->dev` as it is. -/
theorem InitializeConfig_flag_dev (a : CStr) (H H1 : VMM_HANDLE_CFG)
    (h : InitializeConfig_flag a H = some H1) : H1.dev = H.dev := by
  revert h
  unfold InitializeConfig_flag
  repeat' refine ite_prop (fun r => r = some H1 → H1.dev = H.dev) _ _ _ (fun _ => ?_) (fun _ => ?_)
  all_goals (intro h; cases h; try rfl)

/-- An option with a value leaves a device in `szDevice` only if one was
there, or if the option is `-device` or `-z` and its value is not empty,
given that `strcpy_s` of the empty string leaves the empty string. -/
theorem InitializeConfig_value_szDevice (env : CfgEnv) (hcpy : ∀ n, env.strcpy_s n [] = [])
    (a v : CStr) (H : VMM_HANDLE_CFG)
    (h : (InitializeConfig_value env a v H).2.dev.szDevice ≠ []) :
    H.dev.szDevice ≠ [] ∨
      ((stricmpEq a "-device".toList = true ∨ a = "-z".toList) ∧ v ≠ []) := by
  revert h
  generalize hQ : (H.dev.szDevice ≠ [] ∨
      ((stricmpEq a "-device".toList = true ∨ a = "-z".toList) ∧ v ≠ [])) = Q
  have h0 : H.dev.szDevice ≠ [] → Q := fun h => hQ ▸ Or.inl h
  have h1 : (stricmpEq a "-device".toList = true ∨ a = "-z".toList) → v ≠ [] → Q :=
    fun h hv => hQ ▸ Or.inr ⟨h, hv⟩
  clear hQ
  unfold InitializeConfig_value
  refine ite_prop (fun r : Bool × VMM_HANDLE_CFG => r.2.dev.szDevice ≠ [] → Q) _ _ _
    (fun _ => h0) (fun _ => ?_)
  refine ite_prop (fun r : Bool × VMM_HANDLE_CFG => r.2.dev.szDevice ≠ [] → Q) _ _ _
    (fun _ => ite_prop (fun r : Bool × VMM_HANDLE_CFG => r.2.dev.szDevice ≠ [] → Q) _ _ _
      (fun _ => h0) (fun _ => h0)) (fun _ => ?_)
  refine ite_prop (fun r : Bool × VMM_HANDLE_CFG => r.2.dev.szDevice ≠ [] → Q) _ _ _
    (fun _ => h0) (fun _ => ?_)
  refine ite_prop (fun r : Bool × VMM_HANDLE_CFG => r.2.dev.szDevice ≠ [] → Q) _ _ _
    (fun h4 h => ?_) (fun _ => ?_)
  · refine h1 h4 (fun hv => h ?_)
    rw [hv]
    exact hcpy _
  repeat' refine ite_prop (fun r : Bool × VMM_HANDLE_CFG => r.2.dev.szDevice ≠ [] → Q) _ _ _ (fun _ => ?_) (fun _ => ?_)
  all_goals exact h0

theorem argsSupplyDevice_cons (a : CStr) (l : List CStr) (h : argsSupplyDevice l = true) :
    argsSupplyDevice (a :: l) = true := by
  cases l with
  | nil => simp [argsSupplyDevice] at h
  | cons v rest =>
    rw [argsSupplyDevice, h, Bool.or_true]

theorem argsSupplyDevice_head (a v : CStr) (rest : List CStr)
    (h : (stricmpEq a "-device".toList = true ∨ a = "-z".toList) ∧ v ≠ []) :
    argsSupplyDevice (a :: v :: rest) = true := by
  rw [argsSupplyDevice]
  have h1 : (stricmpEq a "-device".toList || a == "-z".toList) = true := by
    rcases h.1 with h1 | h1
    · rw [h1, Bool.true_or]
    · rw [h1]; simp
  have h2 : (v != []) = true := by simpa using h.2
  rw [h1, h2]
  rfl

/-- When the loop runs through with a device in `szDevice`, the device was
there before or the arguments supply one. -/
theorem InitializeConfig_loop_szDevice (env : CfgEnv) (hcpy : ∀ n, env.strcpy_s n [] = []) :
    ∀ (n : Nat) (argv : List CStr), argv.length ≤ n → ∀ H : VMM_HANDLE_CFG,
      (InitializeConfig_loop env argv H).1 = true →
      (InitializeConfig_loop env argv H).2.dev.szDevice ≠ [] →
      H.dev.szDevice ≠ [] ∨ argsSupplyDevice argv = true := by
  intro n
  induction n with
  | zero =>
    intro argv hlen H _ h2
    have : argv = [] := List.length_eq_zero.1 (Nat.le_zero.1 hlen)
    subst this
    exact Or.inl h2
  | succ n ih =>
    intro argv hlen H h1 h2
    match argv, hlen, h1, h2 with
    | [], _, _, h2 => exact Or.inl h2
    | [a], _, h1, h2 =>
      rw [InitializeConfig_loop] at h1 h2
      cases hflag : InitializeConfig_flag a H with
      | some H1 =>
        rw [hflag] at h2
        have hd := InitializeConfig_flag_dev a H H1 hflag
        exact Or.inl (by rw [← hd]; exact h2)
      | none =>
        rw [hflag] at h1
        simp at h1
    | a :: v :: rest2, hlen, h1, h2 =>
      rw [InitializeConfig_loop] at h1 h2
      cases hflag : InitializeConfig_flag a H with
      | some H1 =>
        rw [hflag] at h1 h2
        have hd := InitializeConfig_flag_dev a H H1 hflag
        rcases ih (v :: rest2) (by simpa using hlen) H1 h1 h2 with h | h
        · exact Or.inl (by rw [← hd]; exact h)
        · exact Or.inr (argsSupplyDevice_cons a _ h)
      | none =>
        rw [hflag] at h1 h2
        simp only at h1 h2
        by_cases hv : (InitializeConfig_value env a v H).1 = true
        · rw [if_pos hv] at h1 h2
          have hlen2 : rest2.length ≤ n := by
            simp only [List.length_cons] at hlen; omega
          rcases ih rest2 hlen2 _ h1 h2 with h | h
          · rcases InitializeConfig_value_szDevice env hcpy a v H h with h3 | h3
            · exact Or.inl h3
            · exact Or.inr (argsSupplyDevice_head a v rest2 h3)
          · exact Or.inr (argsSupplyDevice_cons a _ (argsSupplyDevice_cons v _ h))
        · rw [if_neg hv] at h1
          simp at h1

/-- `InitializeConfig_finish` returns TRUE only with a device in `szDevice`. -/
theorem InitializeConfig_finish_true (env : CfgEnv) (H : VMM_HANDLE_CFG)
    (h : (InitializeConfig_finish env H).1 = true) : H.dev.szDevice ≠ [] := by
  unfold InitializeConfig_finish at h
  by_cases hg : H.dev.paMax ≠ 0 ∧ H.dev.paMax < 0x00100000
  · rw [if_pos hg] at h; simp at h
  · rw [if_neg hg] at h
    simpa using h

/-- The loop and the finish return TRUE only if the arguments supply a
device, on a handle that has none. -/
theorem InitializeConfig_main_true (env : CfgEnv) (hcpy : ∀ n, env.strcpy_s n [] = [])
    (H : VMM_HANDLE_CFG) (hH : H.dev.szDevice = []) (argv : List CStr)
    (h : (InitializeConfig_main env H argv).1 = true) : argsSupplyDevice argv = true := by
  unfold InitializeConfig_main at h
  simp only at h
  by_cases hl : (InitializeConfig_loop env argv H).1 = true
  · rw [if_pos hl] at h
    have hd := InitializeConfig_finish_true env _ h
    rcases InitializeConfig_loop_szDevice env hcpy argv.length argv (Nat.le_refl _) H hl hd
      with h1 | h1
    · exact absurd hH h1
    · exact h1
  · rw [if_neg hl] at h
    simp at h

/-- C20: on a cleared handle (no device set), `VmmDllCore_InitializeConfig`
returns FALSE for every argument list that contains neither `-device` / `-z`
followed by a non-empty value nor consists of `argv[0]` and one bare file name
(not empty, not starting with `-`); and a bare file name `f` as the only
argument gives the same result and the same handle as `-device f`. `strcpy_s`
is any function that leaves the empty string when it copies the empty
string. -/
theorem C20_TRUE_only_with_device (env : CfgEnv) (H : VMM_HANDLE_CFG) (argv : List CStr)
    (hcpy : ∀ n, env.strcpy_s n [] = []) (hH : H.dev.szDevice = [])
    (hdev : argsSupplyDevice argv = false)
    (hbare : ¬ ∃ a0 f : CStr, argv = [a0, f] ∧ f ≠ [] ∧ f.head? ≠ some '-') :
    (VmmDllCore_InitializeConfig env H argv).1 = false ∧
    (∀ a0 f : CStr, f ≠ [] → f.head? ≠ some '-' →
      VmmDllCore_InitializeConfig env H [a0, f] =
        VmmDllCore_InitializeConfig env H [a0, "-device".toList, f]) := by
  refine ⟨?_, ?_⟩
  · have hmain : (VmmDllCore_InitializeConfig env H argv) = InitializeConfig_main env H argv := by
      unfold VmmDllCore_InitializeConfig
      split
      · rename_i a0 a1
        rw [if_neg (fun hc => hbare ⟨a0, a1, rfl, hc.1, hc.2⟩)]
      · rfl
    rw [hmain]
    cases hr : (InitializeConfig_main env H argv).1
    · rfl
    · rw [InitializeConfig_main_true env hcpy H hH argv hr] at hdev
      cases hdev
  · intro a0 f h1 h2
    unfold VmmDllCore_InitializeConfig
    simp only [if_pos (And.intro h1 h2)]

/-- C20 on a cleared handle: options without a device give FALSE, and the
bare file name `dump.raw` is treated as `-device dump.raw`, which gives
TRUE. -/
theorem C20_TRUE_only_with_device_witness :
    (VmmDllCore_InitializeConfig cfgEnvStd VMM_HANDLE_CFG.cleared
      ["".toList, "-printf".toList, "-v".toList]).1 = false ∧
    (VmmDllCore_InitializeConfig cfgEnvStd VMM_HANDLE_CFG.cleared
      ["".toList, "dump.raw".toList]).1 = true ∧
    (VmmDllCore_InitializeConfig cfgEnvStd VMM_HANDLE_CFG.cleared
      ["".toList, "dump.raw".toList]).2.dev.szDevice = "dump.raw".toList := by
  have h := C20_TRUE_only_with_device cfgEnvStd VMM_HANDLE_CFG.cleared
    ["".toList, "-printf".toList, "-v".toList] (fun n => by simp [cfgEnvStd]) rfl (by decide)
    (by rintro ⟨a0, f, h, -⟩; simp at h)
  refine ⟨h.1, ?_, ?_⟩
  · rw [h.2 _ _ (by decide) (by decide)]; decide
  · rw [h.2 _ _ (by decide) (by decide)]; decide

/-! ### The paging option -/

/-- Clearing the bits of `n` and then setting the bits of `b` leaves, among
the bits of `n`, those of `b`. -/
theorem land_clear_lor (f n b : Nat) (hn : n < 2 ^ 64) :
    ((f &&& (2 ^ 64 - 1 - n)) ||| b) &&& n = b &&& n := by
  have e : 2 ^ 64 - 1 - n = 2 ^ 64 - (n + 1) := by omega
  rw [e]
  apply Nat.eq_of_testBit_eq
  intro i
  rw [Nat.testBit_and, Nat.testBit_or, Nat.testBit_and, Nat.testBit_two_pow_sub_succ hn,
    Nat.testBit_and]
  cases n.testBit i <;> simp

/-- What `VMMDLL_ConfigGet_Impl` reads for the paging option after
`VMMDLL_ConfigSet_Impl` has set it to `v`: Set clears the bits of
`VMM_FLAG_NOPAGING` and sets bit 0 when `v` is 0, Get tests the bits of
`VMM_FLAG_NOPAGING`. -/
theorem ConfigSet_ConfigGet_paging (env : OptEnv) (H : VMM_HANDLE_OPT) (fOption v : Nat)
    (hmagic : H.magic = env.VMM_MAGIC)
    (hopt : env.caseOf (fOption &&& 0xffffffff00000000)
      = some VMMDLL_OPT.CONFIG_IS_PAGING_ENABLED)
    (hnr : fOption &&& 0xffff000000000000 ≠ 0x2001000000000000)
    (h0 : fOption ≠ 0)
    (hN : env.VMM_FLAG_NOPAGING < 2 ^ 64) :
    ∃ H1 : VMM_HANDLE_OPT,
      VMMDLL_ConfigSet_Impl env (some H) fOption v = (true, some H1) ∧
      VMMDLL_ConfigGet_Impl env H1 fOption true =
        some (if v = 0 ∧ env.VMM_FLAG_NOPAGING % 2 = 1 then 0 else 1) := by
  refine ⟨{ H with vmm_flags := (H.vmm_flags &&& (2 ^ 64 - 1 - env.VMM_FLAG_NOPAGING)) |||
            (if v ≠ 0 then 0 else 1) }, ?_, ?_⟩
  · unfold VMMDLL_ConfigSet_Impl
    simp only [hmagic, ne_eq, not_true_eq_false, if_false, if_neg hnr, hopt]
  · unfold VMMDLL_ConfigGet_Impl
    simp only [h0, false_or, Bool.true_eq_false, if_false, hopt, land_clear_lor _ _ _ hN]
    by_cases hv : v = 0
    · simp only [hv, ne_eq, not_true_eq_false, if_false, Nat.one_and_eq_mod_two, true_and]
      have h2 := Nat.mod_two_eq_zero_or_one env.VMM_FLAG_NOPAGING
      rcases h2 with h2 | h2
      · rw [h2]; simp
      · rw [h2]; simp
    · simp [hv]

/-- C17: the paging option does not round-trip when bit 0 is not a bit of
`VMM_FLAG_NOPAGING`. `VMMDLL_ConfigSet_Impl` clears the bits of
`VMM_FLAG_NOPAGING` but then sets the literal bit 1 for the value 0, while
`VMMDLL_ConfigGet_Impl` tests the bits of `VMM_FLAG_NOPAGING`. So for every
handle with a valid magic and every value `v`, zero included, Set returns TRUE
and Get then yields 1; after Set with the value 0 bit 0 of `H->vmm.flags` is
set and the bits of `VMM_FLAG_NOPAGING` are clear. -/
theorem C17_paging_set_zero_reads_one (env : OptEnv) (H : VMM_HANDLE_OPT) (fOption : Nat)
    (hmagic : H.magic = env.VMM_MAGIC)
    (hopt : env.caseOf (fOption &&& 0xffffffff00000000)
      = some VMMDLL_OPT.CONFIG_IS_PAGING_ENABLED)
    (hnr : fOption &&& 0xffff000000000000 ≠ 0x2001000000000000)
    (h0 : fOption ≠ 0)
    (hN : env.VMM_FLAG_NOPAGING < 2 ^ 64)
    (heven : env.VMM_FLAG_NOPAGING % 2 = 0) :
    (∀ v : Nat, ∃ H1 : VMM_HANDLE_OPT,
      VMMDLL_ConfigSet_Impl env (some H) fOption v = (true, some H1) ∧
      VMMDLL_ConfigGet_Impl env H1 fOption true = some 1) ∧
    (∃ H1 : VMM_HANDLE_OPT,
      VMMDLL_ConfigSet_Impl env (some H) fOption 0 = (true, some H1) ∧
      VMMDLL_ConfigGet_Impl env H1 fOption true = some 1 ∧
      H1.vmm_flags % 2 = 1 ∧ H1.vmm_flags &&& env.VMM_FLAG_NOPAGING = 0) := by
  refine ⟨fun v => ?_, ?_⟩
  · obtain ⟨H1, h1, h2⟩ := ConfigSet_ConfigGet_paging env H fOption v hmagic hopt hnr h0 hN
    refine ⟨H1, h1, ?_⟩
    rw [h2, if_neg (by omega)]
  · refine ⟨{ H with vmm_flags := (H.vmm_flags &&& (2 ^ 64 - 1 - env.VMM_FLAG_NOPAGING)) |||
            1 }, ?_, ?_, ?_, ?_⟩
    · unfold VMMDLL_ConfigSet_Impl
      simp only [hmagic, ne_eq, not_true_eq_false, if_false, if_neg hnr, hopt]
    · unfold VMMDLL_ConfigGet_Impl
      simp only [h0, false_or, Bool.true_eq_false, if_false, hopt, land_clear_lor _ _ _ hN,
        Nat.one_and_eq_mod_two, heven, ne_eq, not_true_eq_false]
    · show ((H.vmm_flags &&& (2 ^ 64 - 1 - env.VMM_FLAG_NOPAGING)) ||| 1) % 2 = 1
      exact Nat.or_mod_two_eq_one.2 (Or.inr rfl)
    · show ((H.vmm_flags &&& (2 ^ 64 - 1 - env.VMM_FLAG_NOPAGING)) ||| 1) &&&
        env.VMM_FLAG_NOPAGING = 0
      rw [land_clear_lor _ _ _ hN, Nat.one_and_eq_mod_two, heven]

/-- C17 with `VMM_FLAG_NOPAGING` = 0x10: after the paging option of a handle
with no flag set is set to 0, `H->vmm.flags` is 1 and the option reads 1. -/
theorem C17_paging_set_zero_reads_one_witness :
    ∃ H1 : VMM_HANDLE_OPT,
      VMMDLL_ConfigSet_Impl optEnvStd (some optHandleStd) 0x4000000200000000 0
        = (true, some H1) ∧
      VMMDLL_ConfigGet_Impl optEnvStd H1 0x4000000200000000 true = some 1 ∧
      H1.vmm_flags % 2 = 1 ∧ H1.vmm_flags &&& optEnvStd.VMM_FLAG_NOPAGING = 0 :=
  (C17_paging_set_zero_reads_one optEnvStd optHandleStd 0x4000000200000000 rfl (by decide)
    (by decide) (by decide) (by decide) (by decide)).2

/-! ### The search in an ordered map -/

/-- The first loop of `VMemD_Util_qfind` ends within its fuel, at the number
of bits of `x` (at 1 for `x = 0`). -/
theorem qfind_bits_spec (x : Nat) :
    ∀ fuel i : Nat, x < 2 ^ (i + fuel) → (i = 1 ∨ 2 ^ (i - 1) ≤ x) → 1 ≤ i →
      ∃ r, qfind_bits x (fuel + 1) i = some r ∧ 1 ≤ r ∧ x < 2 ^ r ∧
        (r = 1 ∨ 2 ^ (r - 1) ≤ x) := by
  intro fuel
  induction fuel with
  | zero =>
    intro i hx hi h1
    refine ⟨i, ?_, h1, hx, hi⟩
    rw [qfind_bits]
    have h0 : x >>> i = 0 := by
      rw [Nat.shiftRight_eq_div_pow]
      exact Nat.div_eq_of_lt hx
    rw [if_neg (by rw [h0]; exact fun h => h rfl)]
  | succ fuel ih =>
    intro i hx hi h1
    rw [qfind_bits]
    by_cases h0 : x >>> i ≠ 0
    · rw [if_pos h0]
      have hle : 2 ^ i ≤ x := by
        rw [Nat.shiftRight_eq_div_pow] at h0
        by_contra hlt
        exact h0 (Nat.div_eq_of_lt (Nat.lt_of_not_le hlt))
      exact ih (i + 1) (by rw [Nat.add_right_comm]; exact hx) (Or.inr hle) (by omega)
    · rw [if_neg h0]
      have hlt : x < 2 ^ i := by
        have h00 : x >>> i = 0 := not_not.1 h0
        rw [Nat.shiftRight_eq_div_pow] at h00
        by_contra hle
        have := Nat.div_pos (Nat.le_of_not_lt hle) (Nat.pow_pos (by norm_num : 0 < 2))
        omega
      exact ⟨i, rfl, h1, hlt, hi⟩

/-- One round of the second loop, on the entry with index `S` and a step of
`2 ^ j` entries, when the index is inside the map and at least the step. -/
theorem qfind_loop_step (c : Nat → Int) (n E S j fuel : Nat) (hE : 1 ≤ E)
    (hnE : n * E < 2 ^ 31) (hS : S < n) (hj : 2 ^ j ≤ S) :
    qfind_loop (fun off => c (off / E)) E (n * E) (fuel + 1) (E * S) (E * 2 ^ j) =
      if c S < 0 then
        qfind_loop (fun off => c (off / E)) E (n * E) fuel (E * (S - 2 ^ j)) (E * 2 ^ j / 2)
      else if 0 < c S then
        (if S + 2 ^ j < n then
          qfind_loop (fun off => c (off / E)) E (n * E) fuel (E * (S + 2 ^ j)) (E * 2 ^ j / 2)
         else qfind_loop (fun off => c (off / E)) E (n * E) fuel (E * S) (E * 2 ^ j / 2))
      else some (Sum.inl (E * S)) := by
  have hE0 : 0 < E := hE
  have hp : 0 < 2 ^ j := Nat.pow_pos (by norm_num)
  have h1 : E ≤ E * 2 ^ j := Nat.le_mul_of_pos_right E hp
  have h2 : E * S / E = S := Nat.mul_div_cancel_left S hE0
  have h3 : E * 2 ^ j ≤ E * S := Nat.mul_le_mul_left E hj
  have h4 : E * S < n * E := by rw [Nat.mul_comm n E]; exact Nat.mul_lt_mul_of_pos_left hS hE0
  have h5 : sub32 (E * S) (E * 2 ^ j) = E * (S - 2 ^ j) := by
    rw [sub32, if_pos h3, Nat.mul_sub]
  have h6 : (E * S + E * 2 ^ j) % 2 ^ 32 = E * (S + 2 ^ j) := by
    rw [Nat.mul_add]
    apply Nat.mod_eq_of_lt
    omega
  have h7 : E * (S + 2 ^ j) < n * E ↔ S + 2 ^ j < n := by
    rw [Nat.mul_comm n E]
    exact Nat.mul_lt_mul_left hE0
  rw [qfind_loop, if_pos h1]
  simp only [h2, h5, h6, h7]

/-- The second loop ends when the step has fallen below one entry. -/
theorem qfind_loop_exit (pf : Nat → Int) (E cbMap fuel a : Nat) (hE : 1 ≤ E) :
    qfind_loop pf E cbMap (fuel + 1) a (E * 2 ^ 0 / 2) = some (Sum.inr a) := by
  have h : ¬ E ≤ E * 2 ^ 0 / 2 := by
    rw [Nat.pow_zero, Nat.mul_one]
    have := Nat.div_lt_self (show 0 < E from hE) (show 1 < 2 by norm_num)
    omega
  rw [qfind_loop, if_neg h]

/-- Halving a step of `2 ^ (j + 1)` entries. -/
theorem qfind_step_half (E j : Nat) : E * 2 ^ (j + 1) / 2 = E * 2 ^ j := by
  rw [Nat.pow_succ, ← Nat.mul_assoc]
  exact Nat.mul_div_cancel _ (by norm_num)

/-- The second loop on a map without an entry that compares equal: it ends at
an index inside the map. -/
theorem qfind_loop_none (c : Nat → Int) (n E : Nat) (hE : 1 ≤ E) (hnE : n * E < 2 ^ 31)
    (hne : ∀ k, k < n → c k ≠ 0) :
    ∀ j S fuel : Nat, j + 2 ≤ fuel → S < n → 2 ^ j ≤ S → (j ≠ 0 → 2 ^ (j + 1) ≤ S) →
      ∃ S1, qfind_loop (fun off => c (off / E)) E (n * E) fuel (E * S) (E * 2 ^ j)
          = some (Sum.inr (E * S1)) ∧ S1 < n := by
  intro j
  induction j with
  | zero =>
    intro S fuel hf hS hj _
    obtain ⟨f, rfl⟩ : ∃ f, fuel = f + 2 := ⟨fuel - 2, by omega⟩
    rw [qfind_loop_step c n E S 0 (f + 1) hE hnE hS hj]
    have hp : (2 : Nat) ^ 0 = 1 := Nat.pow_zero 2
    by_cases h1 : c S < 0
    · rw [if_pos h1, qfind_loop_exit _ E _ f _ hE]
      exact ⟨S - 2 ^ 0, rfl, by omega⟩
    · rw [if_neg h1]
      by_cases h2 : 0 < c S
      · rw [if_pos h2]
        by_cases h3 : S + 2 ^ 0 < n
        · rw [if_pos h3, qfind_loop_exit _ E _ f _ hE]
          exact ⟨S + 2 ^ 0, rfl, h3⟩
        · rw [if_neg h3, qfind_loop_exit _ E _ f _ hE]
          exact ⟨S, rfl, hS⟩
      · exact absurd (by omega : c S = 0) (hne S hS)
  | succ j ih =>
    intro S fuel hf hS hj hj2
    obtain ⟨f, rfl⟩ : ∃ f, fuel = f + 1 := ⟨fuel - 1, by omega⟩
    have hp : 0 < 2 ^ j := Nat.pow_pos (by norm_num)
    have e1 : 2 ^ (j + 1) = 2 * 2 ^ j := by rw [Nat.pow_succ]; omega
    have e2 : 2 ^ (j + 1 + 1) = 4 * 2 ^ j := by rw [Nat.pow_succ, e1]; omega
    have hS4 : 4 * 2 ^ j ≤ S := by rw [← e2]; exact hj2 (by omega)
    rw [qfind_loop_step c n E S (j + 1) f hE hnE hS hj, qfind_step_half]
    by_cases h1 : c S < 0
    · rw [if_pos h1]
      exact ih (S - 2 ^ (j + 1)) f (by omega) (by omega) (by omega) (fun _ => by omega)
    · rw [if_neg h1]
      by_cases h2 : 0 < c S
      · rw [if_pos h2]
        by_cases h3 : S + 2 ^ (j + 1) < n
        · rw [if_pos h3]
          exact ih (S + 2 ^ (j + 1)) f (by omega) h3 (by omega) (fun _ => by omega)
        · rw [if_neg h3]
          exact ih S f (by omega) hS (by omega) (fun _ => by omega)
      · exact absurd (by omega : c S = 0) (hne S hS)

/-- The second loop on a map whose entry `t` compares equal, the entries
before it greater and those after it less: it returns the entry `t`, or ends
at the index `t` or `t + 1`. -/
theorem qfind_loop_found (c : Nat → Int) (n E t : Nat) (hE : 1 ≤ E) (hnE : n * E < 2 ^ 31)
    (ht : t < n) (hz : c t = 0) (hlt : ∀ k, k < t → 0 < c k)
    (hgt : ∀ k, t < k → k < n → c k < 0) :
    ∀ j S fuel : Nat, j + 2 ≤ fuel → S < n → 2 ^ j ≤ S → (j ≠ 0 → 2 ^ (j + 1) ≤ S) →
      S ≤ t + 2 ^ (j + 1) → t < S + 2 ^ (j + 1) →
      qfind_loop (fun off => c (off / E)) E (n * E) fuel (E * S) (E * 2 ^ j)
          = some (Sum.inl (E * t)) ∨
      ∃ S1, qfind_loop (fun off => c (off / E)) E (n * E) fuel (E * S) (E * 2 ^ j)
          = some (Sum.inr (E * S1)) ∧ S1 < n ∧ (t = S1 ∨ t + 1 = S1) := by
  have hpos : ∀ S, S < n → 0 < c S → S < t := by
    intro S hS h
    by_contra hc
    rcases Nat.lt_or_ge t S with h1 | h1
    · have := hgt S h1 hS; omega
    · have h2 : S = t := by omega
      rw [h2, hz] at h
      exact absurd h (by decide)
  have hneg : ∀ S, c S < 0 → t < S := by
    intro S h
    by_contra hc
    rcases Nat.lt_or_ge S t with h1 | h1
    · have := hlt S h1; omega
    · have h2 : S = t := by omega
      rw [h2, hz] at h
      exact absurd h (by decide)
  have hzero : ∀ S, S < n → ¬ c S < 0 → ¬ 0 < c S → S = t := by
    intro S hS h1 h2
    by_contra hc
    rcases Nat.lt_or_ge S t with h3 | h3
    · exact h2 (hlt S h3)
    · exact h1 (hgt S (by omega) hS)
  intro j
  induction j with
  | zero =>
    intro S fuel hf hS hj _ hb1 hb2
    obtain ⟨f, rfl⟩ : ∃ f, fuel = f + 2 := ⟨fuel - 2, by omega⟩
    rw [qfind_loop_step c n E S 0 (f + 1) hE hnE hS hj]
    have hp : (2 : Nat) ^ 0 = 1 := Nat.pow_zero 2
    have hp1 : (2 : Nat) ^ (0 + 1) = 2 := by norm_num
    by_cases h1 : c S < 0
    · rw [if_pos h1, qfind_loop_exit _ E _ f _ hE]
      have := hneg S h1
      exact Or.inr ⟨S - 2 ^ 0, rfl, by omega, by omega⟩
    · rw [if_neg h1]
      by_cases h2 : 0 < c S
      · rw [if_pos h2]
        have := hpos S hS h2
        have h3 : S + 2 ^ 0 < n := by omega
        rw [if_pos h3, qfind_loop_exit _ E _ f _ hE]
        exact Or.inr ⟨S + 2 ^ 0, rfl, h3, by omega⟩
      · rw [if_neg h2, hzero S hS h1 h2]
        exact Or.inl rfl
  | succ j ih =>
    intro S fuel hf hS hj hj2 hb1 hb2
    obtain ⟨f, rfl⟩ : ∃ f, fuel = f + 1 := ⟨fuel - 1, by omega⟩
    have hp : 0 < 2 ^ j := Nat.pow_pos (by norm_num)
    have e1 : 2 ^ (j + 1) = 2 * 2 ^ j := by rw [Nat.pow_succ]; omega
    have e2 : 2 ^ (j + 1 + 1) = 4 * 2 ^ j := by rw [Nat.pow_succ, e1]; omega
    have hS4 : 4 * 2 ^ j ≤ S := by rw [← e2]; exact hj2 (by omega)
    rw [qfind_loop_step c n E S (j + 1) f hE hnE hS hj, qfind_step_half]
    by_cases h1 : c S < 0
    · rw [if_pos h1]
      have := hneg S h1
      exact ih (S - 2 ^ (j + 1)) f (by omega) (by omega) (by omega) (fun _ => by omega)
        (by omega) (by omega)
    · rw [if_neg h1]
      by_cases h2 : 0 < c S
      · rw [if_pos h2]
        have := hpos S hS h2
        by_cases h3 : S + 2 ^ (j + 1) < n
        · rw [if_pos h3]
          exact ih (S + 2 ^ (j + 1)) f (by omega) h3 (by omega) (fun _ => by omega)
            (by omega) (by omega)
        · rw [if_neg h3]
          exact ih S f (by omega) hS (by omega) (fun _ => by omega) (by omega) (by omega)
      · rw [if_neg h2, hzero S hS h1 h2]
        exact Or.inl rfl

/-- The end of the function at the index `t` or `t + 1`, when the entry `t`
compares equal and the entries after it less: the entry `t`. -/
theorem qfind_tail_found (c : Nat → Int) (n E t S1 : Nat) (hE : 1 ≤ E)
    (hz : c t = 0) (hgt : ∀ k, t < k → k < n → c k < 0) (hS : S1 < n)
    (h : t = S1 ∨ t + 1 = S1) :
    qfind_tail (fun off => c (off / E)) E (n * E) (E * S1) = some (E * t) := by
  have hE0 : 0 < E := hE
  have h2 : E * S1 / E = S1 := Nat.mul_div_cancel_left S1 hE0
  have h4 : E * S1 < n * E := by rw [Nat.mul_comm n E]; exact Nat.mul_lt_mul_of_pos_left hS hE0
  unfold qfind_tail
  simp only [if_pos h4, h2]
  rcases h with h | h
  · rw [← h, if_pos hz]
  · have hneg := hgt S1 (by omega) hS
    rw [if_neg (by omega)]
    have h5 : E * S1 - E = E * t := by
      rw [← h, Nat.mul_add, Nat.mul_one, Nat.add_sub_cancel]
    have h6 : E ≤ E * S1 := Nat.le_mul_of_pos_right E (by omega)
    rw [h5]
    simp only [Nat.mul_div_cancel_left t hE0]
    rw [if_pos ⟨h6, hz⟩]

/-- The end of the function at an index inside a map without an entry that
compares equal: `NULL`. -/
theorem qfind_tail_none (c : Nat → Int) (n E S1 : Nat) (hE : 1 ≤ E)
    (hne : ∀ k, k < n → c k ≠ 0) (hS : S1 < n) :
    qfind_tail (fun off => c (off / E)) E (n * E) (E * S1) = none := by
  have hE0 : 0 < E := hE
  have h2 : E * S1 / E = S1 := Nat.mul_div_cancel_left S1 hE0
  have h4 : E * S1 < n * E := by rw [Nat.mul_comm n E]; exact Nat.mul_lt_mul_of_pos_left hS hE0
  unfold qfind_tail
  simp only [if_pos h4, h2]
  rw [if_neg (hne S1 hS)]
  by_cases h6 : E ≤ E * S1
  · have hS1 : 1 ≤ S1 := by
      by_contra h0
      have : S1 = 0 := by omega
      rw [this, Nat.mul_zero] at h6
      omega
    have h5 : E * S1 - E = E * (S1 - 1) := by rw [Nat.mul_sub, Nat.mul_one]
    rw [h5]
    simp only [Nat.mul_div_cancel_left _ hE0]
    rw [if_neg (fun h => hne (S1 - 1) (by omega) h.2)]
  · rw [if_neg (fun h => h6 h.1)]

/-- `VMemD_Util_qfind` on a map of two or more entries: the second loop starts
at the index `2 ^ (i - 1)` with a step of `2 ^ (i - 2)` entries, `i` being the
number of bits of `cMap - 1`; index and step satisfy what the loop lemmas
ask for. -/
theorem qfind_start (pf : Nat → Int) (n E : Nat) (hE : 1 ≤ E) (hnE : n * E < 2 ^ 31)
    (hn : 2 ≤ n) :
    ∃ j S : Nat, j + 2 ≤ 33 ∧ S < n ∧ 2 ^ j ≤ S ∧ (j ≠ 0 → 2 ^ (j + 1) ≤ S) ∧
      S ≤ 2 ^ (j + 1) ∧ n ≤ S + 2 ^ (j + 1) ∧
      VMemD_Util_qfind pf n E =
        qfind_finish pf E (n * E) (qfind_loop pf E (n * E) 33 (E * S) (E * 2 ^ j)) := by
  have hn31 : n < 2 ^ 31 := by
    calc n = n * 1 := (Nat.mul_one n).symm
      _ ≤ n * E := Nat.mul_le_mul_left n hE
      _ < 2 ^ 31 := hnE
  obtain ⟨i, hi, h1, h2, h3⟩ := qfind_bits_spec (n - 1) 31 1
    (by norm_num; omega) (Or.inl rfl) (Nat.le_refl 1)
  have h4 : 2 ^ (i - 1) ≤ n - 1 := by
    rcases h3 with h3 | h3
    · rw [h3]; norm_num; omega
    · exact h3
  have hi31 : i - 1 < 31 := by
    have : 2 ^ (i - 1) < 2 ^ 31 := by omega
    exact (Nat.pow_lt_pow_iff_right (by norm_num : 1 < 2)).1 this
  have hmap : (n * E) % 2 ^ 32 = n * E := Nat.mod_eq_of_lt (by omega)
  have hle : E * 2 ^ (i - 1) ≤ n * E := by
    rw [Nat.mul_comm n E]
    exact Nat.mul_le_mul_left E (by omega)
  have hsearch : (E * min (2 ^ (i - 1)) (n - 1)) % 2 ^ 32 = E * 2 ^ (i - 1) := by
    rw [Nat.min_eq_left h4]
    exact Nat.mod_eq_of_lt (by omega)
  have hunf : VMemD_Util_qfind pf n E =
      qfind_finish pf E (n * E) (qfind_loop pf E (n * E) 33 (E * 2 ^ (i - 1))
        (max E (E * 2 ^ (i - 1) / 2))) := by
    unfold VMemD_Util_qfind
    rw [if_neg (by omega), hi]
    simp only [hmap, hsearch]
  refine ⟨i - 2, 2 ^ (i - 1), by omega, by omega, ?_, ?_, ?_, ?_, ?_⟩
  · exact Nat.pow_le_pow_right (by norm_num) (by omega)
  · intro hj
    exact Nat.pow_le_pow_right (by norm_num) (by omega)
  · exact Nat.pow_le_pow_right (by norm_num) (by omega)
  · by_cases hi1 : i = 1
    · subst hi1
      have : n - 1 < 2 := by simpa using h2
      norm_num
      omega
    · have e : i - 2 + 1 = i - 1 := by omega
      have e2 : 2 ^ i = 2 * 2 ^ (i - 1) := by
        have : i = (i - 1) + 1 := by omega
        conv_lhs => rw [this, Nat.pow_succ]
        omega
      rw [e]
      omega
  · rw [hunf]
    by_cases hi1 : i = 1
    · subst hi1
      have hmax : max E (E * 2 ^ (1 - 1) / 2) = E * 2 ^ (1 - 2) := by
        norm_num
        exact Nat.div_le_self E 2
      rw [hmax]
    · have e : i - 1 = (i - 2) + 1 := by omega
      have hmax : max E (E * 2 ^ (i - 1) / 2) = E * 2 ^ (i - 2) := by
        rw [e, qfind_step_half]
        exact Nat.max_eq_right (Nat.le_mul_of_pos_right E (Nat.pow_pos (by norm_num)))
      rw [hmax]

/-- The second loop ends when the step is below one entry. -/
theorem qfind_loop_end (pf : Nat → Int) (E cbMap fuel a s : Nat) (h : s < E) :
    qfind_loop pf E cbMap (fuel + 1) a s = some (Sum.inr a) := by
  rw [qfind_loop, if_neg (by omega)]

/-- `VMemD_Util_qfind` on a map of one entry: that entry if it compares equal,
else `NULL`. When the entry compares less, `cbSearch -= cbStep` wraps around
and the offset that results is outside the map. -/
theorem qfind_one (c : Nat → Int) (E : Nat) (hE : 1 ≤ E) (hE31 : E < 2 ^ 31) :
    VMemD_Util_qfind (fun off => c (off / E)) 1 E =
      if c 0 = 0 then some (some 0) else some none := by
  have hbits : qfind_bits (1 - 1) 32 1 = some 1 := rfl
  have hmap : (1 * E) % 2 ^ 32 = E := by rw [Nat.one_mul]; exact Nat.mod_eq_of_lt (by omega)
  have hsearch : (E * min (2 ^ (1 - 1)) (1 - 1)) % 2 ^ 32 = 0 := by norm_num
  have hstep : max E (0 / 2) = E := by norm_num
  have hhalf : E / 2 < E := Nat.div_lt_self hE (by norm_num)
  unfold VMemD_Util_qfind
  rw [if_neg (by omega), hbits]
  simp only [hmap, hsearch, hstep]
  rw [qfind_loop, if_pos (Nat.le_refl E)]
  simp only [Nat.zero_div, Nat.zero_add]
  by_cases h1 : c 0 < 0
  · rw [if_pos h1, qfind_loop_end _ _ _ _ _ _ hhalf, if_neg (by omega)]
    have hsub : sub32 0 E = 2 ^ 32 - E := by
      rw [sub32, if_neg (by omega), Nat.sub_zero]
    rw [hsub]
    simp only [qfind_finish, qfind_tail]
    rw [if_neg (by omega)]
  · rw [if_neg h1]
    by_cases h2 : 0 < c 0
    · rw [if_pos h2, if_neg (by rw [Nat.mod_eq_of_lt (by omega)]; omega),
        qfind_loop_end _ _ _ _ _ _ hhalf, if_neg (by omega)]
      simp only [qfind_finish, qfind_tail, Nat.zero_div]
      rw [if_pos (by omega), if_neg (by omega), if_neg (by omega)]
    · rw [if_neg h2, if_pos (by omega)]
      rfl

/-- C16: for every entry size `cbEntry ≥ 1` and every map of `cMap` entries
(every size, 0, 1, 2 and 2^k ± 1 included, with `cMap * cbEntry < 2^31`) that
is strictly increasing under the comparator (once an entry compares equal or
less, every later entry compares less), `VMemD_Util_qfind` returns the entry
that compares equal when there is one, and `NULL` when there is none; the
loops of the model end within their fuel. The comparator is called with the
offset of the entry `k` as `c k`. -/
theorem C16_qfind_finds_entry (c : Nat → Int) (cMap cbEntry : Nat)
    (hE : 1 ≤ cbEntry) (hsize : cMap * cbEntry < 2 ^ 31)
    (hmono : ∀ j k : Nat, j < k → k < cMap → c j ≤ 0 → c k < 0) :
    (∀ t : Nat, t < cMap → c t = 0 →
      VMemD_Util_qfind (fun off => c (off / cbEntry)) cMap cbEntry
        = some (some (t * cbEntry))) ∧
    ((∀ k : Nat, k < cMap → c k ≠ 0) →
      VMemD_Util_qfind (fun off => c (off / cbEntry)) cMap cbEntry = some none) := by
  refine ⟨fun t ht hz => ?_, fun hne => ?_⟩
  · have hlt : ∀ k, k < t → 0 < c k := by
      intro k hk
      by_contra h
      have := hmono k t hk ht (by omega)
      omega
    have hgt : ∀ k, t < k → k < cMap → c k < 0 :=
      fun k hk hkn => hmono t k hk hkn (by omega)
    rcases Nat.lt_or_ge cMap 2 with hn | hn
    · have h1 : cMap = 1 := by omega
      subst h1
      have h0 : t = 0 := by omega
      subst h0
      rw [qfind_one c cbEntry hE (by omega), if_pos hz, Nat.zero_mul]
    · obtain ⟨j, S, hf, hS, hj, hj2, hb1, hb2, hq⟩ :=
        qfind_start (fun off => c (off / cbEntry)) cMap cbEntry hE hsize hn
      rw [hq, Nat.mul_comm t cbEntry]
      rcases qfind_loop_found c cMap cbEntry t hE hsize ht hz hlt hgt j S 33 hf hS hj hj2
        (by omega) (by omega) with h | ⟨S1, h, hS1, hor⟩
      · rw [h]; rfl
      · rw [h]
        simp only [qfind_finish]
        rw [qfind_tail_found c cMap cbEntry t S1 hE hz hgt hS1 hor]
  · rcases Nat.lt_or_ge cMap 2 with hn | hn
    · rcases Nat.eq_zero_or_pos cMap with h0 | h0
      · subst h0
        unfold VMemD_Util_qfind
        rw [if_pos (Or.inl rfl)]
      · have h1 : cMap = 1 := by omega
        subst h1
        rw [qfind_one c cbEntry hE (by omega), if_neg (hne 0 (by omega))]
    · obtain ⟨j, S, hf, hS, hj, hj2, -, -, hq⟩ :=
        qfind_start (fun off => c (off / cbEntry)) cMap cbEntry hE hsize hn
      rw [hq]
      obtain ⟨S1, h, hS1⟩ := qfind_loop_none c cMap cbEntry hE hsize hne j S 33 hf hS hj hj2
      rw [h]
      simp only [qfind_finish]
      rw [qfind_tail_none c cMap cbEntry S1 hE hne hS1]

/-- C16 on a VAD map of three entries of 48 bytes with the start addresses
0x1000, 0x3000 and 0x8000: the search for 0x3000 returns the entry at offset
48, the search for 0x4000 returns `NULL`. -/
theorem C16_qfind_finds_entry_witness :
    VMemD_Util_qfind (vadCmp [0x1000, 0x3000, 0x8000] 48 0x3000) 3 48 = some (some (1 * 48)) ∧
    VMemD_Util_qfind (vadCmp [0x1000, 0x3000, 0x8000] 48 0x4000) 3 48 = some none := by
  have hm : ∀ x : Nat, ∀ j k : Nat, j < k → k < 3 →
      VMemD_ReadVad_CmpFind x ([0x1000, 0x3000, 0x8000].getD j 0) ≤ 0 →
      VMemD_ReadVad_CmpFind x ([0x1000, 0x3000, 0x8000].getD k 0) < 0 := by
    intro x j k hjk hk
    have hk2 : k = 1 ∨ k = 2 := by omega
    rcases hk2 with rfl | rfl
    · have hj0 : j = 0 := by omega
      subst hj0
      simp only [VMemD_ReadVad_CmpFind, List.getD_cons_zero, List.getD_cons_succ]
      split_ifs <;> omega
    · have hj0 : j = 0 ∨ j = 1 := by omega
      rcases hj0 with rfl | rfl
      · simp only [VMemD_ReadVad_CmpFind, List.getD_cons_zero, List.getD_cons_succ]
        split_ifs <;> omega
      · simp only [VMemD_ReadVad_CmpFind, List.getD_cons_zero, List.getD_cons_succ]
        split_ifs <;> omega
  exact ⟨(C16_qfind_finds_entry
      (fun k => VMemD_ReadVad_CmpFind 0x3000 ([0x1000, 0x3000, 0x8000].getD k 0)) 3 48
      (by decide) (by decide) (hm 0x3000)).1 1 (by decide) (by decide),
    (C16_qfind_finds_entry
      (fun k => VMemD_ReadVad_CmpFind 0x4000 ([0x1000, 0x3000, 0x8000].getD k 0)) 3 48
      (by decide) (by decide) (hm 0x4000)).2 (by
        intro k hk
        have hk3 : k = 0 ∨ k = 1 ∨ k = 2 := by omega
        rcases hk3 with rfl | rfl | rfl <;> decide)⟩


/-! ### The allow-list stays compact -/

theorem Compact_HandleAdd (s : CoreState) (H : Nat) (hc : Compact s) (hH : H ≠ 0)
    (hfresh : ¬ Listed s H) : Compact (VmmDllCore_HandleAdd s H).2 := by
  obtain ⟨h1, h2, h3, h4⟩ := hc
  unfold VmmDllCore_HandleAdd
  by_cases hlt : s.g_VMMDLL_CORE_HANDLE_COUNT < VMM_HANDLE_MAX_COUNT
  · rw [if_pos hlt]
    refine ⟨hlt, ?_, ?_, ?_⟩
    · intro i hi
      simp only [store]
      by_cases hic : i = s.g_VMMDLL_CORE_HANDLE_COUNT
      · rw [if_pos hic]; exact hH
      · rw [if_neg hic]; exact h2 i (by simp only at hi; omega)
    · intro i j hi hj he
      simp only [store] at he hi hj
      by_cases hic : i = s.g_VMMDLL_CORE_HANDLE_COUNT
      · by_cases hjc : j = s.g_VMMDLL_CORE_HANDLE_COUNT
        · omega
        · rw [if_pos hic, if_neg hjc] at he
          exact absurd ⟨j, by omega, he.symm⟩ hfresh
      · by_cases hjc : j = s.g_VMMDLL_CORE_HANDLE_COUNT
        · rw [if_neg hic, if_pos hjc] at he
          exact absurd ⟨i, by omega, he⟩ hfresh
        · rw [if_neg hic, if_neg hjc] at he
          exact h3 i j (by omega) (by omega) he
    · intro i hi hi2
      simp only [store] at hi ⊢
      rw [if_neg (by omega)]
      exact h4 i (by omega) hi2
  · rw [if_neg hlt]
    exact ⟨h1, h2, h3, h4⟩

theorem HandleRemove_listed (VMM_MAGIC : Nat) (s : CoreState) (H : Nat) (hc : Compact s)
    (hl : Listed s H) (hm : (s.mem H).magic = VMM_MAGIC) :
    ∃ i, i < s.g_VMMDLL_CORE_HANDLE_COUNT ∧ s.g_VMMDLL_CORE_HANDLES i = H ∧
      VmmDllCore_HandleRemove VMM_MAGIC s H =
        { s with
          g_VMMDLL_CORE_HANDLE_COUNT := s.g_VMMDLL_CORE_HANDLE_COUNT - 1
          g_VMMDLL_CORE_HANDLES :=
            store (store s.g_VMMDLL_CORE_HANDLES i
              (s.g_VMMDLL_CORE_HANDLES (s.g_VMMDLL_CORE_HANDLE_COUNT - 1)))
              (s.g_VMMDLL_CORE_HANDLE_COUNT - 1) 0 } := by
  obtain ⟨k, hk⟩ := (handleLoop_isSome_iff s H).2 hl
  obtain ⟨_, hk2, hk3, _⟩ := handleLoop_some _ _ _ hk
  have hH : H ≠ 0 := by rw [← hk3]; exact hc.2.1 k hk2
  refine ⟨k, hk2, hk3, ?_⟩
  unfold VmmDllCore_HandleRemove
  rw [if_pos ⟨hH, hm⟩, hk]
  simp only
  by_cases hlt : k < s.g_VMMDLL_CORE_HANDLE_COUNT - 1
  · rw [if_pos hlt]
  · rw [if_neg hlt]
    have hke : k = s.g_VMMDLL_CORE_HANDLE_COUNT - 1 := by omega
    congr 1
    funext x
    simp only [store, ← hke]
    split <;> rfl

theorem HandleRemove_unlisted (VMM_MAGIC : Nat) (s : CoreState) (H : Nat)
    (h : ¬ (Listed s H ∧ (s.mem H).magic = VMM_MAGIC)) :
    VmmDllCore_HandleRemove VMM_MAGIC s H = s := by
  unfold VmmDllCore_HandleRemove
  by_cases hg : H ≠ 0 ∧ (s.mem H).magic = VMM_MAGIC
  · rw [if_pos hg]
    have hn : ¬ Listed s H := fun hl => h ⟨hl, hg.2⟩
    rw [(handleLoop_eq_none_iff s H).2 hn]
  · rw [if_neg hg]

theorem Compact_removeAt (s : CoreState) (k : Nat) (hc : Compact s)
    (hk : k < s.g_VMMDLL_CORE_HANDLE_COUNT) :
    Compact { s with
      g_VMMDLL_CORE_HANDLE_COUNT := s.g_VMMDLL_CORE_HANDLE_COUNT - 1
      g_VMMDLL_CORE_HANDLES :=
        store (store s.g_VMMDLL_CORE_HANDLES k
          (s.g_VMMDLL_CORE_HANDLES (s.g_VMMDLL_CORE_HANDLE_COUNT - 1)))
          (s.g_VMMDLL_CORE_HANDLE_COUNT - 1) 0 } := by
  obtain ⟨h1, h2, h3, h4⟩ := hc
  refine ⟨by simp only; omega, ?_, ?_, ?_⟩
  · intro i hi
    simp only [store] at hi ⊢
    rw [if_neg (by omega)]
    by_cases hik : i = k
    · rw [if_pos hik]; exact h2 _ (by omega)
    · rw [if_neg hik]; exact h2 _ (by omega)
  · intro i j hi hj he
    simp only [store] at hi hj he
    have hi1 : ¬ i = s.g_VMMDLL_CORE_HANDLE_COUNT - 1 := by omega
    have hj1 : ¬ j = s.g_VMMDLL_CORE_HANDLE_COUNT - 1 := by omega
    rw [if_neg hi1, if_neg hj1] at he
    by_cases hik : i = k
    · by_cases hjk : j = k
      · omega
      · rw [if_pos hik, if_neg hjk] at he
        have := h3 _ _ (by omega) (by omega) he
        omega
    · by_cases hjk : j = k
      · rw [if_neg hik, if_pos hjk] at he
        have := h3 _ _ (by omega) (by omega) he
        omega
      · rw [if_neg hik, if_neg hjk] at he
        exact h3 _ _ (by omega) (by omega) he
  · intro i hi hi2
    simp only [store] at hi ⊢
    by_cases hic : i = s.g_VMMDLL_CORE_HANDLE_COUNT - 1
    · rw [if_pos hic]
    · rw [if_neg hic, if_neg (by omega)]
      exact h4 i (by omega) hi2

theorem Compact_HandleRemove (VMM_MAGIC : Nat) (s : CoreState) (H : Nat) (hc : Compact s) :
    Compact (VmmDllCore_HandleRemove VMM_MAGIC s H) := by
  by_cases h : Listed s H ∧ (s.mem H).magic = VMM_MAGIC
  · obtain ⟨k, hk, _, he⟩ := HandleRemove_listed VMM_MAGIC s H hc h.1 h.2
    rw [he]
    exact Compact_removeAt s k hc hk
  · rw [HandleRemove_unlisted VMM_MAGIC s H h]
    exact hc

theorem HandleRemove_exact (VMM_MAGIC : Nat) (s : CoreState) (H : Nat) (hc : Compact s)
    (hl : Listed s H) (hm : (s.mem H).magic = VMM_MAGIC) :
    ¬ Listed (VmmDllCore_HandleRemove VMM_MAGIC s H) H ∧
    (VmmDllCore_HandleRemove VMM_MAGIC s H).g_VMMDLL_CORE_HANDLE_COUNT + 1 =
      s.g_VMMDLL_CORE_HANDLE_COUNT ∧
    ∀ X, X ≠ H → (Listed (VmmDllCore_HandleRemove VMM_MAGIC s H) X ↔ Listed s X) := by
  obtain ⟨k, hk, hkH, he⟩ := HandleRemove_listed VMM_MAGIC s H hc hl hm
  obtain ⟨h1, h2, h3, h4⟩ := hc
  rw [he]
  refine ⟨?_, by simp only; omega, ?_⟩
  · rintro ⟨i, hi, hiH⟩
    simp only [store] at hi hiH
    rw [if_neg (by omega)] at hiH
    by_cases hik : i = k
    · rw [if_pos hik] at hiH
      have := h3 _ _ (by omega) hk (hiH.trans hkH.symm)
      omega
    · rw [if_neg hik] at hiH
      exact hik (h3 _ _ (by omega) hk (hiH.trans hkH.symm))
  · intro X hX
    constructor
    · rintro ⟨i, hi, hiX⟩
      simp only [store] at hi hiX
      rw [if_neg (by omega)] at hiX
      by_cases hik : i = k
      · rw [if_pos hik] at hiX
        exact ⟨_, by omega, hiX⟩
      · rw [if_neg hik] at hiX
        exact ⟨i, by omega, hiX⟩
    · rintro ⟨i, hi, hiX⟩
      have hik : i ≠ k := fun h => hX (by rw [← hiX, h, hkH])
      by_cases hic : i = s.g_VMMDLL_CORE_HANDLE_COUNT - 1
      · refine ⟨k, by simp only; omega, ?_⟩
        simp only [store]
        have hkc : ¬ k = i := fun h => hik h.symm
        simp only [← hic, if_neg hkc, if_true]
        exact hiX
      · refine ⟨i, by simp only; omega, ?_⟩
        simp only [store]
        rw [if_neg hic, if_neg hik]
        exact hiX

theorem Compact_head (s : CoreState) (hc : Compact s) :
    s.g_VMMDLL_CORE_HANDLES 0 = 0 ↔ s.g_VMMDLL_CORE_HANDLE_COUNT = 0 := by
  obtain ⟨_, h2, _, h4⟩ := hc
  constructor
  · intro h0
    by_contra hne
    exact h2 0 (by omega) h0
  · intro h0
    exact h4 0 (by omega) (by decide)

/-- C30: a compact allow-list (entries below the count non-NULL and pairwise
distinct, entries from the count to 32 NULL) is compact after
`VmmDllCore_HandleAdd` of a fresh non-NULL handle and after
`VmmDllCore_HandleRemove` of any handle; removing a listed handle with valid
magic removes exactly that handle, lowers the count by one and keeps every
other listed handle; and entry 0 is NULL exactly when the count is 0, which is
the loop test of `VmmDllCore_CloseAll`. -/
theorem C30_allow_list_stays_compact (VMM_MAGIC : Nat) (s : CoreState) (hc : Compact s) :
    (∀ H, H ≠ 0 → ¬ Listed s H → Compact (VmmDllCore_HandleAdd s H).2) ∧
    (∀ H, Compact (VmmDllCore_HandleRemove VMM_MAGIC s H)) ∧
    (∀ H, Listed s H → (s.mem H).magic = VMM_MAGIC →
      ¬ Listed (VmmDllCore_HandleRemove VMM_MAGIC s H) H ∧
      (VmmDllCore_HandleRemove VMM_MAGIC s H).g_VMMDLL_CORE_HANDLE_COUNT + 1 =
        s.g_VMMDLL_CORE_HANDLE_COUNT ∧
      ∀ X, X ≠ H → (Listed (VmmDllCore_HandleRemove VMM_MAGIC s H) X ↔ Listed s X)) ∧
    (s.g_VMMDLL_CORE_HANDLES 0 = 0 ↔ s.g_VMMDLL_CORE_HANDLE_COUNT = 0) :=
  ⟨fun H hH hf => Compact_HandleAdd s H hc hH hf,
   fun H => Compact_HandleRemove VMM_MAGIC s H hc,
   fun H hl hm => HandleRemove_exact VMM_MAGIC s H hc hl hm,
   Compact_head s hc⟩

theorem sThree_Compact (VMM_MAGIC : Nat) : Compact (sThree VMM_MAGIC) := by
  refine ⟨by simp only [sThree, VMM_HANDLE_MAX_COUNT]; omega, ?_, ?_, ?_⟩
  · intro i hi
    simp only [sThree] at hi ⊢
    have : i = 0 ∨ i = 1 ∨ i = 2 := by omega
    rcases this with h | h | h <;> subst h <;> decide
  · intro i j hi hj he
    simp only [sThree] at hi hj he
    have h1 : i = 0 ∨ i = 1 ∨ i = 2 := by omega
    have h2 : j = 0 ∨ j = 1 ∨ j = 2 := by omega
    rcases h1 with h | h | h <;> rcases h2 with h' | h' | h' <;> subst h <;> subst h' <;>
      first
      | rfl
      | exact absurd he (by decide)
  · intro i hi _
    simp only [sThree] at hi ⊢
    rw [if_neg (by omega), if_neg (by omega), if_neg (by omega)]

/-- Witness for C30: the list of three handles is compact; removing the first
one moves the last one into its place. -/
theorem C30_allow_list_stays_compact_witness :
    Compact (sThree 7) ∧
    (VmmDllCore_HandleRemove 7 (sThree 7) 0x10000).g_VMMDLL_CORE_HANDLES 0 = 0x30000 ∧
    Compact (VmmDllCore_HandleRemove 7 (sThree 7) 0x10000) ∧
    ¬ Listed (VmmDllCore_HandleRemove 7 (sThree 7) 0x10000) 0x10000 :=
  ⟨sThree_Compact 7, by decide,
   (C30_allow_list_stays_compact 7 (sThree 7) (sThree_Compact 7)).2.1 0x10000,
   ((C30_allow_list_stays_compact 7 (sThree 7) (sThree_Compact 7)).2.2.1 0x10000
      ⟨0, by decide, by decide⟩ (by decide)).1⟩

/-! ### The search in an ordered map with entries that compare equal -/

/-- The second loop on a map with an entry `t` that compares equal, when every
entry that compares greater is before `t` and every entry that compares less
is after `t`: it returns an entry that compares equal, or ends at the index
`t` or `t + 1`. -/
theorem qfind_loop_zero (c : Nat → Int) (n E t : Nat) (hE : 1 ≤ E) (hnE : n * E < 2 ^ 31)
    (ht : t < n) (hpos : ∀ S, S < n → 0 < c S → S < t)
    (hneg : ∀ S, S < n → c S < 0 → t < S) :
    ∀ j S fuel : Nat, j + 2 ≤ fuel → S < n → 2 ^ j ≤ S → (j ≠ 0 → 2 ^ (j + 1) ≤ S) →
      S ≤ t + 2 ^ (j + 1) → t < S + 2 ^ (j + 1) →
      (∃ r, qfind_loop (fun off => c (off / E)) E (n * E) fuel (E * S) (E * 2 ^ j)
          = some (Sum.inl (E * r)) ∧ r < n ∧ c r = 0) ∨
      ∃ S1, qfind_loop (fun off => c (off / E)) E (n * E) fuel (E * S) (E * 2 ^ j)
          = some (Sum.inr (E * S1)) ∧ S1 < n ∧ (t = S1 ∨ t + 1 = S1) := by
  intro j
  induction j with
  | zero =>
    intro S fuel hf hS hj _ hb1 hb2
    obtain ⟨f, rfl⟩ : ∃ f, fuel = f + 2 := ⟨fuel - 2, by omega⟩
    rw [qfind_loop_step c n E S 0 (f + 1) hE hnE hS hj]
    have hp : (2 : Nat) ^ 0 = 1 := Nat.pow_zero 2
    have hp1 : (2 : Nat) ^ (0 + 1) = 2 := by norm_num
    by_cases h1 : c S < 0
    · rw [if_pos h1, qfind_loop_exit _ E _ f _ hE]
      have := hneg S hS h1
      exact Or.inr ⟨S - 2 ^ 0, rfl, by omega, by omega⟩
    · rw [if_neg h1]
      by_cases h2 : 0 < c S
      · rw [if_pos h2]
        have := hpos S hS h2
        have h3 : S + 2 ^ 0 < n := by omega
        rw [if_pos h3, qfind_loop_exit _ E _ f _ hE]
        exact Or.inr ⟨S + 2 ^ 0, rfl, h3, by omega⟩
      · rw [if_neg h2]
        exact Or.inl ⟨S, rfl, hS, by omega⟩
  | succ j ih =>
    intro S fuel hf hS hj hj2 hb1 hb2
    obtain ⟨f, rfl⟩ : ∃ f, fuel = f + 1 := ⟨fuel - 1, by omega⟩
    have hp : 0 < 2 ^ j := Nat.pow_pos (by norm_num)
    have e1 : 2 ^ (j + 1) = 2 * 2 ^ j := by rw [Nat.pow_succ]; omega
    have e2 : 2 ^ (j + 1 + 1) = 4 * 2 ^ j := by rw [Nat.pow_succ, e1]; omega
    have hS4 : 4 * 2 ^ j ≤ S := by rw [← e2]; exact hj2 (by omega)
    rw [qfind_loop_step c n E S (j + 1) f hE hnE hS hj, qfind_step_half]
    by_cases h1 : c S < 0
    · rw [if_pos h1]
      have := hneg S hS h1
      exact ih (S - 2 ^ (j + 1)) f (by omega) (by omega) (by omega) (fun _ => by omega)
        (by omega) (by omega)
    · rw [if_neg h1]
      by_cases h2 : 0 < c S
      · rw [if_pos h2]
        have := hpos S hS h2
        by_cases h3 : S + 2 ^ (j + 1) < n
        · rw [if_pos h3]
          exact ih (S + 2 ^ (j + 1)) f (by omega) h3 (by omega) (fun _ => by omega)
            (by omega) (by omega)
        · rw [if_neg h3]
          exact ih S f (by omega) hS (by omega) (fun _ => by omega) (by omega) (by omega)
      · rw [if_neg h2]
        exact Or.inl ⟨S, rfl, hS, by omega⟩

/-- The end of the function at the index `t` or `t + 1`, when the entry `t`
compares equal: the entry at the index if it compares equal, else the entry
`t`. -/
theorem qfind_tail_zero (c : Nat → Int) (n E t S1 : Nat) (hE : 1 ≤ E)
    (ht : t < n) (hz : c t = 0) (hS : S1 < n) (h : t = S1 ∨ t + 1 = S1) :
    ∃ r, qfind_tail (fun off => c (off / E)) E (n * E) (E * S1) = some (E * r) ∧
      r < n ∧ c r = 0 := by
  have hE0 : 0 < E := hE
  have h2 : E * S1 / E = S1 := Nat.mul_div_cancel_left S1 hE0
  have h4 : E * S1 < n * E := by rw [Nat.mul_comm n E]; exact Nat.mul_lt_mul_of_pos_left hS hE0
  unfold qfind_tail
  simp only [if_pos h4, h2]
  by_cases h0 : c S1 = 0
  · rw [if_pos h0]
    exact ⟨S1, rfl, hS, h0⟩
  · rw [if_neg h0]
    have h1 : t + 1 = S1 := by
      rcases h with h | h
      · rw [← h] at h0; exact absurd hz h0
      · exact h
    have h5 : E * S1 - E = E * t := by
      rw [← h1, Nat.mul_add, Nat.mul_one, Nat.add_sub_cancel]
    have h6 : E ≤ E * S1 := Nat.le_mul_of_pos_right E (by omega)
    rw [h5]
    simp only [Nat.mul_div_cancel_left t hE0]
    rw [if_pos ⟨h6, hz⟩]
    exact ⟨t, rfl, ht, hz⟩

/-- `VMemD_Util_qfind` on a map with an entry `t` that compares equal, when
every entry that compares greater is before `t` and every entry that compares
less is after `t`: the result is an entry that compares equal. -/
theorem qfind_finds_zero (c : Nat → Int) (n E t : Nat) (hE : 1 ≤ E) (hnE : n * E < 2 ^ 31)
    (ht : t < n) (hz : c t = 0) (hpos : ∀ S, S < n → 0 < c S → S < t)
    (hneg : ∀ S, S < n → c S < 0 → t < S) :
    ∃ r, r < n ∧ c r = 0 ∧
      VMemD_Util_qfind (fun off => c (off / E)) n E = some (some (r * E)) := by
  rcases Nat.lt_or_ge n 2 with hn | hn
  · have h1 : n = 1 := by omega
    subst h1
    have h0 : t = 0 := by omega
    subst h0
    exact ⟨0, ht, hz, by rw [qfind_one c E hE (by omega), if_pos hz, Nat.zero_mul]⟩
  · obtain ⟨j, S, hf, hS, hj, hj2, hb1, hb2, hq⟩ :=
      qfind_start (fun off => c (off / E)) n E hE hnE hn
    rw [hq]
    rcases qfind_loop_zero c n E t hE hnE ht hpos hneg j S 33 hf hS hj hj2
      (by omega) (by omega) with ⟨r, h, hr, hrz⟩ | ⟨S1, h, hS1, hor⟩
    · exact ⟨r, hr, hrz, by rw [h, Nat.mul_comm r E]; rfl⟩
    · obtain ⟨r, hq2, hr, hrz⟩ := qfind_tail_zero c n E t S1 hE ht hz hS1 hor
      refine ⟨r, hr, hrz, ?_⟩
      rw [h]
      simp only [qfind_finish]
      rw [hq2, Nat.mul_comm r E]

/-- C21, counterexample: on the VAD map with the start addresses 5, 5, 5 (a
non-decreasing array that holds the key 5 three times) the search for 5
returns the entry at index 2 (offset 96 with entries of 48 bytes), which is
not the first entry that compares equal (index 0, offset 0). -/
theorem C21_qfind_not_first_equal_counterexample :
    VMemD_Util_qfind (vadCmp [5, 5, 5] 48 5) 3 48 = some (some (2 * 48)) ∧
    vadCmp [5, 5, 5] 48 5 (0 * 48) = 0 ∧
    VMemD_Util_qfind (vadCmp [5, 5, 5] 48 5) 3 48 ≠ some (some (0 * 48)) := by
  decide

/-- C21, amended: for every entry size `cbEntry ≥ 1` and every map of `cMap`
entries (`cMap * cbEntry < 2^31`) that is non-decreasing under the comparator
(after an entry that compares less every entry compares less, after an entry
that compares equal or less none compares greater) and has an entry that
compares equal, `VMemD_Util_qfind` returns an entry that compares equal: one
of the equal entries, not always the first. -/
theorem C21_qfind_returns_an_equal_entry (c : Nat → Int) (cMap cbEntry : Nat)
    (hE : 1 ≤ cbEntry) (hsize : cMap * cbEntry < 2 ^ 31)
    (hmono : ∀ j k : Nat, j < k → k < cMap → (c j < 0 → c k < 0) ∧ (c j ≤ 0 → c k ≤ 0))
    (hkey : ∃ t, t < cMap ∧ c t = 0) :
    ∃ r, r < cMap ∧ c r = 0 ∧
      VMemD_Util_qfind (fun off => c (off / cbEntry)) cMap cbEntry
        = some (some (r * cbEntry)) := by
  obtain ⟨t, ht, hz⟩ := hkey
  refine qfind_finds_zero c cMap cbEntry t hE hsize ht hz ?_ ?_
  · intro S hS h
    by_contra hc
    rcases Nat.lt_or_ge t S with h1 | h1
    · have := (hmono t S h1 hS).2 (by omega); omega
    · have h2 : S = t := by omega
      rw [h2, hz] at h
      exact absurd h (by decide)
  · intro S _ h
    by_contra hc
    rcases Nat.lt_or_ge S t with h1 | h1
    · have := (hmono S t h1 ht).1 h; omega
    · have h2 : S = t := by omega
      rw [h2, hz] at h
      exact absurd h (by decide)

/-- C21 on the VAD map with the start addresses 1, 5, 5, 5, 9: the search for
5 returns an entry with the start address 5. -/
theorem C21_qfind_returns_an_equal_entry_witness :
    ∃ r, r < 5 ∧ VMemD_ReadVad_CmpFind 5 ([1, 5, 5, 5, 9].getD r 0) = 0 ∧
      VMemD_Util_qfind
        (fun off => VMemD_ReadVad_CmpFind 5 ([1, 5, 5, 5, 9].getD (off / 48) 0)) 5 48
        = some (some (r * 48)) :=
  C21_qfind_returns_an_equal_entry
    (fun k => VMemD_ReadVad_CmpFind 5 ([1, 5, 5, 5, 9].getD k 0)) 5 48
    (by decide) (by decide)
    (by
      intro j k hjk hk
      have hk2 : k = 1 ∨ k = 2 ∨ k = 3 ∨ k = 4 := by omega
      have hj2 : j = 0 ∨ j = 1 ∨ j = 2 ∨ j = 3 := by omega
      rcases hk2 with rfl | rfl | rfl | rfl <;> rcases hj2 with rfl | rfl | rfl | rfl <;>
        first
        | omega
        | decide)
    ⟨1, by decide, by decide⟩

/-! ### The calls of the comparator in `VMemD_Util_qfind` -/

/-- The loop with the calls and the loop of Part 8 give the same outcome. -/
theorem qfind_loopT_fst (pf : Nat → Int) (E M : Nat) :
    ∀ fuel s st : Nat, (qfind_loopT pf E M fuel s st).map Prod.fst = qfind_loop pf E M fuel s st := by
  intro fuel
  induction fuel with
  | zero => intro s st; rfl
  | succ f ih =>
    intro s st
    rw [qfind_loopT, qfind_loop]
    by_cases h0 : E ≤ st
    · rw [if_pos h0, if_pos h0]
      by_cases h1 : pf s < 0
      · rw [if_pos h1, if_pos h1, Option.map_map, ← ih]; rfl
      · rw [if_neg h1, if_neg h1]
        by_cases h2 : 0 < pf s
        · rw [if_pos h2, if_pos h2]
          by_cases h3 : (s + st) % 2 ^ 32 < M
          · rw [if_pos h3, if_pos h3, Option.map_map, ← ih]; rfl
          · rw [if_neg h3, if_neg h3, Option.map_map, ← ih]; rfl
        · rw [if_neg h2, if_neg h2]; rfl
    · rw [if_neg h0, if_neg h0]; rfl

/-- The end of the function with the calls and that of Part 8 give the same
result. -/
theorem qfind_tailT_fst (pf : Nat → Int) (E M s : Nat) :
    (qfind_tailT pf E M s).1 = qfind_tail pf E M s := by
  unfold qfind_tailT qfind_tail
  by_cases h0 : s < M
  · rw [if_pos h0, if_pos h0]
    by_cases h1 : pf s = 0
    · rw [if_pos h1, if_pos h1]
    · rw [if_neg h1, if_neg h1]
      by_cases h2 : E ≤ s
      · rw [if_pos h2]
        by_cases h3 : pf (s - E) = 0
        · rw [if_pos h3, if_pos ⟨h2, h3⟩]
        · rw [if_neg h3, if_neg (fun h => h3 h.2)]
      · rw [if_neg h2, if_neg (fun h => h2 h.1)]
  · rw [if_neg h0, if_neg h0]

/-- The model with the calls and the model of Part 8 give the same result. -/
theorem VMemD_Util_qfindT_fst (pf : Nat → Int) (n E : Nat) :
    (VMemD_Util_qfindT pf n E).map Prod.fst = VMemD_Util_qfind pf n E := by
  unfold VMemD_Util_qfindT VMemD_Util_qfind
  by_cases h0 : n = 0 ∨ E = 0
  · rw [if_pos h0, if_pos h0]; rfl
  · rw [if_neg h0, if_neg h0]
    cases qfind_bits (n - 1) 32 1 with
    | none => rfl
    | some i =>
      simp only
      rw [← qfind_loopT_fst]
      cases qfind_loopT pf E (n * E % 2 ^ 32) 33 (E * min (2 ^ (i - 1)) (n - 1) % 2 ^ 32)
          (max E (E * min (2 ^ (i - 1)) (n - 1) % 2 ^ 32 / 2)) with
      | none => rfl
      | some r =>
        obtain ⟨r1, calls⟩ := r
        cases r1 with
        | inl off => rfl
        | inr s =>
          simp only [Option.map_some', qfind_finishT, qfind_finish, qfind_tailT_fst]

/-- The second loop under any comparator, from the index `S` with a step of
`2 ^ j` entries: it ends within `j + 2` rounds, every call of the comparator is
on an entry of the map, a returned entry is one the comparator was called on
with the result 0, and otherwise the loop ends at an index inside the map. -/
theorem qfind_loopT_spec (pf : Nat → Int) (n E : Nat) (hE : 1 ≤ E) (hnE : n * E < 2 ^ 31) :
    ∀ j S fuel : Nat, j + 2 ≤ fuel → S < n → 2 ^ j ≤ S → (j ≠ 0 → 2 ^ (j + 1) ≤ S) →
      ∃ res calls, qfind_loopT pf E (n * E) fuel (E * S) (E * 2 ^ j) = some (res, calls) ∧
        (∀ off, off ∈ calls → ∃ k, k < n ∧ off = E * k) ∧
        (∀ off, res = Sum.inl off → off ∈ calls ∧ pf off = 0) ∧
        (∀ s, res = Sum.inr s → ∃ S1, S1 < n ∧ s = E * S1) := by
  have hE0 : 0 < E := hE
  have key : ∀ (j S f : Nat), S < n → 2 ^ j ≤ S →
      qfind_loopT pf E (n * E) (f + 1) (E * S) (E * 2 ^ j) =
        if pf (E * S) < 0 then
          (qfind_loopT pf E (n * E) f (E * (S - 2 ^ j)) (E * 2 ^ j / 2)).map
            fun r => (r.1, E * S :: r.2)
        else if 0 < pf (E * S) then
          (if S + 2 ^ j < n then
            (qfind_loopT pf E (n * E) f (E * (S + 2 ^ j)) (E * 2 ^ j / 2)).map
              fun r => (r.1, E * S :: r.2)
           else (qfind_loopT pf E (n * E) f (E * S) (E * 2 ^ j / 2)).map
              fun r => (r.1, E * S :: r.2))
        else some (Sum.inl (E * S), [E * S]) := by
    intro j S f hS hj
    have hp : 0 < 2 ^ j := Nat.pow_pos (by norm_num)
    have h1 : E ≤ E * 2 ^ j := Nat.le_mul_of_pos_right E hp
    have h3 : E * 2 ^ j ≤ E * S := Nat.mul_le_mul_left E hj
    have h4 : E * S < n * E := by
      rw [Nat.mul_comm n E]; exact Nat.mul_lt_mul_of_pos_left hS hE0
    have h5 : sub32 (E * S) (E * 2 ^ j) = E * (S - 2 ^ j) := by
      rw [sub32, if_pos h3, Nat.mul_sub]
    have h6 : (E * S + E * 2 ^ j) % 2 ^ 32 = E * (S + 2 ^ j) := by
      rw [Nat.mul_add]
      apply Nat.mod_eq_of_lt
      omega
    have h7 : E * (S + 2 ^ j) < n * E ↔ S + 2 ^ j < n := by
      rw [Nat.mul_comm n E]
      exact Nat.mul_lt_mul_left hE0
    rw [qfind_loopT, if_pos h1]
    simp only [h5, h6, h7]
  have hexit : ∀ (f a : Nat), qfind_loopT pf E (n * E) (f + 1) a (E * 2 ^ 0 / 2) =
      some (Sum.inr a, []) := by
    intro f a
    have h : ¬ E ≤ E * 2 ^ 0 / 2 := by
      rw [Nat.pow_zero, Nat.mul_one]
      have := Nat.div_lt_self hE0 (show 1 < 2 by norm_num)
      omega
    rw [qfind_loopT, if_neg h]
  have hcons : ∀ (S : Nat) (r : Option ((Nat ⊕ Nat) × List Nat)), S < n →
      (∃ res calls, r = some (res, calls) ∧
        (∀ off, off ∈ calls → ∃ k, k < n ∧ off = E * k) ∧
        (∀ off, res = Sum.inl off → off ∈ calls ∧ pf off = 0) ∧
        (∀ s, res = Sum.inr s → ∃ S1, S1 < n ∧ s = E * S1)) →
      ∃ res calls, r.map (fun r => (r.1, E * S :: r.2)) = some (res, calls) ∧
        (∀ off, off ∈ calls → ∃ k, k < n ∧ off = E * k) ∧
        (∀ off, res = Sum.inl off → off ∈ calls ∧ pf off = 0) ∧
        (∀ s, res = Sum.inr s → ∃ S1, S1 < n ∧ s = E * S1) := by
    rintro S r hS ⟨res, calls, rfl, h1, h2, h3⟩
    refine ⟨res, E * S :: calls, rfl, ?_, ?_, h3⟩
    · intro off hoff
      rcases List.mem_cons.1 hoff with h | h
      · exact ⟨S, hS, h⟩
      · exact h1 off h
    · intro off hoff
      exact ⟨List.mem_cons_of_mem _ (h2 off hoff).1, (h2 off hoff).2⟩
  have hzero : ∀ S : Nat, S < n → ¬ pf (E * S) < 0 → ¬ 0 < pf (E * S) →
      ∃ res calls, some (Sum.inl (E * S), [E * S]) = some (res, calls) ∧
        (∀ off, off ∈ calls → ∃ k, k < n ∧ off = E * k) ∧
        (∀ off, res = Sum.inl off → off ∈ calls ∧ pf off = 0) ∧
        (∀ s, res = Sum.inr s → ∃ S1, S1 < n ∧ s = E * S1) := by
    intro S hS h1 h2
    refine ⟨Sum.inl (E * S), [E * S], rfl, ?_, ?_, ?_⟩
    · intro off hoff
      exact ⟨S, hS, List.mem_singleton.1 hoff⟩
    · intro off hoff
      cases hoff
      exact ⟨List.mem_singleton.2 rfl, by omega⟩
    · intro s hs
      cases hs
  have hend : ∀ (f S1 : Nat), S1 < n →
      ∃ res calls, qfind_loopT pf E (n * E) (f + 1) (E * S1) (E * 2 ^ 0 / 2) =
          some (res, calls) ∧
        (∀ off, off ∈ calls → ∃ k, k < n ∧ off = E * k) ∧
        (∀ off, res = Sum.inl off → off ∈ calls ∧ pf off = 0) ∧
        (∀ s, res = Sum.inr s → ∃ S1, S1 < n ∧ s = E * S1) := by
    intro f S1 hS1
    refine ⟨Sum.inr (E * S1), [], hexit f _, ?_, ?_, ?_⟩
    · intro off hoff
      exact absurd hoff (List.not_mem_nil off)
    · intro off hoff
      cases hoff
    · intro s hs
      cases hs
      exact ⟨S1, hS1, rfl⟩
  intro j
  induction j with
  | zero =>
    intro S fuel hf hS hj _
    obtain ⟨f, rfl⟩ : ∃ f, fuel = f + 2 := ⟨fuel - 2, by omega⟩
    rw [key 0 S (f + 1) hS hj]
    have hp : (2 : Nat) ^ 0 = 1 := Nat.pow_zero 2
    by_cases h1 : pf (E * S) < 0
    · rw [if_pos h1]
      exact hcons S _ hS (hend f (S - 2 ^ 0) (by omega))
    · rw [if_neg h1]
      by_cases h2 : 0 < pf (E * S)
      · rw [if_pos h2]
        by_cases h3 : S + 2 ^ 0 < n
        · rw [if_pos h3]
          exact hcons S _ hS (hend f (S + 2 ^ 0) h3)
        · rw [if_neg h3]
          exact hcons S _ hS (hend f S hS)
      · rw [if_neg h2]
        exact hzero S hS h1 h2
  | succ j ih =>
    intro S fuel hf hS hj hj2
    obtain ⟨f, rfl⟩ : ∃ f, fuel = f + 1 := ⟨fuel - 1, by omega⟩
    have hp : 0 < 2 ^ j := Nat.pow_pos (by norm_num)
    have e1 : 2 ^ (j + 1) = 2 * 2 ^ j := by rw [Nat.pow_succ]; omega
    have e2 : 2 ^ (j + 1 + 1) = 4 * 2 ^ j := by rw [Nat.pow_succ, e1]; omega
    have hS4 : 4 * 2 ^ j ≤ S := by rw [← e2]; exact hj2 (by omega)
    rw [key (j + 1) S f hS hj, qfind_step_half]
    by_cases h1 : pf (E * S) < 0
    · rw [if_pos h1]
      exact hcons S _ hS
        (ih (S - 2 ^ (j + 1)) f (by omega) (by omega) (by omega) (fun _ => by omega))
    · rw [if_neg h1]
      by_cases h2 : 0 < pf (E * S)
      · rw [if_pos h2]
        by_cases h3 : S + 2 ^ (j + 1) < n
        · rw [if_pos h3]
          exact hcons S _ hS
            (ih (S + 2 ^ (j + 1)) f (by omega) h3 (by omega) (fun _ => by omega))
        · rw [if_neg h3]
          exact hcons S _ hS (ih S f (by omega) hS (by omega) (fun _ => by omega))
      · rw [if_neg h2]
        exact hzero S hS h1 h2

/-- The end of the function under any comparator, at an index inside the map:
every call of the comparator is on an entry of the map, and a returned entry
is one the comparator was called on with the result 0. -/
theorem qfind_tailT_spec (pf : Nat → Int) (n E S1 : Nat) (hE : 1 ≤ E) (hS : S1 < n) :
    (∀ off, off ∈ (qfind_tailT pf E (n * E) (E * S1)).2 → ∃ k, k < n ∧ off = E * k) ∧
    (∀ off, (qfind_tailT pf E (n * E) (E * S1)).1 = some off →
      off ∈ (qfind_tailT pf E (n * E) (E * S1)).2 ∧ pf off = 0) := by
  have hE0 : 0 < E := hE
  have h4 : E * S1 < n * E := by rw [Nat.mul_comm n E]; exact Nat.mul_lt_mul_of_pos_left hS hE0
  unfold qfind_tailT
  rw [if_pos h4]
  by_cases h1 : pf (E * S1) = 0
  · simp only [if_pos h1]
    refine ⟨fun off hoff => ⟨S1, hS, List.mem_singleton.1 hoff⟩, fun off hoff => ?_⟩
    cases hoff
    exact ⟨List.mem_singleton.2 rfl, h1⟩
  · simp only [if_neg h1]
    by_cases h2 : E ≤ E * S1
    · have hS1 : 1 ≤ S1 := by
        by_contra h0
        have : S1 = 0 := by omega
        rw [this, Nat.mul_zero] at h2
        omega
      have h5 : E * S1 - E = E * (S1 - 1) := by rw [Nat.mul_sub, Nat.mul_one]
      simp only [if_pos h2, h5]
      have hmem : ∀ off, off ∈ [E * S1, E * (S1 - 1)] → ∃ k, k < n ∧ off = E * k := by
        intro off hoff
        rcases List.mem_cons.1 hoff with h | h
        · exact ⟨S1, hS, h⟩
        · exact ⟨S1 - 1, by omega, List.mem_singleton.1 h⟩
      by_cases h3 : pf (E * (S1 - 1)) = 0
      · simp only [if_pos h3]
        refine ⟨hmem, fun off hoff => ?_⟩
        cases hoff
        exact ⟨List.mem_cons_of_mem _ (List.mem_singleton.2 rfl), h3⟩
      · simp only [if_neg h3]
        exact ⟨hmem, fun off hoff => by cases hoff⟩
    · simp only [if_neg h2]
      exact ⟨fun off hoff => ⟨S1, hS, List.mem_singleton.1 hoff⟩, fun off hoff => by cases hoff⟩

/-- The model with the calls on a map of two or more entries: the second loop
starts as in `qfind_start`. -/
theorem qfind_startT (pf : Nat → Int) (n E : Nat) (hE : 1 ≤ E) (hnE : n * E < 2 ^ 31)
    (hn : 2 ≤ n) :
    ∃ j S : Nat, j + 2 ≤ 33 ∧ S < n ∧ 2 ^ j ≤ S ∧ (j ≠ 0 → 2 ^ (j + 1) ≤ S) ∧
      VMemD_Util_qfindT pf n E =
        qfind_finishT pf E (n * E) (qfind_loopT pf E (n * E) 33 (E * S) (E * 2 ^ j)) := by
  have hn31 : n < 2 ^ 31 := by
    calc n = n * 1 := (Nat.mul_one n).symm
      _ ≤ n * E := Nat.mul_le_mul_left n hE
      _ < 2 ^ 31 := hnE
  obtain ⟨i, hi, h1, h2, h3⟩ := qfind_bits_spec (n - 1) 31 1
    (by norm_num; omega) (Or.inl rfl) (Nat.le_refl 1)
  have h4 : 2 ^ (i - 1) ≤ n - 1 := by
    rcases h3 with h3 | h3
    · rw [h3]; norm_num; omega
    · exact h3
  have hi31 : i - 1 < 31 := by
    have : 2 ^ (i - 1) < 2 ^ 31 := by omega
    exact (Nat.pow_lt_pow_iff_right (by norm_num : 1 < 2)).1 this
  have hmap : (n * E) % 2 ^ 32 = n * E := Nat.mod_eq_of_lt (by omega)
  have hle : E * 2 ^ (i - 1) ≤ n * E := by
    rw [Nat.mul_comm n E]
    exact Nat.mul_le_mul_left E (by omega)
  have hsearch : (E * min (2 ^ (i - 1)) (n - 1)) % 2 ^ 32 = E * 2 ^ (i - 1) := by
    rw [Nat.min_eq_left h4]
    exact Nat.mod_eq_of_lt (by omega)
  have hunf : VMemD_Util_qfindT pf n E =
      qfind_finishT pf E (n * E) (qfind_loopT pf E (n * E) 33 (E * 2 ^ (i - 1))
        (max E (E * 2 ^ (i - 1) / 2))) := by
    unfold VMemD_Util_qfindT
    rw [if_neg (by omega), hi]
    simp only [hmap, hsearch]
  refine ⟨i - 2, 2 ^ (i - 1), by omega, by omega, ?_, ?_, ?_⟩
  · exact Nat.pow_le_pow_right (by norm_num) (by omega)
  · intro hj
    exact Nat.pow_le_pow_right (by norm_num) (by omega)
  · rw [hunf]
    by_cases hi1 : i = 1
    · subst hi1
      have hmax : max E (E * 2 ^ (1 - 1) / 2) = E * 2 ^ (1 - 2) := by
        norm_num
        exact Nat.div_le_self E 2
      rw [hmax]
    · have e : i - 1 = (i - 2) + 1 := by omega
      have hmax : max E (E * 2 ^ (i - 1) / 2) = E * 2 ^ (i - 2) := by
        rw [e, qfind_step_half]
        exact Nat.max_eq_right (Nat.le_mul_of_pos_right E (Nat.pow_pos (by norm_num)))
      rw [hmax]

/-- The model with the calls on a map of one entry: the comparator is called
on the entry 0 only. When it compares less, `cbSearch -= cbStep` wraps around
and the offset that results is never passed to the comparator. -/
theorem qfindT_one (pf : Nat → Int) (E : Nat) (hE : 1 ≤ E) (hE31 : E < 2 ^ 31) :
    ∃ calls, VMemD_Util_qfindT pf 1 E = some (if pf 0 = 0 then some 0 else none, calls) ∧
      (∀ off, off ∈ calls → off = 0) ∧ (pf 0 = 0 → 0 ∈ calls) := by
  have hbits : qfind_bits (1 - 1) 32 1 = some 1 := rfl
  have hmap : (1 * E) % 2 ^ 32 = E := by rw [Nat.one_mul]; exact Nat.mod_eq_of_lt (by omega)
  have hsearch : (E * min (2 ^ (1 - 1)) (1 - 1)) % 2 ^ 32 = 0 := by norm_num
  have hstep : max E (0 / 2) = E := by norm_num
  have hhalf : E / 2 < E := Nat.div_lt_self hE (by norm_num)
  have hend : ∀ a, qfind_loopT pf E E 32 a (E / 2) = some (Sum.inr a, []) := by
    intro a
    rw [qfind_loopT, if_neg (by omega)]
  unfold VMemD_Util_qfindT
  rw [if_neg (by omega), hbits]
  simp only [hmap, hsearch, hstep]
  rw [qfind_loopT, if_pos (Nat.le_refl E)]
  simp only [Nat.zero_add]
  by_cases h1 : pf 0 < 0
  · rw [if_pos h1, hend, if_neg (by omega)]
    have hsub : sub32 0 E = 2 ^ 32 - E := by
      rw [sub32, if_neg (by omega), Nat.sub_zero]
    rw [hsub]
    simp only [Option.map_some', qfind_finishT, qfind_tailT]
    rw [if_neg (by omega)]
    exact ⟨_, rfl, fun off hoff => by simpa using hoff, fun h => by omega⟩
  · rw [if_neg h1]
    by_cases h2 : 0 < pf 0
    · rw [if_pos h2, if_neg (by rw [Nat.mod_eq_of_lt (by omega)]; omega), hend,
        if_neg (by omega)]
      simp only [Option.map_some', qfind_finishT, qfind_tailT]
      rw [if_pos (by omega), if_neg (by omega), if_neg (by omega)]
      exact ⟨_, rfl, fun off hoff => by simpa using hoff, fun h => by omega⟩
    · rw [if_neg h2, if_pos (by omega)]
      exact ⟨_, rfl, fun off hoff => by simpa [qfind_finishT] using hoff,
        fun _ => by simp [qfind_finishT]⟩

/-- C25: for every `cMap ≥ 1` and `cbEntry ≥ 1` with `cMap * cbEntry < 2^31`
and every comparator `pf` (no ordering is assumed), `VMemD_Util_qfind` ends
within the fuel of the model with a result `r`; every offset passed to the
comparator is a multiple of `cbEntry` below `cMap * cbEntry`; and a result
other than `NULL` is such an offset on which the comparator was called and
returned 0. -/
theorem C25_qfind_calls_inside_map (pf : Nat → Int) (cMap cbEntry : Nat)
    (hn : 1 ≤ cMap) (hE : 1 ≤ cbEntry) (hsize : cMap * cbEntry < 2 ^ 31) :
    ∃ r calls, VMemD_Util_qfindT pf cMap cbEntry = some (r, calls) ∧
      VMemD_Util_qfind pf cMap cbEntry = some r ∧
      (∀ off, off ∈ calls → cbEntry ∣ off ∧ off < cMap * cbEntry) ∧
      (∀ off, r = some off →
        off ∈ calls ∧ pf off = 0 ∧ cbEntry ∣ off ∧ off < cMap * cbEntry) := by
  have hE0 : 0 < cbEntry := hE
  have hin : ∀ off, (∃ k, k < cMap ∧ off = cbEntry * k) →
      cbEntry ∣ off ∧ off < cMap * cbEntry := by
    rintro off ⟨k, hk, rfl⟩
    refine ⟨Dvd.intro k rfl, ?_⟩
    rw [Nat.mul_comm cMap cbEntry]
    exact Nat.mul_lt_mul_of_pos_left hk hE0
  have hmain : ∃ r calls, VMemD_Util_qfindT pf cMap cbEntry = some (r, calls) ∧
      (∀ off, off ∈ calls → ∃ k, k < cMap ∧ off = cbEntry * k) ∧
      (∀ off, r = some off → off ∈ calls ∧ pf off = 0) := by
    rcases Nat.lt_or_ge cMap 2 with h2 | h2
    · have h1 : cMap = 1 := by omega
      subst h1
      obtain ⟨calls, hq, hc, hz⟩ := qfindT_one pf cbEntry hE (by omega)
      refine ⟨_, calls, hq, fun off hoff => ⟨0, by omega, by rw [hc off hoff]; rfl⟩, ?_⟩
      intro off hoff
      by_cases h0 : pf 0 = 0
      · rw [if_pos h0] at hoff
        cases hoff
        exact ⟨hz h0, h0⟩
      · rw [if_neg h0] at hoff
        cases hoff
    · obtain ⟨j, S, hf, hS, hj, hj2, hq⟩ := qfind_startT pf cMap cbEntry hE hsize h2
      obtain ⟨res, calls, hl, hc, hl1, hl2⟩ :=
        qfind_loopT_spec pf cMap cbEntry hE hsize j S 33 hf hS hj hj2
      rw [hq, hl]
      cases res with
      | inl off =>
        refine ⟨some off, calls, rfl, hc, ?_⟩
        intro off2 hoff
        cases hoff
        exact hl1 off rfl
      | inr s =>
        obtain ⟨S1, hS1, rfl⟩ := hl2 s rfl
        obtain ⟨ht1, ht2⟩ := qfind_tailT_spec pf cMap cbEntry S1 hE hS1
        refine ⟨_, _, rfl, ?_, ?_⟩
        · intro off hoff
          rcases List.mem_append.1 hoff with h | h
          · exact hc off h
          · exact ht1 off h
        · intro off hoff
          exact ⟨List.mem_append_right _ (ht2 off hoff).1, (ht2 off hoff).2⟩
  obtain ⟨r, calls, hq, hc, hr⟩ := hmain
  refine ⟨r, calls, hq, ?_, fun off hoff => hin off (hc off hoff), ?_⟩
  · rw [← VMemD_Util_qfindT_fst, hq]; rfl
  · intro off hoff
    obtain ⟨h1, h2⟩ := hr off hoff
    exact ⟨h1, h2, hin off (hc off h1)⟩

/-- C25 on a map of nine entries of four bytes under the comparator that
always returns 1: the search ends with `NULL`. -/
theorem C25_qfind_calls_inside_map_witness :
    ∃ r calls, VMemD_Util_qfindT (fun _ => 1) 9 4 = some (r, calls) ∧
      VMemD_Util_qfind (fun _ => 1) 9 4 = some r ∧
      (∀ off, off ∈ calls → 4 ∣ off ∧ off < 9 * 4) ∧
      (∀ off, r = some off →
        off ∈ calls ∧ (fun _ : Nat => (1 : Int)) off = 0 ∧ 4 ∣ off ∧ off < 9 * 4) :=
  C25_qfind_calls_inside_map (fun _ => 1) 9 4 (by decide) (by decide) (by decide)

/-! ### Reading a VAD file -/

/-- The start address of the entry `k` of a VAD map read through the list of
start addresses. -/
theorem vad_getD_map (pMap : List VMMDLL_MAP_VADENTRY) (k : Nat) :
    (pMap.map fun e => e.vaStart).getD k 0 = (pMap.getD k ⟨0, 0, []⟩).vaStart := by
  induction pMap generalizing k with
  | nil => rfl
  | cons a l ih =>
    cases k with
    | zero => rfl
    | succ k => simpa using ih k

/-- The search of `VMemD_ReadWriteVad` on a VAD map with strictly increasing
start addresses returns the entry whose start address is searched for. -/
theorem vad_qfind (pMap : List VMMDLL_MAP_VADENTRY) (E t : Nat) (hE : 1 ≤ E)
    (hsize : pMap.length * E < 2 ^ 31)
    (hsorted : ∀ j k : Nat, j < k → k < pMap.length →
      (pMap.getD j ⟨0, 0, []⟩).vaStart < (pMap.getD k ⟨0, 0, []⟩).vaStart)
    (ht : t < pMap.length) :
    VMemD_Util_qfind (vadCmp (pMap.map fun e => e.vaStart) E (pMap.getD t ⟨0, 0, []⟩).vaStart)
      pMap.length E = some (some (t * E)) := by
  have hcmp : ∀ S, (0 < VMemD_ReadVad_CmpFind (pMap.getD t ⟨0, 0, []⟩).vaStart
        ((pMap.map fun e => e.vaStart).getD S 0) ↔
        (pMap.getD S ⟨0, 0, []⟩).vaStart < (pMap.getD t ⟨0, 0, []⟩).vaStart) ∧
      (VMemD_ReadVad_CmpFind (pMap.getD t ⟨0, 0, []⟩).vaStart
        ((pMap.map fun e => e.vaStart).getD S 0) < 0 ↔
        (pMap.getD t ⟨0, 0, []⟩).vaStart < (pMap.getD S ⟨0, 0, []⟩).vaStart) := by
    intro S
    rw [vad_getD_map]
    unfold VMemD_ReadVad_CmpFind
    constructor <;> split_ifs <;> omega
  have hord : ∀ S, S < pMap.length → S ≠ t →
      ((pMap.getD S ⟨0, 0, []⟩).vaStart < (pMap.getD t ⟨0, 0, []⟩).vaStart ↔ S < t) ∧
      ((pMap.getD t ⟨0, 0, []⟩).vaStart < (pMap.getD S ⟨0, 0, []⟩).vaStart ↔ t < S) := by
    intro S hS hne
    rcases Nat.lt_or_ge S t with h | h
    · have := hsorted S t h ht
      exact ⟨⟨fun _ => h, fun _ => this⟩, ⟨fun h2 => by omega, fun h2 => by omega⟩⟩
    · have h2 : t < S := by omega
      have := hsorted t S h2 hS
      exact ⟨⟨fun h3 => by omega, fun h3 => by omega⟩, ⟨fun _ => h2, fun _ => this⟩⟩
  obtain ⟨r, hr, hz, hq⟩ := qfind_finds_zero
    (fun k => VMemD_ReadVad_CmpFind (pMap.getD t ⟨0, 0, []⟩).vaStart
      ((pMap.map fun e => e.vaStart).getD k 0)) pMap.length E t hE hsize ht
    (by
      simp only [vad_getD_map]
      unfold VMemD_ReadVad_CmpFind
      rw [if_neg (by omega), if_neg (by omega)])
    (by
      intro S hS h
      have h1 := (hcmp S).1.1 h
      by_cases hne : S = t
      · rw [hne] at h1; omega
      · exact ((hord S hS hne).1).1 h1)
    (by
      intro S hS h
      have h1 := (hcmp S).2.1 h
      by_cases hne : S = t
      · rw [hne] at h1; omega
      · exact ((hord S hS hne).2).1 h1)
  have hrt : r = t := by
    by_contra hne
    have h1 := hcmp r
    have h2 := hord r hr hne
    simp only at hz
    rcases Nat.lt_or_ge r t with h | h
    · have := h1.1.2 (h2.1.2 h); omega
    · have := h1.2.2 (h2.2.2 (by omega)); omega
  rw [hrt] at hq
  exact hq

/-- C22: the code of `VMemD_ReadWriteVad` in read mode, on the file of the VAD
`[vaStart, vaEnd]` (entry `t` of a map with strictly increasing start
addresses, listed with the size `vaEnd + 1 - vaStart`), with `cb ≥ 1`, a
successful allocation and successful reads: at an offset `o` with `o + 1`
below the size it reports `min cb (size - o)` bytes with
`VMMDLL_STATUS_SUCCESS`; at every offset from `size - 1` on, the offset of the
last byte of the file included, it reports 0 bytes with
`VMMDLL_STATUS_END_OF_FILE`, where the test `pe->vaEnd <= vaBase + cbOffset`
takes the inclusive `vaEnd` for the address after the VAD. -/
theorem C22_ReadWriteVad_last_byte_is_end_of_file (env : VadEnv) (dwPID cbVadMap : Nat)
    (pMap : List VMMDLL_MAP_VADENTRY) (t vaStart vaEnd cb o : Nat) (wszText : List Nat)
    (hmap : env.VMMDLL_Map_GetVad dwPID = some (cbVadMap, pMap))
    (halloc : env.LocalAlloc cbVadMap = true)
    (hread : ∀ va c, env.VMMDLL_MemReadEx dwPID va c = true)
    (hE : 1 ≤ env.sizeof_VMMDLL_MAP_VADENTRY)
    (hsize : pMap.length * env.sizeof_VMMDLL_MAP_VADENTRY < 2 ^ 31)
    (hsorted : ∀ j k : Nat, j < k → k < pMap.length →
      (pMap.getD j ⟨0, 0, []⟩).vaStart < (pMap.getD k ⟨0, 0, []⟩).vaStart)
    (ht : t < pMap.length) (he : pMap.getD t ⟨0, 0, []⟩ = ⟨vaStart, vaEnd, wszText⟩)
    (hrange : vaStart ≤ vaEnd) (hcb : 1 ≤ cb) (hcb32 : cb < 2 ^ 32)
    (hva : vaEnd + 1 < 2 ^ 64) (hreq : vaStart + cb + o < 2 ^ 64) :
    (o + 1 < vaEnd + 1 - vaStart →
      VMemD_ReadWriteVad env dwPID vaStart true cb o =
        some ⟨NTSTATUS.VMMDLL_STATUS_SUCCESS, min cb (vaEnd + 1 - vaStart - o),
          some (VadMemCall.VMMDLL_MemReadEx dwPID (vaStart + o)
            (min cb (vaEnd + 1 - vaStart - o)))⟩) ∧
    (vaEnd + 1 - vaStart ≤ o + 1 →
      VMemD_ReadWriteVad env dwPID vaStart true cb o =
        some ⟨NTSTATUS.VMMDLL_STATUS_END_OF_FILE, 0, none⟩) := by
  have hE0 : 0 < env.sizeof_VMMDLL_MAP_VADENTRY := hE
  have hs : (pMap.getD t ⟨0, 0, []⟩).vaStart = vaStart := by rw [he]
  have hq := vad_qfind pMap env.sizeof_VMMDLL_MAP_VADENTRY t hE hsize hsorted ht
  rw [hs] at hq
  have hva1 : (vaStart + o) % 2 ^ 64 = vaStart + o := Nat.mod_eq_of_lt (by omega)
  have hva2 : (vaEnd + 1) % 2 ^ 64 = vaEnd + 1 := Nat.mod_eq_of_lt hva
  have hva3 : (vaStart + cb + o) % 2 ^ 64 = vaStart + cb + o := Nat.mod_eq_of_lt hreq
  unfold VMemD_ReadWriteVad
  rw [hmap]
  simp only [halloc, if_true, hq, Nat.mul_div_cancel t hE0, he, hva1, hva2, hva3, hread]
  constructor
  · intro ho
    have hlt : ¬ vaEnd ≤ vaStart + o := by omega
    have hmax : sub64 (min (vaEnd + 1) (vaStart + cb + o)) (vaStart + o) =
        min cb (vaEnd + 1 - vaStart - o) := by
      unfold sub64
      rw [if_pos (by omega)]
      omega
    have hio : min cb (min cb (vaEnd + 1 - vaStart - o)) % 2 ^ 32 =
        min cb (vaEnd + 1 - vaStart - o) := by
      rw [Nat.min_eq_right (Nat.min_le_left _ _)]
      exact Nat.mod_eq_of_lt (by omega)
    rw [if_neg hlt, hmax, hio]
    have hpos : min cb (vaEnd + 1 - vaStart - o) ≠ 0 := by omega
    simp only [true_and, hpos, ne_eq, not_false_eq_true, if_true]
  · intro ho
    rw [if_pos (by omega)]

/-- C22 on the VAD `[0x10000, 0x10fff]`, a file of 0x1000 bytes: the read of
one byte at the offset 0xfff, the last byte of the file, reports 0 bytes with
`VMMDLL_STATUS_END_OF_FILE`, and the read of 16 bytes at the offset 0xffe
reports 2 bytes. -/
theorem C22_ReadWriteVad_last_byte_is_end_of_file_witness :
    0xfff < 0x10fff + 1 - 0x10000 ∧
    VMemD_ReadWriteVad vadEnvOne 4 0x10000 true 1 0xfff =
      some ⟨NTSTATUS.VMMDLL_STATUS_END_OF_FILE, 0, none⟩ ∧
    VMemD_ReadWriteVad vadEnvOne 4 0x10000 true 16 0xffe =
      some ⟨NTSTATUS.VMMDLL_STATUS_SUCCESS, min 16 (0x10fff + 1 - 0x10000 - 0xffe),
        some (VadMemCall.VMMDLL_MemReadEx 4 (0x10000 + 0xffe)
          (min 16 (0x10fff + 1 - 0x10000 - 0xffe)))⟩ :=
  ⟨by decide,
   (C22_ReadWriteVad_last_byte_is_end_of_file vadEnvOne 4 64 [⟨0x10000, 0x10fff, []⟩] 0
      0x10000 0x10fff 1 0xfff [] rfl rfl (fun _ _ => rfl) (by decide) (by decide)
      (fun j k hjk hk => by
        have : k < 1 := hk
        omega)
      (by decide) rfl (by decide) (by decide) (by decide) (by decide) (by decide)).2
      (by decide),
   (C22_ReadWriteVad_last_byte_is_end_of_file vadEnvOne 4 64 [⟨0x10000, 0x10fff, []⟩] 0
      0x10000 0x10fff 16 0xffe [] rfl rfl (fun _ _ => rfl) (by decide) (by decide)
      (fun j k hjk hk => by
        have : k < 1 := hk
        omega)
      (by decide) rfl (by decide) (by decide) (by decide) (by decide) (by decide)).1
      (by decide)⟩

/-! ### Writing a data directory file -/

/-- The loop of `LdrModules_Write_DirectoriesD` makes a call at every index:
the comparison of 0 characters holds for every name. -/
theorem LdrModules_Write_DirectoriesD_foldl (env : LdrEnv) (pProcess vaBase : Nat)
    (Directory : Nat → IMAGE_DATA_DIRECTORY) (uszDirectory : CStr) (cb cbOffset : Nat) :
    ∀ (l : List Nat) (acc : Nat × List LdrCall),
      (l.foldl (LdrModules_Write_DirectoriesD_round env pProcess vaBase Directory
        uszDirectory cb cbOffset) acc).2 =
      acc.2 ++ l.map fun i => LdrCall.VmmWriteAsFile i
        ((vaBase + (Directory i).VirtualAddress) % 2 ^ 64) (Directory i).Size cb cbOffset := by
  intro l
  induction l with
  | nil => intro acc; simp
  | cons a l ih =>
    intro acc
    rw [List.foldl_cons, ih]
    have h0 : strnicmpEq (env.PE_DATA_DIRECTORIES a) uszDirectory 0 = true := by
      simp [strnicmpEq]
    simp only [LdrModules_Write_DirectoriesD_round, h0, if_true, List.map_cons,
      List.append_assoc, List.singleton_append]

/-- C23: when `PE_DirectoryGetAll` succeeds, `LdrModules_Write_DirectoriesD`
calls `VmmWriteAsFile` once for every index below
`IMAGE_NUMBEROF_DIRECTORY_ENTRIES`, in order, whatever the directory name
asked for: `_strnicmp` is called with the length 0 and so finds every table
entry equal to the name. -/
theorem C23_Write_DirectoriesD_writes_every_directory (env : LdrEnv) (pProcess vaBase : Nat)
    (Directory : Nat → IMAGE_DATA_DIRECTORY) (uszDirectory : CStr) (cb cbOffset : Nat)
    (hdir : env.PE_DirectoryGetAll pProcess vaBase = some Directory) :
    (LdrModules_Write_DirectoriesD env pProcess vaBase uszDirectory cb cbOffset).2 =
      (List.range env.IMAGE_NUMBEROF_DIRECTORY_ENTRIES).map fun i =>
        LdrCall.VmmWriteAsFile i ((vaBase + (Directory i).VirtualAddress) % 2 ^ 64)
          (Directory i).Size cb cbOffset := by
  unfold LdrModules_Write_DirectoriesD
  rw [hdir]
  simp only
  rw [LdrModules_Write_DirectoriesD_foldl]
  rfl

/-- C23 on a module with the sixteen directories of a PE image: a write to
the file `IMPORT` writes to all sixteen directories, and so does a write to a
name that is no directory, for which the read helper makes no call and
returns `VMMDLL_STATUS_FILE_INVALID`; the read of `import` reads the
directory 1 only. -/
theorem C23_Write_DirectoriesD_writes_every_directory_witness :
    (LdrModules_Write_DirectoriesD ldrEnvStd 1 0x400000 "IMPORT".toList 8 0).2 =
      (List.range 16).map (fun i =>
        LdrCall.VmmWriteAsFile i ((0x400000 + 0x1000 * (i + 1)) % 2 ^ 64) 0x100 8 0) ∧
    (LdrModules_Write_DirectoriesD ldrEnvStd 1 0x400000 "nosuchdir".toList 8 0).2 =
      (List.range 16).map (fun i =>
        LdrCall.VmmWriteAsFile i ((0x400000 + 0x1000 * (i + 1)) % 2 ^ 64) 0x100 8 0) ∧
    LdrModules_Read_DirectoriesD ldrEnvStd 1 0x400000 "nosuchdir".toList 8 0 =
      (NTSTATUS.VMMDLL_STATUS_FILE_INVALID, []) ∧
    LdrModules_Read_DirectoriesD ldrEnvStd 1 0x400000 "import".toList 8 0 =
      (NTSTATUS.VMMDLL_STATUS_SUCCESS, [LdrCall.VmmReadAsFile 1 0x402000 0x100 8 0]) :=
  ⟨C23_Write_DirectoriesD_writes_every_directory ldrEnvStd 1 0x400000
      (fun i => ⟨0x1000 * (i + 1), 0x100⟩) "IMPORT".toList 8 0 rfl,
   C23_Write_DirectoriesD_writes_every_directory ldrEnvStd 1 0x400000
      (fun i => ⟨0x1000 * (i + 1), 0x100⟩) "nosuchdir".toList 8 0 rfl,
   by decide, by decide⟩

/-! ### The order of bring-up and teardown of the sub-systems -/

theorem closeWaitCalls_tearsDown (c : Nat) :
    (closeWaitCalls c).filterMap SubCall.tearsDown = [] := by
  induction c with
  | zero => rfl
  | succ c ih =>
    rw [closeWaitCalls, List.filterMap_append, ih]
    rfl

theorem CloseHandle_calls_tearsDown (H cE cI : Nat) (hH : H ≠ 0) :
    (VmmDllCore_CloseHandle_calls H cE cI).filterMap SubCall.tearsDown =
      [SubSystem.Forensic, SubSystem.Vmm, SubSystem.LeechCore, SubSystem.WorkPool] := by
  unfold VmmDllCore_CloseHandle_calls
  rw [if_pos hH]
  simp only [List.filterMap_append, closeWaitCalls_tearsDown]
  rfl

theorem Initialize_fail_ne (env : InitEnv) (H H1 : Nat) (calls : List SubCall) :
    (VmmDllCore_Initialize_fail env H calls).1 ≠ InitOutcome.handle H1 := by
  unfold VmmDllCore_Initialize_fail
  exact fun h => by cases h

theorem Initialize_late_handle (env : InitEnv) (H H1 : Nat) (calls : List SubCall)
    (hinit : (VmmDllCore_Initialize_late env H calls).1 = InitOutcome.handle H1) :
    H1 = H ∧
    (VmmDllCore_Initialize_late env H calls).2.filterMap SubCall.bringsUp =
      calls.filterMap SubCall.bringsUp ++
        if env.tpForensicMode ≠ 0 then
          [SubSystem.WorkPool, SubSystem.Vmm, SubSystem.Forensic]
        else [SubSystem.WorkPool, SubSystem.Vmm] := by
  unfold VmmDllCore_Initialize_late at hinit ⊢
  cases hw : env.VmmWork_Initialize
  · rw [hw] at hinit
    exact absurd hinit (Initialize_fail_ne env H H1 _)
  · rw [hw] at hinit
    simp only [Bool.not_true, Bool.false_eq_true, if_false] at hinit ⊢
    cases hp : env.VmmProcInitialize
    · rw [hp] at hinit
      exact absurd hinit (Initialize_fail_ne env H H1 _)
    · rw [hp] at hinit
      simp only [Bool.not_true, Bool.false_eq_true, if_false] at hinit ⊢
      cases ha : env.fMemMapAuto
      · rw [ha] at hinit
        simp only [Bool.false_and, Bool.false_eq_true, if_false] at hinit ⊢
        by_cases hfo : env.tpForensicMode ≠ 0
        · rw [if_pos hfo] at hinit
          rw [if_pos hfo, if_pos hfo]
          cases hf : env.FcInitialize
          · rw [hf] at hinit
            exact absurd hinit (Initialize_fail_ne env H H1 _)
          · rw [hf] at hinit
            simp only [Bool.not_true, Bool.false_eq_true, if_false] at hinit ⊢
            cases hinit
            simp [List.filterMap_append, SubCall.bringsUp]
        · rw [if_neg hfo] at hinit
          rw [if_neg hfo, if_neg hfo]
          cases hinit
          simp [List.filterMap_append, SubCall.bringsUp]
      · rw [ha] at hinit
        simp only [Bool.true_and, if_true] at hinit ⊢
        cases hm : env.VmmDllCore_InitializeMemMapAuto
        · rw [hm] at hinit
          exact absurd hinit (Initialize_fail_ne env H H1 _)
        · rw [hm] at hinit
          simp only [Bool.not_true, Bool.false_eq_true, if_false] at hinit ⊢
          by_cases hfo : env.tpForensicMode ≠ 0
          · rw [if_pos hfo] at hinit
            rw [if_pos hfo, if_pos hfo]
            cases hf : env.FcInitialize
            · rw [hf] at hinit
              exact absurd hinit (Initialize_fail_ne env H H1 _)
            · rw [hf] at hinit
              simp only [Bool.not_true, Bool.false_eq_true, if_false] at hinit ⊢
              cases hinit
              simp [List.filterMap_append, SubCall.bringsUp]
          · rw [if_neg hfo] at hinit
            rw [if_neg hfo, if_neg hfo]
            cases hinit
            simp [List.filterMap_append, SubCall.bringsUp]

theorem Initialize_handle (env : InitEnv) (H : Nat)
    (hinit : (VmmDllCore_Initialize env).1 = InitOutcome.handle H) :
    H ≠ 0 ∧
    (VmmDllCore_Initialize env).2.filterMap SubCall.bringsUp =
      if env.tpForensicMode ≠ 0 then
        [SubSystem.LeechCore, SubSystem.WorkPool, SubSystem.Vmm, SubSystem.Forensic]
      else [SubSystem.LeechCore, SubSystem.WorkPool, SubSystem.Vmm] := by
  have hfin : ∀ calls : List SubCall,
      calls.filterMap SubCall.bringsUp = [SubSystem.LeechCore] →
      (VmmDllCore_Initialize_late env env.LocalAlloc calls).1 = InitOutcome.handle H →
      env.LocalAlloc ≠ 0 →
      H ≠ 0 ∧
      (VmmDllCore_Initialize_late env env.LocalAlloc calls).2.filterMap SubCall.bringsUp =
        if env.tpForensicMode ≠ 0 then
          [SubSystem.LeechCore, SubSystem.WorkPool, SubSystem.Vmm, SubSystem.Forensic]
        else [SubSystem.LeechCore, SubSystem.WorkPool, SubSystem.Vmm] := by
    intro calls hc hl h0
    obtain ⟨h1, h2⟩ := Initialize_late_handle env env.LocalAlloc H calls hl
    refine ⟨by rw [h1]; exact h0, ?_⟩
    rw [h2, hc]
    split_ifs <;> rfl
  unfold VmmDllCore_Initialize at hinit ⊢
  cases h1 : env.ObMap_New
  · rw [h1] at hinit
    exact absurd hinit (Initialize_fail_ne env _ H _)
  · rw [h1] at hinit
    simp only [Bool.not_true, Bool.false_eq_true, if_false] at hinit ⊢
    by_cases h2 : env.LocalAlloc = 0
    · rw [if_pos h2] at hinit
      exact absurd hinit (Initialize_fail_ne env _ H _)
    · rw [if_neg h2] at hinit
      rw [if_neg h2]
      cases h3 : env.VmmDllCore_InitializeConfig
      · rw [h3] at hinit
        exact absurd hinit (Initialize_fail_ne env _ H _)
      · rw [h3] at hinit
        simp only [Bool.not_true, Bool.false_eq_true, if_false] at hinit ⊢
        cases h4 : env.VmmDllCore_HandleAdd
        · rw [h4] at hinit
          exact absurd hinit (Initialize_fail_ne env _ H _)
        · rw [h4] at hinit
          simp only [Bool.not_true, Bool.false_eq_true, if_false] at hinit ⊢
          cases h5 : env.LcCreateEx
          · rw [h5] at hinit
            simp only [Bool.not_false, if_true] at hinit
            cases h6 : env.fUserInputRequest
            · rw [h6] at hinit
              exact absurd hinit (Initialize_fail_ne env _ H _)
            · rw [h6] at hinit
              exact absurd hinit (by simp)
          · rw [h5] at hinit
            simp only [Bool.not_true, Bool.false_eq_true, if_false] at hinit ⊢
            by_cases h7 : (env.fMemMapFile && !env.fMemMapFileLoaded) = true
            · rw [if_pos h7] at hinit
              exact absurd hinit (Initialize_fail_ne env _ H _)
            · rw [if_neg h7] at hinit
              rw [if_neg h7]
              by_cases h8 : (env.fMemMapStr && !env.LcCommand_MEMMAP_SET) = true
              · rw [if_pos h8] at hinit
                exact absurd hinit (Initialize_fail_ne env _ H _)
              · rw [if_neg h8] at hinit
                rw [if_neg h8]
                refine hfin _ ?_ hinit h2
                cases env.fMemMapStr <;> rfl

/-- C24, counterexample: after an initialisation in forensic mode that brings
up LeechCore, the work pool, vmm and forensic in this order,
`VmmDllCore_CloseHandle` tears down forensic, vmm, LeechCore and the work
pool in this order: the LeechCore device is closed before the work pool, so
the teardown is not the reverse of the bring-up. -/
theorem C24_teardown_not_reverse_counterexample :
    (VmmDllCore_Initialize initEnvForensic).1 = InitOutcome.handle 0x10000 ∧
    (VmmDllCore_Initialize initEnvForensic).2.filterMap SubCall.bringsUp =
      [SubSystem.LeechCore, SubSystem.WorkPool, SubSystem.Vmm, SubSystem.Forensic] ∧
    (VmmDllCore_CloseHandle_calls 0x10000 0 0).filterMap SubCall.tearsDown =
      [SubSystem.Forensic, SubSystem.Vmm, SubSystem.LeechCore, SubSystem.WorkPool] ∧
    (VmmDllCore_CloseHandle_calls 0x10000 0 0).filterMap SubCall.tearsDown ≠
      ((VmmDllCore_Initialize initEnvForensic).2.filterMap SubCall.bringsUp).reverse := by
  decide

/-- C24, amended: an initialisation that returns a handle has brought up
LeechCore, the work pool, vmm and (in forensic mode) forensic, in this order;
`VmmDllCore_CloseHandle` on the handle tears down forensic, vmm, LeechCore
and the work pool, in this order, however long the two waits take: the
reverse of the bring-up but for the LeechCore device, which is closed before
the work pool. -/
theorem C24_teardown_order (env : InitEnv) (H : Nat)
    (hinit : (VmmDllCore_Initialize env).1 = InitOutcome.handle H) :
    ((VmmDllCore_Initialize env).2.filterMap SubCall.bringsUp =
      if env.tpForensicMode ≠ 0 then
        [SubSystem.LeechCore, SubSystem.WorkPool, SubSystem.Vmm, SubSystem.Forensic]
      else [SubSystem.LeechCore, SubSystem.WorkPool, SubSystem.Vmm]) ∧
    ∀ cTimeoutExternal cTimeoutInternal : Nat,
      (VmmDllCore_CloseHandle_calls H cTimeoutExternal cTimeoutInternal).filterMap
        SubCall.tearsDown =
        [SubSystem.Forensic, SubSystem.Vmm, SubSystem.LeechCore, SubSystem.WorkPool] :=
  ⟨(Initialize_handle env H hinit).2,
   fun cE cI => CloseHandle_calls_tearsDown H cE cI (Initialize_handle env H hinit).1⟩

/-- C24 on the initialisation in forensic mode in which every step
succeeds. -/
theorem C24_teardown_order_witness :
    (VmmDllCore_Initialize initEnvForensic).2.filterMap SubCall.bringsUp =
      [SubSystem.LeechCore, SubSystem.WorkPool, SubSystem.Vmm, SubSystem.Forensic] ∧
    (VmmDllCore_CloseHandle_calls 0x10000 2 1).filterMap SubCall.tearsDown =
      [SubSystem.Forensic, SubSystem.Vmm, SubSystem.LeechCore, SubSystem.WorkPool] :=
  ⟨(C24_teardown_order initEnvForensic 0x10000 rfl).1,
   (C24_teardown_order initEnvForensic 0x10000 rfl).2 2 1⟩

/-! ### The command line: rejected argument lists and the verbosity flags -/

/-- The code takes an argument for an option without a value exactly when
the specification lists it as one. -/
theorem InitializeConfig_flag_isSome (a : CStr) (H : VMM_HANDLE_CFG) :
    (InitializeConfig_flag a H).isSome = isFlagOption a := by
  unfold InitializeConfig_flag
  simp only [isFlagOption, flagOptions, List.any_cons, List.any_nil, Bool.or_false]
  repeat' refine ite_prop (fun r : Option VMM_HANDLE_CFG => r.isSome = _) _ _ _ (fun h => ?_) (fun h => ?_)
  all_goals simp_all

/-- The code refuses as an option with a value every argument that the
specification does not list as one. -/
theorem InitializeConfig_value_refuses (env : CfgEnv) (a v : CStr) (H : VMM_HANDLE_CFG)
    (h : isValueOption a = false) : (InitializeConfig_value env a v H).1 = false := by
  simp only [isValueOption, valueOptions, List.any_cons, List.any_nil, Bool.or_false,
    Bool.or_eq_false_iff, beq_eq_false_iff_ne, ne_eq] at h
  obtain ⟨⟨⟨h1, h2, h3, h4, h5, h6, h7, h8, h9, h10, h11⟩, hz⟩, hp⟩ := h
  unfold InitializeConfig_value
  simp only [h1, h2, h3, h4, h5, h6, h7, h8, h9, h10, h11, hz, hp, Bool.false_eq_true,
    if_false, or_self]

/-- An option without a value sets `fVerboseDll` only if it is `-printf`. -/
theorem InitializeConfig_flag_fVerboseDll (a : CStr) (H H1 : VMM_HANDLE_CFG)
    (h : InitializeConfig_flag a H = some H1) (h1 : H1.cfg.fVerboseDll = true) :
    H.cfg.fVerboseDll = true ∨ stricmpEq a "-printf".toList = true := by
  revert h h1
  generalize hQ : (H.cfg.fVerboseDll = true ∨ stricmpEq a "-printf".toList = true) = Q
  have h0 : H.cfg.fVerboseDll = true → Q := fun h => hQ ▸ Or.inl h
  have hp : stricmpEq a "-printf".toList = true → Q := fun h => hQ ▸ Or.inr h
  clear hQ
  unfold InitializeConfig_flag
  refine ite_prop (fun r : Option VMM_HANDLE_CFG => r = some H1 → H1.cfg.fVerboseDll = true → Q)
    _ _ _ (fun _ h h1 => ?_) (fun _ => ?_)
  · cases h; exact h0 h1
  refine ite_prop (fun r : Option VMM_HANDLE_CFG => r = some H1 → H1.cfg.fVerboseDll = true → Q)
    _ _ _ (fun hpr _ _ => hp hpr) (fun _ => ?_)
  repeat' refine ite_prop (fun r : Option VMM_HANDLE_CFG => r = some H1 → H1.cfg.fVerboseDll = true → Q) _ _ _ (fun _ => ?_) (fun _ => ?_)
  all_goals (intro h h1; cases h; try exact h0 h1)

/-- An option with a value leaves `fVerboseDll` and `dwPrintfVerbosity` as
they are. -/
theorem InitializeConfig_value_verbosity (env : CfgEnv) (a v : CStr) (H : VMM_HANDLE_CFG) :
    (InitializeConfig_value env a v H).2.cfg.fVerboseDll = H.cfg.fVerboseDll ∧
    (InitializeConfig_value env a v H).2.dev.dwPrintfVerbosity = H.dev.dwPrintfVerbosity := by
  unfold InitializeConfig_value
  repeat' refine ite_prop (fun r : Bool × VMM_HANDLE_CFG => r.2.cfg.fVerboseDll = H.cfg.fVerboseDll ∧ r.2.dev.dwPrintfVerbosity = H.dev.dwPrintfVerbosity) _ _ _ (fun _ => ?_) (fun _ => ?_)
  all_goals exact ⟨rfl, rfl⟩

/-- The loop returns FALSE on a rejected argument list. -/
theorem InitializeConfig_loop_rejected (env : CfgEnv) :
    ∀ (n : Nat) (argv : List CStr), argv.length ≤ n → ∀ H : VMM_HANDLE_CFG,
      rejectedArgs argv = true → (InitializeConfig_loop env argv H).1 = false := by
  intro n
  induction n with
  | zero =>
    intro argv hlen H h
    have : argv = [] := List.length_eq_zero.1 (Nat.le_zero.1 hlen)
    subst this
    simp [rejectedArgs] at h
  | succ n ih =>
    intro argv hlen H h
    match argv, hlen, h with
    | [], _, h => simp [rejectedArgs] at h
    | [a], _, h =>
      have hs := InitializeConfig_flag_isSome a H
      rw [rejectedArgs] at h
      rw [InitializeConfig_loop]
      cases hflag : InitializeConfig_flag a H with
      | some H1 =>
        rw [hflag] at hs
        rw [← hs] at h
        simp at h
      | none => rfl
    | a :: v :: rest2, hlen, h =>
      have hs := InitializeConfig_flag_isSome a H
      rw [rejectedArgs] at h
      rw [InitializeConfig_loop]
      cases hflag : InitializeConfig_flag a H with
      | some H1 =>
        rw [hflag] at hs
        rw [← hs] at h
        simp only [Option.isSome_some, if_true] at h
        exact ih (v :: rest2) (by simpa using hlen) H1 h
      | none =>
        rw [hflag] at hs
        rw [← hs] at h
        simp only [Option.isSome_none, Bool.false_eq_true, if_false] at h
        simp only
        by_cases hv : (InitializeConfig_value env a v H).1 = true
        · rw [if_pos hv]
          by_cases hvo : isValueOption a = true
          · rw [if_pos hvo] at h
            have hlen2 : rest2.length ≤ n := by
              simp only [List.length_cons] at hlen; omega
            exact ih rest2 hlen2 _ h
          · have := InitializeConfig_value_refuses env a v H (by simpa using hvo)
            rw [this] at hv
            exact absurd hv (by decide)
        · rw [if_neg hv]

/-- The loop sets `fVerboseDll` only if it was set or `-printf` stands in
option position, and leaves `dwPrintfVerbosity` as it is. -/
theorem InitializeConfig_loop_verbosity (env : CfgEnv) :
    ∀ (n : Nat) (argv : List CStr), argv.length ≤ n → ∀ H : VMM_HANDLE_CFG,
      ((InitializeConfig_loop env argv H).2.cfg.fVerboseDll = true →
        H.cfg.fVerboseDll = true ∨ printfGiven argv = true) ∧
      (InitializeConfig_loop env argv H).2.dev.dwPrintfVerbosity = H.dev.dwPrintfVerbosity := by
  intro n
  induction n with
  | zero =>
    intro argv hlen H
    have : argv = [] := List.length_eq_zero.1 (Nat.le_zero.1 hlen)
    subst this
    exact ⟨fun h => Or.inl h, rfl⟩
  | succ n ih =>
    intro argv hlen H
    match argv, hlen with
    | [], _ => exact ⟨fun h => Or.inl h, rfl⟩
    | [a], _ =>
      rw [InitializeConfig_loop]
      cases hflag : InitializeConfig_flag a H with
      | some H1 =>
        simp only [InitializeConfig_loop]
        refine ⟨fun h => ?_, by rw [InitializeConfig_flag_dev a H H1 hflag]⟩
        rcases InitializeConfig_flag_fVerboseDll a H H1 hflag h with h1 | h1
        · exact Or.inl h1
        · exact Or.inr (by rw [printfGiven]; exact h1)
      | none => exact ⟨fun h => Or.inl h, rfl⟩
    | a :: v :: rest2, hlen =>
      have hs := InitializeConfig_flag_isSome a H
      rw [InitializeConfig_loop]
      cases hflag : InitializeConfig_flag a H with
      | some H1 =>
        rw [hflag] at hs
        obtain ⟨i1, i2⟩ := ih (v :: rest2) (by simpa using hlen) H1
        simp only
        refine ⟨fun h => ?_, by rw [i2, InitializeConfig_flag_dev a H H1 hflag]⟩
        rcases i1 h with h1 | h1
        · rcases InitializeConfig_flag_fVerboseDll a H H1 hflag h1 with h2 | h2
          · exact Or.inl h2
          · exact Or.inr (by rw [printfGiven, h2]; rfl)
        · refine Or.inr ?_
          rw [printfGiven, ← hs]
          simp only [Option.isSome_some, if_true, h1, Bool.or_true]
      | none =>
        rw [hflag] at hs
        obtain ⟨v1, v2⟩ := InitializeConfig_value_verbosity env a v H
        simp only
        by_cases hv : (InitializeConfig_value env a v H).1 = true
        · rw [if_pos hv]
          have hlen2 : rest2.length ≤ n := by
            simp only [List.length_cons] at hlen; omega
          obtain ⟨i1, i2⟩ := ih rest2 hlen2 (InitializeConfig_value env a v H).2
          refine ⟨fun h => ?_, by rw [i2, v2]⟩
          rcases i1 h with h1 | h1
          · exact Or.inl (by rw [← v1]; exact h1)
          · refine Or.inr ?_
            rw [printfGiven, ← hs]
            simp only [Option.isSome_none, Bool.false_eq_true, if_false, h1, Bool.or_true]
        · rw [if_neg hv]
          exact ⟨fun h => Or.inl (by rw [← v1]; exact h), v2⟩

/-- `VmmDllCore_InitializeConfig` is the loop and the finish on the argument
list after the click-to-open rewriting. -/
theorem InitializeConfig_clickToOpen (env : CfgEnv) (H : VMM_HANDLE_CFG) (argv : List CStr) :
    VmmDllCore_InitializeConfig env H argv = InitializeConfig_main env H (clickToOpen argv) := by
  match argv with
  | [] => rfl
  | [_] => rfl
  | _ :: _ :: _ :: _ => rfl
  | [a0, a1] =>
    show (if a1 ≠ [] ∧ a1.head? ≠ some '-' then
        InitializeConfig_main env H [a0, "-device".toList, a1]
      else InitializeConfig_main env H [a0, a1]) =
      InitializeConfig_main env H
        (if a1 ≠ [] ∧ a1.head? ≠ some '-' then [a0, "-device".toList, a1] else [a0, a1])
    by_cases h : a1 ≠ [] ∧ a1.head? ≠ some '-'
    · rw [if_pos h, if_pos h]
    · rw [if_neg h, if_neg h]

/-- After the finish without `fVerboseDll`, no verbosity flag is set and no
bit is added to `dwPrintfVerbosity`. -/
theorem InitializeConfig_finish_quiet (env : CfgEnv) (H : VMM_HANDLE_CFG)
    (hdll : H.cfg.fVerboseDll = false) (h0 : H.dev.dwPrintfVerbosity = 0)
    (h : (InitializeConfig_finish env H).1 = true) :
    (InitializeConfig_finish env H).2.cfg.fVerbose = false ∧
    (InitializeConfig_finish env H).2.cfg.fVerboseExtra = false ∧
    (InitializeConfig_finish env H).2.cfg.fVerboseExtraTlp = false ∧
    (InitializeConfig_finish env H).2.dev.dwPrintfVerbosity = 0 := by
  unfold InitializeConfig_finish at h ⊢
  by_cases hg : H.dev.paMax ≠ 0 ∧ H.dev.paMax < 0x00100000
  · rw [if_pos hg] at h; simp at h
  · rw [if_neg hg]
    simp [hdll, h0]

/-- C28, counterexample: the click-to-open list of an empty `argv[0]` and the
file name `dump.raw` has in option position the argument `dump.raw`, which is
neither empty nor an option, and `VmmDllCore_InitializeConfig` returns TRUE on
it, with the file name as the device; and on the list `-v`, `-bogus`, without
`-printf`, the function returns FALSE and leaves `fVerbose` set. -/
theorem C28_click_to_open_accepted_counterexample :
    rejectedArgs ["".toList, "dump.raw".toList] = true ∧
    (VmmDllCore_InitializeConfig cfgEnvStd VMM_HANDLE_CFG.cleared
      ["".toList, "dump.raw".toList]).1 = true ∧
    (VmmDllCore_InitializeConfig cfgEnvStd VMM_HANDLE_CFG.cleared
      ["".toList, "dump.raw".toList]).2.dev.szDevice = "dump.raw".toList ∧
    printfGiven ["".toList, "-v".toList, "-bogus".toList] = false ∧
    (VmmDllCore_InitializeConfig cfgEnvStd VMM_HANDLE_CFG.cleared
      ["".toList, "-v".toList, "-bogus".toList]).1 = false ∧
    (VmmDllCore_InitializeConfig cfgEnvStd VMM_HANDLE_CFG.cleared
      ["".toList, "-v".toList, "-bogus".toList]).2.cfg.fVerbose = true := by
  refine ⟨?_, ?_, ?_, ?_, ?_, ?_⟩ <;> (set_option maxRecDepth 20000 in decide)

/-- C28, amended: `VmmDllCore_InitializeConfig` is a total function of the
argument list: it is the loop and the finish on the list after the
click-to-open rewriting (two arguments of which the second is not empty and
does not start with `-` become `argv[0]`, `-device`, `argv[1]`). On that list
it returns FALSE whenever an argument in option position is neither the empty
string nor a recognised option (every argument that starts with `-pagefile`
counts as one), or an option with a value is the last argument. When it
returns TRUE on a cleared handle and `-printf` does not stand in option
position, `fVerbose`, `fVerboseExtra` and `fVerboseExtraTlp` are FALSE and
`dev.dwPrintfVerbosity` is 0. -/
theorem C28_InitializeConfig_rejects_and_masks (env : CfgEnv) (H : VMM_HANDLE_CFG)
    (argv : List CStr) :
    VmmDllCore_InitializeConfig env H argv = InitializeConfig_main env H (clickToOpen argv) ∧
    (rejectedArgs (clickToOpen argv) = true →
      (VmmDllCore_InitializeConfig env H argv).1 = false) ∧
    ((VmmDllCore_InitializeConfig env VMM_HANDLE_CFG.cleared argv).1 = true →
      printfGiven (clickToOpen argv) = false →
      (VmmDllCore_InitializeConfig env VMM_HANDLE_CFG.cleared argv).2.cfg.fVerbose = false ∧
      (VmmDllCore_InitializeConfig env VMM_HANDLE_CFG.cleared argv).2.cfg.fVerboseExtra = false ∧
      (VmmDllCore_InitializeConfig env VMM_HANDLE_CFG.cleared argv).2.cfg.fVerboseExtraTlp
        = false ∧
      (VmmDllCore_InitializeConfig env VMM_HANDLE_CFG.cleared argv).2.dev.dwPrintfVerbosity
        = 0) := by
  refine ⟨InitializeConfig_clickToOpen env H argv, fun hrej => ?_, fun htrue hnp => ?_⟩
  · rw [InitializeConfig_clickToOpen]
    unfold InitializeConfig_main
    simp only
    rw [InitializeConfig_loop_rejected env _ _ (Nat.le_refl _) H hrej]
    rfl
  · rw [InitializeConfig_clickToOpen] at htrue ⊢
    unfold InitializeConfig_main at htrue ⊢
    simp only at htrue ⊢
    by_cases hl : (InitializeConfig_loop env (clickToOpen argv) VMM_HANDLE_CFG.cleared).1 = true
    · rw [if_pos hl] at htrue ⊢
      obtain ⟨i1, i2⟩ := InitializeConfig_loop_verbosity env _ (clickToOpen argv)
        (Nat.le_refl _) VMM_HANDLE_CFG.cleared
      have hdll : (InitializeConfig_loop env (clickToOpen argv)
          VMM_HANDLE_CFG.cleared).2.cfg.fVerboseDll = false := by
        cases hd : (InitializeConfig_loop env (clickToOpen argv)
          VMM_HANDLE_CFG.cleared).2.cfg.fVerboseDll with
        | false => rfl
        | true =>
          rcases i1 hd with h1 | h1
          · exact absurd h1 (by decide)
          · rw [hnp] at h1
            exact absurd h1 (by decide)
      exact InitializeConfig_finish_quiet env _ hdll (by rw [i2]; rfl) htrue
    · rw [if_neg hl] at htrue
      exact absurd htrue (by simp)

/-- C28 on concrete argument lists: `-device dump.raw -bogus` is rejected
(an argument that is no option), as is `-device` as the last argument; and
`-v -device dump.raw` without `-printf` returns TRUE with no verbosity
set. -/
theorem C28_InitializeConfig_rejects_and_masks_witness :
    (VmmDllCore_InitializeConfig cfgEnvStd VMM_HANDLE_CFG.cleared
      ["".toList, "-device".toList, "dump.raw".toList, "-bogus".toList]).1 = false ∧
    (VmmDllCore_InitializeConfig cfgEnvStd VMM_HANDLE_CFG.cleared
      ["".toList, "-v".toList, "-device".toList]).1 = false ∧
    (VmmDllCore_InitializeConfig cfgEnvStd VMM_HANDLE_CFG.cleared
      ["".toList, "-v".toList, "-device".toList, "dump.raw".toList]).2.cfg.fVerbose = false ∧
    (VmmDllCore_InitializeConfig cfgEnvStd VMM_HANDLE_CFG.cleared
      ["".toList, "-v".toList, "-device".toList, "dump.raw".toList]).2.dev.dwPrintfVerbosity
        = 0 :=
  ⟨(C28_InitializeConfig_rejects_and_masks cfgEnvStd VMM_HANDLE_CFG.cleared
      ["".toList, "-device".toList, "dump.raw".toList, "-bogus".toList]).2.1
      (by set_option maxRecDepth 20000 in decide),
   (C28_InitializeConfig_rejects_and_masks cfgEnvStd VMM_HANDLE_CFG.cleared
      ["".toList, "-v".toList, "-device".toList]).2.1
      (by set_option maxRecDepth 20000 in decide),
   ((C28_InitializeConfig_rejects_and_masks cfgEnvStd VMM_HANDLE_CFG.cleared
      ["".toList, "-v".toList, "-device".toList, "dump.raw".toList]).2.2
      (by set_option maxRecDepth 20000 in decide)
      (by set_option maxRecDepth 20000 in decide)).1,
   ((C28_InitializeConfig_rejects_and_masks cfgEnvStd VMM_HANDLE_CFG.cleared
      ["".toList, "-v".toList, "-device".toList, "dump.raw".toList]).2.2
      (by set_option maxRecDepth 20000 in decide)
      (by set_option maxRecDepth 20000 in decide)).2.2.2⟩

/-! ### `VMMDLL_ProcessGetInformation_Impl` and the caller buffer -/

/-- C27: on a system that is neither Windows x64 nor Windows x86, a
successful `VMMDLL_ProcessGetInformation_Impl` returns the member `win` of
the caller buffer as it found it, given that the first
`sizeof(VMMDLL_PROCESS_INFORMATION_MAGIC)` bytes do not reach that member:
`ZeroMemory` is called with the size of the magic constant, not with the size
of the structure. -/
theorem C27_ProcessGetInformation_keeps_caller_win (env : ProcInfoEnv) (dwPID cb : Nat)
    (info : VMMDLL_PROCESS_INFORMATION) (p : VMM_PROCESS_INFO)
    (hzero : (env.ZeroMemory info env.sizeof_VMMDLL_PROCESS_INFORMATION_MAGIC).win = info.win)
    (hsys : ¬ (env.tpSystem = env.VMM_SYSTEM_WINDOWS_X64 ∨
      env.tpSystem = env.VMM_SYSTEM_WINDOWS_X86))
    (hcb : env.sizeof_VMMDLL_PROCESS_INFORMATION ≤ cb)
    (hmagic : info.magic = env.VMMDLL_PROCESS_INFORMATION_MAGIC)
    (hver : info.wVersion = env.VMMDLL_PROCESS_INFORMATION_VERSION)
    (hproc : env.VmmProcessGetEx dwPID = some p) :
    ∃ out, VMMDLL_ProcessGetInformation_Impl env dwPID (some info) (some cb) =
        (true, some out, some cb) ∧ out.win = info.win := by
  unfold VMMDLL_ProcessGetInformation_Impl
  simp only
  rw [if_neg (by omega), if_neg (fun h => h hmagic), if_neg (fun h => h hver), hproc]
  refine ⟨_, rfl, ?_⟩
  simp only [ProcessGetInformation_win, if_neg hsys]
  exact hzero

/-- C27 on a system that is not Windows: two calls on the same state with
caller buffers that differ only in `win.szSID` return structures that differ:
each one still holds the text of its caller. -/
theorem C27_ProcessGetInformation_keeps_caller_win_witness :
    (∃ out, VMMDLL_ProcessGetInformation_Impl procInfoEnvStd 1
        (some (procInfoBuffer "S-1-5-18".toList)) (some 440) = (true, some out, some 440) ∧
      out.win = (procInfoBuffer "S-1-5-18".toList).win) ∧
    (VMMDLL_ProcessGetInformation_Impl procInfoEnvStd 1
        (some (procInfoBuffer "S-1-5-18".toList)) (some 440)).2.1 ≠
    (VMMDLL_ProcessGetInformation_Impl procInfoEnvStd 1
        (some (procInfoBuffer [])) (some 440)).2.1 :=
  ⟨C27_ProcessGetInformation_keeps_caller_win procInfoEnvStd 1 440
      (procInfoBuffer "S-1-5-18".toList) procInfoOne rfl (by decide) (by decide) rfl rfl rfl,
   by decide⟩

/-! ### The file names of the vmemd plugin -/

/-- C26: under the x64 memory model and under the x86 model, `VMemD_List`
on a PTE map with one entry at 0x401000 whose description is `x.vvmem`, and
no VAD, adds one file, with the extension `.vmem`;
`VMemD_GetBaseAndTypeFromFileName` on its name succeeds with the base
address 0x401000 and with `fVad` TRUE, though the entry is a PTE entry:
`strstr` finds `.vvmem` inside the description. For a PTE entry without
description, and for a VAD entry, the type is the right one. -/
theorem C26_pte_name_taken_for_vad :
    VMemD_List .VMMDLL_MEMORYMODEL_X64 (some [⟨0x401000, 1, wide "x.vvmem"⟩]) (some []) =
      some (true, [⟨"0x0000000000401000-x.vvmem.vmem".toList, 0x1000⟩]) ∧
    VMemD_GetBaseAndTypeFromFileName "0x0000000000401000-x.vvmem.vmem".toList =
      some (0x401000, true) ∧
    VMemD_List .VMMDLL_MEMORYMODEL_X86 (some [⟨0x401000, 1, wide "x.vvmem"⟩]) none =
      some (true, [⟨"0x00401000-x.vvmem.vmem".toList, 0x1000⟩]) ∧
    VMemD_GetBaseAndTypeFromFileName "0x00401000-x.vvmem.vmem".toList =
      some (0x401000, true) ∧
    VMemD_List .VMMDLL_MEMORYMODEL_X64 (some [⟨0x401000, 1, []⟩])
        (some [⟨0x10000, 0x10fff, wide "heap"⟩]) =
      some (true, [⟨"0x0000000000010000-heap.vvmem".toList, 0x1000⟩,
        ⟨"0x0000000000401000.vmem".toList, 0x1000⟩]) ∧
    VMemD_GetBaseAndTypeFromFileName "0x0000000000010000-heap.vvmem".toList =
      some (0x10000, true) ∧
    VMemD_GetBaseAndTypeFromFileName "0x0000000000401000.vmem".toList =
      some (0x401000, false) := by
  refine ⟨?_, ?_, ?_, ?_, ?_, ?_, ?_⟩ <;> (set_option maxRecDepth 100000 in decide)

/-! ### Decimal text -/

theorem digitChar_spec (x : Nat) (hx : x < 10) :
    (Nat.digitChar x).isDigit = true ∧ (Nat.digitChar x).toNat - 48 = x := by
  interval_cases x <;> decide

theorem toDigitsCore_eq_digits :
    ∀ fuel n : Nat, ∀ ds : List Char, 0 < n → n < fuel →
      Nat.toDigitsCore 10 fuel n ds = ((Nat.digits 10 n).reverse.map Nat.digitChar) ++ ds := by
  intro fuel
  induction fuel with
  | zero => intro n ds _ h; omega
  | succ fuel ih =>
    intro n ds hn hf
    have hd : Nat.digits 10 n = (n % 10) :: Nat.digits 10 (n / 10) :=
      Nat.digits_def' (by norm_num) hn
    rw [Nat.toDigitsCore]
    by_cases h0 : n / 10 = 0
    · simp only [h0, if_true]
      rw [hd, h0]
      simp
    · simp only [h0, if_false]
      rw [ih (n / 10) _ (Nat.pos_of_ne_zero h0) (by omega), hd]
      simp

/-- The decimal text of a number is the text of a list of digits, most
significant first, that is not empty and has the number as its value. -/
theorem toDigits_eq (n : Nat) :
    ∃ L : List Nat, L ≠ [] ∧ (∀ x ∈ L, x < 10) ∧ Nat.toDigits 10 n = L.map Nat.digitChar ∧
      L.foldl (fun a x => 10 * a + x) 0 = n ∧ (∀ e, 0 < e → n < 10 ^ e → L.length ≤ e) := by
  rcases Nat.eq_zero_or_pos n with h0 | hpos
  · subst h0
    exact ⟨[0], by simp, by simp, rfl, rfl, fun e he _ => by simpa using he⟩
  · refine ⟨(Nat.digits 10 n).reverse, ?_, ?_, ?_, ?_, ?_⟩
    · intro h
      have := List.reverse_eq_nil_iff.1 h
      exact (Nat.digits_ne_nil_iff_ne_zero.2 (by omega)) this
    · intro x hx
      exact Nat.digits_lt_base (by norm_num) (List.mem_reverse.1 hx)
    · rw [Nat.toDigits, toDigitsCore_eq_digits (n + 1) n [] hpos (by omega), List.append_nil]
    · rw [List.foldl_reverse]
      have h := Nat.ofDigits_digits 10 n
      rw [Nat.ofDigits_eq_foldr] at h
      simpa [Nat.mul_comm, Nat.add_comm] using h
    · intro e _ hlt
      rw [List.length_reverse, Nat.digits_len 10 n (by norm_num) (by omega)]
      exact Nat.log_lt_of_lt_pow (by omega) hlt

theorem isDigit_not_special (ch : Char) (h : ch.isDigit = true) :
    isspace ch = false ∧ ch ≠ '-' ∧ ch ≠ '+' := by
  refine ⟨?_, ?_, ?_⟩
  · cases hs : isspace ch with
    | false => rfl
    | true =>
      simp only [isspace, decide_eq_true_eq] at hs
      rcases hs with h1 | h1 | h1 | h1 | h1 | h1 <;> (rw [h1] at h; exact absurd h (by decide))
  · intro h1; rw [h1] at h; exact absurd h (by decide)
  · intro h1; rw [h1] at h; exact absurd h (by decide)

/-- What the conversions `%u` and `%llu` print for `n`: a text of digits that
is not empty, has the value `n` and, for `n < 10 ^ e`, at most `e`
characters. -/
theorem toDigits_props (n : Nat) :
    Nat.toDigits 10 n ≠ [] ∧ (∀ ch ∈ Nat.toDigits 10 n, ch.isDigit = true) ∧
    decimalPrefix (Nat.toDigits 10 n) = n ∧
    (∀ e, 0 < e → n < 10 ^ e → (Nat.toDigits 10 n).length ≤ e) := by
  obtain ⟨L, hne, hlt, heq, hval, hlen⟩ := toDigits_eq n
  have hdig : ∀ ch ∈ L.map Nat.digitChar, ch.isDigit = true := by
    intro ch hch
    obtain ⟨x, hx, rfl⟩ := List.mem_map.1 hch
    exact (digitChar_spec x (hlt x hx)).1
  refine ⟨?_, ?_, ?_, ?_⟩
  · rw [heq]
    intro h
    exact hne (List.map_eq_nil_iff.1 h)
  · rw [heq]; exact hdig
  · rw [heq, decimalPrefix, List.takeWhile_eq_self_iff.2 hdig, List.foldl_map, ← hval]
    clear hne heq hval hlen hdig
    generalize (0 : Nat) = a
    induction L generalizing a with
    | nil => rfl
    | cons x L ih =>
      rw [List.foldl_cons, List.foldl_cons, (digitChar_spec x (hlt x (List.mem_cons_self _ _))).2]
      exact ih (fun y hy => hlt y (List.mem_cons_of_mem _ hy)) _
  · intro e he hn
    rw [heq, List.length_map]
    exact hlen e he hn

/-- The digits at the start of a text of digits followed by nothing or by a
character that is no digit. -/
theorem decimalPrefix_append (D rest : CStr) (hD : ∀ ch ∈ D, ch.isDigit = true)
    (hrest : rest = [] ∨ ∃ x xs, rest = x :: xs ∧ x.isDigit = false) :
    decimalPrefix (D ++ rest) = decimalPrefix D := by
  have h1 : (D ++ rest).takeWhile Char.isDigit = D := by
    induction D with
    | nil =>
      rcases hrest with h | ⟨x, xs, h, hx⟩
      · rw [h]; rfl
      · rw [h, List.nil_append, List.takeWhile_cons, hx]
        rfl
    | cons a D ih =>
      rw [List.cons_append, List.takeWhile_cons, hD a (List.mem_cons_self _ _)]
      simp only [if_true]
      rw [ih (fun ch hch => hD ch (List.mem_cons_of_mem _ hch))]
  have h2 : D.takeWhile Char.isDigit = D := List.takeWhile_eq_self_iff.2 hD
  rw [decimalPrefix, decimalPrefix, h1, h2]

/-- `strtoull` on a text of digits followed by nothing or by a character that
is no digit. -/
theorem strtoull10_digits (D rest : CStr) (hne : D ≠ []) (hD : ∀ ch ∈ D, ch.isDigit = true)
    (hrest : rest = [] ∨ ∃ x xs, rest = x :: xs ∧ x.isDigit = false)
    (hv : decimalPrefix D < 2 ^ 64) :
    strtoull10 (D ++ rest) = decimalPrefix D := by
  obtain ⟨a, D1, rfl⟩ := List.exists_cons_of_ne_nil hne
  obtain ⟨h1, h2, h3⟩ := isDigit_not_special a (hD a (List.mem_cons_self _ _))
  have hdw : ((a :: D1) ++ rest).dropWhile isspace = (a :: D1) ++ rest := by
    rw [List.cons_append, List.dropWhile_cons, h1]
    rfl
  have hhead : ((a :: D1) ++ rest).head? = some a := rfl
  unfold strtoull10
  simp only [hdw, hhead, Option.some.injEq, h2, h3, or_self, if_false]
  rw [decimalPrefix_append _ _ hD hrest, if_neg (by omega)]

/-! ### The SID conversions -/

theorem getD_lt_256 (l : List Nat) (hb : ∀ x ∈ l, x < 256) (i : Nat) : l.getD i 0 < 256 := by
  rw [List.getD_eq_getElem?_getD]
  cases h : l[i]? with
  | none => simp
  | some x => simpa using hb x (List.getElem?_mem h)

theorem readDWORD_lt (l : List Nat) (hb : ∀ x ∈ l, x < 256) : readDWORD l < 2 ^ 32 := by
  have h0 := getD_lt_256 l hb 0
  have h1 := getD_lt_256 l hb 1
  have h2 := getD_lt_256 l hb 2
  have h3 := getD_lt_256 l hb 3
  unfold readDWORD
  omega

theorem writeDWORD_readDWORD (x0 x1 x2 x3 : Nat) (t : List Nat)
    (h0 : x0 < 256) (h1 : x1 < 256) (h2 : x2 < 256) (h3 : x3 < 256) :
    writeDWORD (readDWORD (x0 :: x1 :: x2 :: x3 :: t)) = [x0, x1, x2, x3] := by
  have e : readDWORD (x0 :: x1 :: x2 :: x3 :: t) = x0 + x1 * 256 + x2 * 65536 + x3 * 16777216 := by
    simp [readDWORD]
  rw [e]
  unfold writeDWORD
  norm_num
  refine ⟨by omega, by omega, by omega, by omega⟩

theorem fmt_u_props (v : Nat) (hv : v < 2 ^ 32) :
    fmt_u v ≠ [] ∧ (∀ ch ∈ fmt_u v, ch.isDigit = true) ∧ decimalPrefix (fmt_u v) = v ∧
    (fmt_u v).length ≤ 10 := by
  have hm : v % 2 ^ 32 = v := Nat.mod_eq_of_lt hv
  obtain ⟨h1, h2, h3, h4⟩ := toDigits_props v
  unfold fmt_u
  rw [hm]
  exact ⟨h1, h2, h3, h4 10 (by norm_num) (by norm_num at hv ⊢; omega)⟩

theorem fmt_llu_props (v : Nat) (hv : v < 2 ^ 48) :
    fmt_llu v ≠ [] ∧ (∀ ch ∈ fmt_llu v, ch.isDigit = true) ∧ decimalPrefix (fmt_llu v) = v ∧
    (fmt_llu v).length ≤ 15 := by
  have hm : v % 2 ^ 64 = v := Nat.mod_eq_of_lt (by norm_num at hv ⊢; omega)
  obtain ⟨h1, h2, h3, h4⟩ := toDigits_props v
  unfold fmt_llu
  rw [hm]
  exact ⟨h1, h2, h3, h4 15 (by norm_num) (by norm_num at hv ⊢; omega)⟩

/-- The text of the sub-authorities is empty or starts with `-`. -/
theorem sidSubAuthorityText_head (c : Nat) (pb : List Nat) :
    sidSubAuthorityText c pb = [] ∨
      ∃ x xs, sidSubAuthorityText c pb = x :: xs ∧ x.isDigit = false := by
  cases c with
  | zero => exact Or.inl rfl
  | succ c => exact Or.inr ⟨'-', _, rfl, by decide⟩

/-- The count loop over a text of digits: the count stays, the last
character is no `-`. -/
theorem count_digits (D : CStr) (hD : ∀ ch ∈ D, ch.isDigit = true) (hne : D ≠ []) :
    ∀ (rest : CStr) (prev : Char) (k : Nat), ∃ p, p ≠ '-' ∧
      ConvertStringSidToSidA_count prev (D ++ rest) k = ConvertStringSidToSidA_count p rest k := by
  induction D with
  | nil => exact absurd rfl hne
  | cons a D ih =>
    intro rest prev k
    have ha := (isDigit_not_special a (hD a (List.mem_cons_self _ _))).2.1
    rw [List.cons_append, ConvertStringSidToSidA_count, if_neg ha]
    by_cases hD0 : D = []
    · subst hD0
      exact ⟨a, ha, rfl⟩
    · exact ih (fun ch hch => hD ch (List.mem_cons_of_mem _ hch)) hD0 rest a k

/-- The count loop over the text of `c` sub-authorities adds `c`. -/
theorem count_sidSubAuthorityText :
    ∀ (c : Nat) (pb : List Nat) (p : Char) (k : Nat), (∀ x ∈ pb, x < 256) → p ≠ '-' →
      k + c < 256 →
      ConvertStringSidToSidA_count p (sidSubAuthorityText c pb) k = some (k + c) := by
  intro c
  induction c with
  | zero => intro pb p k _ _ _; rfl
  | succ c ih =>
    intro pb p k hb hp hk
    obtain ⟨h1, h2, _, _⟩ := fmt_u_props (readDWORD pb) (readDWORD_lt pb hb)
    rw [sidSubAuthorityText, ConvertStringSidToSidA_count, if_pos rfl, if_neg hp]
    obtain ⟨p1, hp1, hc⟩ := count_digits _ h2 h1 (sidSubAuthorityText c (pb.drop 4)) '-'
      ((k + 1) % 256)
    rw [hc, Nat.mod_eq_of_lt (by omega),
      ih (pb.drop 4) p1 (k + 1) (fun x hx => hb x (List.mem_of_mem_drop hx)) hp1 (by omega)]
    congr 1
    omega

/-- The last character of a text of digits followed by the text of
sub-authorities is a digit. -/
theorem getLast_sidSubAuthorityText :
    ∀ (c : Nat) (pb : List Nat) (X : CStr), (∀ x ∈ pb, x < 256) → X ≠ [] →
      (∀ ch ∈ X, ch.isDigit = true) →
      ∃ d, (X ++ sidSubAuthorityText c pb).getLast? = some d ∧ d.isDigit = true := by
  intro c
  induction c with
  | zero =>
    intro pb X _ hne hX
    rw [sidSubAuthorityText, List.append_nil]
    obtain ⟨d, hd⟩ := Option.isSome_iff_exists.1 (by
      cases X with
      | nil => exact absurd rfl hne
      | cons a X => simp : X.getLast?.isSome = true)
    exact ⟨d, hd, hX d (List.mem_of_getLast?_eq_some hd)⟩
  | succ c ih =>
    intro pb X hb _ _
    obtain ⟨h1, h2, _, _⟩ := fmt_u_props (readDWORD pb) (readDWORD_lt pb hb)
    obtain ⟨d, hd, hdd⟩ := ih (pb.drop 4) (fmt_u (readDWORD pb))
      (fun x hx => hb x (List.mem_of_mem_drop hx)) h1 h2
    refine ⟨d, ?_, hdd⟩
    rw [sidSubAuthorityText]
    have e : X ++ ('-' :: (fmt_u (readDWORD pb) ++ sidSubAuthorityText c (pb.drop 4))) =
        (X ++ ['-']) ++ (fmt_u (readDWORD pb) ++ sidSubAuthorityText c (pb.drop 4)) := by
      simp
    rw [e, List.getLast?_append, hd]
    rfl

/-- The parse loops over a text of digits: nothing is stored up to the end of
the text, and at a `-` after it the number after the `-` is stored. -/
theorem sidLoop_digits (D : CStr) (hD : ∀ ch ∈ D, ch.isDigit = true) (hne : D ≠ []) :
    ConvertStringSidToSidA_loop D = [] ∧
    ∀ xs : CStr, ConvertStringSidToSidA_loop (D ++ '-' :: xs) =
      writeDWORD (strtoull10 xs % 2 ^ 32) ++ ConvertStringSidToSidA_loop xs := by
  induction D with
  | nil => exact absurd rfl hne
  | cons a D ih =>
    cases D with
    | nil =>
      refine ⟨rfl, fun xs => ?_⟩
      rw [List.singleton_append, ConvertStringSidToSidA_loop, if_pos rfl]
    | cons b D =>
      have hb := (isDigit_not_special b (hD b (List.mem_cons_of_mem _ (List.mem_cons_self _ _)))).2.1
      obtain ⟨i1, i2⟩ := ih (fun ch hch => hD ch (List.mem_cons_of_mem _ hch)) (by simp)
      refine ⟨?_, fun xs => ?_⟩
      · rw [ConvertStringSidToSidA_loop, if_neg hb]
        exact i1
      · rw [List.cons_append, List.cons_append, ConvertStringSidToSidA_loop, if_neg hb]
        exact i2 xs

/-- The parse loops over a text of digits followed by the text of the `c`
sub-authorities stored in `pb` give the bytes `pb` back. -/
theorem sidLoop_sidSubAuthorityText :
    ∀ (c : Nat) (pb : List Nat) (X : CStr), pb.length = 4 * c → (∀ x ∈ pb, x < 256) →
      X ≠ [] → (∀ ch ∈ X, ch.isDigit = true) →
      ConvertStringSidToSidA_loop (X ++ sidSubAuthorityText c pb) = pb := by
  intro c
  induction c with
  | zero =>
    intro pb X hlen _ hne hX
    rw [sidSubAuthorityText, List.append_nil, (sidLoop_digits X hX hne).1]
    exact (List.length_eq_zero.1 (by omega)).symm
  | succ c ih =>
    intro pb X hlen hb hne hX
    match pb, hlen, hb with
    | x0 :: x1 :: x2 :: x3 :: t, hlen, hb =>
      have h0 : x0 < 256 := hb x0 (by simp)
      have h1 : x1 < 256 := hb x1 (by simp)
      have h2 : x2 < 256 := hb x2 (by simp)
      have h3 : x3 < 256 := hb x3 (by simp)
      have hbt : ∀ x ∈ t, x < 256 := fun x hx => hb x (by simp [hx])
      have hv := readDWORD_lt (x0 :: x1 :: x2 :: x3 :: t) hb
      obtain ⟨f1, f2, f3, _⟩ := fmt_u_props _ hv
      have hdrop : (x0 :: x1 :: x2 :: x3 :: t).drop 4 = t := rfl
      rw [sidSubAuthorityText, (sidLoop_digits X hX hne).2, hdrop,
        strtoull10_digits _ _ f1 f2 (sidSubAuthorityText_head c t) (by rw [f3]; omega), f3,
        Nat.mod_eq_of_lt hv, writeDWORD_readDWORD x0 x1 x2 x3 t h0 h1 h2 h3,
        ih t _ (by simp only [List.length_cons] at hlen; omega) hbt f1 f2]
      rfl
    | [], hlen, _ => simp at hlen
    | [_], hlen, _ => simp at hlen; omega
    | [_, _], hlen, _ => simp at hlen; omega
    | [_, _, _], hlen, _ => simp at hlen; omega

/-- The print loop appends the text of the sub-authorities when the buffer
has room for twelve characters for each of them. -/
theorem ConvertSidToStringSidA_loop_text (cbSID : Nat) (hcb : cbSID < 2 ^ 32) :
    ∀ (c : Nat) (pb : List Nat) (text : CStr), (∀ x ∈ pb, x < 256) →
      text.length + 12 * c + 1 ≤ cbSID →
      ConvertSidToStringSidA_loop cbSID c pb (text, text.length) =
        (text ++ sidSubAuthorityText c pb, (text ++ sidSubAuthorityText c pb).length) := by
  intro c
  induction c with
  | zero =>
    intro pb text _ _
    rw [ConvertSidToStringSidA_loop, sidSubAuthorityText, List.append_nil]
  | succ c ih =>
    intro pb text hb hroom
    obtain ⟨_, _, _, f4⟩ := fmt_u_props _ (readDWORD_lt pb hb)
    have hs : ('-' :: fmt_u (readDWORD pb)).length ≤ 11 := by
      rw [List.length_cons]; omega
    have hsub : sub32 cbSID text.length = cbSID - text.length := by
      rw [sub32, if_pos (by omega)]
    have hstep : snprintf_at text text.length (sub32 cbSID text.length)
        ('-' :: fmt_u (readDWORD pb)) =
        (text ++ '-' :: fmt_u (readDWORD pb), (text ++ '-' :: fmt_u (readDWORD pb)).length) := by
      unfold snprintf_at
      rw [hsub, List.take_length, List.take_of_length_le (by omega), List.length_append,
        Nat.mod_eq_of_lt (by omega)]
    rw [ConvertSidToStringSidA_loop]
    simp only
    rw [hstep, ih (pb.drop 4) _ (fun x hx => hb x (List.mem_of_mem_drop hx))
      (by rw [List.length_append]; omega), sidSubAuthorityText]
    simp

/-- The bytes of a number given by its eight bytes. -/
theorem byte_extract (a0 a1 a2 a3 a4 a5 a6 a7 : Nat)
    (h0 : a0 < 256) (h1 : a1 < 256) (h2 : a2 < 256) (h3 : a3 < 256) (h4 : a4 < 256)
    (h5 : a5 < 256) (h6 : a6 < 256) (h7 : a7 < 256) (V : Nat)
    (hV : V = a0 + a1 * 256 + a2 * 65536 + a3 * 16777216 + a4 * 4294967296 +
      a5 * 1099511627776 + a6 * 281474976710656 + a7 * 72057594037927936) :
    V % 256 = a0 ∧ V / 256 % 256 = a1 ∧ V / 65536 % 256 = a2 ∧ V / 16777216 % 256 = a3 ∧
    V / 4294967296 % 256 = a4 ∧ V / 1099511627776 % 256 = a5 ∧
    V / 281474976710656 % 256 = a6 ∧ V / 72057594037927936 % 256 = a7 := by
  subst hV
  refine ⟨by omega, by omega, by omega, by omega, by omega, by omega, by omega, by omega⟩

/-- `_byteswap_uint64` on a number given by its eight bytes. -/
theorem byteswap_bytes (a0 a1 a2 a3 a4 a5 a6 a7 : Nat)
    (h0 : a0 < 256) (h1 : a1 < 256) (h2 : a2 < 256) (h3 : a3 < 256) (h4 : a4 < 256)
    (h5 : a5 < 256) (h6 : a6 < 256) (h7 : a7 < 256) :
    _byteswap_uint64 (a0 + a1 * 256 + a2 * 65536 + a3 * 16777216 + a4 * 4294967296 +
      a5 * 1099511627776 + a6 * 281474976710656 + a7 * 72057594037927936) =
    a7 + a6 * 256 + a5 * 65536 + a4 * 16777216 + a3 * 4294967296 +
      a2 * 1099511627776 + a1 * 281474976710656 + a0 * 72057594037927936 := by
  obtain ⟨e0, e1, e2, e3, e4, e5, e6, e7⟩ :=
    byte_extract a0 a1 a2 a3 a4 a5 a6 a7 h0 h1 h2 h3 h4 h5 h6 h7 _ rfl
  unfold _byteswap_uint64
  norm_num only
  rw [e0, e1, e2, e3, e4, e5, e6, e7]
  omega

/-- The header of a SID through both conversions: the authority read from
the bytes 2 to 7 is below `2 ^ 48`, and stored again it gives the same six
bytes. -/
theorem sid_authority_bytes (b0 b1 b2 b3 b4 b5 b6 b7 : Nat) (t : List Nat)
    (h0 : b0 < 256) (h1 : b1 < 256) (h2 : b2 < 256) (h3 : b3 < 256) (h4 : b4 < 256)
    (h5 : b5 < 256) (h6 : b6 < 256) (h7 : b7 < 256) :
    _byteswap_uint64 (readQWORD (b0 :: b1 :: b2 :: b3 :: b4 :: b5 :: b6 :: b7 :: t)) &&&
        0x0000ffffffffffff < 2 ^ 48 ∧
    (writeQWORD (_byteswap_uint64
      (_byteswap_uint64 (readQWORD (b0 :: b1 :: b2 :: b3 :: b4 :: b5 :: b6 :: b7 :: t)) &&&
        0x0000ffffffffffff))).drop 2 = [b2, b3, b4, b5, b6, b7] := by
  have hm : (0x0000ffffffffffff : Nat) = 2 ^ 48 - 1 := by norm_num
  have e : readQWORD (b0 :: b1 :: b2 :: b3 :: b4 :: b5 :: b6 :: b7 :: t) =
      b0 + b1 * 256 + b2 * 65536 + b3 * 16777216 + b4 * 4294967296 + b5 * 1099511627776 +
        b6 * 281474976710656 + b7 * 72057594037927936 := by
    simp [readQWORD, readDWORD]
    omega
  have ea : _byteswap_uint64 (readQWORD (b0 :: b1 :: b2 :: b3 :: b4 :: b5 :: b6 :: b7 :: t)) &&&
      0x0000ffffffffffff =
      b7 + b6 * 256 + b5 * 65536 + b4 * 16777216 + b3 * 4294967296 + b2 * 1099511627776 +
        0 * 281474976710656 + 0 * 72057594037927936 := by
    rw [hm, Nat.and_pow_two_sub_one_eq_mod, e, byteswap_bytes b0 b1 b2 b3 b4 b5 b6 b7
      h0 h1 h2 h3 h4 h5 h6 h7]
    omega
  rw [ea]
  refine ⟨by omega, ?_⟩
  rw [byteswap_bytes b7 b6 b5 b4 b3 b2 0 0 h7 h6 h5 h4 h3 h2 (by norm_num) (by norm_num)]
  obtain ⟨e0, e1, e2, e3, e4, e5, e6, e7⟩ :=
    byte_extract 0 0 b2 b3 b4 b5 b6 b7 (by norm_num) (by norm_num) h2 h3 h4 h5 h6 h7 _ rfl
  have hq : ∀ V : Nat, writeQWORD V = [V % 256, V / 256 % 256, V / 65536 % 256,
      V / 16777216 % 256, V / 4294967296 % 256, V / 1099511627776 % 256,
      V / 281474976710656 % 256, V / 72057594037927936 % 256] := by
    intro V
    unfold writeQWORD writeDWORD
    simp only [List.cons_append, List.nil_append, Nat.div_div_eq_div_mul]
    norm_num
  rw [hq, e2, e3, e4, e5, e6, e7]
  rfl

/-- `ConvertSidToStringSidA` on a SID of revision 1 given by its bytes. -/
theorem sid_print (SID_MAX_SUB_AUTHORITIES : Nat) (LocalAlloc : Nat → Bool)
    (b1 b2 b3 b4 b5 b6 b7 A : Nat) (t : List Nat)
    (halloc : ∀ n, LocalAlloc n = true) (h1 : b1 < 256) (hbt : ∀ x ∈ t, x < 256)
    (hc1 : 1 ≤ b1) (hc2 : b1 ≤ SID_MAX_SUB_AUTHORITIES)
    (hA : _byteswap_uint64 (readQWORD (1 :: b1 :: b2 :: b3 :: b4 :: b5 :: b6 :: b7 :: t)) &&&
      0x0000ffffffffffff = A)
    (hA48 : A < 2 ^ 48) :
    ConvertSidToStringSidA SID_MAX_SUB_AUTHORITIES LocalAlloc
        (some (1 :: b1 :: b2 :: b3 :: b4 :: b5 :: b6 :: b7 :: t)) =
      some ("S-1-".toList ++ fmt_llu A ++ sidSubAuthorityText b1 t) := by
  obtain ⟨_, _, _, a4⟩ := fmt_llu_props A hA48
  have hS : "S-1-".toList = ['S', '-', '1', '-'] := rfl
  have hcb : (64 + b1 * 12) % 2 ^ 32 = 64 + b1 * 12 := Nat.mod_eq_of_lt (by omega)
  have hdrop8 : (1 :: b1 :: b2 :: b3 :: b4 :: b5 :: b6 :: b7 :: t).drop 8 = t := rfl
  have hs0len : ("S-1-".toList ++ fmt_llu A).length ≤ 19 := by
    rw [List.length_append, hS]
    simp only [List.length_cons, List.length_nil]
    omega
  have hfirst : snprintf_at [] 0 (64 + b1 * 12) ("S-1-".toList ++ fmt_llu A) =
      ("S-1-".toList ++ fmt_llu A, ("S-1-".toList ++ fmt_llu A).length) := by
    have e1 : List.take (64 + b1 * 12 - 1) ("S-1-".toList ++ fmt_llu A) =
        "S-1-".toList ++ fmt_llu A := List.take_of_length_le (by omega)
    have e2 : (0 + ("S-1-".toList ++ fmt_llu A).length) % 2 ^ 32 =
        ("S-1-".toList ++ fmt_llu A).length := by
      rw [Nat.zero_add]
      exact Nat.mod_eq_of_lt (by omega)
    unfold snprintf_at
    rw [e1, e2]
    rfl
  unfold ConvertSidToStringSidA
  simp only [List.getD_cons_zero, List.getD_cons_succ, hA, hdrop8, hcb, halloc]
  rw [if_neg (by omega), if_neg (by omega)]
  simp only [Bool.not_true, Bool.false_eq_true, if_false]
  rw [hfirst, ConvertSidToStringSidA_loop_text _ (by omega) b1 t _ hbt (by omega)]

/-- `ConvertStringSidToSidA` on the string of a SID of revision 1. -/
theorem sid_parse (SID_MAX_SUB_AUTHORITIES : Nat) (LocalAlloc : Nat → Bool)
    (b1 b2 b3 b4 b5 b6 b7 A : Nat) (t : List Nat)
    (halloc : ∀ n, LocalAlloc n = true) (h1 : b1 < 256) (hbt : ∀ x ∈ t, x < 256)
    (hlt : t.length = 4 * b1) (hc1 : 1 ≤ b1) (hc2 : b1 ≤ SID_MAX_SUB_AUTHORITIES)
    (hA48 : A < 2 ^ 48)
    (hhdr : (writeQWORD (_byteswap_uint64 A)).drop 2 = [b2, b3, b4, b5, b6, b7]) :
    ConvertStringSidToSidA SID_MAX_SUB_AUTHORITIES LocalAlloc
        (some ("S-1-".toList ++ fmt_llu A ++ sidSubAuthorityText b1 t)) =
      some (1 :: b1 :: b2 :: b3 :: b4 :: b5 :: b6 :: b7 :: t) := by
  obtain ⟨a1, a2, a3, _⟩ := fmt_llu_props A hA48
  have hS : "S-1-".toList = ['S', '-', '1', '-'] := rfl
  have htake : ("S-1-".toList ++ fmt_llu A ++ sidSubAuthorityText b1 t).take 4 =
      "S-1-".toList := by
    rw [hS]; rfl
  have hdrop : ("S-1-".toList ++ fmt_llu A ++ sidSubAuthorityText b1 t).drop 4 =
      fmt_llu A ++ sidSubAuthorityText b1 t := by
    rw [hS]; simp
  have hget : ("S-1-".toList ++ fmt_llu A ++ sidSubAuthorityText b1 t).getD 3 (Char.ofNat 0) =
      '-' := by
    rw [hS]; rfl
  obtain ⟨p, hp, hcnt⟩ := count_digits (fmt_llu A) a2 a1 (sidSubAuthorityText b1 t) '-' 0
  have hcnt2 := count_sidSubAuthorityText b1 t p 0 hbt hp (by omega)
  rw [Nat.zero_add] at hcnt2
  obtain ⟨d, hd, hdd⟩ := getLast_sidSubAuthorityText b1 t (fmt_llu A) hbt a1 a2
  have hlast : (fmt_llu A ++ sidSubAuthorityText b1 t).getLast? ≠ some '-' := by
    rw [hd]
    intro h
    cases h
    exact absurd hdd (by decide)
  have hval : strtoull10 (fmt_llu A ++ sidSubAuthorityText b1 t) = A := by
    rw [strtoull10_digits _ _ a1 a2 (sidSubAuthorityText_head b1 t) (by rw [a3]; omega), a3]
  have hguard : ¬ (b1 = 0 ∨ b1 > SID_MAX_SUB_AUTHORITIES ∨
      (fmt_llu A ++ sidSubAuthorityText b1 t).getLast? = some '-') := by
    intro h
    rcases h with h | h | h
    · omega
    · omega
    · exact hlast h
  unfold ConvertStringSidToSidA
  simp only [htake, hdrop, hget, ne_eq, not_true_eq_false, if_false, hcnt, hcnt2]
  rw [if_neg hguard, halloc]
  simp only [Bool.not_true, Bool.false_eq_true, if_false]
  rw [hval, hhdr, sidLoop_sidSubAuthorityText b1 t (fmt_llu A) hlt hbt a1 a2]
  rfl

/-- A list of `8 + 4 * c` bytes is eight bytes and a list of `4 * c` bytes. -/
theorem sid_bytes_split (pb : List Nat) (c : Nat) (hlen : pb.length = 8 + 4 * c) :
    ∃ b0 b1 b2 b3 b4 b5 b6 b7 t, pb = b0 :: b1 :: b2 :: b3 :: b4 :: b5 :: b6 :: b7 :: t ∧
      t.length = 4 * c := by
  match pb, hlen with
  | b0 :: b1 :: b2 :: b3 :: b4 :: b5 :: b6 :: b7 :: t, hlen =>
    exact ⟨b0, b1, b2, b3, b4, b5, b6, b7, t, rfl, by
      simp only [List.length_cons] at hlen; omega⟩
  | [], hlen => simp only [List.length_nil] at hlen; omega
  | [_], hlen => simp only [List.length_cons, List.length_nil] at hlen; omega
  | [_, _], hlen => simp only [List.length_cons, List.length_nil] at hlen; omega
  | [_, _, _], hlen => simp only [List.length_cons, List.length_nil] at hlen; omega
  | [_, _, _, _], hlen => simp only [List.length_cons, List.length_nil] at hlen; omega
  | [_, _, _, _, _], hlen => simp only [List.length_cons, List.length_nil] at hlen; omega
  | [_, _, _, _, _, _], hlen => simp only [List.length_cons, List.length_nil] at hlen; omega
  | [_, _, _, _, _, _, _], hlen => simp only [List.length_cons, List.length_nil] at hlen; omega

/-- C29: for every SID of revision 1 with `c` sub-authorities,
`1 ≤ c ≤ SID_MAX_SUB_AUTHORITIES`, given as its `8 + 4 * c` bytes (revision,
count, the authority in six bytes, the sub-authorities in order), with
allocations that succeed: `ConvertSidToStringSidA` succeeds, its string is
`S-1-`, the authority in decimal and `-` with the decimal text for every
sub-authority, and `ConvertStringSidToSidA` on that string succeeds and gives
the same bytes. -/
theorem C29_sid_round_trip (SID_MAX_SUB_AUTHORITIES : Nat) (LocalAlloc : Nat → Bool)
    (pb : List Nat) (c : Nat)
    (halloc : ∀ n, LocalAlloc n = true) (hbytes : ∀ x ∈ pb, x < 256)
    (hlen : pb.length = 8 + 4 * c) (hrev : pb.getD 0 0 = 1) (hcount : pb.getD 1 0 = c)
    (hc1 : 1 ≤ c) (hc2 : c ≤ SID_MAX_SUB_AUTHORITIES) :
    ∃ sz, ConvertSidToStringSidA SID_MAX_SUB_AUTHORITIES LocalAlloc (some pb) = some sz ∧
      sz = "S-1-".toList ++
        fmt_llu (_byteswap_uint64 (readQWORD pb) &&& 0x0000ffffffffffff) ++
        sidSubAuthorityText c (pb.drop 8) ∧
      ConvertStringSidToSidA SID_MAX_SUB_AUTHORITIES LocalAlloc (some sz) = some pb := by
  obtain ⟨b0, b1, b2, b3, b4, b5, b6, b7, t, rfl, hlt⟩ := sid_bytes_split pb c hlen
  have hb0 : b0 = 1 := hrev
  have hb1 : b1 = c := hcount
  subst hb0
  subst hb1
  have h0 : (1 : Nat) < 256 := by norm_num
  have h1 : b1 < 256 := hbytes b1 (by simp)
  have h2 : b2 < 256 := hbytes b2 (by simp)
  have h3 : b3 < 256 := hbytes b3 (by simp)
  have h4 : b4 < 256 := hbytes b4 (by simp)
  have h5 : b5 < 256 := hbytes b5 (by simp)
  have h6 : b6 < 256 := hbytes b6 (by simp)
  have h7 : b7 < 256 := hbytes b7 (by simp)
  have hbt : ∀ x ∈ t, x < 256 := fun x hx => hbytes x (by simp [hx])
  obtain ⟨hA48, hhdr⟩ := sid_authority_bytes 1 b1 b2 b3 b4 b5 b6 b7 t h0 h1 h2 h3 h4 h5 h6 h7
  exact ⟨_, sid_print SID_MAX_SUB_AUTHORITIES LocalAlloc b1 b2 b3 b4 b5 b6 b7 _ t halloc h1 hbt
      hc1 hc2 rfl hA48, rfl,
    sid_parse SID_MAX_SUB_AUTHORITIES LocalAlloc b1 b2 b3 b4 b5 b6 b7 _ t halloc h1 hbt hlt
      hc1 hc2 hA48 hhdr⟩

/-- C29 on the SID of the local system account: the string is `S-1-5-18`,
and the string gives the twelve bytes back. -/
theorem C29_sid_round_trip_witness :
    ∃ sz, ConvertSidToStringSidA 15 (fun _ => true) (some sidLocalSystem) = some sz ∧
      sz = "S-1-".toList ++
        fmt_llu (_byteswap_uint64 (readQWORD sidLocalSystem) &&& 0x0000ffffffffffff) ++
        sidSubAuthorityText 1 (sidLocalSystem.drop 8) ∧
      ConvertStringSidToSidA 15 (fun _ => true) (some sz) = some sidLocalSystem :=
  C29_sid_round_trip 15 (fun _ => true) sidLocalSystem 1 (fun _ => rfl) (by decide) (by decide)
    (by decide) (by decide) (by decide) (by decide)

/-! ### The reachable states of the handle layer -/

theorem Compact_congr {s1 s2 : CoreState}
    (hc : s1.g_VMMDLL_CORE_HANDLE_COUNT = s2.g_VMMDLL_CORE_HANDLE_COUNT)
    (hh : s1.g_VMMDLL_CORE_HANDLES = s2.g_VMMDLL_CORE_HANDLES) (h : Compact s1) :
    Compact s2 := by
  unfold Compact at h ⊢
  rw [← hc, ← hh]
  exact h

/-- The wait loops of `VmmDllCore_CloseHandle` leave `magic` and `fAbort` of
every handle as they are, when the other threads do. -/
theorem closeWait_flags (SwitchToThread : HandleMem → HandleMem)
    (hST : ∀ m X, (SwitchToThread m X).magic = (m X).magic ∧
      (SwitchToThread m X).fAbort = (m X).fAbort)
    (counter : VMM_HANDLE_DATA → Nat) (H : Nat) :
    ∀ (fuel : Nat) (m m1 : HandleMem), closeWait SwitchToThread counter H fuel m = some m1 →
      ∀ X, (m1 X).magic = (m X).magic ∧ (m1 X).fAbort = (m X).fAbort := by
  intro fuel
  induction fuel with
  | zero =>
    intro m m1 h X
    rw [closeWait] at h
    split at h
    · cases h; exact ⟨rfl, rfl⟩
    · cases h
  | succ f ih =>
    intro m m1 h X
    rw [closeWait] at h
    split at h
    · cases h; exact ⟨rfl, rfl⟩
    · obtain ⟨h1, h2⟩ := ih _ _ h X
      exact ⟨h1.trans (hST m X).1, h2.trans (hST m X).2⟩

/-- `VmmDllCore_HandleRemove` leaves the handle objects as they are. -/
theorem HandleRemove_mem (VMM_MAGIC : Nat) (s : CoreState) (H : Nat) :
    (VmmDllCore_HandleRemove VMM_MAGIC s H).mem = s.mem := by
  unfold VmmDllCore_HandleRemove
  split
  · split
    · simp only; split <;> rfl
    · rfl
  · rfl

/-- `VmmDllCore_CloseHandle` keeps the allow-list valid. -/
theorem CloseHandle_valid (VMM_MAGIC : Nat) (SwitchToThread : HandleMem → HandleMem)
    (hST : ∀ m X, (SwitchToThread m X).magic = (m X).magic ∧
      (SwitchToThread m X).fAbort = (m X).fAbort)
    (fuel : Nat) (s s1 : CoreState) (H : Nat) (hv : HandlesValid VMM_MAGIC s)
    (hC : VmmDllCore_CloseHandle VMM_MAGIC SwitchToThread fuel s H = some s1) :
    HandlesValid VMM_MAGIC s1 := by
  by_cases hH : H ≠ 0
  · obtain ⟨hc1, hc2⟩ := closeHandle_list_eq VMM_MAGIC SwitchToThread fuel s s1 H hH hC
    have hcomp : Compact s1 :=
      Compact_congr hc1.symm hc2.symm (Compact_HandleRemove VMM_MAGIC s H hv.1)
    have hlist : ∀ X, Listed s1 X → Listed s X ∧ X ≠ H := by
      intro X hX
      have hX1 : Listed (VmmDllCore_HandleRemove VMM_MAGIC s H) X :=
        (Listed_congr X hc1 hc2).1 hX
      by_cases hl : Listed s H ∧ (s.mem H).magic = VMM_MAGIC
      · obtain ⟨e1, _, e3⟩ := HandleRemove_exact VMM_MAGIC s H hv.1 hl.1 hl.2
        by_cases hXH : X = H
        · rw [hXH] at hX1; exact absurd hX1 e1
        · exact ⟨(e3 X hXH).1 hX1, hXH⟩
      · rw [HandleRemove_unlisted VMM_MAGIC s H hl] at hX1
        refine ⟨hX1, fun hXH => hl ⟨hXH ▸ hX1, ?_⟩⟩
        exact (hv.2 H (hXH ▸ hX1)).1
    have hmem : ∀ X, X ≠ H → (s1.mem X).magic = (s.mem X).magic ∧
        (s1.mem X).fAbort = (s.mem X).fAbort := by
      intro X hXH
      unfold VmmDllCore_CloseHandle at hC
      rw [if_pos hH] at hC
      simp only [HandleRemove_mem] at hC
      split at hC
      · cases hC
      · rename_i m4 hw1
        split at hC
        · cases hC
        · rename_i m5 hw2
          cases hC
          obtain ⟨a1, a2⟩ := closeWait_flags SwitchToThread hST _ H fuel _ m4 hw1 X
          obtain ⟨b1, b2⟩ := closeWait_flags SwitchToThread hST _ H fuel _ m5 hw2 X
          simp only [store, if_neg hXH] at a1 a2
          exact ⟨b1.trans a1, b2.trans a2⟩
    refine ⟨hcomp, fun X hX => ?_⟩
    obtain ⟨hl, hne⟩ := hlist X hX
    obtain ⟨m1, m2⟩ := hmem X hne
    obtain ⟨v1, v2⟩ := hv.2 X hl
    exact ⟨m1.trans v1, m2.trans v2⟩
  · unfold VmmDllCore_CloseHandle at hC
    rw [if_neg hH] at hC
    cases hC
    exact hv

/-- A change of the handle objects that leaves `magic` and `fAbort` of every
listed handle as they are keeps the allow-list valid. -/
theorem HandlesValid_mem (VMM_MAGIC : Nat) (s : CoreState) (m : HandleMem)
    (hv : HandlesValid VMM_MAGIC s)
    (hm : ∀ X, Listed s X → (m X).magic = (s.mem X).magic ∧ (m X).fAbort = (s.mem X).fAbort) :
    HandlesValid VMM_MAGIC { s with mem := m } := by
  refine ⟨Compact_congr rfl rfl hv.1, fun X hX => ?_⟩
  have hl : Listed s X := (Listed_congr X rfl rfl).1 hX
  obtain ⟨m1, m2⟩ := hm X hl
  obtain ⟨v1, v2⟩ := hv.2 X hl
  exact ⟨m1.trans v1, m2.trans v2⟩

/-- `VmmDllCore_HandleReserveExternal` keeps the allow-list valid. -/
theorem reserve_valid (VMM_MAGIC : Nat) (s : CoreState) (H : Nat)
    (hv : HandlesValid VMM_MAGIC s) :
    HandlesValid VMM_MAGIC (VmmDllCore_HandleReserveExternal VMM_MAGIC s H).2 := by
  by_cases hl : Listed s H ∧ 0x10000 ≤ H
  · rw [reserve_of_listed VMM_MAGIC s H hl.2 hl.1]
    refine HandlesValid_mem VMM_MAGIC s _ hv (fun X _ => ?_)
    simp only [store]
    by_cases hX : X = H
    · rw [if_pos hX, hX]; exact ⟨rfl, rfl⟩
    · rw [if_neg hX]; exact ⟨rfl, rfl⟩
  · have hr : VmmDllCore_HandleReserveExternal VMM_MAGIC s H = (false, s) := by
      by_cases hl2 : Listed s H
      · unfold VmmDllCore_HandleReserveExternal
        rw [if_pos (Or.inr (by
          have : ¬ 0x10000 ≤ H := fun h => hl ⟨hl2, h⟩
          omega))]
      · exact reserve_of_not_listed VMM_MAGIC s H hl2
    rw [hr]
    exact hv

/-- The part of `VmmDllCore_Initialize` that acts on the allow-list keeps it
valid, when the allocation returns an address that is not listed. -/
theorem Initialize_handles_valid (VMM_MAGIC : Nat) (SwitchToThread : HandleMem → HandleMem)
    (hST : ∀ m X, (SwitchToThread m X).magic = (m X).magic ∧
      (SwitchToThread m X).fAbort = (m X).fAbort)
    (fuel : Nat) (s s1 : CoreState) (H : Nat) (fConfig fLater : Bool)
    (hv : HandlesValid VMM_MAGIC s) (hfresh : ¬ Listed s H)
    (hI : VmmDllCore_Initialize_handles VMM_MAGIC SwitchToThread fuel s H fConfig fLater
      = some s1) :
    HandlesValid VMM_MAGIC s1 := by
  unfold VmmDllCore_Initialize_handles at hI
  by_cases hH : H = 0
  · rw [if_pos hH] at hI
    cases hI
    exact hv
  · rw [if_neg hH] at hI
    simp only at hI
    have hv1 : HandlesValid VMM_MAGIC
        { s with mem := store s.mem H (handleFresh VMM_MAGIC) } := by
      refine HandlesValid_mem VMM_MAGIC s _ hv (fun X hX => ?_)
      have hXH : X ≠ H := fun h => hfresh (h ▸ hX)
      simp [store, hXH]
    have hv2 : HandlesValid VMM_MAGIC
        (VmmDllCore_HandleAdd { s with mem := store s.mem H (handleFresh VMM_MAGIC) } H).2 := by
      refine ⟨Compact_HandleAdd _ H hv1.1 hH
        (fun h => hfresh ((Listed_congr H rfl rfl).1 h)), fun X hX => ?_⟩
      unfold VmmDllCore_HandleAdd at hX ⊢
      by_cases hlt : s.g_VMMDLL_CORE_HANDLE_COUNT < VMM_HANDLE_MAX_COUNT
      · simp only [if_pos hlt] at hX ⊢
        obtain ⟨i, hi, hiX⟩ := hX
        simp only [store] at hi hiX
        by_cases hic : i = s.g_VMMDLL_CORE_HANDLE_COUNT
        · rw [if_pos hic] at hiX
          rw [← hiX]
          simp [store, handleFresh]
        · rw [if_neg hic] at hiX
          have hi2 : i < s.g_VMMDLL_CORE_HANDLE_COUNT := by omega
          exact hv1.2 X ⟨i, hi2, hiX⟩
      · simp only [if_neg hlt] at hX ⊢
        exact hv1.2 X hX
    cases fConfig with
    | false =>
      simp only [Bool.not_false, if_true] at hI
      exact CloseHandle_valid VMM_MAGIC SwitchToThread hST fuel _ s1 H hv1 hI
    | true =>
      simp only [Bool.not_true, Bool.false_eq_true, if_false] at hI
      by_cases hadd : (VmmDllCore_HandleAdd
          { s with mem := store s.mem H (handleFresh VMM_MAGIC) } H).1 = true
      · simp only [hadd, Bool.not_true, Bool.false_eq_true, if_false] at hI
        cases fLater with
        | true =>
          simp only [if_true] at hI
          cases hI
          exact hv2
        | false =>
          simp only [Bool.false_eq_true, if_false] at hI
          exact CloseHandle_valid VMM_MAGIC SwitchToThread hST fuel _ s1 H hv2 hI
      · have hadd2 := Bool.eq_false_iff.2 hadd
        simp only [hadd2, Bool.not_false, if_true] at hI
        exact CloseHandle_valid VMM_MAGIC SwitchToThread hST fuel _ s1 H hv2 hI

/-- Every step of a run keeps the allow-list valid. -/
theorem LifeOp_apply_valid (VMM_MAGIC : Nat) (SwitchToThread : HandleMem → HandleMem)
    (hST : ∀ m X, (SwitchToThread m X).magic = (m X).magic ∧
      (SwitchToThread m X).fAbort = (m X).fAbort)
    (fuel : Nat) (s s1 : CoreState) (op : LifeOp) (hv : HandlesValid VMM_MAGIC s)
    (h : op.apply VMM_MAGIC SwitchToThread fuel s = some s1) : HandlesValid VMM_MAGIC s1 := by
  cases op with
  | init H fConfig fLater =>
    simp only [LifeOp.apply] at h
    cases hl : handleLoop s.g_VMMDLL_CORE_HANDLES s.g_VMMDLL_CORE_HANDLE_COUNT H
        s.g_VMMDLL_CORE_HANDLE_COUNT 0 with
    | some k => rw [hl] at h; cases h
    | none =>
      rw [hl] at h
      exact Initialize_handles_valid VMM_MAGIC SwitchToThread hST fuel s s1 H fConfig fLater hv
        ((handleLoop_eq_none_iff s H).1 hl) h
  | close H =>
    exact CloseHandle_valid VMM_MAGIC SwitchToThread hST fuel s s1 H hv h
  | reserve H =>
    simp only [LifeOp.apply, Option.some.injEq] at h
    rw [← h]
    exact reserve_valid VMM_MAGIC s H hv
  | giveBack H =>
    simp only [LifeOp.apply, Option.some.injEq] at h
    rw [← h]
    refine HandlesValid_mem VMM_MAGIC s _ hv (fun X _ => ?_)
    simp only [store]
    by_cases hX : X = H
    · rw [if_pos hX, hX]; exact ⟨rfl, rfl⟩
    · rw [if_neg hX]; exact ⟨rfl, rfl⟩
  | internal H c =>
    simp only [LifeOp.apply, Option.some.injEq] at h
    rw [← h]
    refine HandlesValid_mem VMM_MAGIC s _ hv (fun X _ => ?_)
    simp only [store]
    by_cases hX : X = H
    · rw [if_pos hX, hX]; exact ⟨rfl, rfl⟩
    · rw [if_neg hX]; exact ⟨rfl, rfl⟩
  | reuse H d =>
    simp only [LifeOp.apply] at h
    cases hl : handleLoop s.g_VMMDLL_CORE_HANDLES s.g_VMMDLL_CORE_HANDLE_COUNT H
        s.g_VMMDLL_CORE_HANDLE_COUNT 0 with
    | some k => rw [hl] at h; cases h
    | none =>
      rw [hl] at h
      simp only [Option.some.injEq] at h
      rw [← h]
      refine HandlesValid_mem VMM_MAGIC s _ hv (fun X hX => ?_)
      have hXH : X ≠ H := fun e => (handleLoop_eq_none_iff s H).1 hl (e ▸ hX)
      simp only [store]
      rw [if_neg hXH]; exact ⟨rfl, rfl⟩

/-- Every state a run reaches from a valid allow-list is valid. -/
theorem runLife_valid (VMM_MAGIC : Nat) (SwitchToThread : HandleMem → HandleMem)
    (hST : ∀ m X, (SwitchToThread m X).magic = (m X).magic ∧
      (SwitchToThread m X).fAbort = (m X).fAbort)
    (fuel : Nat) (ops : List LifeOp) :
    ∀ s s1 : CoreState, HandlesValid VMM_MAGIC s →
      runLife VMM_MAGIC SwitchToThread fuel s ops = some s1 → HandlesValid VMM_MAGIC s1 := by
  induction ops with
  | nil =>
    intro s s1 hv h
    rw [runLife] at h
    cases h
    exact hv
  | cons op rest ih =>
    intro s s1 hv h
    rw [runLife] at h
    cases ha : op.apply VMM_MAGIC SwitchToThread fuel s with
    | none => rw [ha] at h; cases h
    | some s2 =>
      rw [ha] at h
      exact ih s2 s1 (LifeOp_apply_valid VMM_MAGIC SwitchToThread hST fuel s s2 op hv ha) h

theorem sEmpty_valid (VMM_MAGIC : Nat) : HandlesValid VMM_MAGIC sEmpty := by
  refine ⟨⟨by decide, ?_, ?_, ?_⟩, ?_⟩
  · intro i hi; exact absurd hi (by simp [sEmpty])
  · intro i j hi; exact absurd hi (by simp [sEmpty])
  · intro i _ _; rfl
  · rintro X ⟨i, hi, _⟩; exact absurd hi (by simp [sEmpty])

/-- C2: in every state that the handle layer reaches from the empty
allow-list by calls of `VmmDllCore_Initialize`, `VmmDllCore_Close`,
`VmmDllCore_HandleReserveExternal` and `VmmDllCore_HandleReturnExternal` and
by worker threads entering and leaving and other code writing to storage
that holds no listed handle (the threads that run during the wait loops leave
`magic` and `fAbort` alone, which only `VmmDllCore_Initialize` and
`VmmDllCore_CloseHandle` write), and for every `H`: a
`VmmDllCore_HandleReserveExternal(H)` that returns FALSE leaves the whole
state, `H->cThreadExternal` included, as it was; it returns FALSE exactly
when `H` is NULL, below 0x10000 or not in the allow-list; and a handle with a
wrong magic or a set abort flag is not in the allow-list, since `magic` and
`fAbort` are written before `VmmDllCore_HandleAdd` and after
`VmmDllCore_HandleRemove` only, inside the exclusive lock. In every state at
all, a call on an `H` that is not listed returns FALSE and changes nothing. -/
theorem C2_failed_reserve_has_no_side_effect (VMM_MAGIC : Nat)
    (SwitchToThread : HandleMem → HandleMem) (fuel : Nat)
    (hST : ∀ m X, (SwitchToThread m X).magic = (m X).magic ∧
      (SwitchToThread m X).fAbort = (m X).fAbort)
    (ops : List LifeOp) (s : CoreState)
    (hrun : runLife VMM_MAGIC SwitchToThread fuel sEmpty ops = some s) (H : Nat) :
    ((VmmDllCore_HandleReserveExternal VMM_MAGIC s H).1 = false →
      (VmmDllCore_HandleReserveExternal VMM_MAGIC s H).2 = s) ∧
    ((VmmDllCore_HandleReserveExternal VMM_MAGIC s H).1 = false ↔
      (H = 0 ∨ H < 0x10000 ∨ ¬ Listed s H)) ∧
    ((s.mem H).magic ≠ VMM_MAGIC ∨ (s.mem H).fAbort = true → ¬ Listed s H) ∧
    (∀ (s0 : CoreState) (H0 : Nat), ¬ Listed s0 H0 →
      VmmDllCore_HandleReserveExternal VMM_MAGIC s0 H0 = (false, s0)) := by
  have hv := runLife_valid VMM_MAGIC SwitchToThread hST fuel ops sEmpty s
    (sEmpty_valid VMM_MAGIC) hrun
  refine ⟨?_, ?_, fun hbad hl => ?_,
    fun s0 H0 h0 => reserve_of_not_listed VMM_MAGIC s0 H0 h0⟩
  swap
  · by_cases hz : H = 0 ∨ H < 0x10000
    · have hr : VmmDllCore_HandleReserveExternal VMM_MAGIC s H = (false, s) := by
        unfold VmmDllCore_HandleReserveExternal; rw [if_pos hz]
      rw [hr]
      exact ⟨fun _ => hz.elim Or.inl (fun h => Or.inr (Or.inl h)), fun _ => rfl⟩
    · by_cases hl : Listed s H
      · obtain ⟨v1, v2⟩ := hv.2 H hl
        rw [reserve_of_listed VMM_MAGIC s H (by omega) hl]
        simp only [v1, v2, decide_True, Bool.not_false, Bool.and_self]
        refine ⟨fun h => (by cases h), fun h => ?_⟩
        rcases h with h | h | h
        · exact absurd (Or.inl h) hz
        · exact absurd (Or.inr h) hz
        · exact absurd hl h
      · rw [reserve_of_not_listed VMM_MAGIC s H hl]
        exact ⟨fun _ => Or.inr (Or.inr hl), fun _ => rfl⟩
  · intro hf
    by_cases hl : Listed s H ∧ 0x10000 ≤ H
    · obtain ⟨v1, v2⟩ := hv.2 H hl.1
      rw [reserve_of_listed VMM_MAGIC s H hl.2 hl.1] at hf
      simp [v1, v2] at hf
    · by_cases hl2 : Listed s H
      · unfold VmmDllCore_HandleReserveExternal
        rw [if_pos (Or.inr (by
          have : ¬ 0x10000 ≤ H := fun h => hl ⟨hl2, h⟩
          omega))]
      · rw [reserve_of_not_listed VMM_MAGIC s H hl2]
  · obtain ⟨v1, v2⟩ := hv.2 H hl
    rcases hbad with hb | hb
    · exact hb v1
    · rw [v2] at hb; cases hb

/-- C2 on a run: a handle at 0x10000 is initialised, reserved, returned and
closed; the reserve after that returns FALSE and leaves the state as it
is. -/
theorem C2_failed_reserve_has_no_side_effect_witness :
    runLife 0xC0FFEE id 0 sEmpty
      [LifeOp.init 0x10000 true true, LifeOp.reserve 0x10000, LifeOp.giveBack 0x10000,
       LifeOp.close 0x10000] = some (sRunClosed 0xC0FFEE) ∧
    (VmmDllCore_HandleReserveExternal 0xC0FFEE (sRunClosed 0xC0FFEE) 0x10000).1 = false ∧
    (VmmDllCore_HandleReserveExternal 0xC0FFEE (sRunClosed 0xC0FFEE) 0x10000).2 =
      sRunClosed 0xC0FFEE :=
  have h := C2_failed_reserve_has_no_side_effect 0xC0FFEE id 0 (fun _ _ => ⟨rfl, rfl⟩)
    [LifeOp.init 0x10000 true true, LifeOp.reserve 0x10000, LifeOp.giveBack 0x10000,
     LifeOp.close 0x10000] (sRunClosed 0xC0FFEE) rfl 0x10000
  have hn : ¬ Listed (sRunClosed 0xC0FFEE) 0x10000 := fun ⟨i, hi, _⟩ => by
    have hc : (sRunClosed 0xC0FFEE).g_VMMDLL_CORE_HANDLE_COUNT = 0 := by decide
    omega
  ⟨rfl, h.2.1.2 (Or.inr (Or.inr hn)), h.1 (h.2.1.2 (Or.inr (Or.inr hn)))⟩

/-- C3, counterexample: the handle at 0x10000 is listed exactly once with
the magic `VMM_MAGIC`; `VmmDllCore_Close` on it returns; a later
`VmmDllCore_Initialize` whose allocation returns the same address 0x10000
adds that address to the allow-list again, and the
`VmmDllCore_HandleReserveExternal(0x10000)` after it returns TRUE. -/
theorem C3_same_address_listed_again_counterexample :
    ListedOnce (sOne 0xC0FFEE) 0x10000 ∧
    ((sOne 0xC0FFEE).mem 0x10000).magic = 0xC0FFEE ∧
    (VmmDllCore_Close 0xC0FFEE id 0 (sOne 0xC0FFEE) 0x10000).isSome = true ∧
    ((VmmDllCore_Close 0xC0FFEE id 0 (sOne 0xC0FFEE) 0x10000).bind fun s1 =>
      (VmmDllCore_Initialize_handles 0xC0FFEE id 0 s1 0x10000 true true).map fun s2 =>
        (VmmDllCore_HandleReserveExternal 0xC0FFEE s2 0x10000).1) = some true ∧
    (VmmDllCore_HandleReserveExternal 0xC0FFEE
      (runOps 0xC0FFEE
        ((VmmDllCore_Close 0xC0FFEE id 0 (sOne 0xC0FFEE) 0x10000).getD (sOne 0xC0FFEE))
        [CoreOp.memWrite (fun m => store m 0x10000 (handleFresh 0xC0FFEE)),
         CoreOp.add 0x10000]) 0x10000).1 = true :=
  ⟨⟨0, by decide, rfl, fun j hj _ => by simp [sOne] at hj; exact hj⟩, rfl, by decide,
    by decide, by decide⟩

/-! ### The runs of the search plugin: completion and the result vector -/

/-- Storing at `q` an object with the flag and result pointer of the one that
is there changes no completion flag and no result. -/
theorem SameResult_put (st : SearchState) (q : Nat)
    (o : MOB_SEARCH_CONTEXT) (m : ObMap) (w : List Nat)
    (hc : o.fCompleted = (st.obj q).fCompleted)
    (hr : o.pObDataResult = (st.obj q).pObDataResult) :
    SameResult st { ctxM := m, obj := store st.obj q o, work := w } := by
  intro p
  simp only [store]
  by_cases hp : p = q
  · rw [if_pos hp, hp]; exact ⟨hc, hr⟩
  · rw [if_neg hp]; exact ⟨rfl, rfl⟩

end MemProcFS
